import Mathlib

/-! # HCI H4 transport framer (hci_h4.c)

A shallow embedding of the receive state machine, the ACL reassembly queue and
the internal-command ring of `hci_h4.c`, followed by theorems about them.

Conventions of the embedding:

* `uint8_t` / `uint16_t` values are natural numbers, reduced with an explicit
  `% 256` / `% 65536` wherever the C code can wrap; `int` values are integers.
* A buffer pointer is the index of the buffer in the heap; `NULL` is `none`.
* The bytes that follow an `HC_BT_HDR` are a list whose length is the capacity
  that was allocated; a store outside the capacity is dropped.
* Calls that leave the module (`data_ind`, `dealloc`, `btsnoop_capture`, ...)
  are appended to an effect trace.
* What the environment decides (does `alloc` succeed, how many bytes does the
  bulk `userial_read` return) is read from an `Env`.
-/

namespace HciH4

/-! ## Constants -/

def HCI_CMD_PREAMBLE_SIZE : Nat := 3
def HCI_EVT_PREAMBLE_SIZE : Nat := 2
def HCI_SCO_PREAMBLE_SIZE : Nat := 3
def HCI_ACL_PREAMBLE_SIZE : Nat := 4

/-- Table of HCI preamble sizes for the different HCI message types. -/
def hci_preamble_table : List Nat :=
  [HCI_CMD_PREAMBLE_SIZE, HCI_ACL_PREAMBLE_SIZE, HCI_SCO_PREAMBLE_SIZE, HCI_EVT_PREAMBLE_SIZE]

def H4_TYPE_COMMAND : Nat := 1
def H4_TYPE_ACL_DATA : Nat := 2
def H4_TYPE_SCO_DATA : Nat := 3
def H4_TYPE_EVENT : Nat := 4

/-- Modelled from the spec: the header `bt_hci_bdroid.h` is not among the
sources; the spec only asks for distinct semantic tags. The value is the one of
the bluedroid header. -/
def MSG_HC_TO_STACK_HCI_EVT : Nat := 0x1000
/-- Modelled from the spec: tag of `bt_hci_bdroid.h` (header not among the sources). -/
def MSG_HC_TO_STACK_HCI_ACL : Nat := 0x1100
/-- Modelled from the spec: tag of `bt_hci_bdroid.h` (header not among the sources). -/
def MSG_HC_TO_STACK_HCI_SCO : Nat := 0x1200
/-- Modelled from the spec: tag of `bt_hci_bdroid.h` (header not among the sources). -/
def MSG_HC_TO_STACK_HCI_ERR : Nat := 0x1300
/-- Modelled from the spec: tag of `bt_hci_bdroid.h` (header not among the sources). -/
def MSG_STACK_TO_HC_HCI_CMD : Nat := 0x2000
/-- Modelled from the spec: `sizeof(HC_BT_HDR)`, four 16-bit fields
(header `bt_hci_bdroid.h` not among the sources). -/
def BT_HC_HDR_SIZE : Nat := 8
/-- Modelled from the spec: status codes of the post-load callback
(header `bt_hci_bdroid.h` not among the sources). -/
def BT_HC_POSTLOAD_SUCCESS : Nat := 0
/-- Modelled from the spec: status codes of the post-load callback
(header `bt_hci_bdroid.h` not among the sources). -/
def BT_HC_POSTLOAD_FAIL : Nat := 1

def msg_evt_table : List Nat :=
  [MSG_HC_TO_STACK_HCI_ERR, MSG_HC_TO_STACK_HCI_ACL, MSG_HC_TO_STACK_HCI_SCO,
   MSG_HC_TO_STACK_HCI_EVT]

def ACL_RX_PKT_START : Nat := 2
def ACL_RX_PKT_CONTINUE : Nat := 1
def L2CAP_HEADER_SIZE : Nat := 4

def INT_CMD_PKT_MAX_COUNT : Nat := 8
def INT_CMD_PKT_IDX_MASK : Nat := 0x07

def HCI_COMMAND_COMPLETE_EVT : Nat := 0x0E
def HCI_COMMAND_STATUS_EVT : Nat := 0x0F
def HCI_READ_BUFFER_SIZE : Nat := 0x1005
def HCI_LE_READ_BUFFER_SIZE : Nat := 0x2002

/-! ## Data model -/

/-- H4 Rx states. -/
inductive tHCI_H4_RCV_STATE
  | H4_RX_MSGTYPE_ST
  | H4_RX_LEN_ST
  | H4_RX_DATA_ST
  | H4_RX_IGNORE_ST
  deriving DecidableEq, Repr

open tHCI_H4_RCV_STATE

/-- Callback of an internal command: `NULL`, the one callback defined in
`hci_h4.c`, or a function of another module (identified by a number). -/
inductive tINT_CMD_CBACK
  | NULL
  | get_acl_data_length_cback
  | external (k : Nat)
  deriving DecidableEq, Repr

structure tINT_CMD_Q where
  opcode : Nat
  cback : tINT_CMD_CBACK
  deriving DecidableEq, Repr

/-- Modelled from the spec: the message header `HC_BT_HDR` of `bt_hci_bdroid.h`
(header not among the sources), four `uint16_t` fields (`hci_h4.c` saves `len`
in a `uint16_t tmp_u16` and adds `BT_HC_HDR_SIZE` for the header), together with
the bytes that follow it in memory. -/
structure HC_BT_HDR where
  event : Nat
  len : Nat
  offset : Nat
  layer_specific : Nat
  data : List Nat
  deriving DecidableEq, Repr

/-- Calls made to other modules, in the order they are made. -/
inductive Effect
  | data_ind (p : Nat) (msg : HC_BT_HDR) (len : Nat)
  | dealloc (p : Nat)
  | btsnoop_capture (msg : HC_BT_HDR) (is_rcvd : Bool)
  | cback (k : Nat) (p : Nat)
  | bthc_tx (p : Nat)
  | postload_cb (status : Nat)
  | tx_result (p : Nat) (status : Nat)
  | userial_write (msg_id : Nat) (bytes : List Nat)
  | lpm_wake_assert
  | lpm_tx_done (is_tx_done : Bool)
  deriving DecidableEq, Repr

/-- Control block for HCISU_H4. -/
structure tHCI_H4_CB where
  p_rcv_msg : Option Nat
  rcv_len : Nat
  rcv_msg_type : Nat
  rcv_state : tHCI_H4_RCV_STATE
  hc_acl_data_size : Nat
  hc_ble_acl_data_size : Nat
  acl_rx_q : List Nat
  preload_count : Nat
  preload_buffer : List Nat
  int_cmd_rsp_pending : Int
  int_cmd_rd_idx : Nat
  int_cmd_wrt_idx : Nat
  int_cmd : List tINT_CMD_Q
  deriving DecidableEq, Repr

/-- The module state (`h4_cb`, `h4_num_hci_cmd_pkts`), the heap of message
buffers, the effect trace, and the number of `alloc` and bulk `userial_read`
calls made so far (the index into the decisions of the environment). -/
structure World where
  h4_cb : tHCI_H4_CB
  h4_num_hci_cmd_pkts : Int
  heap : List HC_BT_HDR
  trace : List Effect
  n_alloc : Nat
  n_bulk : Nat
  deriving DecidableEq, Repr

/-- What the collaborators decide: whether `bt_hc_cbacks` is registered,
whether the k-th call of `alloc` (for a given size) succeeds, and how many bytes
at most the k-th bulk `userial_read` hands over. -/
structure Env where
  bt_hc_cbacks : Bool
  alloc_ok : Nat → Nat → Bool
  bulk : Nat → Nat

/-! ## Machine integers and byte streams -/

/-- Conversion to `uint16_t`. -/
def u16 (x : Nat) : Nat := x % 65536

/-- The value of `x - y` stored in a `uint16_t`, for `uint16_t` operands
(`x, y < 65536`): the difference modulo 65536. -/
def u16_sub (x y : Nat) : Nat := if y ≤ x then x - y else x + 65536 - y

/-- Reads the 16-bit little-endian value at index `i` (STREAM_TO_UINT16). -/
def STREAM_TO_UINT16 (data : List Nat) (i : Nat) : Nat :=
  data.getD i 0 + ((data.getD (i + 1) 0) <<< 8)

/-- Stores `bs` from index `i` on; stores outside the capacity are dropped. -/
def write_bytes : List Nat → Nat → List Nat → List Nat
  | data, _, [] => data
  | data, i, b :: bs => write_bytes (data.set i b) (i + 1) bs

/-- Stores a 16-bit value little-endian at index `i` (UINT16_TO_STREAM). -/
def UINT16_TO_STREAM (data : List Nat) (i : Nat) (v : Nat) : List Nat :=
  write_bytes data i [v % 256, (v >>> 8) % 256]

/-! ## Heap and collaborators -/

def World.buf (w : World) (p : Nat) : HC_BT_HDR :=
  w.heap.getD p ⟨0, 0, 0, 0, []⟩

def World.setBuf (w : World) (p : Nat) (b : HC_BT_HDR) : World :=
  { w with heap := w.heap.set p b }

def World.emit (w : World) (e : Effect) : World :=
  { w with trace := w.trace ++ [e] }

def World.setCb (w : World) (cb : tHCI_H4_CB) : World :=
  { w with h4_cb := cb }

/-- `bt_hc_cbacks->alloc(size)`: the environment decides; a new buffer has
`size - BT_HC_HDR_SIZE` bytes after its header. Fresh memory is modelled as
zero. -/
def alloc (env : Env) (w : World) (size : Nat) : World × Option Nat :=
  if env.alloc_ok w.n_alloc size then
    ({ w with heap := w.heap ++ [⟨0, 0, 0, 0, List.replicate (size - BT_HC_HDR_SIZE) 0⟩],
              n_alloc := w.n_alloc + 1 }, some w.heap.length)
  else
    ({ w with n_alloc := w.n_alloc + 1 }, none)

/-- `bt_hc_cbacks->dealloc(p)`. -/
def dealloc (w : World) (p : Nat) : World := w.emit (Effect.dealloc p)

/-- Modelled from the spec: `utils_enqueue` of the generic queue container
(utils.c is not among the sources): append at the tail. -/
def utils_enqueue (q : List Nat) (p : Nat) : List Nat := q ++ [p]

/-- Modelled from the spec: `utils_remove_from_queue` of the generic queue
container (utils.c is not among the sources): unlink the buffer if it is in the
queue. -/
def utils_remove_from_queue (q : List Nat) (p : Nat) : List Nat := q.erase p

/-- The 12-bit connection handle stored in the first two data bytes of a buffer. -/
def saved_handle (w : World) (p : Nat) : Nat :=
  (STREAM_TO_UINT16 (w.buf p).data 0) &&& 0x0FFF

/-- The search loop of `acl_rx_frame_buffer_alloc`: the first queued base buffer
with the given handle. -/
def acl_rx_q_find (w : World) (handle : Nat) : Option Nat :=
  w.h4_cb.acl_rx_q.find? (fun p => saved_handle w p == handle)

/-! ## Internal commands -/

/-- `hci_h4_send_int_cmd(opcode, p_buf, p_cback)`. -/
def hci_h4_send_int_cmd (w : World) (opcode : Nat) (p_buf : Nat) (p_cback : tINT_CMD_CBACK) :
    World × Bool :=
  if w.h4_cb.int_cmd_rsp_pending > (INT_CMD_PKT_MAX_COUNT : Int) then
    (w, false)
  else
    let cb := w.h4_cb
    let cb := { cb with
      int_cmd_rsp_pending := cb.int_cmd_rsp_pending + 1
      int_cmd := cb.int_cmd.set cb.int_cmd_wrt_idx ⟨opcode, p_cback⟩
      int_cmd_wrt_idx := (cb.int_cmd_wrt_idx + 1) &&& INT_CMD_PKT_IDX_MASK }
    let w := w.setCb cb
    let w := w.setBuf p_buf { w.buf p_buf with layer_specific := opcode }
    (w.emit (Effect.bthc_tx p_buf), true)

/-- `get_acl_data_length_cback(p_mem)`. -/
def get_acl_data_length_cback (env : Env) (w : World) (p_buf : Nat) : World :=
  let b := w.buf p_buf
  let opcode := STREAM_TO_UINT16 b.data 3
  let status := b.data.getD 5 0
  let len := if status = 0 then STREAM_TO_UINT16 b.data 6 else 0
  if opcode = HCI_READ_BUFFER_SIZE then
    let w := if status = 0 then w.setCb { w.h4_cb with hc_acl_data_size := len } else w
    let b := w.buf p_buf
    let data := UINT16_TO_STREAM b.data 0 HCI_LE_READ_BUFFER_SIZE
    let data := data.set 2 0
    let w := w.setBuf p_buf
      { b with event := MSG_STACK_TO_HC_HCI_CMD, offset := 0, layer_specific := 0, len := 3,
               data := data }
    let r := hci_h4_send_int_cmd w HCI_LE_READ_BUFFER_SIZE p_buf
      tINT_CMD_CBACK.get_acl_data_length_cback
    if r.2 = false then
      (dealloc r.1 p_buf).emit (Effect.postload_cb BT_HC_POSTLOAD_SUCCESS)
    else r.1
  else if opcode = HCI_LE_READ_BUFFER_SIZE then
    let w := if status = 0 then
        w.setCb { w.h4_cb with
          hc_ble_acl_data_size := if len ≠ 0 then len else w.h4_cb.hc_acl_data_size }
      else w
    if env.bt_hc_cbacks then
      (dealloc w p_buf).emit (Effect.postload_cb BT_HC_POSTLOAD_SUCCESS)
    else w
  else w

/-- Calls a registered completion callback. A callback of another module is
recorded in the trace. -/
def call_cback (env : Env) (w : World) (f : tINT_CMD_CBACK) (p : Nat) : World :=
  match f with
  | tINT_CMD_CBACK.NULL => w
  | tINT_CMD_CBACK.get_acl_data_length_cback => get_acl_data_length_cback env w p
  | tINT_CMD_CBACK.external k => w.emit (Effect.cback k p)

/-- `internal_event_intercept()`: works on the current receive buffer. -/
def internal_event_intercept (env : Env) (w : World) : World × Bool :=
  match w.h4_cb.p_rcv_msg with
  | none => (w, false)
  | some p_rcv_msg =>
    let data := (w.buf p_rcv_msg).data
    let event_code := data.getD 0 0
    if event_code = HCI_COMMAND_COMPLETE_EVT then
      let w := { w with h4_num_hci_cmd_pkts := (data.getD 2 0 : Nat) }
      if w.h4_cb.int_cmd_rsp_pending > 0 then
        let opcode := STREAM_TO_UINT16 data 3
        let slot := w.h4_cb.int_cmd.getD w.h4_cb.int_cmd_rd_idx ⟨0, tINT_CMD_CBACK.NULL⟩
        if opcode = slot.opcode then
          let w :=
            if slot.cback ≠ tINT_CMD_CBACK.NULL then call_cback env w slot.cback p_rcv_msg
            else if env.bt_hc_cbacks then dealloc w p_rcv_msg
            else w
          let cb := w.h4_cb
          let w := w.setCb { cb with
            int_cmd_rd_idx := (cb.int_cmd_rd_idx + 1) &&& INT_CMD_PKT_IDX_MASK
            int_cmd_rsp_pending := cb.int_cmd_rsp_pending - 1 }
          (w, true)
        else (w, false)
      else (w, false)
    else if event_code = HCI_COMMAND_STATUS_EVT then
      ({ w with h4_num_hci_cmd_pkts := (data.getD 3 0 : Nat) }, false)
    else (w, false)

/-! ## ACL reassembly -/

/-- `acl_rx_frame_buffer_alloc()`: called when the first 4 or 6 bytes of an HCI
ACL packet are in `preload_buffer`. Returns the receive buffer to use. -/
def acl_rx_frame_buffer_alloc (env : Env) (w : World) : World × Option Nat :=
  let pb := w.h4_cb.preload_buffer
  let handle := STREAM_TO_UINT16 pb 0
  let hci_len := STREAM_TO_UINT16 pb 2
  let total_len := STREAM_TO_UINT16 pb 4
  let pkt_type := (handle >>> 12) &&& 0x0003
  let handle := handle &&& 0x0FFF
  let p_return_buf : Option Nat :=
    if w.h4_cb.acl_rx_q.length ≠ 0 then acl_rx_q_find w handle else none
  if pkt_type = ACL_RX_PKT_START then
    -- Might have read 2 bytes for the L2CAP payload length
    let w := w.setCb { w.h4_cb with rcv_len := if hci_len ≠ 0 then u16_sub hci_len 2 else 0 }
    -- drop an incomplete frame on the same handle
    let w := match p_return_buf with
      | some p =>
        let w := w.setCb { w.h4_cb with acl_rx_q := utils_remove_from_queue w.h4_cb.acl_rx_q p }
        if env.bt_hc_cbacks then dealloc w p else w
      | none => w
    let r : World × Option Nat :=
      if env.bt_hc_cbacks then
        alloc env w (total_len + HCI_ACL_PREAMBLE_SIZE + L2CAP_HEADER_SIZE + BT_HC_HDR_SIZE)
      else (w, none)
    match r.2 with
    | some p =>
      let w := r.1
      let b := w.buf p
      let w := w.setBuf p
        { b with offset := 0, layer_specific := 0, event := MSG_HC_TO_STACK_HCI_ACL,
                 len := w.h4_cb.preload_count,
                 data := write_bytes b.data 0 (w.h4_cb.preload_buffer.take w.h4_cb.preload_count) }
      if hci_len ≠ 0 ∧ total_len + L2CAP_HEADER_SIZE > hci_len then
        (w.setCb { w.h4_cb with acl_rx_q := utils_enqueue w.h4_cb.acl_rx_q p }, some p)
      else (w, some p)
    | none => (r.1, none)
  else
    let w := w.setCb { w.h4_cb with rcv_len := hci_len }
    match p_return_buf with
    | some p =>
      let b := w.buf p
      let total_len := STREAM_TO_UINT16 b.data 2
      let total_len := u16 (total_len + hci_len)
      (w.setBuf p { b with data := UINT16_TO_STREAM b.data 2 total_len }, some p)
    | none => (w, none)

/-- `acl_rx_frame_end_chk()`: called when the last byte of an HCI ACL packet has
been stored in the current receive buffer. Returns TRUE if the L2CAP message is
complete. The position `offset - HCI_ACL_PREAMBLE_SIZE` of the trace of a
continuation is taken inside the data area (the code sets `offset` to 0 or to a
`len` that already counts the preamble). -/
def acl_rx_frame_end_chk (w : World) : World × Bool :=
  match w.h4_cb.p_rcv_msg with
  | none => (w, true)
  | some p_buf =>
    let b := w.buf p_buf
    let handle := STREAM_TO_UINT16 b.data 0
    let hci_len := STREAM_TO_UINT16 b.data 2
    let l2cap_len := STREAM_TO_UINT16 b.data 4
    let r : World × Bool :=
      if hci_len > 0 then
        if (l2cap_len : Int) > (b.len : Int) - ((HCI_ACL_PREAMBLE_SIZE + L2CAP_HEADER_SIZE : Nat) : Int)
        then (w, false)
        else
          (if w.h4_cb.acl_rx_q.length ≠ 0 then
             w.setCb { w.h4_cb with acl_rx_q := utils_remove_from_queue w.h4_cb.acl_rx_q p_buf }
           else w, true)
      else (w, true)
    let w := r.1
    let frame_end := r.2
    -- print snoop trace
    let w :=
      if b.offset ≠ 0 then
        let tmp_u16 := b.len
        let pos := b.offset - HCI_ACL_PREAMBLE_SIZE
        let saved := (b.data.drop pos).take HCI_ACL_PREAMBLE_SIZE
        let w := w.setCb { w.h4_cb with preload_buffer := write_bytes w.h4_cb.preload_buffer 0 saved }
        let handle := (handle &&& 0xCFFF) ||| 0x1000
        let data := UINT16_TO_STREAM b.data pos handle
        let data := UINT16_TO_STREAM data (pos + 2) (u16_sub b.len b.offset)
        let offset := u16_sub b.offset HCI_ACL_PREAMBLE_SIZE
        let len := u16_sub b.len offset
        let w := w.emit (Effect.btsnoop_capture { b with data := data, offset := offset, len := len } true)
        let data := write_bytes data pos (w.h4_cb.preload_buffer.take HCI_ACL_PREAMBLE_SIZE)
        w.setBuf p_buf { b with data := data, offset := offset, len := tmp_u16 }
      else
        w.emit (Effect.btsnoop_capture b true)
    let b := w.buf p_buf
    (w.setBuf p_buf { b with offset := if frame_end then 0 else b.len }, frame_end)

/-! ## Interface functions -/

/-- `hci_h4_init()`: clears the control block and sets the initial credit and
data sizes. The heap and the trace belong to the surroundings and are kept. -/
def hci_h4_init (w : World) : World :=
  { w with
    h4_cb :=
      { p_rcv_msg := none, rcv_len := 0, rcv_msg_type := 0, rcv_state := H4_RX_MSGTYPE_ST,
        hc_acl_data_size := 1021, hc_ble_acl_data_size := 27, acl_rx_q := [],
        preload_count := 0, preload_buffer := List.replicate 6 0,
        int_cmd_rsp_pending := 0, int_cmd_rd_idx := 0, int_cmd_wrt_idx := 0,
        int_cmd := List.replicate INT_CMD_PKT_MAX_COUNT ⟨0, tINT_CMD_CBACK.NULL⟩ }
    h4_num_hci_cmd_pkts := 1 }

/-- A world with no buffers and an empty trace, before `hci_h4_init`. -/
def World.boot : World :=
  { h4_cb :=
      { p_rcv_msg := none, rcv_len := 0, rcv_msg_type := 0, rcv_state := H4_RX_MSGTYPE_ST,
        hc_acl_data_size := 0, hc_ble_acl_data_size := 0, acl_rx_q := [],
        preload_count := 0, preload_buffer := List.replicate 6 0,
        int_cmd_rsp_pending := 0, int_cmd_rd_idx := 0, int_cmd_wrt_idx := 0,
        int_cmd := List.replicate INT_CMD_PKT_MAX_COUNT ⟨0, tINT_CMD_CBACK.NULL⟩ }
    h4_num_hci_cmd_pkts := 1, heap := [], trace := [], n_alloc := 0, n_bulk := 0 }

/-- The result of one case of the `switch` of `hci_h4_receive_msg`: the new
world, `msg_received`, the bytes still waiting in the transport and the number
of bytes a bulk read consumed. -/
structure RxStep where
  w : World
  msg_received : Bool
  rest : List Nat
  bulk_len : Nat

/-- `case H4_RX_MSGTYPE_ST`. -/
def rx_msgtype (w : World) (byte : Nat) : World :=
  if byte < H4_TYPE_ACL_DATA ∨ byte > H4_TYPE_EVENT then
    -- Unknown HCI message type: drop this byte
    w
  else
    w.setCb { w.h4_cb with
      rcv_msg_type := byte
      rcv_len := hci_preamble_table.getD (byte - 1) 0
      preload_buffer := List.replicate 6 0
      preload_count := 0
      rcv_state := H4_RX_LEN_ST }

/-- The tail of `case H4_RX_LEN_ST` once a receive buffer has been looked for:
`msg_len` is the declared length. -/
def rx_len_acquired (w : World) (msg_len : Nat) : World × Bool :=
  match w.h4_cb.p_rcv_msg with
  | none =>
    -- unable to acquire message buffer
    if msg_len = 0 then (w.setCb { w.h4_cb with rcv_state := H4_RX_MSGTYPE_ST }, false)
    else (w.setCb { w.h4_cb with rcv_state := H4_RX_IGNORE_ST }, false)
  | some _ =>
    if msg_len ≠ 0 then (w.setCb { w.h4_cb with rcv_state := H4_RX_DATA_ST }, false)
    else
      let w := if w.h4_cb.rcv_msg_type = H4_TYPE_ACL_DATA then (acl_rx_frame_end_chk w).1 else w
      (w.setCb { w.h4_cb with rcv_state := H4_RX_MSGTYPE_ST }, true)

/-- `case H4_RX_LEN_ST`. -/
def rx_len (env : Env) (w : World) (byte : Nat) : World × Bool :=
  let cb := w.h4_cb
  let w := w.setCb { cb with
    preload_buffer := cb.preload_buffer.set cb.preload_count byte
    preload_count := (cb.preload_count + 1) % 256
    rcv_len := u16_sub cb.rcv_len 1 }
  if w.h4_cb.rcv_len = 0 then
    if w.h4_cb.rcv_msg_type = H4_TYPE_ACL_DATA then
      -- ACL data lengths are 16 bits
      let msg_len := u16 ((w.h4_cb.preload_buffer.getD 3 0 <<< 8) + w.h4_cb.preload_buffer.getD 2 0)
      if msg_len ≠ 0 ∧ w.h4_cb.preload_count = 4 ∧
          ((w.h4_cb.preload_buffer.getD 1 0 >>> 4) &&& 0x03) = ACL_RX_PKT_START then
        -- a start packet with non-zero payload length: read 2 more bytes
        (w.setCb { w.h4_cb with rcv_len := 2 }, false)
      else
        let r := acl_rx_frame_buffer_alloc env w
        let w := r.1.setCb { r.1.h4_cb with p_rcv_msg := r.2 }
        rx_len_acquired w msg_len
    else
      -- length is in the last received byte
      let msg_len := byte
      let w := w.setCb { w.h4_cb with rcv_len := msg_len }
      let w :=
        if env.bt_hc_cbacks then
          let r := alloc env w (u16 (msg_len + w.h4_cb.preload_count + BT_HC_HDR_SIZE))
          r.1.setCb { r.1.h4_cb with p_rcv_msg := r.2 }
        else w
      let w := match w.h4_cb.p_rcv_msg with
        | some p =>
          let b := w.buf p
          w.setBuf p
            { b with offset := 0, layer_specific := 0,
                     event := msg_evt_table.getD (w.h4_cb.rcv_msg_type - 1) 0,
                     len := w.h4_cb.preload_count,
                     data := write_bytes b.data 0
                       (w.h4_cb.preload_buffer.take w.h4_cb.preload_count) }
        | none => w
      rx_len_acquired w msg_len
  else (w, false)

/-- The first half of `case H4_RX_DATA_ST`: stores the byte in the receive
buffer `p`, then tries to read the rest of the message in one `userial_read`.
Returns the world, the bytes left in the transport and the bulk count. -/
def rx_data_store (env : Env) (w : World) (p : Nat) (byte : Nat) (rest : List Nat) :
    World × List Nat × Nat :=
  let b := w.buf p
  let w := w.setBuf p { b with data := b.data.set b.len byte, len := u16 (b.len + 1) }
  let w := w.setCb { w.h4_cb with rcv_len := u16_sub w.h4_cb.rcv_len 1 }
  if w.h4_cb.rcv_len > 0 then
    -- read in the rest of the message
    let len := min (min (env.bulk w.n_bulk) w.h4_cb.rcv_len) rest.length
    let b := w.buf p
    let w := w.setBuf p
      { b with data := write_bytes b.data b.len (rest.take len), len := u16 (b.len + len) }
    let w := w.setCb { w.h4_cb with rcv_len := u16_sub w.h4_cb.rcv_len len }
    ({ w with n_bulk := w.n_bulk + 1 }, rest.drop len, len)
  else (w, rest, 0)

/-- The second half of `case H4_RX_DATA_ST`: the check whether the entire
message was read; returns `msg_received`. -/
def rx_data_end (w : World) : World × Bool :=
  if w.h4_cb.rcv_len = 0 then
    -- received entire packet; check for segmented l2cap packets
    if w.h4_cb.rcv_msg_type = H4_TYPE_ACL_DATA then
      let e := acl_rx_frame_end_chk w
      if e.2 = false then
        (e.1.setCb { e.1.h4_cb with rcv_state := H4_RX_MSGTYPE_ST }, false)
      else
        (e.1.setCb { e.1.h4_cb with rcv_state := H4_RX_MSGTYPE_ST }, true)
    else
      (w.setCb { w.h4_cb with rcv_state := H4_RX_MSGTYPE_ST }, true)
  else (w, false)

/-- `case H4_RX_DATA_ST`. The state is only entered with a receive buffer; with
a NULL `p_rcv_msg` the C code has no defined behaviour and the model skips the
byte. -/
def rx_data (env : Env) (w : World) (byte : Nat) (rest : List Nat) : RxStep :=
  match w.h4_cb.p_rcv_msg with
  | none => ⟨w, false, rest, 0⟩
  | some p =>
    let r := rx_data_store env w p byte rest
    let e := rx_data_end r.1
    ⟨e.1, e.2, r.2.1, r.2.2⟩

/-- `case H4_RX_IGNORE_ST`. -/
def rx_ignore (w : World) : World :=
  let w := w.setCb { w.h4_cb with rcv_len := u16_sub w.h4_cb.rcv_len 1 }
  if w.h4_cb.rcv_len = 0 then w.setCb { w.h4_cb with rcv_state := H4_RX_MSGTYPE_ST } else w

/-- The `if (msg_received)` block: trace, interception, delivery. -/
def rx_deliver (env : Env) (w : World) : World :=
  match w.h4_cb.p_rcv_msg with
  | none => w
  | some p =>
    let w :=
      if (w.buf p).event ≠ MSG_HC_TO_STACK_HCI_ACL then
        w.emit (Effect.btsnoop_capture (w.buf p) true)
      else w
    let r : World × Bool :=
      if (w.buf p).event = MSG_HC_TO_STACK_HCI_EVT then internal_event_intercept env w
      else (w, false)
    let w := r.1
    let w :=
      if env.bt_hc_cbacks ∧ r.2 = false then
        w.emit (Effect.data_ind p (w.buf p) ((w.buf p).len + BT_HC_HDR_SIZE))
      else w
    w.setCb { w.h4_cb with p_rcv_msg := none }

/-- One iteration of the loop of `hci_h4_receive_msg` after a byte was read. -/
def rx_byte (env : Env) (w : World) (byte : Nat) (rest : List Nat) : World × List Nat × Nat :=
  let s : RxStep :=
    match w.h4_cb.rcv_state with
    | H4_RX_MSGTYPE_ST => ⟨rx_msgtype w byte, false, rest, 0⟩
    | H4_RX_LEN_ST => let r := rx_len env w byte; ⟨r.1, r.2, rest, 0⟩
    | H4_RX_DATA_ST => rx_data env w byte rest
    | H4_RX_IGNORE_ST => ⟨rx_ignore w, false, rest, 0⟩
  let w := if s.msg_received then rx_deliver env s.w else s.w
  (w, s.rest, s.bulk_len)

/-- The loop of `hci_h4_receive_msg`: runs until the transport has no byte left
(or the fuel is used up); returns `bytes_read` and the new world. -/
def hci_h4_receive_loop (env : Env) : Nat → World → List Nat → Nat → Nat × World
  | 0, w, _, bytes_read => (bytes_read, w)
  | _ + 1, w, [], bytes_read => (bytes_read, w)
  | fuel + 1, w, byte :: rest, bytes_read =>
    let r := rx_byte env w byte rest
    hci_h4_receive_loop env fuel r.1 r.2.1 (u16 (u16 (bytes_read + 1) + r.2.2))

/-- `hci_h4_receive_msg()` on the bytes the transport holds. Every iteration
consumes a byte, so the length of the input is enough fuel. -/
def hci_h4_receive_msg (env : Env) (w : World) (input : List Nat) : Nat × World :=
  hci_h4_receive_loop env input.length w input 0

/-- The buffers handed to `data_ind`, in order. -/
def delivered (w : World) : List (Nat × HC_BT_HDR) :=
  w.trace.filterMap (fun e => match e with
    | Effect.data_ind p msg _ => some (p, msg)
    | _ => none)

/-- The buffers passed to `dealloc`, in order. -/
def freed (w : World) : List Nat :=
  w.trace.filterMap (fun e => match e with
    | Effect.dealloc p => some p
    | _ => none)

/-! ## Auxiliary definitions used in the statements -/

/-- The receive loop with exactly the fuel it needs. -/
def run (env : Env) (w : World) (input : List Nat) (bytes_read : Nat) : Nat × World :=
  hci_h4_receive_loop env input.length w input bytes_read

/-- The world after the bytes `body` were stored in the receive buffer `p` by
`nb` bulk reads (and single-byte stores), before the end check. -/
def stored (w : World) (p : Nat) (body : List Nat) (nb : Nat) : World :=
  { w with
    heap := w.heap.set p
      { w.buf p with data := write_bytes (w.buf p).data (w.buf p).len body,
                     len := u16 ((w.buf p).len + body.length) }
    h4_cb := { w.h4_cb with rcv_len := 0 }
    n_bulk := w.n_bulk + nb }

/-- What `hci_h4_receive_msg` does once the last body byte is stored: the end
check and, if the message is complete, the delivery block. -/
def after_end (env : Env) (w : World) : World :=
  if (rx_data_end w).2 then rx_deliver env (rx_data_end w).1 else (rx_data_end w).1

/-- An environment with registered callbacks in which every allocation
succeeds and the bulk read hands over nothing (the bytes come one by one). -/
def Env.ideal : Env := ⟨true, fun _ _ => true, fun _ => 0⟩

/-- An environment with registered callbacks in which every allocation fails. -/
def Env.no_memory : Env := ⟨true, fun _ _ => false, fun _ => 0⟩

/-- Consecutive calls of `hci_h4_send_int_cmd` with the given
(opcode, buffer, callback) arguments; returns the world and the return values. -/
def send_int_cmds (w : World) : List (Nat × Nat × tINT_CMD_CBACK) → World × List Bool
  | [] => (w, [])
  | c :: cs =>
    let r := hci_h4_send_int_cmd w c.1 c.2.1 c.2.2
    let rs := send_int_cmds r.1 cs
    (rs.1, r.2 :: rs.2)

/-- The first 16-bit word of an ACL preamble: 12-bit handle, 2-bit
packet-boundary flag, 2-bit broadcast flag. -/
def acl_word (h pb bc : Nat) : Nat := h + 4096 * pb + 16384 * bc

/-- The 4-byte ACL preamble for a handle, flags and an HCI length. -/
def acl_preamble (h pb bc n : Nat) : List Nat :=
  [acl_word h pb bc % 256, acl_word h pb bc / 256, n % 256, n / 256]

/-- The world right after the receive buffer of a non-ACL packet (wire type `t`,
tag `evt`, preamble `pre`, declared length `n`) was allocated and pre-filled,
with the receive state set to `st`. -/
def acquired (w : World) (t evt : Nat) (pre : List Nat) (n : Nat) (st : tHCI_H4_RCV_STATE) :
    World :=
  { w with
    h4_cb := { w.h4_cb with
      p_rcv_msg := some w.heap.length, rcv_len := n, rcv_msg_type := t, rcv_state := st,
      preload_count := pre.length,
      preload_buffer := pre ++ List.replicate (6 - pre.length) 0 }
    heap := w.heap ++ [⟨evt, pre.length, 0, 0, pre ++ List.replicate n 0⟩]
    n_alloc := w.n_alloc + 1 }

/-- The world when a non-ACL packet with preamble `pre` and body `body` is
complete in its buffer (after `nb` bulk reads), before the delivery block. -/
def received (w : World) (t evt : Nat) (pre body : List Nat) (nb : Nat) : World :=
  { w with
    h4_cb := { w.h4_cb with
      p_rcv_msg := some w.heap.length, rcv_len := 0, rcv_msg_type := t,
      rcv_state := H4_RX_MSGTYPE_ST, preload_count := pre.length,
      preload_buffer := pre ++ List.replicate (6 - pre.length) 0 }
    heap := w.heap ++ [⟨evt, pre.length + body.length, 0, 0, pre ++ body⟩]
    n_alloc := w.n_alloc + 1
    n_bulk := w.n_bulk + nb }

/-- The world at the call of `acl_rx_frame_buffer_alloc`: the ACL preamble
bytes `pre` (4, or 6 with the L2CAP length) are in `preload_buffer`. -/
def acl_hdr (w : World) (pre : List Nat) (cnt : Nat) : World :=
  w.setCb { w.h4_cb with
    rcv_msg_type := 2, rcv_len := 0, rcv_state := H4_RX_LEN_ST,
    preload_count := cnt, preload_buffer := pre }

/-- The assignment `p_cb->p_rcv_msg = acl_rx_frame_buffer_alloc()`. -/
def acl_acquire (env : Env) (w : World) : World :=
  (acl_rx_frame_buffer_alloc env w).1.setCb
    { (acl_rx_frame_buffer_alloc env w).1.h4_cb with
      p_rcv_msg := (acl_rx_frame_buffer_alloc env w).2 }

/-- An environment with registered callbacks in which only the first
allocation succeeds. -/
def Env.one_buffer : Env := ⟨true, fun k _ => k == 0, fun _ => 0⟩

/-- A world with one incomplete base buffer (buffer 0, handle 1) parked in the
reassembly queue: the result of receiving an ACL Start packet with HCI length 4
that announces 4 more payload bytes. -/
def World.with_pending (env : Env) : World :=
  (hci_h4_receive_msg env (hci_h4_init World.boot) [2, 1, 0x20, 4, 0, 4, 0, 0x40, 0]).2

/-- The base buffer of an L2CAP message announced with length `L` (capacity
`L + 8`) after `m` segment bytes `acc` have arrived: the ACL header of the Start
packet with the HCI length field counting these `m` bytes, the bytes
themselves, and the part of the capacity not written yet. -/
def acl_base (h bc L m : Nat) (acc : List Nat) (off : Nat) : HC_BT_HDR :=
  ⟨MSG_HC_TO_STACK_HCI_ACL, 4 + m, off, 0,
    acl_preamble h ACL_RX_PKT_START bc m ++ acc ++ List.replicate (L + 4 - m) 0⟩

/-- A Continuation packet for handle `h`: broadcast flag and body. -/
def acl_cont_packet (h : Nat) (c : Nat × List Nat) : List Nat :=
  2 :: (acl_preamble h ACL_RX_PKT_CONTINUE c.1 c.2.length ++ c.2)

/-- The byte stream of a sequence of Continuation packets for handle `h`. -/
def acl_cont_stream (h : Nat) : List (Nat × List Nat) → List Nat
  | [] => []
  | c :: cs => acl_cont_packet h c ++ acl_cont_stream h cs

/-- The bodies of a sequence of Continuation packets, in arrival order. -/
def acl_cont_bodies : List (Nat × List Nat) → List Nat
  | [] => []
  | c :: cs => c.2 ++ acl_cont_bodies cs

/-- The reassembly of a message on handle `h` is in progress in world `w`
(started in world `w0`): the machine waits for a type byte, the base buffer is
the last entry of the queue and of the heap, holds the `m` segment bytes `acc`
and records its end position; nothing was delivered or freed since `w0`. -/
def Parked (w0 w : World) (h bc L m : Nat) (acc : List Nat) : Prop :=
  w.h4_cb.rcv_state = H4_RX_MSGTYPE_ST ∧
  w.h4_cb.acl_rx_q = w0.h4_cb.acl_rx_q ++ [w0.heap.length] ∧
  w.heap = w0.heap ++ [acl_base h bc L m acc (4 + m)] ∧
  delivered w = delivered w0 ∧ freed w = freed w0 ∧ w.n_alloc = w0.n_alloc + 1

/-- The message on handle `h` was reassembled and delivered exactly once: the
base buffer holds all `L + 4` segment bytes `acc`, it is the one buffer handed
to `data_ind` since `w0`, and the queue is the one of `w0` again. -/
def Reassembled (w0 w : World) (h bc L : Nat) (acc : List Nat) : Prop :=
  w.h4_cb.rcv_state = H4_RX_MSGTYPE_ST ∧ w.h4_cb.p_rcv_msg = none ∧
  w.h4_cb.acl_rx_q = w0.h4_cb.acl_rx_q ∧
  w.heap = w0.heap ++ [acl_base h bc L (L + 4) acc 0] ∧
  delivered w = delivered w0 ++ [(w0.heap.length, acl_base h bc L (L + 4) acc 0)] ∧
  freed w = freed w0 ∧ w.n_alloc = w0.n_alloc + 1

/-- The bytes of an ACL Start packet for handle `h` that announces the L2CAP
length `L`: type byte, preamble with HCI length `2 + body0.length`, the two
L2CAP length bytes and the rest `body0` of the body. -/
def acl_start_packet (h bc L : Nat) (body0 : List Nat) : List Nat :=
  2 :: (acl_preamble h ACL_RX_PKT_START bc (2 + body0.length) ++
    (L % 256) :: (L / 256) :: body0)

/-- The ring record at the read cursor, `int_cmd[int_cmd_rd_idx]`. -/
def int_cmd_slot (w : World) : tINT_CMD_Q :=
  w.h4_cb.int_cmd.getD w.h4_cb.int_cmd_rd_idx ⟨0, tINT_CMD_CBACK.NULL⟩

/-- The condition under which `internal_event_intercept` claims the event in
buffer `p`: a Command-Complete event, a pending internal command, and the
opcode of the event (data bytes 3..4) equal to the opcode at the read cursor. -/
def intercepts (w : World) (p : Nat) : Prop :=
  (w.buf p).data.getD 0 0 = HCI_COMMAND_COMPLETE_EVT ∧
  0 < w.h4_cb.int_cmd_rsp_pending ∧
  STREAM_TO_UINT16 (w.buf p).data 3 = (int_cmd_slot w).opcode

/-- The two statements that retire the record at the read cursor:
`int_cmd_rd_idx = (int_cmd_rd_idx + 1) & INT_CMD_PKT_IDX_MASK` and
`int_cmd_rsp_pending--`. -/
def int_cmd_retire (w : World) : World :=
  w.setCb { w.h4_cb with
    int_cmd_rd_idx := (w.h4_cb.int_cmd_rd_idx + 1) &&& INT_CMD_PKT_IDX_MASK
    int_cmd_rsp_pending := w.h4_cb.int_cmd_rsp_pending - 1 }

/-- The world at the end of a received Read-Buffer-Size completion (status 0,
ACL data length 1021) in buffer `w.heap.length`, before the delivery block. -/
def World.read_buffer_size_complete (w : World) : World :=
  received w 4 MSG_HC_TO_STACK_HCI_EVT [0x0E, 11] [1, 0x05, 0x10, 0, 0xFD, 0x03, 0x40, 8, 0, 1, 0] 0

/-! ## Transmit path -/

/-- Modelled from the spec: mask of the event part of `HC_BT_HDR.event`
(`bt_hci_bdroid.h`, header not among the sources). -/
def MSG_EVT_MASK : Nat := 0xFF00
/-- Modelled from the spec: mask of the sub-event part of `HC_BT_HDR.event`
(`bt_hci_bdroid.h`, header not among the sources). -/
def MSG_SUB_EVT_MASK : Nat := 0x00FF
/-- Modelled from the spec: tag of `bt_hci_bdroid.h` (header not among the sources). -/
def MSG_STACK_TO_HC_HCI_ACL : Nat := 0x2100
/-- Modelled from the spec: tag of `bt_hci_bdroid.h` (header not among the sources). -/
def MSG_STACK_TO_HC_HCI_SCO : Nat := 0x2200
/-- Modelled from the spec: tag of `bt_hci_bdroid.h` (header not among the sources). -/
def MSG_HC_TO_STACK_L2C_SEG_XMIT : Nat := 0x1900
/-- Modelled from the spec: controller id of `bt_hci_bdroid.h` (header not among
the sources); any other sub-event selects the BLE data size. -/
def LOCAL_BR_EDR_CONTROLLER_ID : Nat := 0
/-- Modelled from the spec: transmit status codes of `bt_hci_lib.h` (header not
among the sources). -/
def BT_HC_TX_SUCCESS : Nat := 0
/-- Modelled from the spec: transmit status codes of `bt_hci_lib.h` (header not
among the sources). -/
def BT_HC_TX_FAIL : Nat := 1
/-- Modelled from the spec: transmit status codes of `bt_hci_lib.h` (header not
among the sources). -/
def BT_HC_TX_FRAGMENT : Nat := 2

/-- The store `*p = type` with `p = (uint8_t *)(p_msg + 1) + p_msg->offset - 1`,
the byte before the message. With `offset = 0` that byte is the last byte of the
header, the high byte of `layer_specific` (little-endian layout), which is why
the code saves and restores that field around the write. -/
def put_type (b : HC_BT_HDR) (type : Nat) : HC_BT_HDR :=
  if b.offset = 0 then
    { b with layer_specific := (b.layer_specific &&& 0x00FF) ||| (type <<< 8) }
  else
    { b with data := b.data.set (b.offset - 1) type }

/-- The `n` bytes that `userial_write(event, p, n)` takes at `p`: the type byte
just stored and the bytes of the message that follow it in the buffer. -/
def tx_bytes (b : HC_BT_HDR) (type n : Nat) : List Nat :=
  (type :: b.data.drop b.offset).take n

/-- The bookkeeping of one pass of the fragmentation loop after the write:
offset and length are adjusted for what was sent, then the ACL header of the
next segment (continuation handle, segment length) is stored at the new
offset. -/
def fragment_advance (b : HC_BT_HDR) (handle acl_pkt_size acl_data_size : Nat) : HC_BT_HDR :=
  -- adjust offset and length for what we just sent
  let b := { b with offset := u16 (b.offset + acl_data_size) }
  let b := { b with len := u16_sub b.len acl_data_size }
  let b := { b with data := UINT16_TO_STREAM b.data b.offset handle }
  let seg_len := if b.len > acl_pkt_size then acl_data_size else u16_sub b.len HCI_ACL_PREAMBLE_SIZE
  { b with data := UINT16_TO_STREAM b.data (b.offset + 2) seg_len }

/-- One pass through the `while` loop of `hci_h4_send_msg`. Returns the world
and whether the function returned from inside the loop (partial send). -/
def hci_h4_send_fragment (env : Env) (w : World)
    (p_msg type event handle acl_pkt_size acl_data_size : Nat) : World × Bool :=
  let b := w.buf p_msg
  -- remember layer_specific because uart borrows one byte from it for the type
  let lay_spec := b.layer_specific
  let b := put_type b type
  let bytes_to_send := u16 (acl_pkt_size + 1)
  let w := w.emit (Effect.userial_write event (tx_bytes b type bytes_to_send))
  -- generate snoop trace message
  let w := w.emit (Effect.btsnoop_capture b false)
  let b := { b with layer_specific := lay_spec }
  let b := fragment_advance b handle acl_pkt_size acl_data_size
  -- if we were only to send a partial buffer, stop when done
  if b.layer_specific ≠ 0 then
    let b := { b with layer_specific := b.layer_specific - 1 }
    if b.layer_specific = 0 then
      let w := w.setBuf p_msg { b with event := MSG_HC_TO_STACK_L2C_SEG_XMIT }
      (if env.bt_hc_cbacks then w.emit (Effect.tx_result p_msg BT_HC_TX_FRAGMENT) else w, true)
    else (w.setBuf p_msg b, false)
  else (w.setBuf p_msg b, false)

/-- The `while (p_msg->len > acl_pkt_size)` loop of `hci_h4_send_msg`; `none`
when the fuel runs out. -/
def hci_h4_send_loop (env : Env) (p_msg type event handle acl_pkt_size acl_data_size : Nat) :
    Nat → World → Option (World × Bool)
  | 0, _ => none
  | fuel + 1, w =>
    if (w.buf p_msg).len > acl_pkt_size then
      let r := hci_h4_send_fragment env w p_msg type event handle acl_pkt_size acl_data_size
      if r.2 then some r
      else hci_h4_send_loop env p_msg type event handle acl_pkt_size acl_data_size fuel r.1
    else some (w, false)

/-- The part of `hci_h4_send_msg` after the loop: the write of the message (or
of its last segment), the credit update, the trace and the disposal. -/
def hci_h4_send_tail (env : Env) (w : World) (p_msg type event : Nat) : World :=
  let b := w.buf p_msg
  -- remember layer_specific because uart borrows one byte from it for the type
  let lay_spec := b.layer_specific
  -- put the HCI transport packet type 1 byte before the message
  let b := put_type b type
  let bytes_to_send := u16 (b.len + 1)
  let w := w.emit (Effect.userial_write event (tx_bytes b type bytes_to_send))
  let b := { b with layer_specific := lay_spec }
  let w := w.setBuf p_msg b
  let r : World × Nat :=
    if event = MSG_STACK_TO_HC_HCI_CMD then
      -- retrieve the opcode from the Cmd packet
      ({ w with h4_num_hci_cmd_pkts := w.h4_num_hci_cmd_pkts - 1 },
        STREAM_TO_UINT16 b.data b.offset)
    else (w, lay_spec)
  let w := r.1
  let lay_spec := r.2
  -- generate snoop trace message
  let w := w.emit (Effect.btsnoop_capture b false)
  let w :=
    if env.bt_hc_cbacks then
      if event = MSG_STACK_TO_HC_HCI_CMD ∧ w.h4_cb.int_cmd_rsp_pending > 0 ∧
          b.layer_specific = lay_spec then
        -- dealloc buffer of internal command
        dealloc w p_msg
      else w.emit (Effect.tx_result p_msg BT_HC_TX_SUCCESS)
    else w
  w.emit (Effect.lpm_tx_done true)

/-- `hci_h4_send_msg(p_msg)`. The loop gets the fuel `len + layer_specific + 1`,
enough whenever each pass shortens the message or uses up fragment budget;
`none` stands for a loop that has not ended within the fuel. -/
def hci_h4_send_msg (env : Env) (w : World) (p_msg : Nat) : Option World :=
  let b := w.buf p_msg
  let event := b.event &&& MSG_EVT_MASK
  let sub_event := b.event &&& MSG_SUB_EVT_MASK
  -- wake up BT device if it is in sleep mode
  let w := w.emit Effect.lpm_wake_assert
  let type :=
    if event = MSG_STACK_TO_HC_HCI_ACL then H4_TYPE_ACL_DATA
    else if event = MSG_STACK_TO_HC_HCI_SCO then H4_TYPE_SCO_DATA
    else if event = MSG_STACK_TO_HC_HCI_CMD then H4_TYPE_COMMAND
    else 0
  let acl_data_size :=
    if sub_event = LOCAL_BR_EDR_CONTROLLER_ID then w.h4_cb.hc_acl_data_size
    else w.h4_cb.hc_ble_acl_data_size
  let acl_pkt_size := u16 (acl_data_size + HCI_ACL_PREAMBLE_SIZE)
  -- check if sending ACL data that needs fragmenting
  let r : Option (World × Bool) :=
    if event = MSG_STACK_TO_HC_HCI_ACL ∧ b.len > acl_pkt_size then
      -- get the handle from the packet, set the boundary flags to "continuation"
      let handle := STREAM_TO_UINT16 b.data b.offset
      let handle := (handle &&& 0xCFFF) ||| 0x1000
      hci_h4_send_loop env p_msg type event handle acl_pkt_size acl_data_size
        (b.len + b.layer_specific + 1) w
    else some (w, false)
  match r with
  | none => none
  | some (w, true) => some w
  | some (w, false) => some (hci_h4_send_tail env w p_msg type event)

/-- The byte strings passed to `userial_write` in a trace, in order. -/
def tx_writes (t : List Effect) : List (List Nat) :=
  t.filterMap (fun e => match e with
    | Effect.userial_write _ bytes => some bytes
    | _ => none)

/-- The disposals in a trace: `dealloc` and `tx_result` calls, in order. -/
def tx_disposals (t : List Effect) : List Effect :=
  t.filter (fun e => match e with
    | Effect.dealloc _ => true
    | Effect.tx_result _ _ => true
    | _ => false)

/-- The calls a pass of the fragmentation loop makes before its budget check:
`userial_write` and `btsnoop_capture`. -/
def Effect.is_segment_io : Effect → Bool
  | Effect.userial_write _ _ => true
  | Effect.btsnoop_capture _ _ => true
  | _ => false

/-- The buffer that one pass of the fragmentation loop leaves behind: advanced,
with the fragment budget counted down and, when the budget is used up, re-tagged
as a transmitted segment. -/
def fragment_result (b : HC_BT_HDR) (type handle acl_pkt_size acl_data_size : Nat) : HC_BT_HDR :=
  let b1 := fragment_advance { put_type b type with layer_specific := b.layer_specific }
    handle acl_pkt_size acl_data_size
  if b1.layer_specific ≠ 0 then
    let b2 := { b1 with layer_specific := b1.layer_specific - 1 }
    if b2.layer_specific = 0 then { b2 with event := MSG_HC_TO_STACK_L2C_SEG_XMIT } else b2
  else b1

/-- The local `event` of `hci_h4_send_msg`: `p_msg->event & MSG_EVT_MASK`. -/
def tx_event (b : HC_BT_HDR) : Nat := b.event &&& MSG_EVT_MASK

/-- The local `type` of `hci_h4_send_msg`: the H4 type byte of the buffer. -/
def tx_type (b : HC_BT_HDR) : Nat :=
  if tx_event b = MSG_STACK_TO_HC_HCI_ACL then H4_TYPE_ACL_DATA
  else if tx_event b = MSG_STACK_TO_HC_HCI_SCO then H4_TYPE_SCO_DATA
  else if tx_event b = MSG_STACK_TO_HC_HCI_CMD then H4_TYPE_COMMAND
  else 0

/-- The local `acl_data_size` of `hci_h4_send_msg`: the data-size limit selected
by the sub-event of the buffer. -/
def tx_data_size (w : World) (b : HC_BT_HDR) : Nat :=
  if b.event &&& MSG_SUB_EVT_MASK = LOCAL_BR_EDR_CONTROLLER_ID then w.h4_cb.hc_acl_data_size
  else w.h4_cb.hc_ble_acl_data_size

/-- The local `handle` of `hci_h4_send_msg` inside the fragmentation branch: the
first header word of the packet with the boundary flags set to continuation. -/
def tx_handle (b : HC_BT_HDR) : Nat :=
  ((STREAM_TO_UINT16 b.data b.offset) &&& 0xCFFF) ||| 0x1000

/-- The four bytes of an ACL header with first word `h` and length `l`, as
`UINT16_TO_STREAM` stores them. -/
def acl_header_bytes (h l : Nat) : List Nat :=
  [h % 256, (h >>> 8) % 256, l % 256, (l >>> 8) % 256]

/-- An entry point of the module called by its surroundings, or the host stack
filling buffers between two calls. -/
inductive Action
  | receive (bytes : List Nat)
  | send (p_msg : Nat)
  | send_int_cmd (opcode p_buf : Nat) (cback : tINT_CMD_CBACK)
  | stack (heap : List HC_BT_HDR)

/-- One action of a credit-gated run: a Command buffer may be passed to
`hci_h4_send_msg` only while `h4_num_hci_cmd_pkts > 0`; an action that breaks
this rule (or a send whose loop does not end) has no successor. -/
def step (env : Env) (w : World) : Action → Option World
  | Action.receive bytes => some (hci_h4_receive_msg env w bytes).2
  | Action.send p_msg =>
    if tx_event (w.buf p_msg) = MSG_STACK_TO_HC_HCI_CMD ∧ ¬ (0 < w.h4_num_hci_cmd_pkts) then none
    else hci_h4_send_msg env w p_msg
  | Action.send_int_cmd opcode p_buf cback => some (hci_h4_send_int_cmd w opcode p_buf cback).1
  | Action.stack heap => some { w with heap := heap }

/-- A credit-gated run of a list of actions. -/
def exec (env : Env) : World → List Action → Option World
  | w, [] => some w
  | w, a :: rest =>
    match step env w a with
    | none => none
    | some w' => exec env w' rest

/-- The state of `hci_h4_init` with the classic data-size limit `D` and one
buffer `b` (buffer 0) filled by the host stack. -/
def World.tx_ready (D : Nat) (b : HC_BT_HDR) : World :=
  { hci_h4_init World.boot with
    h4_cb := { (hci_h4_init World.boot).h4_cb with hc_acl_data_size := D }
    heap := [b] }

/-- The messages `hci_h4_send_msg` is meant for: the message lies inside the
buffer and the buffer is small enough for the 16-bit `offset` and `len`. -/
def tx_wf (b : HC_BT_HDR) : Prop :=
  b.offset + b.len ≤ b.data.length ∧ b.data.length < 65536

/-- The first `k` controller-sized segments of the message in `b` for the
data-size limit `D`: each is the type byte, an ACL header (the one of the
message for the first segment, the continuation handle with length `D` for the
others) and the next `D` payload bytes. -/
def tx_segments (type handle D : Nat) (b : HC_BT_HDR) (k : Nat) : List (List Nat) :=
  (List.range k).map (fun j =>
    type :: ((if j = 0 then (b.data.drop b.offset).take 4 else acl_header_bytes handle D) ++
      (b.data.drop (b.offset + 4 + j * D)).take D))

/-- The last write of a message sent in `k` controller-sized segments and a
tail: the type byte, the header of the tail and the rest of the payload. -/
def tx_tail_segment (type handle D : Nat) (b : HC_BT_HDR) (k : Nat) : List Nat :=
  type :: ((if k = 0 then (b.data.drop b.offset).take 4
      else acl_header_bytes handle (b.len - k * D - 4)) ++
    (b.data.drop (b.offset + 4 + k * D)).take (b.len - k * D - 4))

/-- What a step that only works on the internal-command ring, the data sizes and
the buffer `p` leaves alone, relative to the control block `cb0` and the heap
`heap0` it started from: the fields of the receive state machine, the queue, the
reference to the current receive buffer, and every buffer but `p`. -/
@[reducible] def rx_frame (cb0 : tHCI_H4_CB) (heap0 : List HC_BT_HDR) (W : World) (p : Nat) :
    Prop :=
  W.h4_cb.rcv_state = cb0.rcv_state ∧ W.h4_cb.rcv_len = cb0.rcv_len ∧
  W.h4_cb.rcv_msg_type = cb0.rcv_msg_type ∧ W.h4_cb.acl_rx_q = cb0.acl_rx_q ∧
  W.h4_cb.preload_count = cb0.preload_count ∧ W.h4_cb.preload_buffer = cb0.preload_buffer ∧
  W.h4_cb.p_rcv_msg = cb0.p_rcv_msg ∧ W.heap.length = heap0.length ∧
  ∀ q, q ≠ p → W.heap.getD q ⟨0, 0, 0, 0, []⟩ = heap0.getD q ⟨0, 0, 0, 0, []⟩

/-- The environment in which the bulk read of the body never hands over a byte:
every byte goes through the loop of `hci_h4_receive_msg` on its own. -/
def Env.bytewise (env : Env) : Env := { env with bulk := fun _ => 0 }

/-- The current receive buffer can take the rest of the segment: in
H4_RX_DATA_ST the buffer is live, at least one byte is still expected and the
bytes expected fit behind the bytes already stored without leaving the range of
the 16-bit `len`. -/
def rx_guard (w : World) : Bool :=
  match w.h4_cb.rcv_state, w.h4_cb.p_rcv_msg with
  | H4_RX_DATA_ST, some p =>
    decide (p < w.heap.length ∧ 1 ≤ w.h4_cb.rcv_len ∧
      (w.buf p).len + w.h4_cb.rcv_len ≤ 65535)
  | _, _ => true

/-- `rx_guard` holds in every state in which a byte of the input is taken, the
bytes taken one by one. -/
def rx_guarded (env : Env) : World → List Nat → Bool
  | _, [] => true
  | w, b :: rest => rx_guard w && rx_guarded env (rx_byte (Env.bytewise env) w b rest).1 rest

/-- The world with the count of bulk reads, which is bookkeeping of the model
and no state of the program, set to `k`. -/
def World.with_bulk (w : World) (k : Nat) : World := { w with n_bulk := k }

/-- The world after the bytes `xs` of a segment were stored in the receive
buffer `p` while `r` more bytes are expected. -/
def stored_part (w : World) (p : Nat) (xs : List Nat) (nb r : Nat) : World :=
  { stored w p xs nb with h4_cb := { w.h4_cb with rcv_len := r } }

/-- A world in the middle of the body of an ACL Start packet whose HCI length
field is 0xFFFF: buffer 0 holds 65534 bytes and 5 more are expected. -/
def World.near_wrap : World :=
  { hci_h4_init World.boot with
    h4_cb := { (hci_h4_init World.boot).h4_cb with
      rcv_state := H4_RX_DATA_ST, rcv_msg_type := H4_TYPE_ACL_DATA, rcv_len := 5,
      p_rcv_msg := some 0 }
    heap := [⟨MSG_HC_TO_STACK_HCI_ACL, 65534, 0, 0, List.replicate 65543 0⟩] }

/-- The reassembly queue is in order: the queued buffers carry pairwise distinct
handles, each of them is a live ACL buffer that holds at least its first two
bytes, and without registered callbacks the queue is empty. -/
def rxq_core (env : Env) (w : World) : Prop :=
  (w.h4_cb.acl_rx_q.map (saved_handle w)).Nodup ∧
  (∀ x ∈ w.h4_cb.acl_rx_q, x < w.heap.length ∧
    (w.buf x).event = MSG_HC_TO_STACK_HCI_ACL ∧ 2 ≤ (w.buf x).len) ∧
  (env.bt_hc_cbacks = false → w.h4_cb.acl_rx_q = [])

/-- The preamble bookkeeping is in order: `preload_buffer` has its 6 bytes, and
while the preamble of an ACL packet is read the bytes read and the bytes still
expected add up to 4 (or to 6 with the L2CAP length). -/
def rx_hdr_ok (w : World) : Prop :=
  w.h4_cb.preload_buffer.length = 6 ∧
  (w.h4_cb.rcv_state = H4_RX_LEN_ST → w.h4_cb.rcv_msg_type = H4_TYPE_ACL_DATA →
    1 ≤ w.h4_cb.rcv_len ∧ 3 ≤ w.h4_cb.preload_count + w.h4_cb.rcv_len ∧
    w.h4_cb.preload_count + w.h4_cb.rcv_len ≤ 6)

/-- A world at the end of a Continuation segment: the base buffer 0 (handle 1,
L2CAP length 8) holds 8 bytes from the Start packet and 4 bytes appended by the
Continuation, `offset` marks the start of the appended part. -/
def World.at_segment_end : World :=
  { hci_h4_init World.boot with
    h4_cb := { (hci_h4_init World.boot).h4_cb with
      p_rcv_msg := some 0, rcv_msg_type := H4_TYPE_ACL_DATA, rcv_state := H4_RX_DATA_ST,
      acl_rx_q := [0] }
    heap := [⟨MSG_HC_TO_STACK_HCI_ACL, 12, 8, 0,
      [1, 0x20, 8, 0, 8, 0, 0x40, 0, 1, 2, 3, 4, 0, 0, 0, 0]⟩] }

/-- Consecutive invocations of `get_acl_data_length_cback`, each on a buffer
handed over with the given contents (it becomes the next buffer of the heap). -/
def cback_runs (env : Env) : World → List HC_BT_HDR → World
  | w, [] => w
  | w, b :: bs =>
    cback_runs env (get_acl_data_length_cback env { w with heap := w.heap ++ [b] } w.heap.length) bs

/-- A Command-Complete event for `opcode` with the given status byte and 16-bit
length value, as it lies in a receive buffer. -/
def cc_buffer (opcode status len : Nat) : HC_BT_HDR :=
  ⟨MSG_HC_TO_STACK_HCI_EVT, 13, 0, 0,
    [HCI_COMMAND_COMPLETE_EVT, 11, 1, opcode % 256, (opcode >>> 8) % 256, status,
      len % 256, (len >>> 8) % 256, 8, 0, 1, 0, 0]⟩

/-- Consistency of the ring cursors: both cursors are in 0..7, the pending count
is not negative and the write cursor is the read cursor advanced by the pending
count modulo 8. -/
@[reducible] def ring_ok (w : World) : Prop :=
  w.h4_cb.int_cmd_rd_idx < 8 ∧ w.h4_cb.int_cmd_wrt_idx < 8 ∧
  0 ≤ w.h4_cb.int_cmd_rsp_pending ∧
  w.h4_cb.int_cmd_wrt_idx =
    (w.h4_cb.int_cmd_rd_idx + w.h4_cb.int_cmd_rsp_pending.toNat) % 8

/-- The records in `n` consecutive slots of the ring `q` from slot `rd` on,
wrapping around after slot 7. -/
def ring_records (q : List tINT_CMD_Q) (rd n : Nat) : List tINT_CMD_Q :=
  (List.range n).map (fun j => q.getD ((rd + j) % 8) ⟨0, tINT_CMD_CBACK.NULL⟩)

/-- The pending records of the ring, oldest first: the slots from the read
cursor on, as many as the pending count. -/
def ring_view (w : World) : List tINT_CMD_Q :=
  ring_records w.h4_cb.int_cmd w.h4_cb.int_cmd_rd_idx w.h4_cb.int_cmd_rsp_pending.toNat

/-- A ring of 8 slots with consistent cursors and no slot in use twice. -/
@[reducible] def ring_inv (w : World) : Prop :=
  w.h4_cb.int_cmd.length = 8 ∧ ring_ok w ∧ w.h4_cb.int_cmd_rsp_pending ≤ 8

/-- Consecutive calls of `hci_h4_receive_msg`, one for each chunk of bytes the
transport holds. -/
def receive_msgs (env : Env) : World → List (List Nat) → World
  | w, [] => w
  | w, s :: ss => receive_msgs env (hci_h4_receive_msg env w s).2 ss

/-- The bytes of a Command-Complete event packet on the wire: type byte 4, event
code 0x0E, parameter length, the number `nc` of command credits, the opcode
(little-endian) and the return parameters `ps`. -/
def cc_packet (nc o : Nat) (ps : List Nat) : List Nat :=
  4 :: HCI_COMMAND_COMPLETE_EVT :: (3 + ps.length) :: nc :: o % 256 :: (o >>> 8) % 256 :: ps

/-- The world after an event packet with preamble `pre` and parameters `body`
was received into buffer `w.heap.length` (after `nb` bulk reads) and claimed by
`internal_event_intercept` for a pending record with callback `f`: the packet is
traced, the credit counter takes data byte 2, the callback is invoked on the
buffer (without a callback the buffer is freed), the record is retired, and
the buffer is not handed to `data_ind`. -/
def World.completed (env : Env) (w : World) (pre body : List Nat) (f : tINT_CMD_CBACK)
    (nb : Nat) : World :=
  let X : World :=
    { received w 4 MSG_HC_TO_STACK_HCI_EVT pre body nb with
      h4_num_hci_cmd_pkts := (((pre ++ body).getD 2 0 : Nat) : Int)
      trace := w.trace ++
        [Effect.btsnoop_capture
          ⟨MSG_HC_TO_STACK_HCI_EVT, pre.length + body.length, 0, 0, pre ++ body⟩ true] }
  let Y : World :=
    if f ≠ tINT_CMD_CBACK.NULL then call_cback env X f w.heap.length
    else if env.bt_hc_cbacks then dealloc X w.heap.length else X
  (int_cmd_retire Y).setCb { (int_cmd_retire Y).h4_cb with p_rcv_msg := none }

/-- The stores of the next pass of `case H4_RX_DATA_ST` stay inside the data area
of the receive buffer: the buffer is live, at least one byte is expected, and
the byte stored at index `len` together with the at most `rcv_len - 1` bytes the
bulk read may store behind it fit into the capacity. In the other states no
body byte is stored. -/
def store_ok (w : World) : Bool :=
  match w.h4_cb.rcv_state, w.h4_cb.p_rcv_msg with
  | H4_RX_DATA_ST, some p =>
    decide (p < w.heap.length ∧ 1 ≤ w.h4_cb.rcv_len ∧
      (w.buf p).len + w.h4_cb.rcv_len ≤ (w.buf p).data.length)
  | H4_RX_DATA_ST, none => false
  | _, _ => true

/-- The `len` of buffer `B` does not exceed `cap`, the stores of the next pass
stay inside the receive buffer, the buffer `B`, once it exists, has the capacity
`cap`, and body bytes are stored in no other buffer than `B`. -/
def cap_ok (B cap : Nat) (w : World) : Bool :=
  decide ((w.buf B).len ≤ cap) && store_ok w &&
  decide (B < w.heap.length → (w.buf B).data.length = cap) &&
  decide (w.h4_cb.rcv_state = H4_RX_DATA_ST → w.h4_cb.p_rcv_msg = some B)

/-- The property `ok` holds at every pass of the loop of `hci_h4_receive_msg`
on the given input: in the world after `k` passes, for every `k`. -/
def rx_safe (env : Env) (ok : World → Bool) (w : World) (input : List Nat) : Prop :=
  ∀ k br, ok (hci_h4_receive_loop env k w input br).2 = true

/-- The base buffer `B` of the reassembly on handle `h` is live, has the
capacity `cap` and is marked as ACL data, and no other queued buffer carries the
handle `h`. -/
def cap_core (B h cap : Nat) (w : World) : Prop :=
  B < w.heap.length ∧ (w.buf B).data.length = cap ∧
  (w.buf B).event = MSG_HC_TO_STACK_HCI_ACL ∧
  (∀ x ∈ w.h4_cb.acl_rx_q, x ≠ B → saved_handle w x ≠ h)

/-- The world while the preamble of an ACL packet is read: the bytes `bs` are
in `preload_buffer`, `k` more preamble bytes are expected. -/
def hdr_world (w : World) (bs : List Nat) (k : Nat) : World :=
  w.setCb { w.h4_cb with
    rcv_msg_type := 2, rcv_len := k, rcv_state := H4_RX_LEN_ST,
    preload_count := bs.length,
    preload_buffer := bs ++ List.replicate (6 - bs.length) 0 }

/-- The header bytes of an ACL Start packet that arrive before
`acl_rx_frame_buffer_alloc` is called: the preamble and, for a non-zero HCI
length `n`, the two bytes of the L2CAP length `L`. -/
def acl_start_hdr (h bc n L : Nat) : List Nat :=
  acl_preamble h ACL_RX_PKT_START bc n ++ (if n = 0 then [] else [L % 256, L / 256])

/-- The world at the call of `acl_rx_frame_buffer_alloc` for an ACL Start packet
received in the world `w`: `preload_buffer` holds the header bytes (and the
zeros of the `memset` behind the preamble of a packet with HCI length 0). -/
def acl_start_call (w : World) (h bc n L : Nat) : World :=
  acl_hdr w
    (acl_start_hdr h bc n L ++ List.replicate (6 - (acl_start_hdr h bc n L).length) 0)
    (acl_start_hdr h bc n L).length

/-- The rest of the pass of `hci_h4_receive_msg` in which the receive buffer of
an ACL packet with HCI length `n` was looked for: the tail of
`case H4_RX_LEN_ST` and, if the message is complete, the delivery block. -/
def acl_acquired_pass (env : Env) (w : World) (n : Nat) : World :=
  if (rx_len_acquired w n).2 then rx_deliver env (rx_len_acquired w n).1
  else (rx_len_acquired w n).1

/-- No buffer of the reassembly queue has left the module: none of them was
handed to `data_ind` or to `dealloc`. -/
def queue_owned (w : World) : Bool :=
  w.h4_cb.acl_rx_q.all (fun p =>
    !((delivered w).any (fun x => x.1 == p)) && !((freed w).contains p))

/-- The run stays inside what the C code defines, the bytes taken one by one: in
every state in which a byte is taken `rx_guard` holds (no store wraps the 16-bit
`len`), `store_ok` holds (in H4_RX_DATA_ST the bytes still expected fit into
the capacity of the receive buffer), and in every state of the run, the last one
included, no queued buffer has been given away (`queue_owned`). -/
def rx_sound (env : Env) : World → List Nat → Bool
  | w, [] => queue_owned w
  | w, b :: rest =>
    rx_guard w && store_ok w && queue_owned w &&
      rx_sound env (rx_byte (Env.bytewise env) w b rest).1 rest

/-! ## Basic facts about the embedding -/

attribute [simp] World.setCb World.emit World.setBuf World.buf dealloc

theorem rx_data_store_rest_le (env : Env) (w : World) (p b : Nat) (rest : List Nat) :
    (rx_data_store env w p b rest).2.1.length ≤ rest.length := by
  by_cases h : u16_sub w.h4_cb.rcv_len 1 > 0
  · simp [rx_data_store, h]
  · simp [rx_data_store, h]

theorem rx_byte_msgtype (env : Env) (w : World) (b : Nat) (rest : List Nat)
    (hs : w.h4_cb.rcv_state = H4_RX_MSGTYPE_ST) :
    rx_byte env w b rest = (rx_msgtype w b, rest, 0) := by
  simp only [rx_byte, hs, Bool.false_eq_true, if_false]

theorem rx_byte_len (env : Env) (w : World) (b : Nat) (rest : List Nat)
    (hs : w.h4_cb.rcv_state = H4_RX_LEN_ST) :
    rx_byte env w b rest =
      (if (rx_len env w b).2 then rx_deliver env (rx_len env w b).1 else (rx_len env w b).1,
        rest, 0) := by
  simp only [rx_byte, hs]

theorem rx_byte_ignore (env : Env) (w : World) (b : Nat) (rest : List Nat)
    (hs : w.h4_cb.rcv_state = H4_RX_IGNORE_ST) :
    rx_byte env w b rest = (rx_ignore w, rest, 0) := by
  simp only [rx_byte, hs, Bool.false_eq_true, if_false]

theorem rx_byte_data (env : Env) (w : World) (b p : Nat) (rest : List Nat)
    (hs : w.h4_cb.rcv_state = H4_RX_DATA_ST) (hp : w.h4_cb.p_rcv_msg = some p) :
    rx_byte env w b rest =
      (if (rx_data_end (rx_data_store env w p b rest).1).2
        then rx_deliver env (rx_data_end (rx_data_store env w p b rest).1).1
        else (rx_data_end (rx_data_store env w p b rest).1).1,
       (rx_data_store env w p b rest).2.1, (rx_data_store env w p b rest).2.2) := by
  simp only [rx_byte, hs, rx_data, hp]

theorem rx_byte_data_null (env : Env) (w : World) (b : Nat) (rest : List Nat)
    (hs : w.h4_cb.rcv_state = H4_RX_DATA_ST) (hp : w.h4_cb.p_rcv_msg = none) :
    rx_byte env w b rest = (w, rest, 0) := by
  simp only [rx_byte, hs, rx_data, hp, Bool.false_eq_true, if_false]

theorem rx_byte_rest_le (env : Env) (w : World) (b : Nat) (rest : List Nat) :
    (rx_byte env w b rest).2.1.length ≤ rest.length := by
  cases hs : w.h4_cb.rcv_state
  · rw [rx_byte_msgtype env w b rest hs]
  · rw [rx_byte_len env w b rest hs]
  · cases hp : w.h4_cb.p_rcv_msg
    · rw [rx_byte_data_null env w b rest hs hp]
    · rw [rx_byte_data env w b _ rest hs hp]
      exact rx_data_store_rest_le env w _ b rest
  · rw [rx_byte_ignore env w b rest hs]

theorem loop_fuel_irrel (env : Env) :
    ∀ (f1 f2 : Nat) (w : World) (input : List Nat) (br : Nat),
      input.length ≤ f1 → input.length ≤ f2 →
      hci_h4_receive_loop env f1 w input br = hci_h4_receive_loop env f2 w input br := by
  intro f1
  induction f1 with
  | zero =>
    intro f2 w input br h1 _
    have : input = [] := List.length_eq_zero.mp (Nat.le_zero.mp h1)
    subst this
    cases f2 <;> simp [hci_h4_receive_loop]
  | succ n ih =>
    intro f2 w input br h1 h2
    cases input with
    | nil => cases f2 <;> simp [hci_h4_receive_loop]
    | cons b rest =>
      cases f2 with
      | zero => simp at h2
      | succ m =>
        simp only [hci_h4_receive_loop]
        have hle := rx_byte_rest_le env w b rest
        simp only [List.length_cons, Nat.add_le_add_iff_right] at h1 h2
        exact ih m _ _ _ (le_trans hle h1) (le_trans hle h2)

theorem run_nil (env : Env) (w : World) (br : Nat) : run env w [] br = (br, w) := by
  simp [run, hci_h4_receive_loop]

theorem run_cons (env : Env) (w : World) (b : Nat) (rest : List Nat) (br : Nat) :
    run env w (b :: rest) br =
      run env (rx_byte env w b rest).1 (rx_byte env w b rest).2.1
        (u16 (u16 (br + 1) + (rx_byte env w b rest).2.2)) := by
  simp only [run, List.length_cons, hci_h4_receive_loop]
  exact loop_fuel_irrel env _ _ _ _ _ (rx_byte_rest_le env w b rest) (le_refl _)

theorem hci_h4_receive_msg_eq_run (env : Env) (w : World) (input : List Nat) :
    hci_h4_receive_msg env w input = run env w input 0 := rfl

/-! ## The type byte (C2, C3) -/

/-- C2 (amended): in H4_RX_MSGTYPE_ST a byte 2, 3 or 4 is consumed alone, selects
that packet kind, resets the preamble counter, sets the expected preamble length
to 4 (ACL), 3 (SCO) or 2 (Event) and moves to H4_RX_LEN_ST; the byte 1 (Command)
is dropped and leaves the world unchanged. -/
theorem rx_msgtype_selects_kind (env : Env) (w : World) (b : Nat) (rest : List Nat)
    (hs : w.h4_cb.rcv_state = H4_RX_MSGTYPE_ST) (h1 : 1 ≤ b) (h4 : b ≤ 4) :
    (b = 1 → rx_byte env w b rest = (w, rest, 0)) ∧
    (2 ≤ b →
      (rx_byte env w b rest).2 = (rest, 0) ∧
      (rx_byte env w b rest).1.h4_cb.rcv_msg_type = b ∧
      (rx_byte env w b rest).1.h4_cb.preload_count = 0 ∧
      (rx_byte env w b rest).1.h4_cb.rcv_len = (if b = 2 then 4 else if b = 3 then 3 else 2) ∧
      (rx_byte env w b rest).1.h4_cb.rcv_state = H4_RX_LEN_ST) := by
  have hb : b = 1 ∨ b = 2 ∨ b = 3 ∨ b = 4 := by omega
  rcases hb with rfl | rfl | rfl | rfl <;>
    simp [rx_byte_msgtype _ _ _ _ hs, rx_msgtype, H4_TYPE_ACL_DATA, H4_TYPE_EVENT, hci_preamble_table,
      HCI_CMD_PREAMBLE_SIZE, HCI_ACL_PREAMBLE_SIZE, HCI_SCO_PREAMBLE_SIZE, HCI_EVT_PREAMBLE_SIZE]

theorem rx_msgtype_selects_kind_witness :
    (rx_byte Env.ideal (hci_h4_init World.boot) 3 [7]).2 = ([7], 0) ∧
    (rx_byte Env.ideal (hci_h4_init World.boot) 3 [7]).1.h4_cb.rcv_msg_type = 3 ∧
    (rx_byte Env.ideal (hci_h4_init World.boot) 3 [7]).1.h4_cb.preload_count = 0 ∧
    (rx_byte Env.ideal (hci_h4_init World.boot) 3 [7]).1.h4_cb.rcv_len =
      (if 3 = 2 then 4 else if 3 = 3 then 3 else 2) ∧
    (rx_byte Env.ideal (hci_h4_init World.boot) 3 [7]).1.h4_cb.rcv_state = H4_RX_LEN_ST :=
  (rx_msgtype_selects_kind Env.ideal (hci_h4_init World.boot) 3 [7] (by decide) (by decide)
    (by decide)).2 (by decide)

/-- C2 (counterexample): the type byte 1 (Command) received in H4_RX_MSGTYPE_ST
does not select a packet kind: the state stays H4_RX_MSGTYPE_ST, the expected
preamble length is not set to 3 and the world is unchanged. -/
theorem rx_msgtype_command_byte_dropped :
    ¬ ((rx_byte Env.ideal (hci_h4_init World.boot) 1 []).1.h4_cb.rcv_msg_type = 1 ∧
       (rx_byte Env.ideal (hci_h4_init World.boot) 1 []).1.h4_cb.rcv_len = 3 ∧
       (rx_byte Env.ideal (hci_h4_init World.boot) 1 []).1.h4_cb.rcv_state = H4_RX_LEN_ST) := by
  decide

theorem run_world_indep (env : Env) :
    ∀ (n : Nat) (w : World) (s : List Nat) (br br' : Nat), s.length ≤ n →
      (run env w s br).2 = (run env w s br').2 := by
  intro n
  induction n with
  | zero =>
    intro w s br br' h
    have : s = [] := List.length_eq_zero.mp (Nat.le_zero.mp h)
    subst this
    simp [run_nil]
  | succ n ih =>
    intro w s br br' h
    cases s with
    | nil => simp [run_nil]
    | cons b rest =>
      rw [run_cons, run_cons]
      have hle := rx_byte_rest_le env w b rest
      simp only [List.length_cons, Nat.add_le_add_iff_right] at h
      exact ih _ _ _ _ (le_trans hle h)

/-- C3: in H4_RX_MSGTYPE_ST a byte that is 0 or greater than 4 is consumed alone
and leaves the whole world (receive state, reassembly queue, credit counter,
ring, heap, trace, allocation count) unchanged; hence receiving it before any
stream `s` ends in the same world, with the same deliveries, as receiving `s`. -/
theorem unknown_type_byte_is_noop (env : Env) (w : World) (b : Nat)
    (hs : w.h4_cb.rcv_state = H4_RX_MSGTYPE_ST) (hb : b = 0 ∨ 4 < b) :
    (∀ rest, rx_byte env w b rest = (w, rest, 0)) ∧
    (∀ s, (hci_h4_receive_msg env w (b :: s)).2 = (hci_h4_receive_msg env w s).2) ∧
    (∀ s, delivered (hci_h4_receive_msg env w (b :: s)).2 =
            delivered (hci_h4_receive_msg env w s).2) := by
  have h1 : ∀ rest, rx_byte env w b rest = (w, rest, 0) := by
    intro rest
    have : b < H4_TYPE_ACL_DATA ∨ b > H4_TYPE_EVENT := by
      simp only [H4_TYPE_ACL_DATA, H4_TYPE_EVENT]; omega
    simp [rx_byte_msgtype _ _ _ _ hs, rx_msgtype, this]
  have h2 : ∀ s, (hci_h4_receive_msg env w (b :: s)).2 = (hci_h4_receive_msg env w s).2 := by
    intro s
    rw [hci_h4_receive_msg_eq_run, hci_h4_receive_msg_eq_run, run_cons, h1]
    exact run_world_indep env s.length w s _ _ (le_refl _)
  exact ⟨h1, h2, fun s => by rw [h2]⟩

theorem unknown_type_byte_is_noop_witness :
    rx_byte Env.ideal (hci_h4_init World.boot) 9 [3] = (hci_h4_init World.boot, [3], 0) ∧
    (hci_h4_receive_msg Env.ideal (hci_h4_init World.boot) (9 :: [4, 14, 0])).2 =
      (hci_h4_receive_msg Env.ideal (hci_h4_init World.boot) [4, 14, 0]).2 :=
  ⟨(unknown_type_byte_is_noop Env.ideal (hci_h4_init World.boot) 9 (by decide) (by decide)).1 [3],
   (unknown_type_byte_is_noop Env.ideal (hci_h4_init World.boot) 9 (by decide) (by decide)).2.1
     [4, 14, 0]⟩

/-! ## Evaluations of the code at single inputs (C5, C8, C9, C10) -/

/-- C9 (code as it is): from the state of `hci_h4_init`, nine consecutive calls
of `hci_h4_send_int_cmd` all return TRUE (the 9th included) and leave nine
records pending; only a tenth call returns FALSE. -/
theorem send_int_cmd_ninth_call_accepted (w : World)
    (c1 c2 c3 c4 c5 c6 c7 c8 c9 c10 : Nat × Nat × tINT_CMD_CBACK) :
    (send_int_cmds (hci_h4_init w) [c1, c2, c3, c4, c5, c6, c7, c8, c9]).2 =
      [true, true, true, true, true, true, true, true, true] ∧
    (send_int_cmds (hci_h4_init w) [c1, c2, c3, c4, c5, c6, c7, c8, c9]).1.h4_cb.int_cmd_rsp_pending
      = 9 ∧
    (send_int_cmds (hci_h4_init w) [c1, c2, c3, c4, c5, c6, c7, c8, c9, c10]).2 =
      [true, true, true, true, true, true, true, true, true, false] := by
  simp [send_int_cmds, hci_h4_send_int_cmd, hci_h4_init, INT_CMD_PKT_MAX_COUNT,
    INT_CMD_PKT_IDX_MASK]

/-- C10 (code as it is): after nine accepted internal commands with opcodes
1..9 and no completion the pending count is 9, both cursors are 0 and 1, and
ring slot 0, whose record (opcode 1) was never consumed, holds opcode 9. -/
theorem int_cmd_ring_overrun :
    (send_int_cmds (hci_h4_init World.boot)
      [(1, 0, tINT_CMD_CBACK.external 1), (2, 0, tINT_CMD_CBACK.external 2),
       (3, 0, tINT_CMD_CBACK.external 3), (4, 0, tINT_CMD_CBACK.external 4),
       (5, 0, tINT_CMD_CBACK.external 5), (6, 0, tINT_CMD_CBACK.external 6),
       (7, 0, tINT_CMD_CBACK.external 7), (8, 0, tINT_CMD_CBACK.external 8),
       (9, 0, tINT_CMD_CBACK.external 9)]).1.h4_cb =
    { (hci_h4_init World.boot).h4_cb with
      int_cmd_rsp_pending := 9, int_cmd_rd_idx := 0, int_cmd_wrt_idx := 1,
      int_cmd := [⟨9, tINT_CMD_CBACK.external 9⟩, ⟨2, tINT_CMD_CBACK.external 2⟩,
        ⟨3, tINT_CMD_CBACK.external 3⟩, ⟨4, tINT_CMD_CBACK.external 4⟩,
        ⟨5, tINT_CMD_CBACK.external 5⟩, ⟨6, tINT_CMD_CBACK.external 6⟩,
        ⟨7, tINT_CMD_CBACK.external 7⟩, ⟨8, tINT_CMD_CBACK.external 8⟩] } := by
  decide

/-- C5 (code as it is): an ACL Start packet on handle 1 announcing L2CAP length
4 with only the L2CAP header as body, followed by a Continuation packet of HCI
length 0 on the same handle: the base buffer is handed to `data_ind` although
none of the 4 payload bytes has arrived, and it is still in the reassembly
queue. -/
theorem zero_length_continuation_delivers_incomplete :
    delivered (hci_h4_receive_msg Env.ideal (hci_h4_init World.boot)
      [2, 1, 0x20, 4, 0, 4, 0, 0x40, 0, 2, 1, 0x10, 0, 0]).2 =
      [(0, ⟨MSG_HC_TO_STACK_HCI_ACL, 8, 8, 0, [1, 0x20, 4, 0, 4, 0, 0x40, 0, 0, 0, 0, 0]⟩)] ∧
    (hci_h4_receive_msg Env.ideal (hci_h4_init World.boot)
      [2, 1, 0x20, 4, 0, 4, 0, 0x40, 0, 2, 1, 0x10, 0, 0]).2.h4_cb.acl_rx_q = [0] ∧
    delivered (hci_h4_receive_msg Env.ideal (hci_h4_init World.boot)
      [2, 1, 0x20, 4, 0, 4, 0, 0x40, 0]).2 = [] := by
  decide

/-- C8 (code as it is): an ACL Start packet with HCI length 2 whose allocation
fails: after the type byte, the preamble and the 2 declared body bytes the
machine is in H4_RX_IGNORE_ST with remaining length 0, and a complete Event
packet that follows is swallowed (still H4_RX_IGNORE_ST, 65532 bytes to go). -/
theorem alloc_failure_short_acl_start_desyncs :
    (hci_h4_receive_msg Env.no_memory (hci_h4_init World.boot)
      [2, 1, 0x20, 2, 0, 4, 0]).2.h4_cb.rcv_state = H4_RX_IGNORE_ST ∧
    (hci_h4_receive_msg Env.no_memory (hci_h4_init World.boot)
      [2, 1, 0x20, 2, 0, 4, 0]).2.h4_cb.rcv_len = 0 ∧
    (hci_h4_receive_msg Env.no_memory (hci_h4_init World.boot)
      [2, 1, 0x20, 2, 0, 4, 0, 4, 0x13, 1, 5]).2.h4_cb.rcv_state = H4_RX_IGNORE_ST ∧
    (hci_h4_receive_msg Env.no_memory (hci_h4_init World.boot)
      [2, 1, 0x20, 2, 0, 4, 0, 4, 0x13, 1, 5]).2.h4_cb.rcv_len = 65532 := by
  decide

/-! ## Stepping lemmas -/

theorem u16_u16_add (a b : Nat) : u16 (u16 a + b) = u16 (a + b) := by
  simp [u16, Nat.add_mod]

theorem u16_idem (a : Nat) : u16 (u16 a) = u16 a := by
  simp [u16]

theorem u16_of_lt {a : Nat} (h : a < 65536) : u16 a = a := by
  simp [u16, Nat.mod_eq_of_lt h]

theorem u16_sub_of_le {x y : Nat} (h : y ≤ x) : u16_sub x y = x - y := by
  simp [u16_sub, h]

theorem land_0FFF (x : Nat) : x &&& 0x0FFF = x % 4096 :=
  Nat.and_pow_two_sub_one_eq_mod x 12

theorem land_3 (x : Nat) : x &&& 0x03 = x % 4 :=
  Nat.and_pow_two_sub_one_eq_mod x 2

theorem land_7 (x : Nat) : x &&& 0x07 = x % 8 :=
  Nat.and_pow_two_sub_one_eq_mod x 3

theorem shr_4 (x : Nat) : x >>> 4 = x / 16 := by
  simp [Nat.shiftRight_eq_div_pow]

theorem shr_8 (x : Nat) : x >>> 8 = x / 256 := by
  simp [Nat.shiftRight_eq_div_pow]

theorem shr_12 (x : Nat) : x >>> 12 = x / 4096 := by
  simp [Nat.shiftRight_eq_div_pow]

theorem shl_8 (x : Nat) : x <<< 8 = x * 256 := by
  simp [Nat.shiftLeft_eq]

/-- The type byte of an accepted kind. -/
theorem run_type_byte (env : Env) (w : World) (t : Nat) (rest : List Nat) (br : Nat)
    (hs : w.h4_cb.rcv_state = H4_RX_MSGTYPE_ST) (h2 : 2 ≤ t) (h4 : t ≤ 4) :
    run env w (t :: rest) br =
      run env
        (w.setCb { w.h4_cb with
          rcv_msg_type := t
          rcv_len := hci_preamble_table.getD (t - 1) 0
          preload_buffer := List.replicate 6 0
          preload_count := 0
          rcv_state := H4_RX_LEN_ST }) rest (u16 (br + 1)) := by
  have h : ¬ (t < H4_TYPE_ACL_DATA ∨ t > H4_TYPE_EVENT) := by
    simp only [H4_TYPE_ACL_DATA, H4_TYPE_EVENT]; omega
  rw [run_cons, rx_byte_msgtype _ _ _ _ hs]
  simp only [rx_msgtype, h, if_false, Nat.add_zero, u16_idem]

/-- A preamble byte that is not the last one is stored in `preload_buffer`. -/
theorem run_preamble_byte (env : Env) (w : World) (b : Nat) (rest : List Nat) (br : Nat)
    (hs : w.h4_cb.rcv_state = H4_RX_LEN_ST) (hl : 2 ≤ w.h4_cb.rcv_len) :
    run env w (b :: rest) br =
      run env
        (w.setCb { w.h4_cb with
          preload_buffer := w.h4_cb.preload_buffer.set w.h4_cb.preload_count b
          preload_count := (w.h4_cb.preload_count + 1) % 256
          rcv_len := w.h4_cb.rcv_len - 1 }) rest (u16 (br + 1)) := by
  have h1 : u16_sub w.h4_cb.rcv_len 1 = w.h4_cb.rcv_len - 1 := u16_sub_of_le (by omega)
  have h2 : ¬ (w.h4_cb.rcv_len - 1 = 0) := by omega
  rw [run_cons, rx_byte_len _ _ _ _ hs]
  simp [rx_len, h1, h2, u16_idem]

/-- The bytes of a packet whose buffer could not be acquired are skipped. -/
theorem run_ignore (env : Env) (s : List Nat) :
    ∀ (body : List Nat) (w : World) (br : Nat),
      w.h4_cb.rcv_state = H4_RX_IGNORE_ST → w.h4_cb.rcv_len = body.length → 0 < body.length →
      run env w (body ++ s) br =
        run env (w.setCb { w.h4_cb with rcv_len := 0, rcv_state := H4_RX_MSGTYPE_ST }) s
          (u16 (br + body.length)) := by
  intro body
  induction body with
  | nil => intro w br _ _ h; simp at h
  | cons b body ih =>
    intro w br hs hl _
    have h1 : u16_sub w.h4_cb.rcv_len 1 = body.length := by
      rw [u16_sub_of_le (by rw [hl]; simp), hl]; simp
    rw [List.cons_append, run_cons, rx_byte_ignore _ _ _ _ hs]
    cases body with
    | nil =>
      simp only [List.length_nil] at h1
      simp [rx_ignore, h1, u16_idem]
    | cons c body =>
      have h2 : ¬ ((c :: body).length = 0) := by simp
      simp only [rx_ignore, World.setCb, h1, h2, if_false, Nat.add_zero, u16_idem]
      rw [ih _ _ (by simpa using hs) (by simp) (by simp)]
      simp only [u16_u16_add, World.setCb, List.length_cons]
      have e : br + 1 + (body.length + 1) = br + (body.length + 1 + 1) := by omega
      rw [e]

/-! ## Orphan Continuation packets (C7) -/

theorem acl_rx_q_find_none (w : World) (h : Nat)
    (hq : ∀ p ∈ w.h4_cb.acl_rx_q, saved_handle w p ≠ h) : acl_rx_q_find w h = none := by
  simp only [acl_rx_q_find, List.find?_eq_none]
  intro p hp
  simpa using hq p hp

theorem acl_word_bytes (h pb bc : Nat) (hh : h < 4096) (hpb : pb < 4) :
    STREAM_TO_UINT16 (acl_preamble h pb bc n ++ t) 0 = acl_word h pb bc ∧
    (acl_word h pb bc >>> 12) &&& 0x0003 = pb ∧
    (acl_word h pb bc) &&& 0x0FFF = h ∧
    (((acl_word h pb bc) / 256) >>> 4) &&& 0x03 = pb := by
  simp only [STREAM_TO_UINT16, acl_preamble, acl_word, land_0FFF, land_3, shr_12, shl_8, shr_4,
    List.cons_append, List.getD_cons_zero, List.getD_cons_succ]
  refine ⟨?_, ?_, ?_, ?_⟩ <;> omega

theorem acl_len_bytes (h pb bc n : Nat) (t : List Nat) :
    STREAM_TO_UINT16 (acl_preamble h pb bc n ++ t) 2 = n := by
  simp only [STREAM_TO_UINT16, acl_preamble, shl_8, List.cons_append,
    List.getD_cons_succ, List.getD_cons_zero]
  omega

/-- A Continuation packet whose handle is not in the reassembly queue gets no
buffer and nothing is allocated. -/
theorem acl_rx_frame_buffer_alloc_orphan (env : Env) (w : World) (h bc n : Nat)
    (hh : h < 4096)
    (hpre : w.h4_cb.preload_buffer = acl_preamble h ACL_RX_PKT_CONTINUE bc n ++ [0, 0])
    (hq : ∀ p ∈ w.h4_cb.acl_rx_q, saved_handle w p ≠ h) :
    acl_rx_frame_buffer_alloc env w = (w.setCb { w.h4_cb with rcv_len := n }, none) := by
  obtain ⟨e0, e1, e2, _⟩ := acl_word_bytes (n := n) (t := [0, 0]) h ACL_RX_PKT_CONTINUE bc hh
    (by decide)
  have e3 := acl_len_bytes h ACL_RX_PKT_CONTINUE bc n [0, 0]
  have hf := acl_rx_q_find_none w h hq
  have hne : ¬ (ACL_RX_PKT_CONTINUE = ACL_RX_PKT_START) := by decide
  simp only [acl_rx_frame_buffer_alloc, hpre, e0, e1, e2, e3, hf, hne, if_false, ite_self]

/-- The world after an orphan Continuation packet: only the scratch fields of
the control block differ from the world before the packet. -/
theorem orphan_aux (env : Env) (w : World) (h bc n : Nat) (body s : List Nat) (br : Nat)
    (hs : w.h4_cb.rcv_state = H4_RX_MSGTYPE_ST) (hh : h < 4096)
    (hn0 : 0 < n) (hn : n < 65536) (hb : body.length = n)
    (hq : ∀ p ∈ w.h4_cb.acl_rx_q, saved_handle w p ≠ h) :
    run env w (2 :: (acl_preamble h ACL_RX_PKT_CONTINUE bc n ++ (body ++ s))) br =
      run env
        (w.setCb { w.h4_cb with
          p_rcv_msg := none, rcv_len := 0, rcv_msg_type := 2, rcv_state := H4_RX_MSGTYPE_ST,
          preload_count := 4,
          preload_buffer := acl_preamble h ACL_RX_PKT_CONTINUE bc n ++ [0, 0] })
        s (u16 (br + 5 + n)) := by
  obtain ⟨_, _, _, e4⟩ := acl_word_bytes (n := n) (t := [0, 0]) h ACL_RX_PKT_CONTINUE bc hh
    (by decide)
  have e3 := acl_len_bytes h ACL_RX_PKT_CONTINUE bc n [0, 0]
  rw [run_type_byte env w 2 _ br hs (by decide) (by decide)]
  simp only [acl_preamble, List.cons_append]
  rw [run_preamble_byte _ _ _ _ _ (by simp) (by simp [hci_preamble_table, HCI_ACL_PREAMBLE_SIZE])]
  rw [run_preamble_byte _ _ _ _ _ (by simp) (by simp [hci_preamble_table, HCI_ACL_PREAMBLE_SIZE])]
  rw [run_preamble_byte _ _ _ _ _ (by simp) (by simp [hci_preamble_table, HCI_ACL_PREAMBLE_SIZE])]
  rw [run_cons, rx_byte_len _ _ _ _ (by simp)]
  have hA := acl_rx_frame_buffer_alloc_orphan env
    (w.setCb { w.h4_cb with
      rcv_msg_type := 2, rcv_len := 0, rcv_state := H4_RX_LEN_ST, preload_count := 4,
      preload_buffer := acl_preamble h ACL_RX_PKT_CONTINUE bc n ++ [0, 0] }) h bc n hh rfl
    (by simpa [saved_handle] using hq)
  have hne : ¬ (ACL_RX_PKT_CONTINUE = ACL_RX_PKT_START) := by decide
  have hn1 : ¬ (n = 0) := by omega
  simp only [acl_preamble, List.cons_append, List.nil_append, World.setCb] at hA
  have hml : u16 ((n / 256) <<< 8 + n % 256) = n := by
    rw [shl_8, u16_of_lt (by omega)]; omega
  have hsub : u16_sub (4 - 1 - 1 - 1) 1 = 0 := by decide
  simp only [rx_len, hci_preamble_table, HCI_ACL_PREAMBLE_SIZE, hsub, H4_TYPE_ACL_DATA, hA, e4,
    hne, rx_len_acquired, hn1, hml, World.setCb, List.getD_cons_zero, List.getD_cons_succ,
    List.set_cons_zero, List.set_cons_succ, List.replicate, and_false, if_false, if_true,
    le_refl, Nat.sub_self, Nat.reduceAdd, Nat.reduceMod, Nat.reduceSub, Nat.reduceLeDiff,
    ne_eq, not_false_eq_true, Bool.false_eq_true, Nat.add_zero, u16_idem, Nat.reduceEqDiff,
    not_true_eq_false, Nat.one_le_ofNat, List.nil_append]
  rw [run_ignore env s body _ _ (by simp) (by simp [hb]) (by omega)]
  simp only [World.setCb, u16_u16_add, hb]

/-- C7: an ACL Continuation packet with HCI length n > 0 whose handle has no base
buffer in the reassembly queue. `acl_rx_frame_buffer_alloc` returns no buffer
and allocates nothing (it only records the remaining length n), and
`hci_h4_receive_msg` skips exactly the n body bytes: after the packet the
machine is in H4_RX_MSGTYPE_ST, the heap, the trace (no delivery, nothing
freed), the allocation count, the queue, the ring and the credit counter are
those of before, and the bytes `s` that follow are read as a new packet. -/
theorem orphan_continuation_discarded (env : Env) (w : World) (h bc n : Nat)
    (body : List Nat) (hs : w.h4_cb.rcv_state = H4_RX_MSGTYPE_ST) (hh : h < 4096)
    (hn0 : 0 < n) (hn : n < 65536) (hb : body.length = n)
    (hq : ∀ p ∈ w.h4_cb.acl_rx_q, saved_handle w p ≠ h) :
    (∀ w1 : World,
      w1.h4_cb.preload_buffer = acl_preamble h ACL_RX_PKT_CONTINUE bc n ++ [0, 0] →
      (∀ p ∈ w1.h4_cb.acl_rx_q, saved_handle w1 p ≠ h) →
      acl_rx_frame_buffer_alloc env w1 = (w1.setCb { w1.h4_cb with rcv_len := n }, none)) ∧
    (∀ (s : List Nat) (br : Nat),
      run env w (2 :: (acl_preamble h ACL_RX_PKT_CONTINUE bc n ++ (body ++ s))) br =
        run env
          (w.setCb { w.h4_cb with
            p_rcv_msg := none, rcv_len := 0, rcv_msg_type := 2, rcv_state := H4_RX_MSGTYPE_ST,
            preload_count := 4,
            preload_buffer := acl_preamble h ACL_RX_PKT_CONTINUE bc n ++ [0, 0] })
          s (u16 (br + 5 + n))) ∧
    hci_h4_receive_msg env w (2 :: (acl_preamble h ACL_RX_PKT_CONTINUE bc n ++ body)) =
      (u16 (5 + n),
        w.setCb { w.h4_cb with
          p_rcv_msg := none, rcv_len := 0, rcv_msg_type := 2, rcv_state := H4_RX_MSGTYPE_ST,
          preload_count := 4,
          preload_buffer := acl_preamble h ACL_RX_PKT_CONTINUE bc n ++ [0, 0] }) := by
  refine ⟨fun w1 hpre hq1 => acl_rx_frame_buffer_alloc_orphan env w1 h bc n hh hpre hq1,
    fun s br => orphan_aux env w h bc n body s br hs hh hn0 hn hb hq, ?_⟩
  have := orphan_aux env w h bc n body [] 0 hs hh hn0 hn hb hq
  rw [List.append_nil, run_nil] at this
  rw [hci_h4_receive_msg_eq_run, this]

theorem orphan_continuation_discarded_witness :
    hci_h4_receive_msg Env.ideal (hci_h4_init World.boot)
        (2 :: (acl_preamble 5 ACL_RX_PKT_CONTINUE 0 3 ++ [7, 8, 9])) =
      (u16 (5 + 3),
        (hci_h4_init World.boot).setCb { (hci_h4_init World.boot).h4_cb with
          p_rcv_msg := none, rcv_len := 0, rcv_msg_type := 2, rcv_state := H4_RX_MSGTYPE_ST,
          preload_count := 4,
          preload_buffer := acl_preamble 5 ACL_RX_PKT_CONTINUE 0 3 ++ [0, 0] }) :=
  (orphan_continuation_discarded Env.ideal (hci_h4_init World.boot) 5 0 3 [7, 8, 9]
    (by decide) (by decide) (by decide) (by decide) (by decide) (by decide)).2.2

/-! ## Stores into a buffer -/

theorem getD_set_self {α : Type} (l : List α) (i : Nat) (a d : α) (h : i < l.length) :
    (l.set i a).getD i d = a := by
  simp [List.getD_eq_getElem?_getD, h]

theorem write_bytes_length (bs : List Nat) :
    ∀ (data : List Nat) (i : Nat), (write_bytes data i bs).length = data.length := by
  induction bs with
  | nil => intro data i; rfl
  | cons b bs ih => intro data i; simp [write_bytes, ih]

theorem write_bytes_append (xs ys : List Nat) :
    ∀ (data : List Nat) (i : Nat),
      write_bytes data i (xs ++ ys) = write_bytes (write_bytes data i xs) (i + xs.length) ys := by
  induction xs with
  | nil => intro data i; simp [write_bytes]
  | cons x xs ih =>
    intro data i
    have e : i + 1 + xs.length = i + (x :: xs).length := by simp; omega
    rw [List.cons_append, write_bytes, write_bytes, ih, e]

theorem write_bytes_eq (bs : List Nat) :
    ∀ (data : List Nat) (i : Nat), i + bs.length ≤ data.length →
      write_bytes data i bs = data.take i ++ bs ++ data.drop (i + bs.length) := by
  induction bs with
  | nil => intro data i _; simp [write_bytes]
  | cons b bs ih =>
    intro data i h
    simp only [List.length_cons] at h
    have hi : i < data.length := by omega
    have hlen : (List.take i data).length = i := by simp; omega
    rw [write_bytes, ih _ _ (by simp; omega), List.set_eq_take_append_cons_drop, if_pos hi]
    have e1 : List.take (i + 1) (List.take i data ++ b :: List.drop (i + 1) data) =
        List.take i data ++ [b] := by
      rw [List.take_append_eq_append_take, hlen]
      simp
    have e2 : List.drop (i + 1 + bs.length) (List.take i data ++ b :: List.drop (i + 1) data) =
        List.drop (i + (b :: bs).length) data := by
      rw [List.drop_append_eq_append_drop, hlen]
      have : i + 1 + bs.length - i = bs.length + 1 := by omega
      simp only [this, List.drop_succ_cons, List.drop_drop]
      have e3 : List.drop (i + 1 + bs.length) (List.take i data) = [] := by
        apply List.drop_eq_nil_of_le; omega
      have e4 : i + 1 + bs.length = i + (b :: bs).length := by simp; omega
      rw [e3, e4, List.nil_append]
    rw [e1, e2]
    simp

theorem write_bytes_getD_lt (bs : List Nat) :
    ∀ (data : List Nat) (i j : Nat), j < i →
      (write_bytes data i bs).getD j 0 = data.getD j 0 := by
  induction bs with
  | nil => intro data i j _; rfl
  | cons b bs ih =>
    intro data i j h
    have hne : ¬ (i = j) := by omega
    rw [write_bytes, ih _ _ _ (by omega)]
    simp [List.getD_eq_getElem?_getD, List.getElem?_set, hne]

/-! ## The body of a packet (H4_RX_DATA_ST) -/

theorem rx_data_store_last (env : Env) (w : World) (p b : Nat) (rest : List Nat)
    (hl : w.h4_cb.rcv_len = 1) :
    rx_data_store env w p b rest = (stored w p [b] 0, rest, 0) := by
  have h1 : u16_sub 1 1 = 0 := by decide
  simp [rx_data_store, stored, hl, h1, write_bytes]

theorem rx_data_store_more (env : Env) (w : World) (p b : Nat) (rest : List Nat) (n : Nat)
    (hl : w.h4_cb.rcv_len = n) (hn2 : 2 ≤ n) (hpl : p < w.heap.length)
    (hlen : (w.buf p).len + 1 < 65536) :
    rx_data_store env w p b rest =
      ({ stored w p (b :: rest.take (min (min (env.bulk w.n_bulk) (n - 1)) rest.length)) 1 with
          h4_cb := { w.h4_cb with
            rcv_len := n - 1 - min (min (env.bulk w.n_bulk) (n - 1)) rest.length } },
        rest.drop (min (min (env.bulk w.n_bulk) (n - 1)) rest.length),
        min (min (env.bulk w.n_bulk) (n - 1)) rest.length) := by
  have h1 : u16_sub n 1 = n - 1 := u16_sub_of_le (by omega)
  have h2 : n - 1 > 0 := by omega
  have h3 : u16_sub (n - 1) (min (min (env.bulk w.n_bulk) (n - 1)) rest.length) =
      n - 1 - min (min (env.bulk w.n_bulk) (n - 1)) rest.length :=
    u16_sub_of_le (by omega)
  have h4 : u16 ((w.heap.getD p ⟨0, 0, 0, 0, []⟩).len + 1) =
      (w.heap.getD p ⟨0, 0, 0, 0, []⟩).len + 1 := u16_of_lt hlen
  simp only [rx_data_store, stored, hl, h1, h2, h3, World.setBuf, World.setCb, World.buf,
    if_true, getD_set_self _ _ _ _ hpl, h4, List.set_set, write_bytes, u16_u16_add,
    List.length_cons, List.length_take]
  have e : ∀ X : Nat, X + 1 + min (min (env.bulk w.n_bulk) (n - 1)) rest.length =
      X + (min (min (min (env.bulk w.n_bulk) (n - 1)) rest.length) rest.length + 1) := by
    intro X; omega
  rw [e]

theorem stored_stored (w : World) (p : Nat) (xs ys : List Nat) (a c r : Nat)
    (hpl : p < w.heap.length) (hlen : (w.buf p).len + xs.length < 65536) :
    stored { stored w p xs a with h4_cb := { w.h4_cb with rcv_len := r } } p ys c =
      stored w p (xs ++ ys) (a + c) := by
  have h4 : u16 ((w.heap.getD p ⟨0, 0, 0, 0, []⟩).len + xs.length) =
      (w.heap.getD p ⟨0, 0, 0, 0, []⟩).len + xs.length := u16_of_lt hlen
  simp only [stored, World.buf, getD_set_self _ _ _ _ hpl, h4, List.set_set, write_bytes_append,
    u16_u16_add, List.length_append, Nat.add_assoc]

theorem stored_heap_length (w : World) (p : Nat) (xs : List Nat) (a : Nat) :
    (stored w p xs a).heap.length = w.heap.length := by
  simp [stored]

/-- The body bytes of a packet end up in the receive buffer, whatever the bulk
reads hand over, and then the end check runs. -/
theorem run_data (env : Env) :
    ∀ (n : Nat) (body : List Nat) (w : World) (p : Nat),
      body.length = n → 0 < n → n < 65536 →
      w.h4_cb.rcv_state = H4_RX_DATA_ST → w.h4_cb.p_rcv_msg = some p → p < w.heap.length →
      w.h4_cb.rcv_len = n → (w.buf p).len + n ≤ 65536 →
      ∃ nb, ∀ (s : List Nat) (br : Nat),
        run env w (body ++ s) br =
          run env (after_end env (stored w p body nb)) s (u16 (br + n)) := by
  intro n
  induction n using Nat.strong_induction_on with
  | _ n ih =>
    intro body w p hb hn0 hn hs hp hpl hl hlen
    cases body with
    | nil => simp at hb; omega
    | cons b rest0 =>
      simp only [List.length_cons] at hb
      by_cases h1 : n = 1
      · subst h1
        have hr : rest0 = [] := List.length_eq_zero.mp (by omega)
        subst hr
        refine ⟨0, fun s br => ?_⟩
        rw [List.cons_append, List.nil_append, run_cons, rx_byte_data env w b p _ hs hp,
          rx_data_store_last env w p b s hl]
        simp only [after_end, Nat.add_zero, u16_idem]
      · have hn2 : 2 ≤ n := by omega
        have hr : rest0.length = n - 1 := by omega
        have hl1 : (w.buf p).len + 1 < 65536 := by omega
        -- the number of bytes the bulk read hands over does not depend on what follows
        have hK : ∀ s : List Nat,
            min (min (env.bulk w.n_bulk) (n - 1)) (rest0 ++ s).length =
              min (env.bulk w.n_bulk) (n - 1) := by
          intro s; simp only [List.length_append]; omega
        have hk : min (env.bulk w.n_bulk) (n - 1) ≤ rest0.length := by omega
        have hstep : ∀ s : List Nat, rx_data_store env w p b (rest0 ++ s) =
            ({ stored w p (b :: rest0.take (min (env.bulk w.n_bulk) (n - 1))) 1 with
                h4_cb := { w.h4_cb with rcv_len := n - 1 - min (env.bulk w.n_bulk) (n - 1) } },
              rest0.drop (min (env.bulk w.n_bulk) (n - 1)) ++ s,
              min (env.bulk w.n_bulk) (n - 1)) := by
          intro s
          rw [rx_data_store_more env w p b (rest0 ++ s) n hl hn2 hpl hl1, hK s,
            List.take_append_of_le_length hk, List.drop_append_of_le_length hk]
        by_cases hfull : min (env.bulk w.n_bulk) (n - 1) = n - 1
        · refine ⟨1, fun s br => ?_⟩
          have e0 : n - 1 - (n - 1) = 0 := by omega
          have e1 : List.take (n - 1) rest0 = rest0 := List.take_of_length_le (by omega)
          have e2 : List.drop (n - 1) rest0 = [] := List.drop_eq_nil_of_le (by omega)
          have e3 : br + 1 + (n - 1) = br + n := by omega
          rw [List.cons_append, run_cons, rx_byte_data env w b p _ hs hp, hstep s, hfull]
          simp only [e0, e1, e2, List.nil_append, u16_u16_add, e3]
          rfl
        · have hlt : min (env.bulk w.n_bulk) (n - 1) < n - 1 := by omega
          have hlen1 : (w.buf p).len + (b :: rest0.take (min (env.bulk w.n_bulk) (n - 1))).length
              < 65536 := by
            simp only [List.length_cons, List.length_take]; omega
          have hbuf : ({ stored w p (b :: rest0.take (min (env.bulk w.n_bulk) (n - 1))) 1 with
                h4_cb := { w.h4_cb with
                  rcv_len := n - 1 - min (env.bulk w.n_bulk) (n - 1) } } : World).buf p =
              { w.buf p with
                data := write_bytes (w.buf p).data (w.buf p).len
                  (b :: rest0.take (min (env.bulk w.n_bulk) (n - 1)))
                len := (w.buf p).len +
                  (b :: rest0.take (min (env.bulk w.n_bulk) (n - 1))).length } := by
            simp only [stored, World.buf, getD_set_self _ _ _ _ hpl]
            rw [u16_of_lt (by simpa [World.buf] using hlen1)]
          obtain ⟨nb, hnb⟩ := ih (n - 1 - min (env.bulk w.n_bulk) (n - 1)) (by omega)
            (rest0.drop (min (env.bulk w.n_bulk) (n - 1)))
            { stored w p (b :: rest0.take (min (env.bulk w.n_bulk) (n - 1))) 1 with
                h4_cb := { w.h4_cb with rcv_len := n - 1 - min (env.bulk w.n_bulk) (n - 1) } }
            p (by simp only [List.length_drop]; omega) (by omega) (by omega)
            (by simpa using hs) (by simpa using hp)
            (by simpa [stored] using hpl) rfl
            (by rw [hbuf]; simp only [List.length_cons, List.length_take]; omega)
          refine ⟨1 + nb, fun s br => ?_⟩
          have hne : ¬ (n - 1 - min (env.bulk w.n_bulk) (n - 1) = 0) := by omega
          have e3 : br + 1 + min (env.bulk w.n_bulk) (n - 1) +
              (n - 1 - min (env.bulk w.n_bulk) (n - 1)) = br + n := by omega
          rw [List.cons_append, run_cons, rx_byte_data env w b p _ hs hp, hstep s]
          simp only [rx_data_end, hne, if_false, Bool.false_eq_true]
          rw [hnb, stored_stored w p _ _ 1 nb _ hpl hlen1]
          simp only [List.cons_append, List.take_append_drop, u16_u16_add, e3]

/-! ## Round trip of SCO and Event packets (C1) -/

theorem getD_append_length {α : Type} (l : List α) (x d : α) : (l ++ [x]).getD l.length d = x := by
  simp [List.getD_eq_getElem?_getD]

theorem set_append_length {α : Type} (l : List α) (x y : α) :
    (l ++ [x]).set l.length y = l ++ [y] := by
  simp

theorem sco_header (env : Env) (w : World) (a b n : Nat) (rest : List Nat) (br : Nat)
    (hs : w.h4_cb.rcv_state = H4_RX_MSGTYPE_ST) (hcb : env.bt_hc_cbacks = true)
    (hn : n < 256) (hal : env.alloc_ok w.n_alloc (n + 3 + BT_HC_HDR_SIZE) = true) :
    run env w (3 :: a :: b :: n :: rest) br =
      run env
        (if n ≠ 0 then acquired w 3 MSG_HC_TO_STACK_HCI_SCO [a, b, n] n H4_RX_DATA_ST
         else rx_deliver env (received w 3 MSG_HC_TO_STACK_HCI_SCO [a, b, n] [] 0))
        rest (u16 (br + 4)) := by
  have hu : u16 (n + 3 + 8) = n + 3 + 8 := u16_of_lt (by omega)
  simp only [BT_HC_HDR_SIZE] at hal
  rw [run_type_byte env w 3 _ br hs (by decide) (by decide)]
  rw [run_preamble_byte _ _ _ _ _ (by simp) (by simp [hci_preamble_table, HCI_SCO_PREAMBLE_SIZE])]
  rw [run_preamble_byte _ _ _ _ _ (by simp) (by simp [hci_preamble_table, HCI_SCO_PREAMBLE_SIZE])]
  rw [run_cons, rx_byte_len _ _ _ _ (by simp)]
  have hsub : u16_sub (3 - 1 - 1) 1 = 0 := by decide
  simp only [rx_len, hci_preamble_table, HCI_SCO_PREAMBLE_SIZE, hsub, H4_TYPE_ACL_DATA,
    World.setCb, List.getD_cons_zero, List.getD_cons_succ,
    List.set_cons_zero, List.set_cons_succ, List.replicate, if_false, if_true,
    Nat.reduceAdd, Nat.reduceMod, Nat.reduceSub, Nat.reduceEqDiff, hcb, alloc, hu, hal,
    World.setBuf, World.buf, getD_append_length, set_append_length, msg_evt_table,
    List.take_succ_cons, List.take_zero, write_bytes, BT_HC_HDR_SIZE, Nat.add_sub_cancel,
    rx_len_acquired, u16_u16_add, Nat.add_zero, u16_idem]
  by_cases h0 : n = 0
  · subst h0
    simp [received]
  · simp [h0, acquired]

theorem evt_header (env : Env) (w : World) (c n : Nat) (rest : List Nat) (br : Nat)
    (hs : w.h4_cb.rcv_state = H4_RX_MSGTYPE_ST) (hcb : env.bt_hc_cbacks = true)
    (hn : n < 256) (hal : env.alloc_ok w.n_alloc (n + 2 + BT_HC_HDR_SIZE) = true) :
    run env w (4 :: c :: n :: rest) br =
      run env
        (if n ≠ 0 then acquired w 4 MSG_HC_TO_STACK_HCI_EVT [c, n] n H4_RX_DATA_ST
         else rx_deliver env (received w 4 MSG_HC_TO_STACK_HCI_EVT [c, n] [] 0))
        rest (u16 (br + 3)) := by
  have hu : u16 (n + 2 + 8) = n + 2 + 8 := u16_of_lt (by omega)
  simp only [BT_HC_HDR_SIZE] at hal
  rw [run_type_byte env w 4 _ br hs (by decide) (by decide)]
  rw [run_preamble_byte _ _ _ _ _ (by simp) (by simp [hci_preamble_table, HCI_EVT_PREAMBLE_SIZE])]
  rw [run_cons, rx_byte_len _ _ _ _ (by simp)]
  have hsub : u16_sub (2 - 1) 1 = 0 := by decide
  simp only [rx_len, hci_preamble_table, HCI_EVT_PREAMBLE_SIZE, hsub, H4_TYPE_ACL_DATA,
    World.setCb, List.getD_cons_zero, List.getD_cons_succ,
    List.set_cons_zero, List.set_cons_succ, List.replicate, if_false, if_true,
    Nat.reduceAdd, Nat.reduceMod, Nat.reduceSub, Nat.reduceEqDiff, hcb, alloc, hu, hal,
    World.setBuf, World.buf, getD_append_length, set_append_length, msg_evt_table,
    List.take_succ_cons, List.take_zero, write_bytes, BT_HC_HDR_SIZE, Nat.add_sub_cancel,
    rx_len_acquired, u16_u16_add, Nat.add_zero, u16_idem]
  by_cases h0 : n = 0
  · subst h0
    simp [received]
  · simp [h0, acquired]

theorem rx_data_end_nonacl (w : World) (hl : w.h4_cb.rcv_len = 0)
    (ht : w.h4_cb.rcv_msg_type ≠ H4_TYPE_ACL_DATA) :
    rx_data_end w = (w.setCb { w.h4_cb with rcv_state := H4_RX_MSGTYPE_ST }, true) := by
  simp only [rx_data_end, hl, ht, if_true, if_false]

theorem after_end_nonacl (env : Env) (w : World) (hl : w.h4_cb.rcv_len = 0)
    (ht : w.h4_cb.rcv_msg_type ≠ H4_TYPE_ACL_DATA) :
    after_end env w = rx_deliver env (w.setCb { w.h4_cb with rcv_state := H4_RX_MSGTYPE_ST }) := by
  simp only [after_end, rx_data_end_nonacl w hl ht, if_true]

theorem nonacl_body (env : Env) (w : World) (t evt : Nat) (pre body : List Nat) (n : Nat)
    (ht : t ≠ H4_TYPE_ACL_DATA) (hb : body.length = n) (hn0 : 0 < n)
    (hlen : pre.length + n < 65536) :
    ∃ nb, ∀ (s : List Nat) (br : Nat),
      run env (acquired w t evt pre n H4_RX_DATA_ST) (body ++ s) br =
        run env (rx_deliver env (received w t evt pre body nb)) s (u16 (br + n)) := by
  obtain ⟨nb, h⟩ := run_data env n body (acquired w t evt pre n H4_RX_DATA_ST) w.heap.length
    hb hn0 (by omega) rfl rfl (by simp [acquired]) rfl
    (by simp only [acquired, World.buf, getD_append_length]; omega)
  refine ⟨nb, fun s br => ?_⟩
  rw [h s br]
  have hw : write_bytes (pre ++ List.replicate n 0) pre.length body = pre ++ body := by
    rw [write_bytes_eq _ _ _ (by simp [hb])]
    simp [hb]
  have hu : u16 (pre.length + body.length) = pre.length + body.length :=
    u16_of_lt (by omega)
  rw [after_end_nonacl env _ rfl ht]
  congr 1
  simp only [stored, acquired, World.buf, getD_append_length, set_append_length, hw, World.setCb,
    received, hu]

theorem rx_deliver_sco (env : Env) (w : World) (pre body : List Nat) (nb : Nat)
    (hcb : env.bt_hc_cbacks = true) :
    rx_deliver env (received w 3 MSG_HC_TO_STACK_HCI_SCO pre body nb) =
      { received w 3 MSG_HC_TO_STACK_HCI_SCO pre body nb with
        h4_cb := { (received w 3 MSG_HC_TO_STACK_HCI_SCO pre body nb).h4_cb with
          p_rcv_msg := none }
        trace := w.trace ++
          [Effect.btsnoop_capture
              ⟨MSG_HC_TO_STACK_HCI_SCO, pre.length + body.length, 0, 0, pre ++ body⟩ true,
           Effect.data_ind w.heap.length
              ⟨MSG_HC_TO_STACK_HCI_SCO, pre.length + body.length, 0, 0, pre ++ body⟩
              (pre.length + body.length + BT_HC_HDR_SIZE)] } := by
  have h1 : MSG_HC_TO_STACK_HCI_SCO ≠ MSG_HC_TO_STACK_HCI_ACL := by decide
  have h2 : MSG_HC_TO_STACK_HCI_SCO ≠ MSG_HC_TO_STACK_HCI_EVT := by decide
  simp only [rx_deliver, received, World.buf, getD_append_length, h1, h2, ne_eq,
    not_false_eq_true, if_true, if_false, World.emit, hcb, and_self, World.setCb,
    List.append_assoc, List.singleton_append]

theorem internal_event_intercept_pass (env : Env) (w : World) (p : Nat)
    (hp : w.h4_cb.p_rcv_msg = some p)
    (hni : ¬ ((w.buf p).data.getD 0 0 = HCI_COMMAND_COMPLETE_EVT ∧
      0 < w.h4_cb.int_cmd_rsp_pending ∧
      STREAM_TO_UINT16 (w.buf p).data 3 =
        (w.h4_cb.int_cmd.getD w.h4_cb.int_cmd_rd_idx ⟨0, tINT_CMD_CBACK.NULL⟩).opcode)) :
    ∃ credit : Int, internal_event_intercept env w =
      ({ w with h4_num_hci_cmd_pkts := credit }, false) := by
  by_cases h1 : (w.buf p).data.getD 0 0 = HCI_COMMAND_COMPLETE_EVT
  · by_cases h2 : 0 < w.h4_cb.int_cmd_rsp_pending
    · have h3 : ¬ (STREAM_TO_UINT16 (w.buf p).data 3 =
          (w.h4_cb.int_cmd.getD w.h4_cb.int_cmd_rd_idx ⟨0, tINT_CMD_CBACK.NULL⟩).opcode) :=
        fun h => hni ⟨h1, h2, h⟩
      refine ⟨((w.buf p).data.getD 2 0 : Nat), ?_⟩
      simp only [internal_event_intercept, hp, h1, if_true, gt_iff_lt, h2, h3, if_false]
    · refine ⟨((w.buf p).data.getD 2 0 : Nat), ?_⟩
      simp only [internal_event_intercept, hp, h1, if_true, gt_iff_lt, h2, if_false]
  · by_cases h4 : (w.buf p).data.getD 0 0 = HCI_COMMAND_STATUS_EVT
    · refine ⟨((w.buf p).data.getD 3 0 : Nat), ?_⟩
      have hne : ¬ (HCI_COMMAND_STATUS_EVT = HCI_COMMAND_COMPLETE_EVT) := by decide
      simp only [internal_event_intercept, hp, h4, hne, if_true, if_false]
    · refine ⟨w.h4_num_hci_cmd_pkts, ?_⟩
      simp only [internal_event_intercept, hp, h1, h4, if_false]

theorem rx_deliver_evt (env : Env) (w : World) (pre body : List Nat) (nb : Nat)
    (hcb : env.bt_hc_cbacks = true)
    (hni : ¬ ((pre ++ body).getD 0 0 = HCI_COMMAND_COMPLETE_EVT ∧
      0 < w.h4_cb.int_cmd_rsp_pending ∧
      STREAM_TO_UINT16 (pre ++ body) 3 =
        (w.h4_cb.int_cmd.getD w.h4_cb.int_cmd_rd_idx ⟨0, tINT_CMD_CBACK.NULL⟩).opcode)) :
    ∃ credit : Int,
    rx_deliver env (received w 4 MSG_HC_TO_STACK_HCI_EVT pre body nb) =
      { received w 4 MSG_HC_TO_STACK_HCI_EVT pre body nb with
        h4_cb := { (received w 4 MSG_HC_TO_STACK_HCI_EVT pre body nb).h4_cb with
          p_rcv_msg := none }
        h4_num_hci_cmd_pkts := credit
        trace := w.trace ++
          [Effect.btsnoop_capture
              ⟨MSG_HC_TO_STACK_HCI_EVT, pre.length + body.length, 0, 0, pre ++ body⟩ true,
           Effect.data_ind w.heap.length
              ⟨MSG_HC_TO_STACK_HCI_EVT, pre.length + body.length, 0, 0, pre ++ body⟩
              (pre.length + body.length + BT_HC_HDR_SIZE)] } := by
  have h1 : MSG_HC_TO_STACK_HCI_EVT ≠ MSG_HC_TO_STACK_HCI_ACL := by decide
  obtain ⟨credit, hc⟩ := internal_event_intercept_pass env
    ((received w 4 MSG_HC_TO_STACK_HCI_EVT pre body nb).emit
      (Effect.btsnoop_capture
        ⟨MSG_HC_TO_STACK_HCI_EVT, pre.length + body.length, 0, 0, pre ++ body⟩ true))
    w.heap.length rfl
    (by simpa only [received, World.emit, World.buf, getD_append_length] using hni)
  refine ⟨credit, ?_⟩
  simp only [received, World.emit] at hc
  simp only [rx_deliver, received, World.buf, getD_append_length, h1, ne_eq,
    not_false_eq_true, if_true, World.emit, hc, hcb, and_self, World.setCb,
    List.append_assoc, List.singleton_append]

theorem sco_packet (env : Env) (w : World) (a b n : Nat) (body : List Nat)
    (hs : w.h4_cb.rcv_state = H4_RX_MSGTYPE_ST) (hcb : env.bt_hc_cbacks = true)
    (hb : body.length = n) (hn : n < 256)
    (hal : env.alloc_ok w.n_alloc (n + 3 + BT_HC_HDR_SIZE) = true) :
    ∃ nb, ∀ (s : List Nat) (br : Nat),
      run env w (3 :: a :: b :: n :: (body ++ s)) br =
        run env (rx_deliver env (received w 3 MSG_HC_TO_STACK_HCI_SCO [a, b, n] body nb)) s
          (u16 (br + 4 + n)) := by
  by_cases h0 : n = 0
  · subst h0
    have hnil : body = [] := List.length_eq_zero.mp hb
    subst hnil
    refine ⟨0, fun s br => ?_⟩
    rw [sco_header env w a b 0 _ br hs hcb hn hal]
    simp
  · obtain ⟨nb, h⟩ := nonacl_body env w 3 MSG_HC_TO_STACK_HCI_SCO [a, b, n] body n
      (by decide) hb (by omega) (by simp; omega)
    refine ⟨nb, fun s br => ?_⟩
    rw [sco_header env w a b n _ br hs hcb hn hal, if_pos h0, h s, u16_u16_add]

theorem evt_packet (env : Env) (w : World) (c n : Nat) (body : List Nat)
    (hs : w.h4_cb.rcv_state = H4_RX_MSGTYPE_ST) (hcb : env.bt_hc_cbacks = true)
    (hb : body.length = n) (hn : n < 256)
    (hal : env.alloc_ok w.n_alloc (n + 2 + BT_HC_HDR_SIZE) = true) :
    ∃ nb, ∀ (s : List Nat) (br : Nat),
      run env w (4 :: c :: n :: (body ++ s)) br =
        run env (rx_deliver env (received w 4 MSG_HC_TO_STACK_HCI_EVT [c, n] body nb)) s
          (u16 (br + 3 + n)) := by
  by_cases h0 : n = 0
  · subst h0
    have hnil : body = [] := List.length_eq_zero.mp hb
    subst hnil
    refine ⟨0, fun s br => ?_⟩
    rw [evt_header env w c 0 _ br hs hcb hn hal]
    simp
  · obtain ⟨nb, h⟩ := nonacl_body env w 4 MSG_HC_TO_STACK_HCI_EVT [c, n] body n
      (by decide) hb (by omega) (by simp; omega)
    refine ⟨nb, fun s br => ?_⟩
    rw [evt_header env w c n _ br hs hcb hn hal, if_pos h0, h s, u16_u16_add]

theorem delivered_append_data_ind (p : Nat) (m : HC_BT_HDR)
    (k : Nat) (w w' : World) (hw : w'.trace = w.trace ++ [Effect.btsnoop_capture m true,
      Effect.data_ind p m k]) :
    delivered w' = delivered w ++ [(p, m)] := by
  simp [delivered, hw, List.filterMap_append]

/-- C1: round trip of SCO packets (type byte 3, preamble `a b n`) and of Event
packets that are not intercepted (type byte 4, preamble `c n`), each followed by
exactly `n` body bytes. Started in H4_RX_MSGTYPE_ST with registered callbacks
and a successful allocation, `hci_h4_receive_msg` hands exactly one buffer to
`data_ind`: its tag is the SCO resp. EVT tag, its `len` is the preamble size
plus `n`, its data bytes are the preamble followed by the body; afterwards the
state is H4_RX_MSGTYPE_ST again and the bytes that follow start a new packet. -/
theorem non_acl_round_trip (env : Env) (w : World)
    (hs : w.h4_cb.rcv_state = H4_RX_MSGTYPE_ST) (hcb : env.bt_hc_cbacks = true) :
    (∀ (a b n : Nat) (body : List Nat), body.length = n → n < 256 →
      env.alloc_ok w.n_alloc (n + HCI_SCO_PREAMBLE_SIZE + BT_HC_HDR_SIZE) = true →
      ∃ w' : World,
        (∀ (s : List Nat) (br : Nat),
          run env w (3 :: a :: b :: n :: (body ++ s)) br = run env w' s (u16 (br + 4 + n))) ∧
        hci_h4_receive_msg env w (3 :: a :: b :: n :: body) = (u16 (4 + n), w') ∧
        delivered w' = delivered w ++
          [(w.heap.length,
            ⟨MSG_HC_TO_STACK_HCI_SCO, HCI_SCO_PREAMBLE_SIZE + n, 0, 0, [a, b, n] ++ body⟩)] ∧
        w'.h4_cb.rcv_state = H4_RX_MSGTYPE_ST ∧ w'.h4_cb.p_rcv_msg = none) ∧
    (∀ (c n : Nat) (body : List Nat), body.length = n → n < 256 →
      env.alloc_ok w.n_alloc (n + HCI_EVT_PREAMBLE_SIZE + BT_HC_HDR_SIZE) = true →
      ¬ (c = HCI_COMMAND_COMPLETE_EVT ∧ 0 < w.h4_cb.int_cmd_rsp_pending ∧
          STREAM_TO_UINT16 ([c, n] ++ body) 3 =
            (w.h4_cb.int_cmd.getD w.h4_cb.int_cmd_rd_idx ⟨0, tINT_CMD_CBACK.NULL⟩).opcode) →
      ∃ w' : World,
        (∀ (s : List Nat) (br : Nat),
          run env w (4 :: c :: n :: (body ++ s)) br = run env w' s (u16 (br + 3 + n))) ∧
        hci_h4_receive_msg env w (4 :: c :: n :: body) = (u16 (3 + n), w') ∧
        delivered w' = delivered w ++
          [(w.heap.length,
            ⟨MSG_HC_TO_STACK_HCI_EVT, HCI_EVT_PREAMBLE_SIZE + n, 0, 0, [c, n] ++ body⟩)] ∧
        w'.h4_cb.rcv_state = H4_RX_MSGTYPE_ST ∧ w'.h4_cb.p_rcv_msg = none) := by
  constructor
  · intro a b n body hb hn hal
    obtain ⟨nb, h⟩ := sco_packet env w a b n body hs hcb hb hn hal
    rw [rx_deliver_sco env w _ _ nb hcb] at h
    refine ⟨_, h, ?_, ?_, ?_, ?_⟩
    · have := h [] 0
      rw [List.append_nil, run_nil] at this
      rw [hci_h4_receive_msg_eq_run, this, Nat.zero_add]
    · rw [delivered_append_data_ind _ _ _ w _ rfl]
      simp [hb, HCI_SCO_PREAMBLE_SIZE]
    · rfl
    · rfl
  · intro c n body hb hn hal hni
    obtain ⟨nb, h⟩ := evt_packet env w c n body hs hcb hb hn hal
    obtain ⟨credit, hd⟩ := rx_deliver_evt env w [c, n] body nb hcb (by simpa using hni)
    rw [hd] at h
    refine ⟨_, h, ?_, ?_, ?_, ?_⟩
    · have := h [] 0
      rw [List.append_nil, run_nil] at this
      rw [hci_h4_receive_msg_eq_run, this, Nat.zero_add]
    · rw [delivered_append_data_ind _ _ _ w _ rfl]
      simp [hb, HCI_EVT_PREAMBLE_SIZE]
    · rfl
    · rfl

theorem non_acl_round_trip_witness :
    ∃ w' : World,
      hci_h4_receive_msg Env.ideal (hci_h4_init World.boot) [3, 1, 0, 2, 7, 9] =
        (u16 (4 + 2), w') ∧
      delivered w' = delivered (hci_h4_init World.boot) ++
        [(0, ⟨MSG_HC_TO_STACK_HCI_SCO, HCI_SCO_PREAMBLE_SIZE + 2, 0, 0, [1, 0, 2] ++ [7, 9]⟩)] ∧
      w'.h4_cb.rcv_state = H4_RX_MSGTYPE_ST :=
  match (non_acl_round_trip Env.ideal (hci_h4_init World.boot) (by decide) rfl).1 1 0 2 [7, 9]
      rfl (by decide) rfl with
  | ⟨w', h⟩ => ⟨w', h.2.1, h.2.2.1, h.2.2.2.1⟩

/-! ## A second Start packet on a pending handle (C6) -/

theorem find_unique (q : List Nat) (f : Nat → Bool) (B : Nat) (hB : B ∈ q) (hf : f B = true)
    (hu : ∀ p ∈ q, f p = true → p = B) : q.find? f = some B := by
  induction q with
  | nil => simp at hB
  | cons x q ih =>
    by_cases hx : f x = true
    · have := hu x (by simp) hx
      subst this
      simp [List.find?, hx]
    · have hxB : B ≠ x := fun h => hx (h ▸ hf)
      have hB' : B ∈ q := by
        rcases List.mem_cons.mp hB with h | h
        · exact absurd h hxB
        · exact h
      simp only [List.find?, Bool.not_eq_true] at hx ⊢
      rw [hx]
      exact ih hB' (fun p hp => hu p (List.mem_cons_of_mem _ hp))

theorem acl_rx_q_find_some (w : World) (h B : Nat) (hB : B ∈ w.h4_cb.acl_rx_q)
    (hh : saved_handle w B = h)
    (hu : ∀ p ∈ w.h4_cb.acl_rx_q, saved_handle w p = h → p = B) :
    acl_rx_q_find w h = some B := by
  apply find_unique _ _ B hB (by simpa using hh)
  intro p hp hf
  exact hu p hp (by simpa using hf)

theorem acl_total_bytes (h pb bc n L : Nat) (t : List Nat) :
    STREAM_TO_UINT16 (acl_preamble h pb bc n ++ (L % 256) :: (L / 256) :: t) 4 = L := by
  simp only [STREAM_TO_UINT16, acl_preamble, shl_8, List.cons_append, List.nil_append,
    List.getD_cons_succ, List.getD_cons_zero]
  omega

/-- What `acl_rx_frame_buffer_alloc` does for a Start packet on a handle that
already has a base buffer `B`, when the new allocation succeeds. -/
theorem acl_rx_frame_buffer_alloc_evict (env : Env) (w : World) (h bc n L B : Nat)
    (hh : h < 4096) (hcb : env.bt_hc_cbacks = true)
    (hpre : w.h4_cb.preload_buffer =
      acl_preamble h ACL_RX_PKT_START bc n ++ [L % 256, L / 256])
    (hB : B ∈ w.h4_cb.acl_rx_q) (hhB : saved_handle w B = h)
    (hu : ∀ p ∈ w.h4_cb.acl_rx_q, saved_handle w p = h → p = B)
    (hal : env.alloc_ok w.n_alloc
      (L + HCI_ACL_PREAMBLE_SIZE + L2CAP_HEADER_SIZE + BT_HC_HDR_SIZE) = true) :
    acl_rx_frame_buffer_alloc env w =
      ({ w with
          h4_cb := { w.h4_cb with
            rcv_len := if n ≠ 0 then u16_sub n 2 else 0
            acl_rx_q :=
              if n ≠ 0 ∧ L + L2CAP_HEADER_SIZE > n then
                utils_enqueue (utils_remove_from_queue w.h4_cb.acl_rx_q B) w.heap.length
              else utils_remove_from_queue w.h4_cb.acl_rx_q B }
          heap := w.heap ++
            [⟨MSG_HC_TO_STACK_HCI_ACL, w.h4_cb.preload_count, 0, 0,
              write_bytes (List.replicate (L + 8) 0) 0
                ((acl_preamble h ACL_RX_PKT_START bc n ++ [L % 256, L / 256]).take
                  w.h4_cb.preload_count)⟩]
          trace := w.trace ++ [Effect.dealloc B]
          n_alloc := w.n_alloc + 1 }, some w.heap.length) := by
  obtain ⟨e0, e1, e2, _⟩ := acl_word_bytes (n := n) (t := [L % 256, L / 256]) h
    ACL_RX_PKT_START bc hh (by decide)
  have e3 := acl_len_bytes h ACL_RX_PKT_START bc n [L % 256, L / 256]
  have e4 := acl_total_bytes h ACL_RX_PKT_START bc n L []
  have hf := acl_rx_q_find_some w h B hB hhB hu
  have hq : w.h4_cb.acl_rx_q.length ≠ 0 := by
    intro h0
    rw [List.length_eq_zero.mp h0] at hB
    simp at hB
  simp only [HCI_ACL_PREAMBLE_SIZE, L2CAP_HEADER_SIZE, BT_HC_HDR_SIZE] at hal
  by_cases hc : n ≠ 0 ∧ L + 4 > n
  · simp [acl_rx_frame_buffer_alloc, hpre, e0, e1, e2, e3, e4, hf, hq, hcb, alloc, hal, hc,
      dealloc, HCI_ACL_PREAMBLE_SIZE, L2CAP_HEADER_SIZE, BT_HC_HDR_SIZE, getD_append_length,
      set_append_length]
  · simp [acl_rx_frame_buffer_alloc, hpre, e0, e1, e2, e3, e4, hf, hq, hcb, alloc, hal, hc,
      dealloc, HCI_ACL_PREAMBLE_SIZE, L2CAP_HEADER_SIZE, BT_HC_HDR_SIZE, getD_append_length,
      set_append_length]

theorem rx_len_acquired_snd (w : World) (n : Nat) (hn : n ≠ 0) :
    (rx_len_acquired w n).2 = false := by
  cases hp : w.h4_cb.p_rcv_msg <;> simp [rx_len_acquired, hp, hn]

/-- The seven header bytes of an ACL Start packet with non-zero HCI length. -/
theorem acl_start_header (env : Env) (w : World) (h bc n L : Nat) (rest : List Nat) (br : Nat)
    (hs : w.h4_cb.rcv_state = H4_RX_MSGTYPE_ST) (hh : h < 4096)
    (hn0 : n ≠ 0) (hn : n < 65536) :
    run env w (2 :: (acl_preamble h ACL_RX_PKT_START bc n ++ (L % 256) :: (L / 256) :: rest)) br
      = run env
        (rx_len_acquired
          (acl_acquire env
            (acl_hdr w (acl_preamble h ACL_RX_PKT_START bc n ++ [L % 256, L / 256]) 6)) n).1
        rest (u16 (br + 7)) := by
  obtain ⟨_, _, _, e4⟩ := acl_word_bytes (n := n) (t := [0, 0]) h ACL_RX_PKT_START bc hh
    (by decide)
  have hml : u16 ((n / 256) <<< 8 + n % 256) = n := by
    rw [shl_8, u16_of_lt (by omega)]; omega
  have hsub : u16_sub (4 - 1 - 1 - 1) 1 = 0 := by decide
  have hsub2 : u16_sub 2 1 = 1 := by decide
  have hsub3 : u16_sub 1 1 = 0 := by decide
  rw [run_type_byte env w 2 _ br hs (by decide) (by decide)]
  simp only [acl_preamble, List.cons_append]
  rw [run_preamble_byte _ _ _ _ _ (by simp) (by simp [hci_preamble_table, HCI_ACL_PREAMBLE_SIZE])]
  rw [run_preamble_byte _ _ _ _ _ (by simp) (by simp [hci_preamble_table, HCI_ACL_PREAMBLE_SIZE])]
  rw [run_preamble_byte _ _ _ _ _ (by simp) (by simp [hci_preamble_table, HCI_ACL_PREAMBLE_SIZE])]
  rw [run_cons, rx_byte_len _ _ _ _ (by simp)]
  simp only [rx_len, hci_preamble_table, HCI_ACL_PREAMBLE_SIZE, hsub, H4_TYPE_ACL_DATA, e4,
    hn0, hml, World.setCb, List.getD_cons_zero, List.getD_cons_succ,
    List.set_cons_zero, List.set_cons_succ, List.replicate, if_false, if_true,
    Nat.reduceAdd, Nat.reduceMod, Nat.reduceSub, ne_eq, not_false_eq_true, and_self,
    Bool.false_eq_true, Nat.add_zero, u16_idem, List.nil_append]
  rw [run_preamble_byte _ _ _ _ _ (by simp) (by simp)]
  rw [run_cons, rx_byte_len _ _ _ _ (by simp)]
  have hfalse : ∀ X : World, (rx_len_acquired X n).2 = false :=
    fun X => rx_len_acquired_snd X n hn0
  simp only [rx_len, hsub2, hsub3, H4_TYPE_ACL_DATA, hml, hn0, World.setCb,
    List.getD_cons_zero, List.getD_cons_succ, List.set_cons_zero, List.set_cons_succ,
    if_false, if_true, Nat.reduceAdd, Nat.reduceMod, Nat.reduceSub, ne_eq, not_false_eq_true,
    Nat.reduceEqDiff, and_false, and_true, true_and, false_and, Nat.add_zero, u16_idem,
    u16_u16_add, hfalse, Bool.false_eq_true, acl_acquire, acl_hdr, acl_preamble,
    List.cons_append, List.nil_append]

theorem saved_handle_append (w w' : World) (p : Nat) (b : HC_BT_HDR)
    (hp : p < w.heap.length) (hh : w'.heap = w.heap ++ [b]) :
    saved_handle w' p = saved_handle w p := by
  simp only [saved_handle, World.buf, hh]
  rw [List.getD_append _ _ _ _ hp]

theorem freed_append_dealloc (w w' : World) (p : Nat)
    (hw : w'.trace = w.trace ++ [Effect.dealloc p]) :
    freed w' = freed w ++ [p] ∧ delivered w' = delivered w := by
  simp [freed, delivered, hw, List.filterMap_append]

theorem take_write_bytes_zero (xs : List Nat) (k : Nat) (h : xs.length ≤ k) :
    (write_bytes (List.replicate k 0) 0 xs).take xs.length = xs := by
  rw [write_bytes_eq _ _ _ (by simpa using h)]
  simp

/-- The properties of the world after the eviction, for any world `w` at the
call of `acl_rx_frame_buffer_alloc`. -/
theorem evict_props (env : Env) (w : World) (h bc n L B : Nat)
    (hh : h < 4096) (hcb : env.bt_hc_cbacks = true)
    (hpre : w.h4_cb.preload_buffer =
      acl_preamble h ACL_RX_PKT_START bc n ++ [L % 256, L / 256])
    (hcnt : w.h4_cb.preload_count ≤ 6)
    (hB : B ∈ w.h4_cb.acl_rx_q) (hhB : saved_handle w B = h)
    (hu : ∀ p ∈ w.h4_cb.acl_rx_q, saved_handle w p = h → p = B)
    (hnd : w.h4_cb.acl_rx_q.Nodup) (hwf : ∀ p ∈ w.h4_cb.acl_rx_q, p < w.heap.length)
    (hal : env.alloc_ok w.n_alloc
      (L + HCI_ACL_PREAMBLE_SIZE + L2CAP_HEADER_SIZE + BT_HC_HDR_SIZE) = true) :
    (acl_rx_frame_buffer_alloc env w).2 = some w.heap.length ∧
    B ∉ (acl_rx_frame_buffer_alloc env w).1.h4_cb.acl_rx_q ∧
    freed (acl_rx_frame_buffer_alloc env w).1 = freed w ++ [B] ∧
    delivered (acl_rx_frame_buffer_alloc env w).1 = delivered w ∧
    w.heap.length ∉ w.h4_cb.acl_rx_q ∧
    (acl_rx_frame_buffer_alloc env w).1.heap.length = w.heap.length + 1 ∧
    ((acl_rx_frame_buffer_alloc env w).1.buf w.heap.length).event = MSG_HC_TO_STACK_HCI_ACL ∧
    ((acl_rx_frame_buffer_alloc env w).1.buf w.heap.length).len = w.h4_cb.preload_count ∧
    ((acl_rx_frame_buffer_alloc env w).1.buf w.heap.length).data.take w.h4_cb.preload_count =
      w.h4_cb.preload_buffer.take w.h4_cb.preload_count ∧
    (w.heap.length ∈ (acl_rx_frame_buffer_alloc env w).1.h4_cb.acl_rx_q ↔
      (n ≠ 0 ∧ L + L2CAP_HEADER_SIZE > n)) ∧
    (∀ p ∈ (acl_rx_frame_buffer_alloc env w).1.h4_cb.acl_rx_q,
      saved_handle (acl_rx_frame_buffer_alloc env w).1 p = h → p = w.heap.length) := by
  have hBlt : B < w.heap.length := hwf B hB
  have hfresh : w.heap.length ∉ w.h4_cb.acl_rx_q := fun hm => Nat.lt_irrefl _ (hwf _ hm)
  have hBne : B ≠ w.heap.length := by omega
  have hBerase : B ∉ w.h4_cb.acl_rx_q.erase B := fun hm => (List.Nodup.mem_erase_iff hnd).mp hm |>.1 rfl
  have hfe : w.heap.length ∉ w.h4_cb.acl_rx_q.erase B := fun hm => hfresh (List.mem_of_mem_erase hm)
  have hlen : ((acl_preamble h ACL_RX_PKT_START bc n ++ [L % 256, L / 256]).take
      w.h4_cb.preload_count).length = w.h4_cb.preload_count := by
    simp [acl_preamble]; omega
  rw [acl_rx_frame_buffer_alloc_evict env w h bc n L B hh hcb hpre hB hhB hu hal]
  refine ⟨rfl, ?_, ?_, ?_, hfresh, ?_, ?_, ?_, ?_, ?_, ?_⟩
  · by_cases hc : n ≠ 0 ∧ L + L2CAP_HEADER_SIZE > n
    · show B ∉ (if n ≠ 0 ∧ L + L2CAP_HEADER_SIZE > n then _ else _)
      rw [if_pos hc]
      simp only [utils_enqueue, utils_remove_from_queue, List.mem_append,
        List.mem_singleton, not_or]
      exact ⟨hBerase, hBne⟩
    · show B ∉ (if n ≠ 0 ∧ L + L2CAP_HEADER_SIZE > n then _ else _)
      rw [if_neg hc]
      exact hBerase
  · exact (freed_append_dealloc w _ B rfl).1
  · exact (freed_append_dealloc w _ B rfl).2
  · simp
  · simp [World.buf, getD_append_length]
  · simp [World.buf, getD_append_length]
  · simp only [World.buf, getD_append_length, hpre]
    have := take_write_bytes_zero
      ((acl_preamble h ACL_RX_PKT_START bc n ++ [L % 256, L / 256]).take w.h4_cb.preload_count)
      (L + 8) (by rw [hlen]; omega)
    rw [hlen] at this
    exact this
  · by_cases hc : n ≠ 0 ∧ L + L2CAP_HEADER_SIZE > n
    · show (w.heap.length ∈ (if n ≠ 0 ∧ L + L2CAP_HEADER_SIZE > n then _ else _)) ↔ _
      rw [if_pos hc]
      simp [hc, utils_enqueue]
    · show (w.heap.length ∈ (if n ≠ 0 ∧ L + L2CAP_HEADER_SIZE > n then _ else _)) ↔ _
      rw [if_neg hc]
      simp only [utils_remove_from_queue, hc, iff_false]
      exact hfe
  · intro p hp hsp
    have hcases : p ∈ w.h4_cb.acl_rx_q.erase B ∨ p = w.heap.length := by
      change p ∈ (if n ≠ 0 ∧ L + L2CAP_HEADER_SIZE > n then _ else _) at hp
      by_cases hc : n ≠ 0 ∧ L + L2CAP_HEADER_SIZE > n
      · rw [if_pos hc] at hp
        simpa [utils_enqueue, utils_remove_from_queue] using hp
      · rw [if_neg hc] at hp
        left; simpa [utils_remove_from_queue] using hp
    rcases hcases with hpe | hpf
    · exfalso
      have hpq : p ∈ w.h4_cb.acl_rx_q := List.mem_of_mem_erase hpe
      have hpne : p ≠ B := ((List.Nodup.mem_erase_iff hnd).mp hpe).1
      rw [saved_handle_append w _ p _ (hwf p hpq) rfl] at hsp
      exact hpne (hu p hpq hsp)
    · exact hpf

theorem rx_len_acquired_some (env : Env) (w : World) (n p : Nat) (hn : n ≠ 0)
    (hp : (acl_rx_frame_buffer_alloc env w).2 = some p) :
    (rx_len_acquired (acl_acquire env w) n).1 =
      (acl_rx_frame_buffer_alloc env w).1.setCb
        { (acl_rx_frame_buffer_alloc env w).1.h4_cb with
          p_rcv_msg := some p, rcv_state := H4_RX_DATA_ST } := by
  simp [rx_len_acquired, acl_acquire, hp, hn]

/-- C6 (counterexample): buffer 0 is pending for handle 1 and a new Start packet
for handle 1 arrives, but the allocation of the new buffer fails: buffer 0 is
removed and freed, and no buffer becomes the current receive buffer. -/
theorem duplicate_start_alloc_failure :
    (World.with_pending Env.one_buffer).h4_cb.acl_rx_q = [0] ∧
    (hci_h4_receive_msg Env.one_buffer (World.with_pending Env.one_buffer)
      [2, 1, 0x20, 4, 0, 4, 0]).2.h4_cb.p_rcv_msg = none ∧
    (hci_h4_receive_msg Env.one_buffer (World.with_pending Env.one_buffer)
      [2, 1, 0x20, 4, 0, 4, 0]).2.heap.length = 1 ∧
    (hci_h4_receive_msg Env.one_buffer (World.with_pending Env.one_buffer)
      [2, 1, 0x20, 4, 0, 4, 0]).2.h4_cb.acl_rx_q = [] ∧
    freed (hci_h4_receive_msg Env.one_buffer (World.with_pending Env.one_buffer)
      [2, 1, 0x20, 4, 0, 4, 0]).2 = [0] := by
  decide

/-! ## The end check of an ACL segment -/

theorem write_bytes_overwrite (data xs ys : List Nat) (pos : Nat)
    (hl : xs.length = ys.length) (hpos : pos + xs.length ≤ data.length) :
    write_bytes (write_bytes data pos xs) pos ys = write_bytes data pos ys := by
  rw [write_bytes_eq ys (write_bytes data pos xs) pos (by rw [write_bytes_length]; omega),
    write_bytes_eq xs data pos hpos, write_bytes_eq ys data pos (by omega)]
  have h1 : (List.take pos data).length = pos := by rw [List.length_take]; omega
  rw [List.take_append_eq_append_take, List.take_append_eq_append_take, h1]
  rw [List.drop_append_eq_append_drop, List.drop_append_eq_append_drop]
  simp only [List.length_append, h1, List.length_take, List.drop_drop]
  have e1 : pos - pos = 0 := by omega
  have e2 : pos + ys.length - (pos + xs.length) = 0 := by omega
  have e3 : List.drop (pos + ys.length) (List.take pos data) = [] :=
    List.drop_eq_nil_of_le (by rw [List.length_take]; omega)
  have e4 : List.drop (pos + ys.length - pos) xs = [] :=
    List.drop_eq_nil_of_le (by omega)
  have e5 : List.take pos (List.take pos data) = List.take pos data := by simp
  have e6 : pos + xs.length + 0 = pos + ys.length := by omega
  have e7 : pos - (pos + xs.length) = 0 := by omega
  simp only [e1, e2, e3, e4, e5, e6, e7, List.take_zero, List.append_nil, List.nil_append,
    List.drop_zero]

theorem write_bytes_drop_take (data : List Nat) (pos k : Nat) (h : pos + k ≤ data.length) :
    write_bytes data pos ((data.drop pos).take k) = data := by
  have hl : ((data.drop pos).take k).length = k := by
    rw [List.length_take, List.length_drop]; omega
  rw [write_bytes_eq _ _ _ (by rw [hl]; exact h), hl]
  have : List.drop (pos + k) data = List.drop k (List.drop pos data) := by
    rw [List.drop_drop, Nat.add_comm]
  rw [this, List.append_assoc, List.take_append_drop, List.take_append_drop]

/-- The four bytes borrowed for the trace of a continuation are put back. -/
theorem snoop_restore (data pre : List Nat) (pos a b : Nat)
    (hpos : pos + 4 ≤ data.length) (hpre : 4 ≤ pre.length) :
    write_bytes (UINT16_TO_STREAM (UINT16_TO_STREAM data pos a) (pos + 2) b) pos
      ((write_bytes pre 0 ((data.drop pos).take 4)).take 4) = data := by
  have hl : ((data.drop pos).take 4).length = 4 := by
    rw [List.length_take, List.length_drop]; omega
  have h1 : (write_bytes pre 0 ((data.drop pos).take 4)).take 4 = (data.drop pos).take 4 := by
    rw [write_bytes_eq _ _ _ (by rw [hl]; omega)]
    simp [hl]
  have h2 : UINT16_TO_STREAM (UINT16_TO_STREAM data pos a) (pos + 2) b =
      write_bytes data pos [a % 256, (a >>> 8) % 256, b % 256, (b >>> 8) % 256] := by
    simp only [UINT16_TO_STREAM]
    rw [show [a % 256, (a >>> 8) % 256, b % 256, (b >>> 8) % 256] =
      [a % 256, (a >>> 8) % 256] ++ [b % 256, (b >>> 8) % 256] from rfl, write_bytes_append]
    rfl
  rw [h1, h2, write_bytes_overwrite _ _ _ _ (by rw [hl]; rfl) (by simpa using hpos),
    write_bytes_drop_take _ _ _ hpos]

theorem erase_of_length_zero (q : List Nat) (p : Nat) (h : ¬ (q.length ≠ 0)) : q.erase p = q := by
  have : q = [] := List.length_eq_zero.mp (by omega)
  subst this; rfl

/-- The end check when more continuation segments are expected: the buffer keeps
its bytes and its `len`, its `offset` records the end position, the queue is
unchanged, a trace is emitted. -/
theorem end_chk_incomplete (w : World) (p : Nat)
    (hp : w.h4_cb.p_rcv_msg = some p) (hpl : p < w.heap.length)
    (hoff : (w.buf p).offset = 0 ∨
      (4 ≤ (w.buf p).offset ∧ (w.buf p).offset ≤ (w.buf p).data.length))
    (hpre : 4 ≤ w.h4_cb.preload_buffer.length)
    (hinc : STREAM_TO_UINT16 (w.buf p).data 2 > 0 ∧
      (STREAM_TO_UINT16 (w.buf p).data 4 : Int) > ((w.buf p).len : Int) - 8) :
    ∃ (pl : List Nat) (m : HC_BT_HDR), acl_rx_frame_end_chk w =
      ({ w with
          h4_cb := { w.h4_cb with preload_buffer := pl }
          heap := w.heap.set p { w.buf p with offset := (w.buf p).len }
          trace := w.trace ++ [Effect.btsnoop_capture m true] }, false) := by
  have hinc2 : ((STREAM_TO_UINT16 (w.buf p).data 4 : Nat) : Int) >
      ((w.buf p).len : Int) - ((4 + L2CAP_HEADER_SIZE : Nat) : Int) := by
    simpa [L2CAP_HEADER_SIZE] using hinc.2
  have hinc1 := hinc.1
  simp only [World.buf] at hoff hinc1 hinc2 ⊢
  rcases hoff with h0 | ⟨h4, hle⟩
  · refine ⟨w.h4_cb.preload_buffer, w.heap.getD p ⟨0, 0, 0, 0, []⟩, ?_⟩
    rw [acl_rx_frame_end_chk, hp]
    simp only [World.buf, HCI_ACL_PREAMBLE_SIZE, hinc1, hinc2, if_true, h0, ne_eq,
      not_true_eq_false, if_false, World.emit, World.setBuf, Bool.false_eq_true]
    rw [← hp]
  · have hne : ¬ ((w.heap.getD p ⟨0, 0, 0, 0, []⟩).offset = 0) := by omega
    have hpos : (w.heap.getD p ⟨0, 0, 0, 0, []⟩).offset - 4 + 4 ≤
        (w.heap.getD p ⟨0, 0, 0, 0, []⟩).data.length := by omega
    refine ⟨write_bytes w.h4_cb.preload_buffer 0
        (((w.heap.getD p ⟨0, 0, 0, 0, []⟩).data.drop
          ((w.heap.getD p ⟨0, 0, 0, 0, []⟩).offset - HCI_ACL_PREAMBLE_SIZE)).take
            HCI_ACL_PREAMBLE_SIZE),
      { w.heap.getD p ⟨0, 0, 0, 0, []⟩ with
        data := UINT16_TO_STREAM
          (UINT16_TO_STREAM (w.heap.getD p ⟨0, 0, 0, 0, []⟩).data
            ((w.heap.getD p ⟨0, 0, 0, 0, []⟩).offset - HCI_ACL_PREAMBLE_SIZE)
            ((STREAM_TO_UINT16 (w.heap.getD p ⟨0, 0, 0, 0, []⟩).data 0 &&& 0xCFFF) ||| 0x1000))
          ((w.heap.getD p ⟨0, 0, 0, 0, []⟩).offset - HCI_ACL_PREAMBLE_SIZE + 2)
          (u16_sub (w.heap.getD p ⟨0, 0, 0, 0, []⟩).len (w.heap.getD p ⟨0, 0, 0, 0, []⟩).offset)
        offset := u16_sub (w.heap.getD p ⟨0, 0, 0, 0, []⟩).offset HCI_ACL_PREAMBLE_SIZE
        len := u16_sub (w.heap.getD p ⟨0, 0, 0, 0, []⟩).len
          (u16_sub (w.heap.getD p ⟨0, 0, 0, 0, []⟩).offset HCI_ACL_PREAMBLE_SIZE) }, ?_⟩
    rw [acl_rx_frame_end_chk, hp]
    simp only [World.buf, hinc1, hinc2, if_true, hne, ne_eq, not_false_eq_true,
      if_false, World.emit, World.setBuf, World.setCb, Bool.false_eq_true,
      getD_set_self _ _ _ _ hpl, List.set_set, HCI_ACL_PREAMBLE_SIZE,
      snoop_restore _ _ _ _ _ hpos hpre]
    rw [← hp]

/-- The end check when the L2CAP length has been reached: the buffer keeps its
bytes and its `len`, its `offset` is reset, the buffer is taken out of the
queue, a trace is emitted. -/
theorem end_chk_complete (w : World) (p : Nat)
    (hp : w.h4_cb.p_rcv_msg = some p) (hpl : p < w.heap.length)
    (hoff : (w.buf p).offset = 0 ∨
      (4 ≤ (w.buf p).offset ∧ (w.buf p).offset ≤ (w.buf p).data.length))
    (hpre : 4 ≤ w.h4_cb.preload_buffer.length)
    (hlen : STREAM_TO_UINT16 (w.buf p).data 2 > 0)
    (hfull : ¬ ((STREAM_TO_UINT16 (w.buf p).data 4 : Int) > ((w.buf p).len : Int) - 8)) :
    ∃ (pl : List Nat) (m : HC_BT_HDR), acl_rx_frame_end_chk w =
      ({ w with
          h4_cb := { w.h4_cb with
            preload_buffer := pl
            acl_rx_q := utils_remove_from_queue w.h4_cb.acl_rx_q p }
          heap := w.heap.set p { w.buf p with offset := 0 }
          trace := w.trace ++ [Effect.btsnoop_capture m true] }, true) := by
  have hfull2 : ¬ (((STREAM_TO_UINT16 (w.buf p).data 4 : Nat) : Int) >
      ((w.buf p).len : Int) - ((4 + L2CAP_HEADER_SIZE : Nat) : Int)) := by
    simpa [L2CAP_HEADER_SIZE] using hfull
  have herase : ¬ (w.h4_cb.acl_rx_q.length ≠ 0) →
      utils_remove_from_queue w.h4_cb.acl_rx_q p = w.h4_cb.acl_rx_q :=
    fun h => erase_of_length_zero _ p h
  simp only [World.buf] at hoff hlen hfull2 ⊢
  rcases hoff with h0 | ⟨h4, hle⟩
  · refine ⟨w.h4_cb.preload_buffer, w.heap.getD p ⟨0, 0, 0, 0, []⟩, ?_⟩
    rw [acl_rx_frame_end_chk, hp]
    by_cases hql : w.h4_cb.acl_rx_q.length ≠ 0
    · simp only [World.buf, HCI_ACL_PREAMBLE_SIZE, hlen, hfull2, hql, if_true, h0, ne_eq,
        not_true_eq_false, not_false_eq_true, if_false, World.emit, World.setBuf, World.setCb,
        Bool.false_eq_true]
      rw [← hp]
    · rw [herase hql]
      simp only [World.buf, HCI_ACL_PREAMBLE_SIZE, hlen, hfull2, hql, if_true, h0, ne_eq,
        not_true_eq_false, not_false_eq_true, if_false, World.emit, World.setBuf, World.setCb,
        Bool.false_eq_true]
      rw [← hp]
  · have hne : ¬ ((w.heap.getD p ⟨0, 0, 0, 0, []⟩).offset = 0) := by omega
    have hpos : (w.heap.getD p ⟨0, 0, 0, 0, []⟩).offset - 4 + 4 ≤
        (w.heap.getD p ⟨0, 0, 0, 0, []⟩).data.length := by omega
    refine ⟨write_bytes w.h4_cb.preload_buffer 0
        (((w.heap.getD p ⟨0, 0, 0, 0, []⟩).data.drop
          ((w.heap.getD p ⟨0, 0, 0, 0, []⟩).offset - HCI_ACL_PREAMBLE_SIZE)).take
            HCI_ACL_PREAMBLE_SIZE),
      { w.heap.getD p ⟨0, 0, 0, 0, []⟩ with
        data := UINT16_TO_STREAM
          (UINT16_TO_STREAM (w.heap.getD p ⟨0, 0, 0, 0, []⟩).data
            ((w.heap.getD p ⟨0, 0, 0, 0, []⟩).offset - HCI_ACL_PREAMBLE_SIZE)
            ((STREAM_TO_UINT16 (w.heap.getD p ⟨0, 0, 0, 0, []⟩).data 0 &&& 0xCFFF) ||| 0x1000))
          ((w.heap.getD p ⟨0, 0, 0, 0, []⟩).offset - HCI_ACL_PREAMBLE_SIZE + 2)
          (u16_sub (w.heap.getD p ⟨0, 0, 0, 0, []⟩).len (w.heap.getD p ⟨0, 0, 0, 0, []⟩).offset)
        offset := u16_sub (w.heap.getD p ⟨0, 0, 0, 0, []⟩).offset HCI_ACL_PREAMBLE_SIZE
        len := u16_sub (w.heap.getD p ⟨0, 0, 0, 0, []⟩).len
          (u16_sub (w.heap.getD p ⟨0, 0, 0, 0, []⟩).offset HCI_ACL_PREAMBLE_SIZE) }, ?_⟩
    rw [acl_rx_frame_end_chk, hp]
    by_cases hql : w.h4_cb.acl_rx_q.length ≠ 0
    · simp only [World.buf, hlen, hfull2, hql, if_true, hne, ne_eq, not_false_eq_true,
        if_false, World.emit, World.setBuf, World.setCb, Bool.false_eq_true, not_true_eq_false,
        getD_set_self _ _ _ _ hpl, List.set_set, HCI_ACL_PREAMBLE_SIZE,
        snoop_restore _ _ _ _ _ hpos hpre]
      rw [← hp]
    · rw [herase hql]
      simp only [World.buf, hlen, hfull2, hql, if_true, hne, ne_eq, not_false_eq_true,
        if_false, World.emit, World.setBuf, World.setCb, Bool.false_eq_true, not_true_eq_false,
        getD_set_self _ _ _ _ hpl, List.set_set, HCI_ACL_PREAMBLE_SIZE,
        snoop_restore _ _ _ _ _ hpos hpre]
      rw [← hp]

/-! ## ACL reassembly: Start and Continuation segments (C4) -/

/-- What `acl_rx_frame_buffer_alloc` does for a Start packet on a handle without
a base buffer, when the allocation succeeds. -/
theorem acl_rx_frame_buffer_alloc_start (env : Env) (w : World) (h bc n L : Nat)
    (hh : h < 4096) (hcb : env.bt_hc_cbacks = true)
    (hpre : w.h4_cb.preload_buffer =
      acl_preamble h ACL_RX_PKT_START bc n ++ [L % 256, L / 256])
    (hq : ∀ p ∈ w.h4_cb.acl_rx_q, saved_handle w p ≠ h)
    (hal : env.alloc_ok w.n_alloc
      (L + HCI_ACL_PREAMBLE_SIZE + L2CAP_HEADER_SIZE + BT_HC_HDR_SIZE) = true) :
    acl_rx_frame_buffer_alloc env w =
      ({ w with
          h4_cb := { w.h4_cb with
            rcv_len := if n ≠ 0 then u16_sub n 2 else 0
            acl_rx_q :=
              if n ≠ 0 ∧ L + L2CAP_HEADER_SIZE > n then
                utils_enqueue w.h4_cb.acl_rx_q w.heap.length
              else w.h4_cb.acl_rx_q }
          heap := w.heap ++
            [⟨MSG_HC_TO_STACK_HCI_ACL, w.h4_cb.preload_count, 0, 0,
              write_bytes (List.replicate (L + 8) 0) 0
                ((acl_preamble h ACL_RX_PKT_START bc n ++ [L % 256, L / 256]).take
                  w.h4_cb.preload_count)⟩]
          n_alloc := w.n_alloc + 1 }, some w.heap.length) := by
  obtain ⟨e0, e1, e2, _⟩ := acl_word_bytes (n := n) (t := [L % 256, L / 256]) h
    ACL_RX_PKT_START bc hh (by decide)
  have e3 := acl_len_bytes h ACL_RX_PKT_START bc n [L % 256, L / 256]
  have e4 := acl_total_bytes h ACL_RX_PKT_START bc n L []
  have hf := acl_rx_q_find_none w h hq
  simp only [HCI_ACL_PREAMBLE_SIZE, L2CAP_HEADER_SIZE, BT_HC_HDR_SIZE] at hal
  by_cases hc : n ≠ 0 ∧ L + 4 > n
  · simp [acl_rx_frame_buffer_alloc, hpre, e0, e1, e2, e3, e4, hf, hcb, alloc, hal, hc,
      HCI_ACL_PREAMBLE_SIZE, L2CAP_HEADER_SIZE, BT_HC_HDR_SIZE, getD_append_length,
      set_append_length]
  · simp [acl_rx_frame_buffer_alloc, hpre, e0, e1, e2, e3, e4, hf, hcb, alloc, hal, hc,
      HCI_ACL_PREAMBLE_SIZE, L2CAP_HEADER_SIZE, BT_HC_HDR_SIZE, getD_append_length,
      set_append_length]

/-- What `acl_rx_frame_buffer_alloc` does for a Continuation packet whose
handle has the base buffer `B`: nothing is allocated, `B` is returned and its
HCI length field (data bytes 2..3) grows by the length of the new segment. -/
theorem acl_rx_frame_buffer_alloc_cont (env : Env) (w : World) (h bc n B : Nat)
    (hh : h < 4096)
    (hpre : w.h4_cb.preload_buffer = acl_preamble h ACL_RX_PKT_CONTINUE bc n ++ [0, 0])
    (hf : acl_rx_q_find w h = some B) (hq : w.h4_cb.acl_rx_q.length ≠ 0) :
    acl_rx_frame_buffer_alloc env w =
      ((w.setCb { w.h4_cb with rcv_len := n }).setBuf B
        { w.buf B with
          data := UINT16_TO_STREAM (w.buf B).data 2
            (u16 (STREAM_TO_UINT16 (w.buf B).data 2 + n)) }, some B) := by
  obtain ⟨e0, e1, e2, _⟩ := acl_word_bytes (n := n) (t := [0, 0]) h ACL_RX_PKT_CONTINUE bc hh
    (by decide)
  have e3 := acl_len_bytes h ACL_RX_PKT_CONTINUE bc n [0, 0]
  have hne : ¬ (ACL_RX_PKT_CONTINUE = ACL_RX_PKT_START) := by decide
  simp only [acl_rx_frame_buffer_alloc, hpre, e0, e1, e2, e3, hf, hq, hne, if_false, if_true,
    ne_eq, not_false_eq_true, World.buf, World.setCb, World.setBuf]

/-- The five header bytes of an ACL packet that is not a Start packet. -/
theorem acl_cont_header (env : Env) (w : World) (h bc n : Nat) (rest : List Nat) (br : Nat)
    (hs : w.h4_cb.rcv_state = H4_RX_MSGTYPE_ST) (hh : h < 4096)
    (hn0 : n ≠ 0) (hn : n < 65536) :
    run env w (2 :: (acl_preamble h ACL_RX_PKT_CONTINUE bc n ++ rest)) br
      = run env
        (rx_len_acquired
          (acl_acquire env
            (acl_hdr w (acl_preamble h ACL_RX_PKT_CONTINUE bc n ++ [0, 0]) 4)) n).1
        rest (u16 (br + 5)) := by
  obtain ⟨_, _, _, e4⟩ := acl_word_bytes (n := n) (t := [0, 0]) h ACL_RX_PKT_CONTINUE bc hh
    (by decide)
  have hml : u16 ((n / 256) <<< 8 + n % 256) = n := by
    rw [shl_8, u16_of_lt (by omega)]; omega
  have hsub : u16_sub (4 - 1 - 1 - 1) 1 = 0 := by decide
  have hne : ¬ (ACL_RX_PKT_CONTINUE = ACL_RX_PKT_START) := by decide
  have hfalse : ∀ X : World, (rx_len_acquired X n).2 = false :=
    fun X => rx_len_acquired_snd X n hn0
  rw [run_type_byte env w 2 _ br hs (by decide) (by decide)]
  simp only [acl_preamble, List.cons_append]
  rw [run_preamble_byte _ _ _ _ _ (by simp) (by simp [hci_preamble_table, HCI_ACL_PREAMBLE_SIZE])]
  rw [run_preamble_byte _ _ _ _ _ (by simp) (by simp [hci_preamble_table, HCI_ACL_PREAMBLE_SIZE])]
  rw [run_preamble_byte _ _ _ _ _ (by simp) (by simp [hci_preamble_table, HCI_ACL_PREAMBLE_SIZE])]
  rw [run_cons, rx_byte_len _ _ _ _ (by simp)]
  simp only [rx_len, hci_preamble_table, HCI_ACL_PREAMBLE_SIZE, hsub, H4_TYPE_ACL_DATA, e4,
    hn0, hml, hne, World.setCb, List.getD_cons_zero, List.getD_cons_succ,
    List.set_cons_zero, List.set_cons_succ, List.replicate, if_false, if_true,
    Nat.reduceAdd, Nat.reduceMod, Nat.reduceSub, ne_eq, not_false_eq_true, and_self,
    and_false, Bool.false_eq_true, Nat.add_zero, u16_idem, u16_u16_add, List.nil_append,
    hfalse, acl_acquire, acl_hdr, acl_preamble, List.cons_append]

theorem buf_of_heap (w : World) (heap0 : List HC_BT_HDR) (b : HC_BT_HDR)
    (h : w.heap = heap0 ++ [b]) : w.buf heap0.length = b := by
  simp only [World.buf, h, getD_append_length]

theorem acl_preamble_length (h pb bc n : Nat) : (acl_preamble h pb bc n).length = 4 := rfl

theorem rx_deliver_acl (env : Env) (w : World) (p : Nat) (hcb : env.bt_hc_cbacks = true)
    (hp : w.h4_cb.p_rcv_msg = some p) (he : (w.buf p).event = MSG_HC_TO_STACK_HCI_ACL) :
    rx_deliver env w =
      (w.emit (Effect.data_ind p (w.buf p) ((w.buf p).len + BT_HC_HDR_SIZE))).setCb
        { w.h4_cb with p_rcv_msg := none } := by
  have h1 : ¬ (MSG_HC_TO_STACK_HCI_ACL = MSG_HC_TO_STACK_HCI_EVT) := by decide
  simp only [World.buf] at he
  rw [rx_deliver, hp]
  simp only [World.buf, he, ne_eq, not_true_eq_false, if_false, h1, hcb, and_self, if_true,
    World.emit, World.setCb]

theorem delivered_emit_data_ind (w : World) (p : Nat) (m : HC_BT_HDR) (k : Nat) :
    delivered (w.emit (Effect.data_ind p m k)) = delivered w ++ [(p, m)] := by
  simp [delivered, World.emit, List.filterMap_append]

theorem delivered_snoop (w w' : World) (m : HC_BT_HDR)
    (h : w'.trace = w.trace ++ [Effect.btsnoop_capture m true]) :
    delivered w' = delivered w ∧ freed w' = freed w := by
  simp [delivered, freed, h, List.filterMap_append]

theorem write_body (P A body : List Nat) (L m k : Nat) (hP : P.length = 4) (hA : A.length = m)
    (hk : body.length = k) (hfit : m + k ≤ L + 4) :
    write_bytes (P ++ A ++ List.replicate (L + 4 - m) 0) (4 + m) body =
      P ++ (A ++ body) ++ List.replicate (L + 4 - (m + k)) 0 := by
  have hPA : (P ++ A).length = 4 + m := by simp [hP, hA]
  rw [write_bytes_eq _ _ _ (by simp [hP, hA, hk]; omega)]
  rw [← hPA, List.take_left, hk, hPA]
  have e : 4 + m + k = (P ++ A).length + k := by omega
  rw [e, List.drop_append]
  simp only [List.drop_replicate, List.append_assoc]
  have e2 : L + 4 - m - k = L + 4 - (m + k) := by omega
  rw [e2]

/-- The body of an ACL segment is appended to the base buffer, then the end
check either parks the buffer (more bytes expected) or delivers it. -/
theorem acl_segment_body (env : Env) (X : World) (heap0 : List HC_BT_HDR)
    (h bc L m k off : Nat) (t body : List Nat)
    (hcb : env.bt_hc_cbacks = true)
    (hs : X.h4_cb.rcv_state = H4_RX_DATA_ST) (hp : X.h4_cb.p_rcv_msg = some heap0.length)
    (ht : X.h4_cb.rcv_msg_type = 2) (hl : X.h4_cb.rcv_len = k)
    (hheap : X.heap = heap0 ++ [⟨MSG_HC_TO_STACK_HCI_ACL, 4 + m, off, 0,
      acl_preamble h ACL_RX_PKT_START bc (m + k) ++ (L % 256 :: L / 256 :: t) ++
        List.replicate (L + 4 - m) 0⟩])
    (hm : t.length + 2 = m) (hk : body.length = k) (hk0 : 0 < k) (hfit : m + k ≤ L + 4)
    (hL : L + 8 < 65536) (hoff : off = 0 ∨ off = 4 + m)
    (hpl : 4 ≤ X.h4_cb.preload_buffer.length) :
    ∃ w' : World,
      (∀ (s : List Nat) (br : Nat), run env X (body ++ s) br = run env w' s (u16 (br + k))) ∧
      w'.h4_cb.rcv_state = H4_RX_MSGTYPE_ST ∧ w'.n_alloc = X.n_alloc ∧ freed w' = freed X ∧
      (m + k < L + 4 →
        w'.heap = heap0 ++
          [acl_base h bc L (m + k) ((L % 256 :: L / 256 :: t) ++ body) (4 + (m + k))] ∧
        w'.h4_cb.acl_rx_q = X.h4_cb.acl_rx_q ∧ delivered w' = delivered X) ∧
      (m + k = L + 4 →
        w'.heap = heap0 ++ [acl_base h bc L (L + 4) ((L % 256 :: L / 256 :: t) ++ body) 0] ∧
        w'.h4_cb.acl_rx_q = utils_remove_from_queue X.h4_cb.acl_rx_q heap0.length ∧
        delivered w' = delivered X ++
          [(heap0.length, acl_base h bc L (L + 4) ((L % 256 :: L / 256 :: t) ++ body) 0)] ∧
        w'.h4_cb.p_rcv_msg = none) := by
  have hbuf := buf_of_heap X _ _ hheap
  obtain ⟨nb, hrun⟩ := run_data env k body X heap0.length hk hk0 (by omega) hs hp
    (by simp [hheap]) hl (by rw [hbuf]; simp only; omega)
  have hdata := write_body (acl_preamble h ACL_RX_PKT_START bc (m + k))
    (L % 256 :: L / 256 :: t) body L m k rfl (by simp; omega) hk hfit
  have hu : u16 (4 + m + body.length) = 4 + (m + k) := by
    rw [u16_of_lt (by omega), hk]; omega
  -- the world when the body is stored
  have h2heap : (stored X heap0.length body nb).heap = heap0 ++
      [⟨MSG_HC_TO_STACK_HCI_ACL, 4 + (m + k), off, 0,
        acl_preamble h ACL_RX_PKT_START bc (m + k) ++ ((L % 256 :: L / 256 :: t) ++ body) ++
          List.replicate (L + 4 - (m + k)) 0⟩] := by
    simp only [stored, hbuf, hheap, set_append_length, hdata, hu]
  have h2buf := buf_of_heap _ _ _ h2heap
  have h2p : (stored X heap0.length body nb).h4_cb.p_rcv_msg = some heap0.length := hp
  have h2l : (stored X heap0.length body nb).h4_cb.rcv_len = 0 := rfl
  have h2t : (stored X heap0.length body nb).h4_cb.rcv_msg_type = H4_TYPE_ACL_DATA := ht
  have h2pl : heap0.length < (stored X heap0.length body nb).heap.length := by
    rw [h2heap]; simp
  have h2off : ((stored X heap0.length body nb).buf heap0.length).offset = 0 ∨
      (4 ≤ ((stored X heap0.length body nb).buf heap0.length).offset ∧
        ((stored X heap0.length body nb).buf heap0.length).offset ≤
          ((stored X heap0.length body nb).buf heap0.length).data.length) := by
    rw [h2buf]
    rcases hoff with h0 | h1
    · left; exact h0
    · right
      simp only [h1, List.length_append, acl_preamble_length, List.length_cons,
        List.length_replicate]
      omega
  have h2len : STREAM_TO_UINT16 ((stored X heap0.length body nb).buf heap0.length).data 2 > 0 := by
    rw [h2buf]
    simp only [List.append_assoc, acl_len_bytes]
    omega
  have h2tot : STREAM_TO_UINT16 ((stored X heap0.length body nb).buf heap0.length).data 4 = L := by
    rw [h2buf]
    simp only [List.append_assoc, List.cons_append, acl_total_bytes]
  have h2blen : ((stored X heap0.length body nb).buf heap0.length).len = 4 + (m + k) := by
    rw [h2buf]
  have h2q : (stored X heap0.length body nb).h4_cb.acl_rx_q = X.h4_cb.acl_rx_q := rfl
  have h2tr : (stored X heap0.length body nb).trace = X.trace := rfl
  have h2na : (stored X heap0.length body nb).n_alloc = X.n_alloc := rfl
  have h2pre : 4 ≤ (stored X heap0.length body nb).h4_cb.preload_buffer.length := hpl
  generalize stored X heap0.length body nb = X2 at *
  have h2fr : freed X2 = freed X := by unfold freed; rw [h2tr]
  have h2de : delivered X2 = delivered X := by unfold delivered; rw [h2tr]
  refine ⟨after_end env X2, hrun, ?_⟩
  rcases Nat.lt_or_ge (m + k) (L + 4) with hlt | hge
  · obtain ⟨pl, msg, hchk⟩ := end_chk_incomplete X2 heap0.length h2p h2pl h2off h2pre
      ⟨h2len, by rw [h2tot, h2blen]; push_cast; omega⟩
    have hend : rx_data_end X2 = (((acl_rx_frame_end_chk X2).1).setCb
        { (acl_rx_frame_end_chk X2).1.h4_cb with rcv_state := H4_RX_MSGTYPE_ST }, false) := by
      simp only [rx_data_end, h2l, h2t, hchk, if_true]
    have haft : after_end env X2 = ((acl_rx_frame_end_chk X2).1).setCb
        { (acl_rx_frame_end_chk X2).1.h4_cb with rcv_state := H4_RX_MSGTYPE_ST } := by
      simp only [after_end, hend, Bool.false_eq_true, if_false]
    rw [haft, hchk]
    have hds := delivered_snoop X2 { X2 with
          h4_cb := { X2.h4_cb with preload_buffer := pl }
          heap := X2.heap.set heap0.length { X2.buf heap0.length with offset := (X2.buf heap0.length).len }
          trace := X2.trace ++ [Effect.btsnoop_capture msg true] } msg rfl
    refine ⟨rfl, h2na, ?_, ?_, ?_⟩
    · show freed _ = freed X
      exact hds.2.trans h2fr
    · intro _
      refine ⟨?_, h2q, ?_⟩
      · simp only [World.setCb, h2buf, h2heap, set_append_length, acl_base]
      · show delivered _ = delivered X
        exact hds.1.trans h2de
    · intro he; omega
  · have hmk : m + k = L + 4 := by omega
    obtain ⟨pl, msg, hchk⟩ := end_chk_complete X2 heap0.length h2p h2pl h2off h2pre h2len
      (by rw [h2tot, h2blen]; push_cast; omega)
    have hend : rx_data_end X2 = (((acl_rx_frame_end_chk X2).1).setCb
        { (acl_rx_frame_end_chk X2).1.h4_cb with rcv_state := H4_RX_MSGTYPE_ST }, true) := by
      simp only [rx_data_end, h2l, h2t, hchk, if_true, Bool.true_eq_false, if_false]
    have haft : after_end env X2 = rx_deliver env (((acl_rx_frame_end_chk X2).1).setCb
        { (acl_rx_frame_end_chk X2).1.h4_cb with rcv_state := H4_RX_MSGTYPE_ST }) := by
      simp only [after_end, hend, if_true]
    have h4heap : (((acl_rx_frame_end_chk X2).1).setCb
        { (acl_rx_frame_end_chk X2).1.h4_cb with rcv_state := H4_RX_MSGTYPE_ST }).heap =
        heap0 ++ [acl_base h bc L (L + 4) ((L % 256 :: L / 256 :: t) ++ body) 0] := by
      rw [hchk]
      simp only [World.setCb, h2buf, h2heap, set_append_length, acl_base, hmk]
    have h4tr : (((acl_rx_frame_end_chk X2).1).setCb
        { (acl_rx_frame_end_chk X2).1.h4_cb with rcv_state := H4_RX_MSGTYPE_ST }).trace =
        X2.trace ++ [Effect.btsnoop_capture msg true] := by
      rw [hchk]; rfl
    have h4q : (((acl_rx_frame_end_chk X2).1).setCb
        { (acl_rx_frame_end_chk X2).1.h4_cb with rcv_state := H4_RX_MSGTYPE_ST }).h4_cb.acl_rx_q =
        utils_remove_from_queue X.h4_cb.acl_rx_q heap0.length := by
      rw [hchk, ← h2q]; rfl
    have h4p : (((acl_rx_frame_end_chk X2).1).setCb
        { (acl_rx_frame_end_chk X2).1.h4_cb with rcv_state := H4_RX_MSGTYPE_ST }).h4_cb.p_rcv_msg =
        some heap0.length := by
      rw [hchk]; exact h2p
    have h4s : (((acl_rx_frame_end_chk X2).1).setCb
        { (acl_rx_frame_end_chk X2).1.h4_cb with rcv_state := H4_RX_MSGTYPE_ST }).h4_cb.rcv_state =
        H4_RX_MSGTYPE_ST := rfl
    have h4na : (((acl_rx_frame_end_chk X2).1).setCb
        { (acl_rx_frame_end_chk X2).1.h4_cb with rcv_state := H4_RX_MSGTYPE_ST }).n_alloc =
        X.n_alloc := by
      rw [hchk]; exact h2na
    rw [haft]
    generalize ((acl_rx_frame_end_chk X2).1).setCb
        { (acl_rx_frame_end_chk X2).1.h4_cb with rcv_state := H4_RX_MSGTYPE_ST } = X4 at *
    have h4buf := buf_of_heap _ _ _ h4heap
    have hds := delivered_snoop X2 X4 msg h4tr
    rw [rx_deliver_acl env X4 heap0.length hcb h4p (by rw [h4buf]; rfl), h4buf]
    refine ⟨h4s, h4na, ?_, ?_, ?_⟩
    · show freed (X4.emit _) = freed X
      rw [← h2fr, ← hds.2]
      simp only [freed, World.emit, List.filterMap_append, List.filterMap_cons,
        List.filterMap_nil, List.append_nil]
    · intro he; omega
    · intro _
      refine ⟨h4heap, h4q, ?_, rfl⟩
      show delivered (X4.emit _) = _
      rw [delivered_emit_data_ind, hds.1, h2de]

theorem write_preload (P : List Nat) (a b L : Nat) (hP : P.length = 4) :
    write_bytes (List.replicate (L + 8) 0) 0 ((P ++ [a, b]).take 6) =
      P ++ [a, b] ++ List.replicate (L + 2) 0 := by
  have ht : (P ++ [a, b]).take 6 = P ++ [a, b] := by
    apply List.take_of_length_le; simp [hP]
  rw [ht, write_bytes_eq _ _ _ (by simp [hP])]
  simp [hP, List.drop_replicate]

theorem patch_len (h pb bc m v : Nat) (rest : List Nat) (hv : v < 65536) :
    UINT16_TO_STREAM (acl_preamble h pb bc m ++ rest) 2 v = acl_preamble h pb bc v ++ rest := by
  have h1 : v / 256 % 256 = v / 256 := by omega
  simp [UINT16_TO_STREAM, write_bytes, acl_preamble, shr_8, h1]

theorem saved_handle_base (w : World) (heap0 : List HC_BT_HDR) (h bc L m off : Nat)
    (acc : List Nat) (hh : h < 4096)
    (hheap : w.heap = heap0 ++ [acl_base h bc L m acc off]) :
    saved_handle w heap0.length = h := by
  obtain ⟨e1, _, e3, _⟩ := acl_word_bytes (n := m) (t := acc ++ List.replicate (L + 4 - m) 0)
    h ACL_RX_PKT_START bc hh (by decide)
  rw [saved_handle, buf_of_heap w _ _ hheap]
  simp only [acl_base, List.append_assoc, e1, e3]

/-- An ACL Start packet on a handle without a base buffer: the fresh buffer is
parked when more segments are expected and delivered when the packet holds the
whole L2CAP frame. -/
theorem acl_start_step (env : Env) (w0 : World) (h bc L : Nat) (body0 : List Nat)
    (hs : w0.h4_cb.rcv_state = H4_RX_MSGTYPE_ST) (hh : h < 4096) (hL : L + 8 < 65536)
    (hcb : env.bt_hc_cbacks = true)
    (hal : env.alloc_ok w0.n_alloc
      (L + HCI_ACL_PREAMBLE_SIZE + L2CAP_HEADER_SIZE + BT_HC_HDR_SIZE) = true)
    (hwf : ∀ p ∈ w0.h4_cb.acl_rx_q, p < w0.heap.length)
    (hq : ∀ p ∈ w0.h4_cb.acl_rx_q, saved_handle w0 p ≠ h)
    (h0 : body0 ≠ []) (hfit : 2 + body0.length ≤ L + 4) :
    ∃ w' : World,
      (∀ (s : List Nat) (br : Nat),
        run env w0 (2 :: (acl_preamble h ACL_RX_PKT_START bc (2 + body0.length) ++
          (L % 256) :: (L / 256) :: (body0 ++ s))) br =
        run env w' s (u16 (br + (7 + body0.length)))) ∧
      (2 + body0.length < L + 4 →
        Parked w0 w' h bc L (2 + body0.length) ((L % 256 :: L / 256 :: []) ++ body0)) ∧
      (2 + body0.length = L + 4 →
        Reassembled w0 w' h bc L ((L % 256 :: L / 256 :: []) ++ body0)) := by
  have hk0 : 0 < body0.length := List.length_pos.mpr h0
  have hA := acl_rx_frame_buffer_alloc_start env
    (acl_hdr w0 (acl_preamble h ACL_RX_PKT_START bc (2 + body0.length) ++ [L % 256, L / 256]) 6)
    h bc (2 + body0.length) L hh hcb rfl hq hal
  have hn0 : 2 + body0.length ≠ 0 := by omega
  have hhead := fun s br => acl_start_header env w0 h bc (2 + body0.length) L (body0 ++ s) br hs hh
    hn0 (by omega)
  rw [rx_len_acquired_some env _ _ w0.heap.length hn0 (by rw [hA]; rfl)] at hhead
  have hsub : u16_sub (2 + body0.length) 2 = body0.length := by
    rw [u16_sub_of_le (by omega)]; omega
  rw [hA] at hhead
  simp only [acl_hdr, World.setCb, hn0, ne_eq, not_false_eq_true, if_true, hsub, true_and,
    write_preload _ _ _ _ (acl_preamble_length h ACL_RX_PKT_START bc (2 + body0.length)),
    not_true_eq_false, if_false] at hhead
  have key : ∀ X : World,
      (∀ (s : List Nat) (br : Nat),
        run env w0 (2 :: (acl_preamble h ACL_RX_PKT_START bc (2 + body0.length) ++
          (L % 256) :: (L / 256) :: (body0 ++ s))) br = run env X (body0 ++ s) (u16 (br + 7))) →
      X.h4_cb.rcv_state = H4_RX_DATA_ST → X.h4_cb.p_rcv_msg = some w0.heap.length →
      X.h4_cb.rcv_msg_type = 2 → X.h4_cb.rcv_len = body0.length →
      X.heap = w0.heap ++ [⟨MSG_HC_TO_STACK_HCI_ACL, 6, 0, 0,
        acl_preamble h ACL_RX_PKT_START bc (2 + body0.length) ++ [L % 256, L / 256] ++
          List.replicate (L + 2) 0⟩] →
      X.h4_cb.preload_buffer =
        acl_preamble h ACL_RX_PKT_START bc (2 + body0.length) ++ [L % 256, L / 256] →
      X.h4_cb.acl_rx_q = (if L + L2CAP_HEADER_SIZE > 2 + body0.length then
          utils_enqueue w0.h4_cb.acl_rx_q w0.heap.length else w0.h4_cb.acl_rx_q) →
      X.trace = w0.trace → X.n_alloc = w0.n_alloc + 1 →
      ∃ w' : World,
        (∀ (s : List Nat) (br : Nat),
          run env w0 (2 :: (acl_preamble h ACL_RX_PKT_START bc (2 + body0.length) ++
            (L % 256) :: (L / 256) :: (body0 ++ s))) br =
          run env w' s (u16 (br + (7 + body0.length)))) ∧
        (2 + body0.length < L + 4 →
          Parked w0 w' h bc L (2 + body0.length) ((L % 256 :: L / 256 :: []) ++ body0)) ∧
        (2 + body0.length = L + 4 →
          Reassembled w0 w' h bc L ((L % 256 :: L / 256 :: []) ++ body0)) := by
    intro X hrunX hXs hXp hXt hXl hXh hXpl hXq hXtr hXna
    have e : L + 4 - 2 = L + 2 := by omega
    obtain ⟨w', hrun, hst, hna, hfr, hP, hR⟩ := acl_segment_body env X w0.heap h bc L 2
      body0.length 0 [] body0 hcb hXs hXp hXt hXl (by rw [hXh, e]) rfl rfl hk0 hfit hL
      (Or.inl rfl) (by rw [hXpl]; simp [acl_preamble])
    have hde : delivered X = delivered w0 := by unfold delivered; rw [hXtr]
    have hfe : freed X = freed w0 := by unfold freed; rw [hXtr]
    refine ⟨w', ?_, ?_, ?_⟩
    · intro s br
      rw [hrunX, hrun, u16_u16_add]
      congr 2; omega
    · intro hlt
      obtain ⟨a, b, c⟩ := hP hlt
      have hc : L + L2CAP_HEADER_SIZE > 2 + body0.length := by
        simp only [L2CAP_HEADER_SIZE]; omega
      refine ⟨hst, ?_, a, c.trans hde, hfr.trans hfe, hna.trans hXna⟩
      rw [b, hXq, if_pos hc]; rfl
    · intro heq
      obtain ⟨a, b, c, d⟩ := hR heq
      have hc : ¬ (L + L2CAP_HEADER_SIZE > 2 + body0.length) := by
        simp only [L2CAP_HEADER_SIZE]; omega
      have hB : w0.heap.length ∉ w0.h4_cb.acl_rx_q := fun hm => Nat.lt_irrefl _ (hwf _ hm)
      refine ⟨hst, d, ?_, a, ?_, hfr.trans hfe, hna.trans hXna⟩
      · rw [b, hXq, if_neg hc, utils_remove_from_queue, List.erase_of_not_mem hB]
      · rw [c, hde]
  exact key _ hhead rfl rfl rfl rfl rfl rfl rfl rfl rfl

/-- An ACL Continuation packet on a handle with a parked base buffer: the body
is appended to the base buffer, which is delivered when the L2CAP frame is
complete and stays parked otherwise. -/
theorem acl_cont_step (env : Env) (w0 w : World) (h bc bc' L m : Nat) (t body : List Nat)
    (hh : h < 4096) (hL : L + 8 < 65536) (hcb : env.bt_hc_cbacks = true)
    (hwf : ∀ p ∈ w0.h4_cb.acl_rx_q, p < w0.heap.length)
    (hq : ∀ p ∈ w0.h4_cb.acl_rx_q, saved_handle w0 p ≠ h)
    (hP : Parked w0 w h bc L m (L % 256 :: L / 256 :: t)) (hm : t.length + 2 = m)
    (hb : body ≠ []) (hfit : m + body.length ≤ L + 4) :
    ∃ w' : World,
      (∀ (s : List Nat) (br : Nat),
        run env w (acl_cont_packet h (bc', body) ++ s) br =
          run env w' s (u16 (br + (5 + body.length)))) ∧
      (m + body.length < L + 4 →
        Parked w0 w' h bc L (m + body.length) ((L % 256 :: L / 256 :: t) ++ body)) ∧
      (m + body.length = L + 4 →
        Reassembled w0 w' h bc L ((L % 256 :: L / 256 :: t) ++ body)) := by
  obtain ⟨hst, hwq, hwh, hwd, hwfr, hwn⟩ := hP
  have hk0 : 0 < body.length := List.length_pos.mpr hb
  have hn0 : body.length ≠ 0 := by omega
  have hsB : saved_handle w w0.heap.length = h := saved_handle_base w _ h bc L m _ _ hh hwh
  have hfind : acl_rx_q_find
      (acl_hdr w (acl_preamble h ACL_RX_PKT_CONTINUE bc' body.length ++ [0, 0]) 4) h =
        some w0.heap.length := by
    apply acl_rx_q_find_some
    · show w0.heap.length ∈ w.h4_cb.acl_rx_q
      rw [hwq]; simp
    · exact hsB
    · intro p hp hsp
      have hp' : p ∈ w.h4_cb.acl_rx_q := hp
      have hsp' : saved_handle w p = h := hsp
      rw [hwq, List.mem_append] at hp'
      rcases hp' with hp0 | hpB
      · rw [saved_handle_append w0 w p _ (hwf p hp0) hwh] at hsp'
        exact absurd hsp' (hq p hp0)
      · simpa using hpB
  have hqne : (acl_hdr w (acl_preamble h ACL_RX_PKT_CONTINUE bc' body.length ++ [0, 0])
      4).h4_cb.acl_rx_q.length ≠ 0 := by
    show w.h4_cb.acl_rx_q.length ≠ 0
    rw [hwq]; simp
  have hA := acl_rx_frame_buffer_alloc_cont env
    (acl_hdr w (acl_preamble h ACL_RX_PKT_CONTINUE bc' body.length ++ [0, 0]) 4)
    h bc' body.length w0.heap.length hh rfl hfind hqne
  have hhead := fun s br => acl_cont_header env w h bc' body.length (body ++ s) br hst hh
    hn0 (by omega)
  rw [rx_len_acquired_some env _ _ w0.heap.length hn0 (by rw [hA])] at hhead
  rw [hA] at hhead
  have key : ∀ X : World,
      (∀ (s : List Nat) (br : Nat),
        run env w (2 :: (acl_preamble h ACL_RX_PKT_CONTINUE bc' body.length ++ (body ++ s))) br =
          run env X (body ++ s) (u16 (br + 5))) →
      X.h4_cb.rcv_state = H4_RX_DATA_ST → X.h4_cb.p_rcv_msg = some w0.heap.length →
      X.h4_cb.rcv_msg_type = 2 → X.h4_cb.rcv_len = body.length →
      X.heap = w0.heap ++ [⟨MSG_HC_TO_STACK_HCI_ACL, 4 + m, 4 + m, 0,
        acl_preamble h ACL_RX_PKT_START bc (m + body.length) ++ (L % 256 :: L / 256 :: t) ++
          List.replicate (L + 4 - m) 0⟩] →
      X.h4_cb.preload_buffer = acl_preamble h ACL_RX_PKT_CONTINUE bc' body.length ++ [0, 0] →
      X.h4_cb.acl_rx_q = w.h4_cb.acl_rx_q →
      X.trace = w.trace → X.n_alloc = w.n_alloc →
      ∃ w' : World,
        (∀ (s : List Nat) (br : Nat),
          run env w (acl_cont_packet h (bc', body) ++ s) br =
            run env w' s (u16 (br + (5 + body.length)))) ∧
        (m + body.length < L + 4 →
          Parked w0 w' h bc L (m + body.length) ((L % 256 :: L / 256 :: t) ++ body)) ∧
        (m + body.length = L + 4 →
          Reassembled w0 w' h bc L ((L % 256 :: L / 256 :: t) ++ body)) := by
    intro X hrunX hXs hXp hXt hXl hXh hXpl hXq hXtr hXna
    obtain ⟨w', hrun, hst', hna, hfr, hPk, hR⟩ := acl_segment_body env X w0.heap h bc L m
      body.length (4 + m) t body hcb hXs hXp hXt hXl hXh hm rfl hk0 hfit hL
      (Or.inr rfl) (by rw [hXpl]; simp [acl_preamble])
    have hde : delivered X = delivered w := by unfold delivered; rw [hXtr]
    have hfe : freed X = freed w := by unfold freed; rw [hXtr]
    refine ⟨w', ?_, ?_, ?_⟩
    · intro s br
      have e : acl_cont_packet h (bc', body) ++ s =
          2 :: (acl_preamble h ACL_RX_PKT_CONTINUE bc' body.length ++ (body ++ s)) := by
        simp [acl_cont_packet]
      rw [e, hrunX, hrun, u16_u16_add]
      congr 2; omega
    · intro hlt
      obtain ⟨a, b, c⟩ := hPk hlt
      exact ⟨hst', (b.trans hXq).trans hwq, a, (c.trans hde).trans hwd,
        (hfr.trans hfe).trans hwfr, (hna.trans hXna).trans hwn⟩
    · intro heq
      obtain ⟨a, b, c, d⟩ := hR heq
      have hB : w0.heap.length ∉ w0.h4_cb.acl_rx_q := fun hm => Nat.lt_irrefl _ (hwf _ hm)
      refine ⟨hst', d, ?_, a, ?_, (hfr.trans hfe).trans hwfr, (hna.trans hXna).trans hwn⟩
      · rw [b, hXq, hwq, utils_remove_from_queue, List.erase_append_right _ hB]
        simp
      · rw [c, hde, hwd]
  refine key _ hhead rfl rfl rfl rfl ?_ rfl rfl rfl rfl
  have hmk : u16 (m + body.length) = m + body.length := u16_of_lt (by omega)
  simp only [World.setBuf, World.setCb, World.buf, acl_hdr, hwh, getD_append_length,
    set_append_length, acl_base, List.append_assoc, acl_len_bytes, hmk, patch_len _ _ _ _ _ _
      (show m + body.length < 65536 by omega)]

theorem acl_cont_bodies_nil_of_length (cs : List (Nat × List Nat))
    (hc : ∀ c ∈ cs, c.2 ≠ []) (hl : (acl_cont_bodies cs).length = 0) : cs = [] := by
  cases cs with
  | nil => rfl
  | cons c cs =>
    exfalso
    have h1 : 0 < c.2.length := List.length_pos.mpr (hc c (List.mem_cons_self _ _))
    simp only [acl_cont_bodies, List.length_append] at hl
    omega

theorem acl_cont_bodies_append (xs ys : List (Nat × List Nat)) :
    acl_cont_bodies (xs ++ ys) = acl_cont_bodies xs ++ acl_cont_bodies ys := by
  induction xs with
  | nil => rfl
  | cons c cs ih =>
    show c.2 ++ acl_cont_bodies (cs ++ ys) = (c.2 ++ acl_cont_bodies cs) ++ acl_cont_bodies ys
    rw [ih, List.append_assoc]

theorem acl_cont_stream_append (h : Nat) (xs ys : List (Nat × List Nat)) :
    acl_cont_stream h (xs ++ ys) = acl_cont_stream h xs ++ acl_cont_stream h ys := by
  induction xs with
  | nil => rfl
  | cons c cs ih =>
    show acl_cont_packet h c ++ acl_cont_stream h (cs ++ ys) =
      (acl_cont_packet h c ++ acl_cont_stream h cs) ++ acl_cont_stream h ys
    rw [ih, List.append_assoc]

/-- A sequence of Continuation packets with non-empty bodies on a handle with a
parked base buffer: the buffer stays parked while bytes are missing and is
delivered by the packet that supplies the last byte. -/
theorem acl_conts_run (env : Env) (w0 : World) (h bc L : Nat)
    (hh : h < 4096) (hL : L + 8 < 65536) (hcb : env.bt_hc_cbacks = true)
    (hwf : ∀ p ∈ w0.h4_cb.acl_rx_q, p < w0.heap.length)
    (hq : ∀ p ∈ w0.h4_cb.acl_rx_q, saved_handle w0 p ≠ h) :
    ∀ (conts : List (Nat × List Nat)) (w : World) (m : Nat) (t : List Nat),
      Parked w0 w h bc L m (L % 256 :: L / 256 :: t) → t.length + 2 = m → m < L + 4 →
      (∀ c ∈ conts, c.2 ≠ []) → m + (acl_cont_bodies conts).length ≤ L + 4 →
      ∃ w' : World,
        (∀ (s : List Nat) (br : Nat), ∃ br' : Nat,
          run env w (acl_cont_stream h conts ++ s) br = run env w' s br') ∧
        (m + (acl_cont_bodies conts).length < L + 4 →
          Parked w0 w' h bc L (m + (acl_cont_bodies conts).length)
            ((L % 256 :: L / 256 :: t) ++ acl_cont_bodies conts)) ∧
        (m + (acl_cont_bodies conts).length = L + 4 →
          Reassembled w0 w' h bc L ((L % 256 :: L / 256 :: t) ++ acl_cont_bodies conts)) := by
  intro conts
  induction conts with
  | nil =>
    intro w m t hP hm hlt _ _
    refine ⟨w, fun s br => ⟨br, rfl⟩, ?_, ?_⟩
    · intro _
      simpa [acl_cont_bodies] using hP
    · intro he
      simp only [acl_cont_bodies, List.length_nil] at he
      omega
  | cons c cs ih =>
    intro w m t hP hm hlt hc hfit
    obtain ⟨bc', body⟩ := c
    have hb : body ≠ [] := hc (bc', body) (List.mem_cons_self _ _)
    have hcs : ∀ c ∈ cs, c.2 ≠ [] := fun c hcm => hc c (List.mem_cons_of_mem _ hcm)
    have hlen : (acl_cont_bodies ((bc', body) :: cs)).length =
        body.length + (acl_cont_bodies cs).length := by
      simp only [acl_cont_bodies, List.length_append]
    rw [hlen] at hfit ⊢
    have hbod : (L % 256 :: L / 256 :: t) ++ acl_cont_bodies ((bc', body) :: cs) =
        (L % 256 :: L / 256 :: (t ++ body)) ++ acl_cont_bodies cs := by
      simp only [acl_cont_bodies, List.cons_append, List.append_assoc]
    rw [hbod]
    obtain ⟨w1, hrun1, hP1, hR1⟩ := acl_cont_step env w0 w h bc bc' L m t body hh hL hcb hwf hq
      hP hm hb (by omega)
    rcases Nat.lt_or_ge (m + body.length) (L + 4) with hlt1 | hge1
    · obtain ⟨w', hrun, hP', hR'⟩ := ih w1 (m + body.length) (t ++ body) (hP1 hlt1)
        (by rw [List.length_append]; omega) hlt1 hcs (by omega)
      refine ⟨w', ?_, ?_, ?_⟩
      · intro s br
        obtain ⟨br', hbr⟩ := hrun s (u16 (br + (5 + body.length)))
        refine ⟨br', ?_⟩
        rw [← hbr, ← hrun1]
        simp only [acl_cont_stream, List.append_assoc]
      · intro hl
        have := hP' (by omega)
        rwa [Nat.add_assoc] at this
      · intro he
        exact hR' (by omega)
    · have hz : (acl_cont_bodies cs).length = 0 := by omega
      have hnil := acl_cont_bodies_nil_of_length cs hcs hz
      subst hnil
      refine ⟨w1, ?_, ?_, ?_⟩
      · intro s br
        refine ⟨u16 (br + (5 + body.length)), ?_⟩
        rw [← hrun1]
        simp only [acl_cont_stream, List.append_nil]
      · intro hl
        simp only [acl_cont_bodies, List.length_nil] at hl
        omega
      · intro _
        simpa [acl_cont_bodies] using hR1 (by omega)

/-- A Start packet and Continuation packets that together supply at most the
announced bytes, on a handle without a base buffer. -/
theorem acl_message_run (env : Env) (w : World) (h bc L : Nat) (body0 : List Nat)
    (hs : w.h4_cb.rcv_state = H4_RX_MSGTYPE_ST) (hh : h < 4096) (hL : L + 8 < 65536)
    (hcb : env.bt_hc_cbacks = true)
    (hal : env.alloc_ok w.n_alloc
      (L + HCI_ACL_PREAMBLE_SIZE + L2CAP_HEADER_SIZE + BT_HC_HDR_SIZE) = true)
    (hwf : ∀ p ∈ w.h4_cb.acl_rx_q, p < w.heap.length)
    (hq : ∀ p ∈ w.h4_cb.acl_rx_q, saved_handle w p ≠ h)
    (h0 : body0 ≠ []) (conts : List (Nat × List Nat)) (hc : ∀ c ∈ conts, c.2 ≠ [])
    (hfit : 2 + body0.length + (acl_cont_bodies conts).length ≤ L + 4) :
    (2 + body0.length + (acl_cont_bodies conts).length < L + 4 →
      Parked w
        (hci_h4_receive_msg env w (acl_start_packet h bc L body0 ++ acl_cont_stream h conts)).2
        h bc L (2 + body0.length + (acl_cont_bodies conts).length)
        ((L % 256 :: L / 256 :: body0) ++ acl_cont_bodies conts)) ∧
    (2 + body0.length + (acl_cont_bodies conts).length = L + 4 →
      Reassembled w
        (hci_h4_receive_msg env w (acl_start_packet h bc L body0 ++ acl_cont_stream h conts)).2
        h bc L ((L % 256 :: L / 256 :: body0) ++ acl_cont_bodies conts)) := by
  obtain ⟨w1, hrun1, hP1, hR1⟩ := acl_start_step env w h bc L body0 hs hh hL hcb hal hwf hq h0
    (by omega)
  have hin : acl_start_packet h bc L body0 ++ acl_cont_stream h conts =
      2 :: (acl_preamble h ACL_RX_PKT_START bc (2 + body0.length) ++
        (L % 256) :: (L / 256) :: (body0 ++ (acl_cont_stream h conts ++ []))) := by
    simp [acl_start_packet]
  rw [hci_h4_receive_msg_eq_run, hin, hrun1]
  rcases Nat.lt_or_ge (2 + body0.length) (L + 4) with hlt | hge
  · obtain ⟨w', hrun, hP, hR⟩ := acl_conts_run env w h bc L hh hL hcb hwf hq conts w1
      (2 + body0.length) body0 (hP1 hlt) (by omega) hlt hc hfit
    obtain ⟨br', hbr⟩ := hrun [] (u16 (0 + (7 + body0.length)))
    rw [hbr, run_nil]
    exact ⟨hP, hR⟩
  · have hz : (acl_cont_bodies conts).length = 0 := by omega
    have hnil := acl_cont_bodies_nil_of_length conts hc hz
    subst hnil
    simp only [acl_cont_stream, acl_cont_bodies, List.append_nil, List.length_nil, Nat.add_zero,
      run_nil]
    exact ⟨fun hl => hP1 hl, fun he => hR1 he⟩

/-! ## Reassembly of a segmented ACL message (C4) -/

/-- C4 (amended): ACL reassembly delivers the whole message exactly once. For
every 12-bit handle `h` and every L2CAP length `L ≤ 65527` (so that the buffer
length `L + 8` fits the 16-bit `len` field), the L2CAP frame is split into one
Start packet whose body is the two length bytes followed by `body0` (at least
the two remaining header bytes) and Continuation packets `conts` on the same
handle with non-empty bodies that supply exactly the remaining bytes. If the
callbacks are registered, the queue (whose entries are live buffers) holds no
buffer for `h` and the allocation succeeds, then `hci_h4_receive_msg` calls
`data_ind` exactly once, with the fresh buffer: its L2CAP length field (data
bytes 4..5) is `L`, its bytes from offset 4 on are the segment bodies in
arrival order, its `len` is `L + 8`; no queue entry carries `h` afterwards; and
after any proper prefix of the packets nothing has been delivered. -/
theorem acl_reassembly_delivers_once (env : Env) (w : World) (h bc L : Nat)
    (body0 : List Nat) (conts : List (Nat × List Nat))
    (hs : w.h4_cb.rcv_state = H4_RX_MSGTYPE_ST) (hh : h < 4096) (hL : L ≤ 65527)
    (hcb : env.bt_hc_cbacks = true)
    (hal : env.alloc_ok w.n_alloc
      (L + HCI_ACL_PREAMBLE_SIZE + L2CAP_HEADER_SIZE + BT_HC_HDR_SIZE) = true)
    (hwf : ∀ p ∈ w.h4_cb.acl_rx_q, p < w.heap.length)
    (hq : ∀ p ∈ w.h4_cb.acl_rx_q, saved_handle w p ≠ h)
    (h0 : 2 ≤ body0.length) (hc : ∀ c ∈ conts, c.2 ≠ [])
    (hsum : 2 + body0.length + (acl_cont_bodies conts).length = L + 4) :
    (∃ b : HC_BT_HDR,
      delivered (hci_h4_receive_msg env w
        (acl_start_packet h bc L body0 ++ acl_cont_stream h conts)).2 =
          delivered w ++ [(w.heap.length, b)] ∧
      b.event = MSG_HC_TO_STACK_HCI_ACL ∧
      STREAM_TO_UINT16 b.data 4 = L ∧
      b.data.drop 4 = (L % 256 :: L / 256 :: body0) ++ acl_cont_bodies conts ∧
      b.len = L + 8) ∧
    (∀ p ∈ (hci_h4_receive_msg env w
        (acl_start_packet h bc L body0 ++ acl_cont_stream h conts)).2.h4_cb.acl_rx_q,
      saved_handle (hci_h4_receive_msg env w
        (acl_start_packet h bc L body0 ++ acl_cont_stream h conts)).2 p ≠ h) ∧
    (hci_h4_receive_msg env w
      (acl_start_packet h bc L body0 ++ acl_cont_stream h conts)).2.h4_cb.rcv_state =
        H4_RX_MSGTYPE_ST ∧
    (∀ pre post : List (Nat × List Nat), conts = pre ++ post → post ≠ [] →
      delivered (hci_h4_receive_msg env w
        (acl_start_packet h bc L body0 ++ acl_cont_stream h pre)).2 = delivered w) := by
  have hb0 : body0 ≠ [] := by
    intro he; rw [he] at h0; simp at h0
  have hfull := (acl_message_run env w h bc L body0 hs hh (by omega) hcb hal hwf hq hb0 conts hc
    (by omega)).2 hsum
  obtain ⟨hst, _, hqq, hheap, hdel, _, _⟩ := hfull
  refine ⟨⟨acl_base h bc L (L + 4) ((L % 256 :: L / 256 :: body0) ++ acl_cont_bodies conts) 0,
    hdel, rfl, ?_, ?_, ?_⟩, ?_, hst, ?_⟩
  · simp only [acl_base, List.append_assoc, List.cons_append, acl_total_bytes]
  · simp [acl_base, acl_preamble]
  · simp only [acl_base]; omega
  · intro p hp
    rw [hqq] at hp
    rw [saved_handle_append w _ p _ (hwf p hp) hheap]
    exact hq p hp
  · intro pre post hsplit hpost
    have hcpre : ∀ c ∈ pre, c.2 ≠ [] := fun c hcm => hc c (by rw [hsplit]; simp [hcm])
    have hcpost : ∀ c ∈ post, c.2 ≠ [] := fun c hcm => hc c (by rw [hsplit]; simp [hcm])
    have hpl : 0 < (acl_cont_bodies post).length := by
      rcases Nat.eq_zero_or_pos (acl_cont_bodies post).length with hz | hpos
      · exact absurd (acl_cont_bodies_nil_of_length post hcpost hz) hpost
      · exact hpos
    have hlen : (acl_cont_bodies conts).length =
        (acl_cont_bodies pre).length + (acl_cont_bodies post).length := by
      rw [hsplit, acl_cont_bodies_append, List.length_append]
    have hpart := (acl_message_run env w h bc L body0 hs hh (by omega) hcb hal hwf hq hb0 pre
      hcpre (by omega)).1 (by omega)
    exact hpart.2.2.2.1

theorem acl_reassembly_delivers_once_witness :
    ∃ b : HC_BT_HDR,
      delivered (hci_h4_receive_msg Env.ideal (hci_h4_init World.boot)
        (acl_start_packet 1 0 4 [0x40, 0, 0xAA] ++
          acl_cont_stream 1 [(0, [0xBB, 0xCC]), (0, [0xDD])])).2 =
          delivered (hci_h4_init World.boot) ++ [((hci_h4_init World.boot).heap.length, b)] ∧
      b.event = MSG_HC_TO_STACK_HCI_ACL ∧
      STREAM_TO_UINT16 b.data 4 = 4 ∧
      b.data.drop 4 = (4 % 256 :: 4 / 256 :: [0x40, 0, 0xAA]) ++
        acl_cont_bodies [(0, [0xBB, 0xCC]), (0, [0xDD])] ∧
      b.len = 4 + 8 :=
  (acl_reassembly_delivers_once Env.ideal (hci_h4_init World.boot) 1 0 4 [0x40, 0, 0xAA]
    [(0, [0xBB, 0xCC]), (0, [0xDD])] rfl (by decide) (by decide) rfl rfl
    (by decide) (by decide) (by decide) (by decide) (by decide)).1

/-- A Start packet that holds a whole L2CAP frame of `L = 65528` bytes: the
16-bit `len` of the receive buffer wraps to 0 with the last byte, the end check
compares `L` with `0 - 8` and reports an incomplete frame, and the buffer is
neither delivered nor queued. -/
theorem acl_start_len_wrap (env : Env) (w0 : World) (h bc L : Nat) (body0 : List Nat)
    (hs : w0.h4_cb.rcv_state = H4_RX_MSGTYPE_ST) (hh : h < 4096) (hL : L + 8 = 65536)
    (hcb : env.bt_hc_cbacks = true)
    (hal : env.alloc_ok w0.n_alloc
      (L + HCI_ACL_PREAMBLE_SIZE + L2CAP_HEADER_SIZE + BT_HC_HDR_SIZE) = true)
    (hq : ∀ p ∈ w0.h4_cb.acl_rx_q, saved_handle w0 p ≠ h)
    (hk : body0.length = L + 2) :
    delivered (hci_h4_receive_msg env w0 (acl_start_packet h bc L body0)).2 = delivered w0 ∧
    (hci_h4_receive_msg env w0 (acl_start_packet h bc L body0)).2.h4_cb.rcv_state =
      H4_RX_MSGTYPE_ST ∧
    (hci_h4_receive_msg env w0 (acl_start_packet h bc L body0)).2.h4_cb.acl_rx_q =
      w0.h4_cb.acl_rx_q := by
  have hk0 : 0 < body0.length := by omega
  have hA := acl_rx_frame_buffer_alloc_start env
    (acl_hdr w0 (acl_preamble h ACL_RX_PKT_START bc (2 + body0.length) ++ [L % 256, L / 256]) 6)
    h bc (2 + body0.length) L hh hcb rfl hq hal
  have hn0 : 2 + body0.length ≠ 0 := by omega
  have hhead := fun s br => acl_start_header env w0 h bc (2 + body0.length) L (body0 ++ s) br hs hh
    hn0 (by omega)
  rw [rx_len_acquired_some env _ _ w0.heap.length hn0 (by rw [hA]; rfl)] at hhead
  have hsub : u16_sub (2 + body0.length) 2 = body0.length := by
    rw [u16_sub_of_le (by omega)]; omega
  rw [hA] at hhead
  simp only [acl_hdr, World.setCb, hn0, ne_eq, not_false_eq_true, if_true, hsub, true_and,
    write_preload _ _ _ _ (acl_preamble_length h ACL_RX_PKT_START bc (2 + body0.length)),
    not_true_eq_false, if_false] at hhead
  have key : ∀ X : World,
      (∀ (s : List Nat) (br : Nat),
        run env w0 (2 :: (acl_preamble h ACL_RX_PKT_START bc (2 + body0.length) ++
          (L % 256) :: (L / 256) :: (body0 ++ s))) br = run env X (body0 ++ s) (u16 (br + 7))) →
      X.h4_cb.rcv_state = H4_RX_DATA_ST → X.h4_cb.p_rcv_msg = some w0.heap.length →
      X.h4_cb.rcv_msg_type = 2 → X.h4_cb.rcv_len = body0.length →
      X.heap = w0.heap ++ [⟨MSG_HC_TO_STACK_HCI_ACL, 6, 0, 0,
        acl_preamble h ACL_RX_PKT_START bc (2 + body0.length) ++ [L % 256, L / 256] ++
          List.replicate (L + 2) 0⟩] →
      X.h4_cb.preload_buffer =
        acl_preamble h ACL_RX_PKT_START bc (2 + body0.length) ++ [L % 256, L / 256] →
      X.h4_cb.acl_rx_q = (if L + L2CAP_HEADER_SIZE > 2 + body0.length then
          utils_enqueue w0.h4_cb.acl_rx_q w0.heap.length else w0.h4_cb.acl_rx_q) →
      X.trace = w0.trace →
      delivered (hci_h4_receive_msg env w0 (acl_start_packet h bc L body0)).2 = delivered w0 ∧
      (hci_h4_receive_msg env w0 (acl_start_packet h bc L body0)).2.h4_cb.rcv_state =
        H4_RX_MSGTYPE_ST ∧
      (hci_h4_receive_msg env w0 (acl_start_packet h bc L body0)).2.h4_cb.acl_rx_q =
        w0.h4_cb.acl_rx_q := by
    intro X hrunX hXs hXp hXt hXl hXh hXpl hXq hXtr
    have hbuf := buf_of_heap X _ _ hXh
    obtain ⟨nb, hrun⟩ := run_data env body0.length body0 X w0.heap.length rfl hk0 (by omega)
      hXs hXp (by simp [hXh]) hXl (by rw [hbuf]; simp only; omega)
    have hin : acl_start_packet h bc L body0 =
        2 :: (acl_preamble h ACL_RX_PKT_START bc (2 + body0.length) ++
          (L % 256) :: (L / 256) :: (body0 ++ [])) := by
      simp [acl_start_packet]
    rw [hci_h4_receive_msg_eq_run, hin, hrunX, hrun, run_nil]
    have e : L + 2 = L + 4 - 2 := by omega
    have hdata := write_body (acl_preamble h ACL_RX_PKT_START bc (2 + body0.length))
      (L % 256 :: L / 256 :: []) body0 L 2 body0.length rfl rfl rfl (by omega)
    have hu : u16 (6 + body0.length) = 0 := by
      simp only [u16]; omega
    have h2heap : (stored X w0.heap.length body0 nb).heap = w0.heap ++
        [⟨MSG_HC_TO_STACK_HCI_ACL, 0, 0, 0,
          acl_preamble h ACL_RX_PKT_START bc (2 + body0.length) ++
            ((L % 256 :: L / 256 :: []) ++ body0) ++
            List.replicate (L + 4 - (2 + body0.length)) 0⟩] := by
      simp only [stored, hbuf, hXh, set_append_length, hu, e]
      rw [← hdata]
    have h2buf := buf_of_heap _ _ _ h2heap
    have h2p : (stored X w0.heap.length body0 nb).h4_cb.p_rcv_msg = some w0.heap.length := hXp
    have h2l : (stored X w0.heap.length body0 nb).h4_cb.rcv_len = 0 := rfl
    have h2t : (stored X w0.heap.length body0 nb).h4_cb.rcv_msg_type = H4_TYPE_ACL_DATA := hXt
    have h2pl : w0.heap.length < (stored X w0.heap.length body0 nb).heap.length := by
      rw [h2heap]; simp
    have h2q : (stored X w0.heap.length body0 nb).h4_cb.acl_rx_q = X.h4_cb.acl_rx_q := rfl
    have h2tr : (stored X w0.heap.length body0 nb).trace = X.trace := rfl
    have h2pre : 4 ≤ (stored X w0.heap.length body0 nb).h4_cb.preload_buffer.length := by
      show 4 ≤ X.h4_cb.preload_buffer.length
      rw [hXpl]; simp [acl_preamble]
    generalize stored X w0.heap.length body0 nb = X2 at *
    obtain ⟨pl, msg, hchk⟩ := end_chk_incomplete X2 w0.heap.length h2p h2pl
      (Or.inl (by rw [h2buf])) h2pre
      ⟨by rw [h2buf]; simp only [List.append_assoc, acl_len_bytes]; omega,
       by rw [h2buf]; simp only [List.append_assoc, List.cons_append, List.nil_append,
            acl_total_bytes]; push_cast; omega⟩
    have hend : rx_data_end X2 = (((acl_rx_frame_end_chk X2).1).setCb
        { (acl_rx_frame_end_chk X2).1.h4_cb with rcv_state := H4_RX_MSGTYPE_ST }, false) := by
      simp only [rx_data_end, h2l, h2t, hchk, if_true]
    have haft : after_end env X2 = ((acl_rx_frame_end_chk X2).1).setCb
        { (acl_rx_frame_end_chk X2).1.h4_cb with rcv_state := H4_RX_MSGTYPE_ST } := by
      simp only [after_end, hend, Bool.false_eq_true, if_false]
    rw [haft, hchk]
    have hds := delivered_snoop X2 { X2 with
          h4_cb := { X2.h4_cb with preload_buffer := pl }
          heap := X2.heap.set w0.heap.length
            { X2.buf w0.heap.length with offset := (X2.buf w0.heap.length).len }
          trace := X2.trace ++ [Effect.btsnoop_capture msg true] } msg rfl
    have h2de : delivered X2 = delivered w0 := by unfold delivered; rw [h2tr, hXtr]
    have hc : ¬ (L + L2CAP_HEADER_SIZE > 2 + body0.length) := by
      simp only [L2CAP_HEADER_SIZE]; omega
    refine ⟨hds.1.trans h2de, rfl, ?_⟩
    show X2.h4_cb.acl_rx_q = _
    rw [h2q, hXq, if_neg hc]
  exact key _ hhead rfl rfl rfl rfl rfl rfl rfl rfl

/-- C4 (counterexample): handle 1, L2CAP length `L = 65528`, the whole frame in
one Start packet (HCI length 65532) and no Continuation packet, registered
callbacks, an empty queue and a successful allocation: the receive loop consumes
the packet and returns to H4_RX_MSGTYPE_ST, but `data_ind` was not called and
the buffer is not in the queue either. -/
theorem acl_reassembly_len_wraps :
    (hci_h4_init World.boot).h4_cb.acl_rx_q = [] ∧
    Env.ideal.bt_hc_cbacks = true ∧
    2 + (List.replicate 65530 0).length + (acl_cont_bodies []).length = 65528 + 4 ∧
    delivered (hci_h4_receive_msg Env.ideal (hci_h4_init World.boot)
      (acl_start_packet 1 0 65528 (List.replicate 65530 0) ++ acl_cont_stream 1 [])).2 = [] ∧
    (hci_h4_receive_msg Env.ideal (hci_h4_init World.boot)
      (acl_start_packet 1 0 65528 (List.replicate 65530 0) ++
        acl_cont_stream 1 [])).2.h4_cb.rcv_state = H4_RX_MSGTYPE_ST ∧
    (hci_h4_receive_msg Env.ideal (hci_h4_init World.boot)
      (acl_start_packet 1 0 65528 (List.replicate 65530 0) ++
        acl_cont_stream 1 [])).2.h4_cb.acl_rx_q = [] := by
  have hl : (List.replicate 65530 0).length = 65528 + 2 := List.length_replicate _ _
  have h := acl_start_len_wrap Env.ideal (hci_h4_init World.boot) 1 0 65528
    (List.replicate 65530 0) rfl (by decide) rfl rfl rfl
    (fun p hp => absurd hp (List.not_mem_nil p)) hl
  have e : acl_start_packet 1 0 65528 (List.replicate 65530 0) ++ acl_cont_stream 1 [] =
      acl_start_packet 1 0 65528 (List.replicate 65530 0) := List.append_nil _
  rw [e]
  refine ⟨rfl, rfl, ?_, h.1, h.2.1, h.2.2⟩
  rw [hl]; rfl

/-! ## Events and the internal-command ring (C11, C12, C20) -/

theorem hci_h4_send_int_cmd_credits (w : World) (opcode p : Nat) (f : tINT_CMD_CBACK) :
    (hci_h4_send_int_cmd w opcode p f).1.h4_num_hci_cmd_pkts = w.h4_num_hci_cmd_pkts := by
  unfold hci_h4_send_int_cmd
  split <;> rfl

theorem get_acl_data_length_cback_credits (env : Env) (w : World) (p : Nat) :
    (get_acl_data_length_cback env w p).h4_num_hci_cmd_pkts = w.h4_num_hci_cmd_pkts := by
  unfold get_acl_data_length_cback
  simp only
  split_ifs <;>
    simp only [dealloc, World.emit, World.setCb, World.setBuf, hci_h4_send_int_cmd_credits]

theorem call_cback_credits (env : Env) (w : World) (f : tINT_CMD_CBACK) (p : Nat) :
    (call_cback env w f p).h4_num_hci_cmd_pkts = w.h4_num_hci_cmd_pkts := by
  cases f with
  | NULL => rfl
  | get_acl_data_length_cback => exact get_acl_data_length_cback_credits env w p
  | external k => rfl

theorem getElem_opt_eq_some_getD (l : List Nat) (i : Nat) (h : i < l.length) :
    l[i]? = some (l.getD i 0) := by
  simp [List.getD_eq_getElem?_getD, List.getElem?_eq_getElem h]

/-- C12 (amended): the credit update from events. The current receive buffer is
a completed event buffer (its `len` bytes, at least the event code and the
length byte, lie inside its data area) with event code `c` in data byte 0. For
a Command-Complete event (0x0E) that holds the credit byte (`len ≥ 3`) and,
while an internal command is pending, the opcode field the function then reads
(`len ≥ 5`), the credit counter after `internal_event_intercept` is data
byte 2, whatever the callback of an intercepted completion does afterwards. For
a Command-Status event (0x0F) that holds its credit byte (`len ≥ 4`) the
result is FALSE and the world differs only in the counter, which is data
byte 3. For any other event code the world is unchanged and the result is
FALSE. -/
theorem credit_update_from_events (env : Env) (w : World) (p : Nat)
    (hp : w.h4_cb.p_rcv_msg = some p)
    (h2 : 2 ≤ (w.buf p).len) (hcap : (w.buf p).len ≤ (w.buf p).data.length) :
    ∃ c : Nat, (w.buf p).data[0]? = some c ∧
    (c = HCI_COMMAND_COMPLETE_EVT → 3 ≤ (w.buf p).len →
      (0 < w.h4_cb.int_cmd_rsp_pending → 5 ≤ (w.buf p).len) →
      ∃ v : Nat, (w.buf p).data[2]? = some v ∧
        (internal_event_intercept env w).1.h4_num_hci_cmd_pkts = (v : Int)) ∧
    (c = HCI_COMMAND_STATUS_EVT → 4 ≤ (w.buf p).len →
      ∃ v : Nat, (w.buf p).data[3]? = some v ∧
        internal_event_intercept env w = ({ w with h4_num_hci_cmd_pkts := (v : Int) }, false)) ∧
    (c ≠ HCI_COMMAND_COMPLETE_EVT → c ≠ HCI_COMMAND_STATUS_EVT →
      internal_event_intercept env w = (w, false)) := by
  refine ⟨(w.buf p).data.getD 0 0, getElem_opt_eq_some_getD _ 0 (by omega), ?_, ?_, ?_⟩
  · intro hc h3 _
    refine ⟨(w.buf p).data.getD 2 0, getElem_opt_eq_some_getD _ 2 (by omega), ?_⟩
    simp only [internal_event_intercept, hp, hc, if_true]
    split_ifs <;>
      simp only [World.setCb, dealloc, World.emit, call_cback_credits]
  · intro hs h4
    refine ⟨(w.buf p).data.getD 3 0, getElem_opt_eq_some_getD _ 3 (by omega), ?_⟩
    have hne : ¬ (HCI_COMMAND_STATUS_EVT = HCI_COMMAND_COMPLETE_EVT) := by decide
    simp only [internal_event_intercept, hp, hs, hne, if_true, if_false]
  · intro h1 h2
    simp only [internal_event_intercept, hp, h1, h2, if_false]

theorem credit_update_from_events_witness :
    ∃ v : Nat,
      ((received (hci_h4_init World.boot) 4 MSG_HC_TO_STACK_HCI_EVT [0x0F, 4]
        [0, 3, 5, 16] 0).buf 0).data[3]? = some v ∧
      internal_event_intercept Env.ideal
          (received (hci_h4_init World.boot) 4 MSG_HC_TO_STACK_HCI_EVT [0x0F, 4] [0, 3, 5, 16] 0) =
        ({ received (hci_h4_init World.boot) 4 MSG_HC_TO_STACK_HCI_EVT [0x0F, 4]
            [0, 3, 5, 16] 0 with h4_num_hci_cmd_pkts := (v : Int) }, false) := by
  obtain ⟨c, hc, _, h, _⟩ := credit_update_from_events Env.ideal
    (received (hci_h4_init World.boot) 4 MSG_HC_TO_STACK_HCI_EVT [0x0F, 4] [0, 3, 5, 16] 0) 0
    rfl (by decide) (by decide)
  have hc0 : c = HCI_COMMAND_STATUS_EVT := by
    have h0 : ((received (hci_h4_init World.boot) 4 MSG_HC_TO_STACK_HCI_EVT [0x0F, 4]
      [0, 3, 5, 16] 0).buf 0).data[0]? = some HCI_COMMAND_STATUS_EVT := by decide
    rw [h0] at hc
    exact (Option.some.inj hc).symm
  exact h hc0 (by decide)

/-- C12 (counterexample): the completed event `0E 00` (a Command-Complete event
without parameters) is received from the initial state. Its buffer holds the two
bytes and nothing else, so there is no data byte 2 the counter could be equal
to, while `internal_event_intercept` takes the Command-Complete branch all the
same. -/
theorem command_complete_without_credit_byte :
    delivered (hci_h4_receive_msg Env.ideal (hci_h4_init World.boot) [4, 0x0E, 0]).2 =
      [(0, ⟨MSG_HC_TO_STACK_HCI_EVT, 2, 0, 0, [0x0E, 0]⟩)] ∧
    ((hci_h4_receive_msg Env.ideal (hci_h4_init World.boot) [4, 0x0E, 0]).2.buf 0).data[2]? =
      none ∧
    ¬ ∃ v : Nat,
      ((hci_h4_receive_msg Env.ideal (hci_h4_init World.boot) [4, 0x0E, 0]).2.buf 0).data[2]? =
        some v ∧
      (hci_h4_receive_msg Env.ideal (hci_h4_init World.boot) [4, 0x0E, 0]).2.h4_num_hci_cmd_pkts =
        (v : Int) := by
  have h : ((hci_h4_receive_msg Env.ideal (hci_h4_init World.boot) [4, 0x0E, 0]).2.buf 0).data[2]? =
      none := by decide
  refine ⟨by decide, h, ?_⟩
  rintro ⟨v, hv, _⟩
  rw [h] at hv
  exact absurd hv (by simp)

theorem buf_setBuf_self (w : World) (p : Nat) (b : HC_BT_HDR) (hpl : p < w.heap.length) :
    (w.setBuf p b).buf p = b := by
  simp [World.buf, World.setBuf, List.getD_eq_getElem?_getD, hpl]

theorem buf_setCb (w : World) (cb : tHCI_H4_CB) (p : Nat) : (w.setCb cb).buf p = w.buf p := rfl

theorem buf_emit (w : World) (e : Effect) (p : Nat) : (w.emit e).buf p = w.buf p := rfl

theorem setBuf_setBuf (w : World) (p : Nat) (b b' : HC_BT_HDR) :
    (w.setBuf p b).setBuf p b' = w.setBuf p b' := by
  simp [World.setBuf, List.set_set]

/-- The callback on a successful completion of HCI_READ_BUFFER_SIZE while the
ring accepts another command. -/
theorem get_acl_data_length_cback_read_ok (env : Env) (w : World) (p : Nat)
    (hpl : p < w.heap.length)
    (hop : STREAM_TO_UINT16 (w.buf p).data 3 = HCI_READ_BUFFER_SIZE)
    (hst : (w.buf p).data.getD 5 0 = 0)
    (hpend : w.h4_cb.int_cmd_rsp_pending ≤ 8) :
    get_acl_data_length_cback env w p =
      { w with
        h4_cb := { w.h4_cb with
          hc_acl_data_size := STREAM_TO_UINT16 (w.buf p).data 6
          int_cmd_rsp_pending := w.h4_cb.int_cmd_rsp_pending + 1
          int_cmd := w.h4_cb.int_cmd.set w.h4_cb.int_cmd_wrt_idx
            ⟨HCI_LE_READ_BUFFER_SIZE, tINT_CMD_CBACK.get_acl_data_length_cback⟩
          int_cmd_wrt_idx := (w.h4_cb.int_cmd_wrt_idx + 1) &&& INT_CMD_PKT_IDX_MASK }
        heap := w.heap.set p
          ⟨MSG_STACK_TO_HC_HCI_CMD, 3, 0, HCI_LE_READ_BUFFER_SIZE,
            (UINT16_TO_STREAM (w.buf p).data 0 HCI_LE_READ_BUFFER_SIZE).set 2 0⟩
        trace := w.trace ++ [Effect.bthc_tx p] } := by
  have hg : ¬ (w.h4_cb.int_cmd_rsp_pending > ((INT_CMD_PKT_MAX_COUNT : Nat) : Int)) := by
    simp only [INT_CMD_PKT_MAX_COUNT]; push_cast; omega
  have hpl2 : ∀ cb, p < (w.setCb cb).heap.length := fun _ => hpl
  unfold get_acl_data_length_cback
  simp only [hop, hst, if_true, buf_setCb]
  unfold hci_h4_send_int_cmd
  simp only [buf_setCb, buf_setBuf_self _ _ _ (hpl2 _), setBuf_setBuf]
  simp only [World.setCb, World.setBuf, World.emit, hg, if_false, Bool.true_eq_false,
    List.set_set]

theorem le_read_buffer_size_bytes (data : List Nat) (h : 3 ≤ data.length) :
    ((UINT16_TO_STREAM data 0 HCI_LE_READ_BUFFER_SIZE).set 2 0).take 3 = [0x02, 0x20, 0x00] ∧
    ((UINT16_TO_STREAM data 0 HCI_LE_READ_BUFFER_SIZE).set 2 0).drop 3 = data.drop 3 := by
  match data, h with
  | a :: b :: c :: rest, _ =>
    simp [UINT16_TO_STREAM, write_bytes, HCI_LE_READ_BUFFER_SIZE]

/-- C20 (amended): bootstrap step 2. `get_acl_data_length_cback` receives, in
the live buffer `p`, a Command-Complete event for opcode 0x1005 with status 0
and length value `v`, while the pending count is at most 8 (so that
`hci_h4_send_int_cmd` accepts one more command). It records
`hc_acl_data_size = v`, rewrites the buffer in place as a Command (event
MSG_STACK_TO_HC_HCI_CMD, offset 0, len 3, data bytes 02 20 00, the rest of the
data untouched) and submits it: the slot at the write cursor holds opcode 0x2002
with the same callback, the write cursor advances, the pending count grows by
one, the buffer is stamped with the opcode and forwarded once; the only new
effect is that `bthc_tx`, so the buffer is not freed and `postload_cb` is not
invoked. -/
theorem bootstrap_read_buffer_size_ok (env : Env) (w : World) (p v : Nat)
    (hpl : p < w.heap.length)
    (hop : STREAM_TO_UINT16 (w.buf p).data 3 = HCI_READ_BUFFER_SIZE)
    (hst : (w.buf p).data.getD 5 0 = 0)
    (hv : STREAM_TO_UINT16 (w.buf p).data 6 = v)
    (hlen : 3 ≤ (w.buf p).data.length)
    (hpend : w.h4_cb.int_cmd_rsp_pending ≤ 8) :
    (get_acl_data_length_cback env w p).h4_cb.hc_acl_data_size = v ∧
    (get_acl_data_length_cback env w p).h4_cb.hc_ble_acl_data_size =
      w.h4_cb.hc_ble_acl_data_size ∧
    ((get_acl_data_length_cback env w p).buf p).event = MSG_STACK_TO_HC_HCI_CMD ∧
    ((get_acl_data_length_cback env w p).buf p).offset = 0 ∧
    ((get_acl_data_length_cback env w p).buf p).len = 3 ∧
    ((get_acl_data_length_cback env w p).buf p).data.take 3 = [0x02, 0x20, 0x00] ∧
    ((get_acl_data_length_cback env w p).buf p).data.drop 3 = (w.buf p).data.drop 3 ∧
    ((get_acl_data_length_cback env w p).buf p).layer_specific = HCI_LE_READ_BUFFER_SIZE ∧
    (get_acl_data_length_cback env w p).h4_cb.int_cmd =
      w.h4_cb.int_cmd.set w.h4_cb.int_cmd_wrt_idx
        ⟨HCI_LE_READ_BUFFER_SIZE, tINT_CMD_CBACK.get_acl_data_length_cback⟩ ∧
    (get_acl_data_length_cback env w p).h4_cb.int_cmd_wrt_idx =
      (w.h4_cb.int_cmd_wrt_idx + 1) % 8 ∧
    (get_acl_data_length_cback env w p).h4_cb.int_cmd_rd_idx = w.h4_cb.int_cmd_rd_idx ∧
    (get_acl_data_length_cback env w p).h4_cb.int_cmd_rsp_pending =
      w.h4_cb.int_cmd_rsp_pending + 1 ∧
    (get_acl_data_length_cback env w p).trace = w.trace ++ [Effect.bthc_tx p] ∧
    (get_acl_data_length_cback env w p).heap.length = w.heap.length := by
  have hb := le_read_buffer_size_bytes (w.buf p).data hlen
  rw [get_acl_data_length_cback_read_ok env w p hpl hop hst hpend]
  have hbuf : ∀ (cb : tHCI_H4_CB) (t : List Effect) (b : HC_BT_HDR),
      World.buf { w with h4_cb := cb, heap := w.heap.set p b, trace := t } p = b := by
    intro cb t b
    simp [World.buf, List.getD_eq_getElem?_getD, hpl]
  simp only [hbuf, hv, hb.1, hb.2, INT_CMD_PKT_IDX_MASK, land_7, List.length_set, and_self]

theorem bootstrap_read_buffer_size_ok_witness :
    (get_acl_data_length_cback Env.ideal
      (World.read_buffer_size_complete (hci_h4_init World.boot)) 0).h4_cb.hc_acl_data_size = 1021 ∧
    (get_acl_data_length_cback Env.ideal
      (World.read_buffer_size_complete (hci_h4_init World.boot)) 0).trace =
        (World.read_buffer_size_complete (hci_h4_init World.boot)).trace ++ [Effect.bthc_tx 0] :=
  have h := bootstrap_read_buffer_size_ok Env.ideal
    (World.read_buffer_size_complete (hci_h4_init World.boot)) 0 1021
    (by decide) (by decide) (by decide) (by decide) (by decide) (by decide)
  ⟨h.1, h.2.2.2.2.2.2.2.2.2.2.2.2.1⟩

/-- C20 (counterexample): nine internal commands are pending (the ninth call
of `hci_h4_send_int_cmd` is still accepted) when the completion of
HCI_READ_BUFFER_SIZE with status 0 and length 1021 arrives in buffer 0. The
callback records the size, but `hci_h4_send_int_cmd` rejects the follow-up
command: the buffer is freed and `postload_cb(BT_HC_POSTLOAD_SUCCESS)` is
invoked, and nothing is forwarded to the transmit path. -/
theorem bootstrap_resubmission_rejected :
    (World.read_buffer_size_complete (send_int_cmds (hci_h4_init World.boot)
      [(0x1005, 100, tINT_CMD_CBACK.get_acl_data_length_cback),
       (1, 101, tINT_CMD_CBACK.external 1), (2, 102, tINT_CMD_CBACK.external 2),
       (3, 103, tINT_CMD_CBACK.external 3), (4, 104, tINT_CMD_CBACK.external 4),
       (5, 105, tINT_CMD_CBACK.external 5), (6, 106, tINT_CMD_CBACK.external 6),
       (7, 107, tINT_CMD_CBACK.external 7),
       (8, 108, tINT_CMD_CBACK.external 8)]).1).h4_cb.int_cmd_rsp_pending = 9 ∧
    (get_acl_data_length_cback Env.ideal
      (World.read_buffer_size_complete (send_int_cmds (hci_h4_init World.boot)
        [(0x1005, 100, tINT_CMD_CBACK.get_acl_data_length_cback),
         (1, 101, tINT_CMD_CBACK.external 1), (2, 102, tINT_CMD_CBACK.external 2),
         (3, 103, tINT_CMD_CBACK.external 3), (4, 104, tINT_CMD_CBACK.external 4),
         (5, 105, tINT_CMD_CBACK.external 5), (6, 106, tINT_CMD_CBACK.external 6),
         (7, 107, tINT_CMD_CBACK.external 7),
         (8, 108, tINT_CMD_CBACK.external 8)]).1) 0).trace =
      (World.read_buffer_size_complete (send_int_cmds (hci_h4_init World.boot)
        [(0x1005, 100, tINT_CMD_CBACK.get_acl_data_length_cback),
         (1, 101, tINT_CMD_CBACK.external 1), (2, 102, tINT_CMD_CBACK.external 2),
         (3, 103, tINT_CMD_CBACK.external 3), (4, 104, tINT_CMD_CBACK.external 4),
         (5, 105, tINT_CMD_CBACK.external 5), (6, 106, tINT_CMD_CBACK.external 6),
         (7, 107, tINT_CMD_CBACK.external 7),
         (8, 108, tINT_CMD_CBACK.external 8)]).1).trace ++
        [Effect.dealloc 0, Effect.postload_cb BT_HC_POSTLOAD_SUCCESS] := by
  decide

theorem hci_h4_send_int_cmd_rd_idx (w : World) (opcode p : Nat) (f : tINT_CMD_CBACK) :
    (hci_h4_send_int_cmd w opcode p f).1.h4_cb.int_cmd_rd_idx = w.h4_cb.int_cmd_rd_idx := by
  unfold hci_h4_send_int_cmd
  split <;> rfl

theorem hci_h4_send_int_cmd_delivered (w : World) (opcode p : Nat) (f : tINT_CMD_CBACK) :
    delivered (hci_h4_send_int_cmd w opcode p f).1 = delivered w := by
  unfold hci_h4_send_int_cmd
  split
  · rfl
  · simp [delivered, World.emit, World.setBuf, World.setCb, List.filterMap_append]

theorem get_acl_data_length_cback_rd_idx (env : Env) (w : World) (p : Nat) :
    (get_acl_data_length_cback env w p).h4_cb.int_cmd_rd_idx = w.h4_cb.int_cmd_rd_idx := by
  unfold get_acl_data_length_cback
  simp only
  split_ifs <;>
    simp only [dealloc, World.emit, World.setCb, World.setBuf, hci_h4_send_int_cmd_rd_idx]

theorem delivered_emit_other (w : World) (e : Effect)
    (he : ∀ p m k, e ≠ Effect.data_ind p m k) : delivered (w.emit e) = delivered w := by
  cases e <;> simp_all [delivered, World.emit, List.filterMap_append]

theorem delivered_emit_dealloc (w : World) (p : Nat) :
    delivered (w.emit (Effect.dealloc p)) = delivered w :=
  delivered_emit_other _ _ (fun _ _ _ => by simp)

theorem delivered_emit_postload_cb (w : World) (s : Nat) :
    delivered (w.emit (Effect.postload_cb s)) = delivered w :=
  delivered_emit_other _ _ (fun _ _ _ => by simp)

theorem delivered_emit_cback (w : World) (k p : Nat) :
    delivered (w.emit (Effect.cback k p)) = delivered w :=
  delivered_emit_other _ _ (fun _ _ _ => by simp)

theorem delivered_emit_snoop (w : World) (m : HC_BT_HDR) (r : Bool) :
    delivered (w.emit (Effect.btsnoop_capture m r)) = delivered w :=
  delivered_emit_other _ _ (fun _ _ _ => by simp)

theorem delivered_setCb (w : World) (cb : tHCI_H4_CB) : delivered (w.setCb cb) = delivered w := rfl

theorem delivered_setBuf (w : World) (p : Nat) (b : HC_BT_HDR) :
    delivered (w.setBuf p b) = delivered w := rfl

theorem get_acl_data_length_cback_delivered (env : Env) (w : World) (p : Nat) :
    delivered (get_acl_data_length_cback env w p) = delivered w := by
  unfold get_acl_data_length_cback
  simp only
  split_ifs <;>
    simp only [dealloc, delivered_emit_dealloc, delivered_emit_postload_cb, delivered_setCb,
      delivered_setBuf, hci_h4_send_int_cmd_delivered]

theorem call_cback_delivered (env : Env) (w : World) (f : tINT_CMD_CBACK) (p : Nat) :
    delivered (call_cback env w f p) = delivered w := by
  cases f with
  | NULL => rfl
  | get_acl_data_length_cback => exact get_acl_data_length_cback_delivered env w p
  | external k => exact delivered_emit_cback _ _ _

theorem call_cback_rd_idx (env : Env) (w : World) (f : tINT_CMD_CBACK) (p : Nat) :
    (call_cback env w f p).h4_cb.int_cmd_rd_idx = w.h4_cb.int_cmd_rd_idx := by
  cases f with
  | NULL => rfl
  | get_acl_data_length_cback => exact get_acl_data_length_cback_rd_idx env w p
  | external k => rfl

/-- What `internal_event_intercept` does with an event it claims. -/
theorem internal_event_intercept_hit (env : Env) (w : World) (p : Nat)
    (hp : w.h4_cb.p_rcv_msg = some p) (hi : intercepts w p) :
    internal_event_intercept env w =
      (int_cmd_retire
        (if (int_cmd_slot w).cback ≠ tINT_CMD_CBACK.NULL then
          call_cback env { w with h4_num_hci_cmd_pkts := (((w.buf p).data.getD 2 0 : Nat) : Int) }
            (int_cmd_slot w).cback p
         else if env.bt_hc_cbacks then
          dealloc { w with h4_num_hci_cmd_pkts := (((w.buf p).data.getD 2 0 : Nat) : Int) } p
         else { w with h4_num_hci_cmd_pkts := (((w.buf p).data.getD 2 0 : Nat) : Int) }), true) := by
  obtain ⟨h1, h2, h3⟩ := hi
  have h2' : w.h4_cb.int_cmd_rsp_pending > 0 := h2
  simp only [int_cmd_slot] at h3
  simp only [internal_event_intercept, hp, h1, h2', h3, if_true, int_cmd_retire, int_cmd_slot]

/-- C11 (amended): interception of internal completions. The current receive
buffer `p` holds a complete Event and the host callbacks are registered. If the
event is a Command-Complete event, an internal command is pending and the opcode
of the event equals the opcode of the record at the read cursor, then
`internal_event_intercept` returns TRUE, the read cursor advances by one modulo
8 and the delivery block of `hci_h4_receive_msg` does not call `data_ind`; a
record with a callback has exactly that callback applied once to the event
buffer, after which the pending count is decremented (for a callback of another
module the call is the only new effect and the pending count ends one below its
old value; `get_acl_data_length_cback` may itself enqueue a command first); a
record without callback has the buffer freed instead. In every other case the
function returns FALSE, changes nothing but the credit counter, and the buffer
is handed to `data_ind`. -/
theorem internal_completion_intercept (env : Env) (w : World) (p : Nat)
    (hp : w.h4_cb.p_rcv_msg = some p) (hev : (w.buf p).event = MSG_HC_TO_STACK_HCI_EVT)
    (hcb : env.bt_hc_cbacks = true) :
    (intercepts w p →
      (internal_event_intercept env w).2 = true ∧
      (internal_event_intercept env w).1.h4_cb.int_cmd_rd_idx =
        (w.h4_cb.int_cmd_rd_idx + 1) % 8 ∧
      delivered (rx_deliver env w) = delivered w ∧
      ((int_cmd_slot w).cback ≠ tINT_CMD_CBACK.NULL →
        (internal_event_intercept env w).1 =
          int_cmd_retire (call_cback env
            { w with h4_num_hci_cmd_pkts := (((w.buf p).data.getD 2 0 : Nat) : Int) }
            (int_cmd_slot w).cback p)) ∧
      (∀ k, (int_cmd_slot w).cback = tINT_CMD_CBACK.external k →
        (internal_event_intercept env w).1.trace = w.trace ++ [Effect.cback k p] ∧
        (internal_event_intercept env w).1.h4_cb.int_cmd_rsp_pending =
          w.h4_cb.int_cmd_rsp_pending - 1 ∧
        (internal_event_intercept env w).1.h4_cb.int_cmd = w.h4_cb.int_cmd ∧
        (internal_event_intercept env w).1.h4_cb.int_cmd_wrt_idx = w.h4_cb.int_cmd_wrt_idx) ∧
      ((int_cmd_slot w).cback = tINT_CMD_CBACK.NULL →
        (internal_event_intercept env w).1.trace = w.trace ++ [Effect.dealloc p] ∧
        (internal_event_intercept env w).1.h4_cb.int_cmd_rsp_pending =
          w.h4_cb.int_cmd_rsp_pending - 1 ∧
        (internal_event_intercept env w).1.h4_cb.int_cmd = w.h4_cb.int_cmd ∧
        (internal_event_intercept env w).1.h4_cb.int_cmd_wrt_idx = w.h4_cb.int_cmd_wrt_idx)) ∧
    (¬ intercepts w p →
      (internal_event_intercept env w).2 = false ∧
      (internal_event_intercept env w).1.h4_cb = w.h4_cb ∧
      (internal_event_intercept env w).1.trace = w.trace ∧
      (internal_event_intercept env w).1.heap = w.heap ∧
      delivered (rx_deliver env w) = delivered w ++ [(p, w.buf p)]) := by
  have hne : ¬ (MSG_HC_TO_STACK_HCI_EVT = MSG_HC_TO_STACK_HCI_ACL) := by decide
  have hrx : rx_deliver env w =
      (if (internal_event_intercept env
            (w.emit (Effect.btsnoop_capture (w.buf p) true))).2 = false then
          (internal_event_intercept env (w.emit (Effect.btsnoop_capture (w.buf p) true))).1.emit
            (Effect.data_ind p
              ((internal_event_intercept env
                (w.emit (Effect.btsnoop_capture (w.buf p) true))).1.buf p)
              (((internal_event_intercept env
                (w.emit (Effect.btsnoop_capture (w.buf p) true))).1.buf p).len + BT_HC_HDR_SIZE))
        else (internal_event_intercept env
            (w.emit (Effect.btsnoop_capture (w.buf p) true))).1).setCb
        { (if (internal_event_intercept env
              (w.emit (Effect.btsnoop_capture (w.buf p) true))).2 = false then
            (internal_event_intercept env (w.emit (Effect.btsnoop_capture (w.buf p) true))).1.emit
              (Effect.data_ind p
                ((internal_event_intercept env
                  (w.emit (Effect.btsnoop_capture (w.buf p) true))).1.buf p)
                (((internal_event_intercept env
                  (w.emit (Effect.btsnoop_capture (w.buf p) true))).1.buf p).len + BT_HC_HDR_SIZE))
          else (internal_event_intercept env
              (w.emit (Effect.btsnoop_capture (w.buf p) true))).1).h4_cb with
          p_rcv_msg := none } := by
    simp only [rx_deliver, hp, hev, hne, ne_eq, not_false_eq_true, if_true, buf_emit, hcb,
      true_and]
  constructor
  · intro hi
    have hi1 : intercepts (w.emit (Effect.btsnoop_capture (w.buf p) true)) p := hi
    have hh := internal_event_intercept_hit env w p hp hi
    have hh1 := internal_event_intercept_hit env _ p
      (show (w.emit (Effect.btsnoop_capture (w.buf p) true)).h4_cb.p_rcv_msg = some p from hp) hi1
    refine ⟨by rw [hh], ?_, ?_, ?_, ?_, ?_⟩
    · rw [hh]
      simp only [int_cmd_retire, World.setCb, INT_CMD_PKT_IDX_MASK, land_7]
      split_ifs <;> simp only [call_cback_rd_idx, dealloc, World.emit]
    · rw [hrx, hh1]
      simp only [Bool.true_eq_false, if_false, delivered_setCb, int_cmd_retire]
      split_ifs <;>
        simp only [call_cback_delivered, dealloc, delivered_emit_dealloc]
      all_goals exact delivered_emit_snoop _ _ _
    · intro hc
      rw [hh, if_pos hc]
    · intro k hk
      have hc : (int_cmd_slot w).cback ≠ tINT_CMD_CBACK.NULL := by rw [hk]; simp
      rw [hh, if_pos hc, hk]
      exact ⟨rfl, rfl, rfl, rfl⟩
    · intro hk
      have hc : ¬ ((int_cmd_slot w).cback ≠ tINT_CMD_CBACK.NULL) := by rw [hk]; simp
      rw [hh, if_neg hc, if_pos hcb]
      exact ⟨rfl, rfl, rfl, rfl⟩
  · intro hi
    have hi1 : ¬ intercepts (w.emit (Effect.btsnoop_capture (w.buf p) true)) p := hi
    obtain ⟨c, hc⟩ := internal_event_intercept_pass env w p hp hi
    obtain ⟨c1, hc1⟩ := internal_event_intercept_pass env _ p
      (show (w.emit (Effect.btsnoop_capture (w.buf p) true)).h4_cb.p_rcv_msg = some p from hp) hi1
    refine ⟨by rw [hc], by rw [hc], by rw [hc], by rw [hc], ?_⟩
    rw [hrx, hc1]
    simp only [if_true, delivered_setCb]
    have hb : World.buf { w.emit (Effect.btsnoop_capture (w.buf p) true) with
        h4_num_hci_cmd_pkts := c1 } p = w.buf p := rfl
    rw [hb]
    exact delivered_append_data_ind p (w.buf p) ((w.buf p).len + BT_HC_HDR_SIZE) w _
      (by simp only [World.emit, List.append_assoc, List.singleton_append])

theorem internal_completion_intercept_witness :
    (internal_event_intercept Env.ideal (World.read_buffer_size_complete
      (hci_h4_send_int_cmd (hci_h4_init World.boot) 0x1005 100
        (tINT_CMD_CBACK.external 7)).1)).2 = true ∧
    (internal_event_intercept Env.ideal (World.read_buffer_size_complete
      (hci_h4_send_int_cmd (hci_h4_init World.boot) 0x1005 100
        (tINT_CMD_CBACK.external 7)).1)).1.h4_cb.int_cmd_rd_idx = (0 + 1) % 8 ∧
    delivered (rx_deliver Env.ideal (World.read_buffer_size_complete
      (hci_h4_send_int_cmd (hci_h4_init World.boot) 0x1005 100
        (tINT_CMD_CBACK.external 7)).1)) =
      delivered (World.read_buffer_size_complete
        (hci_h4_send_int_cmd (hci_h4_init World.boot) 0x1005 100
          (tINT_CMD_CBACK.external 7)).1) :=
  have h := (internal_completion_intercept Env.ideal (World.read_buffer_size_complete
      (hci_h4_send_int_cmd (hci_h4_init World.boot) 0x1005 100
        (tINT_CMD_CBACK.external 7)).1) 0 rfl rfl rfl).1
    ⟨by decide, by decide, by decide⟩
  ⟨h.1, h.2.1, h.2.2.1⟩

/-- C11 (counterexample): two runs of `hci_h4_receive_msg` on the completion
event of opcode 0x1005 (status 0), each after one accepted internal command for
that opcode. With `get_acl_data_length_cback` as callback the event is
intercepted, but the pending count is 1 before and 1 after (the callback
enqueued opcode 0x2002 before the record was retired). With no callback (NULL)
the event is intercepted and no callback runs: the event buffer 0 is freed. -/
theorem intercept_pending_not_decremented :
    (hci_h4_send_int_cmd (hci_h4_init World.boot) 0x1005 100
      tINT_CMD_CBACK.get_acl_data_length_cback).1.h4_cb.int_cmd_rsp_pending = 1 ∧
    (hci_h4_receive_msg Env.ideal
      (hci_h4_send_int_cmd (hci_h4_init World.boot) 0x1005 100
        tINT_CMD_CBACK.get_acl_data_length_cback).1
      [4, 0x0E, 11, 1, 0x05, 0x10, 0, 0xFD, 0x03, 0x40, 8, 0, 1, 0]).2.h4_cb.int_cmd_rsp_pending
        = 1 ∧
    delivered (hci_h4_receive_msg Env.ideal
      (hci_h4_send_int_cmd (hci_h4_init World.boot) 0x1005 100
        tINT_CMD_CBACK.get_acl_data_length_cback).1
      [4, 0x0E, 11, 1, 0x05, 0x10, 0, 0xFD, 0x03, 0x40, 8, 0, 1, 0]).2 = [] ∧
    (hci_h4_receive_msg Env.ideal
      (hci_h4_send_int_cmd (hci_h4_init World.boot) 0x1005 100 tINT_CMD_CBACK.NULL).1
      [4, 0x0E, 11, 1, 0x05, 0x10, 0, 0xFD, 0x03, 0x40, 8, 0, 1, 0]).2.trace =
      [Effect.bthc_tx 100,
       Effect.btsnoop_capture ⟨MSG_HC_TO_STACK_HCI_EVT, 13, 0, 0,
         [0x0E, 11, 1, 0x05, 0x10, 0, 0xFD, 0x03, 0x40, 8, 0, 1, 0]⟩ true,
       Effect.dealloc 0] := by
  decide

/-! ## The transmit path: frame and trace shape (C16, C18, C19) -/

theorem put_type_len (b : HC_BT_HDR) (type : Nat) : (put_type b type).len = b.len := by
  unfold put_type; split <;> rfl

theorem put_type_offset (b : HC_BT_HDR) (type : Nat) : (put_type b type).offset = b.offset := by
  unfold put_type; split <;> rfl

theorem put_type_event (b : HC_BT_HDR) (type : Nat) : (put_type b type).event = b.event := by
  unfold put_type; split <;> rfl

theorem put_type_data_length (b : HC_BT_HDR) (type : Nat) :
    (put_type b type).data.length = b.data.length := by
  unfold put_type; split
  · rfl
  · simp

theorem put_type_drop (b : HC_BT_HDR) (type : Nat) :
    (put_type b type).data.drop b.offset = b.data.drop b.offset := by
  unfold put_type; split
  · rfl
  · rename_i h
    simp only
    rw [List.drop_set_of_lt _ _ (by omega)]

theorem fragment_advance_layer_specific (b : HC_BT_HDR) (h s d : Nat) :
    (fragment_advance b h s d).layer_specific = b.layer_specific := rfl

theorem fragment_advance_event (b : HC_BT_HDR) (h s d : Nat) :
    (fragment_advance b h s d).event = b.event := rfl

theorem fragment_advance_len (b : HC_BT_HDR) (h s d : Nat) :
    (fragment_advance b h s d).len = u16_sub b.len d := rfl

theorem fragment_advance_offset (b : HC_BT_HDR) (h s d : Nat) :
    (fragment_advance b h s d).offset = u16 (b.offset + d) := rfl

theorem hci_h4_send_fragment_eq (env : Env) (w : World)
    (p type event handle pkt D : Nat) :
    hci_h4_send_fragment env w p type event handle pkt D =
      ({ w with
          heap := w.heap.set p (fragment_result (w.buf p) type handle pkt D)
          trace := w.trace ++
            [Effect.userial_write event (tx_bytes (put_type (w.buf p) type) type (u16 (pkt + 1))),
             Effect.btsnoop_capture (put_type (w.buf p) type) false] ++
            (if (w.buf p).layer_specific = 1 ∧ env.bt_hc_cbacks = true then
              [Effect.tx_result p BT_HC_TX_FRAGMENT] else []) },
        decide ((w.buf p).layer_specific = 1)) := by
  unfold hci_h4_send_fragment fragment_result
  simp only [fragment_advance_layer_specific]
  generalize w.buf p = b
  by_cases h0 : b.layer_specific = 0
  · simp [h0, World.emit, World.setBuf]
  · by_cases h1 : b.layer_specific = 1
    · cases hcb : env.bt_hc_cbacks <;> simp [h1, hcb, World.emit, World.setBuf]
    · have h2 : ¬ (b.layer_specific - 1 = 0) := by omega
      simp [h0, h1, h2, World.emit, World.setBuf]

theorem fragment_result_layer_specific (b : HC_BT_HDR) (type handle pkt D : Nat) :
    (fragment_result b type handle pkt D).layer_specific = b.layer_specific - 1 := by
  unfold fragment_result
  simp only [fragment_advance_layer_specific]
  by_cases h0 : b.layer_specific = 0
  · simp [h0, fragment_advance_layer_specific]
  · by_cases h2 : b.layer_specific - 1 = 0
    · simp [h0, h2]
    · simp [h0, h2]

theorem fragment_result_len (b : HC_BT_HDR) (type handle pkt D : Nat) :
    (fragment_result b type handle pkt D).len = u16_sub b.len D := by
  unfold fragment_result
  simp only [fragment_advance_layer_specific]
  split_ifs <;> simp only [fragment_advance_len, put_type_len]

theorem fragment_result_offset (b : HC_BT_HDR) (type handle pkt D : Nat) :
    (fragment_result b type handle pkt D).offset = u16 (b.offset + D) := by
  unfold fragment_result
  simp only [fragment_advance_layer_specific]
  split_ifs <;> simp only [fragment_advance_offset, put_type_offset]

theorem fragment_result_event (b : HC_BT_HDR) (type handle pkt D : Nat) :
    (fragment_result b type handle pkt D).event =
      if b.layer_specific = 1 then MSG_HC_TO_STACK_L2C_SEG_XMIT else b.event := by
  unfold fragment_result
  simp only [fragment_advance_layer_specific]
  by_cases h0 : b.layer_specific = 0
  · simp [h0, fragment_advance_event, put_type_event]
  · by_cases h1 : b.layer_specific = 1
    · simp [h1]
    · have h2 : ¬ (b.layer_specific - 1 = 0) := by omega
      simp only [h0, h1, h2, ne_eq, not_false_eq_true, if_true, if_false,
        fragment_advance_event, put_type_event]

theorem fragment_result_data (b : HC_BT_HDR) (type handle pkt D : Nat) :
    (fragment_result b type handle pkt D).data =
      (fragment_advance { put_type b type with layer_specific := b.layer_specific }
        handle pkt D).data := by
  unfold fragment_result
  simp only [fragment_advance_layer_specific]
  split_ifs <;> rfl

theorem buf_set_self (w : World) (p : Nat) (b : HC_BT_HDR) (t : List Effect)
    (hpl : p < w.heap.length) :
    World.buf { w with heap := w.heap.set p b, trace := t } p = b := by
  simp [World.buf, List.getD_eq_getElem?_getD, hpl]

theorem buf_set_other (w : World) (p q : Nat) (b : HC_BT_HDR) (t : List Effect)
    (hq : q ≠ p) :
    World.buf { w with heap := w.heap.set p b, trace := t } q = w.buf q := by
  simp [World.buf, List.getD_eq_getElem?_getD, List.getElem?_set_ne (Ne.symm hq)]

theorem buf_of_not_lt (w : World) (p : Nat) (hpl : ¬ p < w.heap.length) :
    w.buf p = ⟨0, 0, 0, 0, []⟩ := by
  simp [World.buf, List.getD_eq_getElem?_getD, List.getElem?_eq_none (Nat.le_of_not_lt hpl)]

/-- What the fragmentation loop can change: only the buffer `p_msg` and the
trace, to which it appends writes and snoop captures and, when it returns from
inside (used-up fragment budget), one `tx_result` with BT_HC_TX_FRAGMENT. -/
theorem hci_h4_send_loop_frame (env : Env) (p type event handle pkt D : Nat) :
    ∀ (fuel : Nat) (w : World) (r : World × Bool),
      hci_h4_send_loop env p type event handle pkt D fuel w = some r →
      r.1.h4_cb = w.h4_cb ∧ r.1.h4_num_hci_cmd_pkts = w.h4_num_hci_cmd_pkts ∧
      r.1.heap.length = w.heap.length ∧
      (∀ q, q ≠ p → r.1.buf q = w.buf q) ∧
      ((w.buf p).layer_specific = 0 → r.2 = false) ∧
      ∃ t : List Effect, t.all Effect.is_segment_io = true ∧
        r.1.trace = w.trace ++ t ++
          (if r.2 = true ∧ env.bt_hc_cbacks = true then [Effect.tx_result p BT_HC_TX_FRAGMENT]
           else []) := by
  intro fuel
  induction fuel with
  | zero => intro w r h; simp [hci_h4_send_loop] at h
  | succ fuel ih =>
    intro w r h
    rw [hci_h4_send_loop] at h
    by_cases hc : (w.buf p).len > pkt
    · rw [if_pos hc] at h
      simp only [hci_h4_send_fragment_eq] at h
      by_cases h1 : (w.buf p).layer_specific = 1
      · simp only [h1, decide_True, if_true, true_and, Option.some.injEq] at h
        subst h
        refine ⟨rfl, rfl, by simp, fun q hq => buf_set_other _ _ _ _ _ hq, ?_, ?_⟩
        · intro h0; omega
        · refine ⟨[Effect.userial_write event
              (tx_bytes (put_type (w.buf p) type) type (u16 (pkt + 1))),
              Effect.btsnoop_capture (put_type (w.buf p) type) false], rfl, ?_⟩
          simp
      · simp only [h1, decide_False, Bool.false_eq_true, if_false, false_and,
          List.append_nil] at h
        obtain ⟨a1, a2, a3, a4, a5, t, ht, a6⟩ := ih _ r h
        refine ⟨a1, a2, by rw [a3]; simp, ?_, ?_, ?_⟩
        · intro q hq
          rw [a4 q hq]
          exact buf_set_other _ _ _ _ _ hq
        · intro h0
          apply a5
          by_cases hpl : p < w.heap.length
          · rw [buf_set_self _ _ _ _ hpl, fragment_result_layer_specific, h0]
          · rw [buf_of_not_lt _ _ (by simpa using hpl)]
        · refine ⟨[Effect.userial_write event
              (tx_bytes (put_type (w.buf p) type) type (u16 (pkt + 1))),
              Effect.btsnoop_capture (put_type (w.buf p) type) false] ++ t, ?_, ?_⟩
          · simp only [List.all_append, ht, Bool.and_true]; rfl
          · rw [a6]; simp
    · rw [if_neg hc] at h
      simp only [Option.some.injEq] at h
      subst h
      refine ⟨rfl, rfl, rfl, fun _ _ => rfl, fun _ => rfl, [], rfl, ?_⟩
      simp

theorem put_type_stream (b : HC_BT_HDR) (type : Nat) :
    STREAM_TO_UINT16 (put_type b type).data b.offset = STREAM_TO_UINT16 b.data b.offset := by
  unfold put_type
  split
  · rfl
  · rename_i h
    simp only [STREAM_TO_UINT16, List.getD_eq_getElem?_getD]
    rw [List.getElem?_set_ne (by omega), List.getElem?_set_ne (by omega)]

/-- The part of `hci_h4_send_msg` after the loop, in closed form. -/
theorem hci_h4_send_tail_eq (env : Env) (w : World) (p type ev : Nat) :
    hci_h4_send_tail env w p type ev =
      { w with
        heap := w.heap.set p
          { put_type (w.buf p) type with layer_specific := (w.buf p).layer_specific }
        h4_num_hci_cmd_pkts :=
          if ev = MSG_STACK_TO_HC_HCI_CMD then w.h4_num_hci_cmd_pkts - 1
          else w.h4_num_hci_cmd_pkts
        trace := w.trace ++
          [Effect.userial_write ev
            (tx_bytes (put_type (w.buf p) type) type (u16 ((w.buf p).len + 1))),
           Effect.btsnoop_capture
            { put_type (w.buf p) type with layer_specific := (w.buf p).layer_specific } false] ++
          (if env.bt_hc_cbacks = true then
            [if ev = MSG_STACK_TO_HC_HCI_CMD ∧ w.h4_cb.int_cmd_rsp_pending > 0 ∧
                (w.buf p).layer_specific = STREAM_TO_UINT16 (w.buf p).data (w.buf p).offset
              then Effect.dealloc p else Effect.tx_result p BT_HC_TX_SUCCESS]
           else []) ++
          [Effect.lpm_tx_done true] } := by
  unfold hci_h4_send_tail
  simp only [put_type_len, put_type_offset, put_type_stream]
  generalize w.buf p = b
  by_cases hc : ev = MSG_STACK_TO_HC_HCI_CMD
  · cases hcb : env.bt_hc_cbacks
    · simp [hc, hcb, World.emit, World.setBuf]
    · by_cases hd : w.h4_cb.int_cmd_rsp_pending > 0 ∧
          b.layer_specific = STREAM_TO_UINT16 b.data b.offset
      · simp [hc, hcb, hd, World.emit, World.setBuf, dealloc]
      · simp [hc, hcb, hd, World.emit, World.setBuf, dealloc]
  · cases hcb : env.bt_hc_cbacks <;> simp [hc, hcb, World.emit, World.setBuf]

theorem hci_h4_send_msg_eq (env : Env) (w : World) (p : Nat) :
    hci_h4_send_msg env w p =
      match (if tx_event (w.buf p) = MSG_STACK_TO_HC_HCI_ACL ∧
                (w.buf p).len > u16 (tx_data_size w (w.buf p) + HCI_ACL_PREAMBLE_SIZE) then
              hci_h4_send_loop env p (tx_type (w.buf p)) (tx_event (w.buf p)) (tx_handle (w.buf p))
                (u16 (tx_data_size w (w.buf p) + HCI_ACL_PREAMBLE_SIZE)) (tx_data_size w (w.buf p))
                ((w.buf p).len + (w.buf p).layer_specific + 1) (w.emit Effect.lpm_wake_assert)
            else some (w.emit Effect.lpm_wake_assert, false)) with
      | none => none
      | some (w1, true) => some w1
      | some (w1, false) =>
        some (hci_h4_send_tail env w1 p (tx_type (w.buf p)) (tx_event (w.buf p))) := rfl

/-- A send that does not enter the fragmentation loop. -/
theorem hci_h4_send_msg_plain (env : Env) (w : World) (p : Nat)
    (h : ¬ (tx_event (w.buf p) = MSG_STACK_TO_HC_HCI_ACL ∧
      (w.buf p).len > u16 (tx_data_size w (w.buf p) + HCI_ACL_PREAMBLE_SIZE))) :
    hci_h4_send_msg env w p =
      some (hci_h4_send_tail env (w.emit Effect.lpm_wake_assert) p (tx_type (w.buf p))
        (tx_event (w.buf p))) := by
  rw [hci_h4_send_msg_eq, if_neg h]

/-- The fragmentation loop ends within the fuel when a fragment budget is set
or when every pass shortens the message. -/
theorem hci_h4_send_loop_terminates (env : Env) (p type event handle pkt D : Nat) :
    ∀ (fuel : Nat) (w : World),
      (((w.buf p).layer_specific ≠ 0 ∧ (w.buf p).layer_specific < fuel) ∨
       ((w.buf p).layer_specific = 0 ∧ 1 ≤ D ∧ D ≤ pkt ∧ (w.buf p).len < fuel)) →
      ∃ r, hci_h4_send_loop env p type event handle pkt D fuel w = some r := by
  intro fuel
  induction fuel with
  | zero => intro w h; rcases h with h | h <;> omega
  | succ fuel ih =>
    intro w h
    rw [hci_h4_send_loop]
    by_cases hc : (w.buf p).len > pkt
    · rw [if_pos hc]
      simp only [hci_h4_send_fragment_eq]
      by_cases h1 : (w.buf p).layer_specific = 1
      · simp only [h1, decide_True, if_true]
        exact ⟨_, rfl⟩
      · simp only [h1, decide_False, Bool.false_eq_true, if_false]
        apply ih
        have hpl : p < w.heap.length := by
          by_contra hn
          rw [buf_of_not_lt w p hn] at hc
          simp at hc
        rw [buf_set_self _ _ _ _ hpl, fragment_result_layer_specific, fragment_result_len]
        rcases h with ⟨h0, hf⟩ | ⟨h0, hD, hp, hf⟩
        · left; omega
        · right
          rw [u16_sub_of_le (by omega)]
          omega
    · rw [if_neg hc]
      exact ⟨_, rfl⟩

theorem hci_h4_send_msg_terminates (env : Env) (w : World) (p : Nat)
    (h : tx_event (w.buf p) ≠ MSG_STACK_TO_HC_HCI_ACL ∨ (w.buf p).layer_specific ≠ 0 ∨
      (1 ≤ tx_data_size w (w.buf p) ∧ tx_data_size w (w.buf p) + 4 < 65536)) :
    ∃ w', hci_h4_send_msg env w p = some w' := by
  rw [hci_h4_send_msg_eq]
  by_cases hc : tx_event (w.buf p) = MSG_STACK_TO_HC_HCI_ACL ∧
      (w.buf p).len > u16 (tx_data_size w (w.buf p) + HCI_ACL_PREAMBLE_SIZE)
  · rw [if_pos hc]
    have hl : ∃ r, hci_h4_send_loop env p (tx_type (w.buf p)) (tx_event (w.buf p))
        (tx_handle (w.buf p)) (u16 (tx_data_size w (w.buf p) + HCI_ACL_PREAMBLE_SIZE))
        (tx_data_size w (w.buf p)) ((w.buf p).len + (w.buf p).layer_specific + 1)
        (w.emit Effect.lpm_wake_assert) = some r := by
      apply hci_h4_send_loop_terminates
      simp only [buf_emit]
      rcases h with h | h | ⟨h1, h2⟩
      · exact absurd hc.1 h
      · left; exact ⟨h, by omega⟩
      · by_cases h0 : (w.buf p).layer_specific = 0
        · right
          refine ⟨h0, h1, ?_, by omega⟩
          simp only [HCI_ACL_PREAMBLE_SIZE]
          rw [u16_of_lt h2]; omega
        · left; exact ⟨h0, by omega⟩
    obtain ⟨⟨w1, e⟩, hr⟩ := hl
    rw [hr]
    cases e
    · exact ⟨_, rfl⟩
    · exact ⟨_, rfl⟩
  · rw [if_neg hc]
    exact ⟨_, rfl⟩

/-- The shape of every finished call of `hci_h4_send_msg`: the wake signal, the
segments of the loop, and then either the return from inside the loop (partial
send, only for ACL buffers with a fragment budget) or the tail. -/
theorem hci_h4_send_msg_shape (env : Env) (w : World) (p : Nat) (w' : World)
    (h : hci_h4_send_msg env w p = some w') :
    ∃ (t : List Effect) (early : Bool), t.all Effect.is_segment_io = true ∧
      (early = true →
        tx_event (w.buf p) = MSG_STACK_TO_HC_HCI_ACL ∧ (w.buf p).layer_specific ≠ 0 ∧
        w'.h4_cb = w.h4_cb ∧ w'.h4_num_hci_cmd_pkts = w.h4_num_hci_cmd_pkts ∧
        w'.trace = w.trace ++ [Effect.lpm_wake_assert] ++ t ++
          (if env.bt_hc_cbacks = true then [Effect.tx_result p BT_HC_TX_FRAGMENT] else [])) ∧
      (early = false →
        ∃ w1 : World, w1.h4_cb = w.h4_cb ∧ w1.h4_num_hci_cmd_pkts = w.h4_num_hci_cmd_pkts ∧
          w1.trace = w.trace ++ [Effect.lpm_wake_assert] ++ t ∧
          (tx_event (w.buf p) ≠ MSG_STACK_TO_HC_HCI_ACL → w1 = w.emit Effect.lpm_wake_assert) ∧
          w' = hci_h4_send_tail env w1 p (tx_type (w.buf p)) (tx_event (w.buf p))) := by
  rw [hci_h4_send_msg_eq] at h
  by_cases hc : tx_event (w.buf p) = MSG_STACK_TO_HC_HCI_ACL ∧
      (w.buf p).len > u16 (tx_data_size w (w.buf p) + HCI_ACL_PREAMBLE_SIZE)
  · rw [if_pos hc] at h
    cases hl : hci_h4_send_loop env p (tx_type (w.buf p)) (tx_event (w.buf p))
        (tx_handle (w.buf p)) (u16 (tx_data_size w (w.buf p) + HCI_ACL_PREAMBLE_SIZE))
        (tx_data_size w (w.buf p)) ((w.buf p).len + (w.buf p).layer_specific + 1)
        (w.emit Effect.lpm_wake_assert) with
    | none => rw [hl] at h; simp at h
    | some r =>
      obtain ⟨a1, a2, _, _, a5, t, ht, a6⟩ := hci_h4_send_loop_frame env p _ _ _ _ _ _ _ r hl
      rw [hl] at h
      obtain ⟨w1, e⟩ := r
      cases e
      · simp only [Option.some.injEq] at h
        refine ⟨t, false, ht, fun hf => by simp at hf, fun _ => ⟨w1, a1, a2, ?_, ?_, h.symm⟩⟩
        · rw [a6]; simp [World.emit]
        · intro hne; exact absurd hc.1 hne
      · simp only [Option.some.injEq] at h
        subst h
        refine ⟨t, true, ht, fun _ => ⟨hc.1, ?_, a1, a2, ?_⟩, fun hf => by simp at hf⟩
        · intro h0
          have := a5 h0
          simp at this
        · rw [a6]; simp [World.emit]
  · rw [if_neg hc] at h
    simp only [Option.some.injEq] at h
    refine ⟨[], false, rfl, fun hf => by simp at hf,
      fun _ => ⟨w.emit Effect.lpm_wake_assert, rfl, rfl, by simp [World.emit], fun _ => rfl,
        h.symm⟩⟩

/-- C16: `hci_h4_send_msg` decrements the credit counter by exactly 1 for a
Command buffer and leaves it unchanged for every other buffer (ACL, fragmented
or not, partial or complete, and SCO); the control block, which holds the
pending ring with its cursors, the reassembly queue and the receive state, is
never modified. The call returns for every buffer that is not ACL, for every
buffer with a fragment budget, and for every ACL buffer when the data-size
limit `D` satisfies `1 ≤ D` and `D + 4 < 65536`. -/
theorem send_msg_credit_frame (env : Env) (w : World) (p : Nat) :
    (∀ w', hci_h4_send_msg env w p = some w' →
      w'.h4_cb = w.h4_cb ∧
      w'.h4_num_hci_cmd_pkts =
        (if tx_event (w.buf p) = MSG_STACK_TO_HC_HCI_CMD then w.h4_num_hci_cmd_pkts - 1
         else w.h4_num_hci_cmd_pkts)) ∧
    ((tx_event (w.buf p) ≠ MSG_STACK_TO_HC_HCI_ACL ∨ (w.buf p).layer_specific ≠ 0 ∨
        (1 ≤ tx_data_size w (w.buf p) ∧ tx_data_size w (w.buf p) + 4 < 65536)) →
      ∃ w', hci_h4_send_msg env w p = some w') := by
  refine ⟨?_, hci_h4_send_msg_terminates env w p⟩
  intro w' h
  obtain ⟨t, early, _, he, hl⟩ := hci_h4_send_msg_shape env w p w' h
  cases early
  · obtain ⟨w1, b1, b2, _, _, b4⟩ := hl rfl
    rw [b4, hci_h4_send_tail_eq]
    exact ⟨b1, by rw [b2]⟩
  · obtain ⟨c1, _, c3, c4, _⟩ := he rfl
    refine ⟨c3, ?_⟩
    have hne : ¬ (tx_event (w.buf p) = MSG_STACK_TO_HC_HCI_CMD) := by
      rw [c1]; decide
    rw [c4, if_neg hne]

theorem send_msg_credit_frame_witness :
    ∃ w', hci_h4_send_msg Env.ideal
      (World.tx_ready 1021 ⟨MSG_STACK_TO_HC_HCI_CMD, 3, 0, 0, [0x03, 0x0C, 0]⟩) 0 = some w' :=
  (send_msg_credit_frame Env.ideal
    (World.tx_ready 1021 ⟨MSG_STACK_TO_HC_HCI_CMD, 3, 0, 0, [0x03, 0x0C, 0]⟩) 0).2
    (Or.inl (by decide))

theorem tx_disposals_append (a b : List Effect) :
    tx_disposals (a ++ b) = tx_disposals a ++ tx_disposals b := by
  simp [tx_disposals]

theorem tx_disposals_segment_io (t : List Effect) (h : t.all Effect.is_segment_io = true) :
    tx_disposals t = [] := by
  induction t with
  | nil => rfl
  | cons e t ih =>
    simp only [List.all_cons, Bool.and_eq_true] at h
    have := ih h.2
    cases e <;> simp_all [tx_disposals, Effect.is_segment_io]

theorem buf_of_heap_set (w w' : World) (p : Nat) (b : HC_BT_HDR)
    (h : w'.heap = w.heap.set p b) (hpl : p < w.heap.length) : w'.buf p = b := by
  simp [World.buf, h, List.getD_eq_getElem?_getD, hpl]

theorem hci_h4_send_int_cmd_accepted (w : World) (opcode p : Nat) (f : tINT_CMD_CBACK)
    (h : (hci_h4_send_int_cmd w opcode p f).2 = true) :
    hci_h4_send_int_cmd w opcode p f =
      ({ w with
        h4_cb := { w.h4_cb with
          int_cmd_rsp_pending := w.h4_cb.int_cmd_rsp_pending + 1
          int_cmd := w.h4_cb.int_cmd.set w.h4_cb.int_cmd_wrt_idx ⟨opcode, f⟩
          int_cmd_wrt_idx := (w.h4_cb.int_cmd_wrt_idx + 1) &&& INT_CMD_PKT_IDX_MASK }
        heap := w.heap.set p { w.buf p with layer_specific := opcode }
        trace := w.trace ++ [Effect.bthc_tx p] }, true) := by
  unfold hci_h4_send_int_cmd at h ⊢
  split at h
  · simp at h
  · rename_i hg
    rw [if_neg hg]
    rfl

/-- C18 (amended): disposal of a sent buffer, with the host callbacks
registered. Every finished call of `hci_h4_send_msg` disposes of the buffer
exactly once: by `dealloc` when the buffer is a Command, an internal command is
pending and `layer_specific` equals the opcode in the first two bytes of the
message; otherwise by `tx_result`, with BT_HC_TX_SUCCESS after a complete send
and with BT_HC_TX_FRAGMENT only after a partial send of an ACL buffer with a
fragment budget. In particular a Command buffer that `hci_h4_send_int_cmd` has
just accepted and stamped with its own opcode is freed and not reported. -/
theorem send_msg_disposal (env : Env) (w : World) (p : Nat) (hcb : env.bt_hc_cbacks = true) :
    (∀ w', hci_h4_send_msg env w p = some w' →
      ∃ t, w'.trace = w.trace ++ t ∧
        ((tx_event (w.buf p) = MSG_STACK_TO_HC_HCI_CMD ∧ 0 < w.h4_cb.int_cmd_rsp_pending ∧
            (w.buf p).layer_specific = STREAM_TO_UINT16 (w.buf p).data (w.buf p).offset) →
          tx_disposals t = [Effect.dealloc p]) ∧
        (¬ (tx_event (w.buf p) = MSG_STACK_TO_HC_HCI_CMD ∧ 0 < w.h4_cb.int_cmd_rsp_pending ∧
            (w.buf p).layer_specific = STREAM_TO_UINT16 (w.buf p).data (w.buf p).offset) →
          (tx_disposals t = [Effect.tx_result p BT_HC_TX_SUCCESS] ∨
            (tx_disposals t = [Effect.tx_result p BT_HC_TX_FRAGMENT] ∧
              tx_event (w.buf p) = MSG_STACK_TO_HC_HCI_ACL ∧ (w.buf p).layer_specific ≠ 0)))) ∧
    (∀ (w0 : World) (opcode : Nat) (f : tINT_CMD_CBACK),
      p < w0.heap.length → 0 ≤ w0.h4_cb.int_cmd_rsp_pending →
      tx_event (w0.buf p) = MSG_STACK_TO_HC_HCI_CMD →
      STREAM_TO_UINT16 (w0.buf p).data (w0.buf p).offset = opcode →
      (hci_h4_send_int_cmd w0 opcode p f).2 = true →
      ∃ w' t, hci_h4_send_msg env (hci_h4_send_int_cmd w0 opcode p f).1 p = some w' ∧
        w'.trace = (hci_h4_send_int_cmd w0 opcode p f).1.trace ++ t ∧
        tx_disposals t = [Effect.dealloc p]) := by
  have main : ∀ (w w' : World), hci_h4_send_msg env w p = some w' →
      ∃ t, w'.trace = w.trace ++ t ∧
        ((tx_event (w.buf p) = MSG_STACK_TO_HC_HCI_CMD ∧ 0 < w.h4_cb.int_cmd_rsp_pending ∧
            (w.buf p).layer_specific = STREAM_TO_UINT16 (w.buf p).data (w.buf p).offset) →
          tx_disposals t = [Effect.dealloc p]) ∧
        (¬ (tx_event (w.buf p) = MSG_STACK_TO_HC_HCI_CMD ∧ 0 < w.h4_cb.int_cmd_rsp_pending ∧
            (w.buf p).layer_specific = STREAM_TO_UINT16 (w.buf p).data (w.buf p).offset) →
          (tx_disposals t = [Effect.tx_result p BT_HC_TX_SUCCESS] ∨
            (tx_disposals t = [Effect.tx_result p BT_HC_TX_FRAGMENT] ∧
              tx_event (w.buf p) = MSG_STACK_TO_HC_HCI_ACL ∧ (w.buf p).layer_specific ≠ 0))) := by
    intro w w' h
    obtain ⟨t, early, ht, he, hl⟩ := hci_h4_send_msg_shape env w p w' h
    have ht0 := tx_disposals_segment_io t ht
    cases early
    · obtain ⟨w1, b1, b2, b3, b5, b4⟩ := hl rfl
      rw [hci_h4_send_tail_eq] at b4
      simp only [hcb, if_true] at b4
      have hiff : (tx_event (w.buf p) = MSG_STACK_TO_HC_HCI_CMD ∧
            w1.h4_cb.int_cmd_rsp_pending > 0 ∧
            (w1.buf p).layer_specific = STREAM_TO_UINT16 (w1.buf p).data (w1.buf p).offset) ↔
          (tx_event (w.buf p) = MSG_STACK_TO_HC_HCI_CMD ∧ 0 < w.h4_cb.int_cmd_rsp_pending ∧
            (w.buf p).layer_specific = STREAM_TO_UINT16 (w.buf p).data (w.buf p).offset) := by
        constructor
        · intro hd
          have hne : tx_event (w.buf p) ≠ MSG_STACK_TO_HC_HCI_ACL := by rw [hd.1]; decide
          have hw1 := b5 hne
          subst hw1
          exact hd
        · intro hd
          have hne : tx_event (w.buf p) ≠ MSG_STACK_TO_HC_HCI_ACL := by rw [hd.1]; decide
          have hw1 := b5 hne
          subst hw1
          exact hd
      refine ⟨[Effect.lpm_wake_assert] ++ t ++
        [Effect.userial_write (tx_event (w.buf p))
            (tx_bytes (put_type (w1.buf p) (tx_type (w.buf p))) (tx_type (w.buf p))
              (u16 ((w1.buf p).len + 1))),
          Effect.btsnoop_capture
            { put_type (w1.buf p) (tx_type (w.buf p)) with
              layer_specific := (w1.buf p).layer_specific } false,
          (if tx_event (w.buf p) = MSG_STACK_TO_HC_HCI_CMD ∧
              w1.h4_cb.int_cmd_rsp_pending > 0 ∧
              (w1.buf p).layer_specific = STREAM_TO_UINT16 (w1.buf p).data (w1.buf p).offset
            then Effect.dealloc p else Effect.tx_result p BT_HC_TX_SUCCESS),
          Effect.lpm_tx_done true], ?_, ?_, ?_⟩
      · rw [b4]
        simp only [b3, List.append_assoc, List.singleton_append, List.cons_append,
          List.nil_append]
      · intro hd
        rw [if_pos (hiff.mpr hd)]
        simp only [tx_disposals_append, ht0]
        simp [tx_disposals]
      · intro hd
        left
        rw [if_neg (fun h => hd (hiff.mp h))]
        simp only [tx_disposals_append, ht0]
        simp [tx_disposals]
    · obtain ⟨c1, c2, _, _, c5⟩ := he rfl
      rw [hcb] at c5
      simp only [if_true] at c5
      refine ⟨[Effect.lpm_wake_assert] ++ t ++ [Effect.tx_result p BT_HC_TX_FRAGMENT], ?_, ?_, ?_⟩
      · rw [c5]; simp only [List.append_assoc]
      · intro hd
        rw [c1] at hd
        exact absurd hd.1 (by decide)
      · intro _
        right
        refine ⟨?_, c1, c2⟩
        simp only [tx_disposals_append, ht0]
        simp [tx_disposals]
  refine ⟨main w, ?_⟩
  intro w0 opcode f hpl hpend hev hop hacc
  have hacc' := hci_h4_send_int_cmd_accepted w0 opcode p f hacc
  have hbuf : (hci_h4_send_int_cmd w0 opcode p f).1.buf p =
      { w0.buf p with layer_specific := opcode } := by
    rw [hacc']
    exact buf_of_heap_set w0 _ p _ rfl hpl
  have hev1 : tx_event ((hci_h4_send_int_cmd w0 opcode p f).1.buf p) =
      MSG_STACK_TO_HC_HCI_CMD := by
    rw [hbuf]
    exact hev
  obtain ⟨w', hw'⟩ := hci_h4_send_msg_terminates env (hci_h4_send_int_cmd w0 opcode p f).1 p
    (Or.inl (by rw [hev1]; decide))
  obtain ⟨t, ht1, ht2, _⟩ := main _ w' hw'
  refine ⟨w', t, hw', ht1, ht2 ⟨hev1, ?_, ?_⟩⟩
  · rw [hacc']
    show 0 < w0.h4_cb.int_cmd_rsp_pending + 1
    omega
  · rw [hbuf]
    exact hop.symm

theorem send_msg_disposal_witness :
    ∃ w' t, hci_h4_send_msg Env.ideal
        (hci_h4_send_int_cmd
          (World.tx_ready 1021 ⟨MSG_STACK_TO_HC_HCI_CMD, 3, 0, 0, [0x03, 0x0C, 0]⟩) 0x0C03 0
          (tINT_CMD_CBACK.external 1)).1 0 = some w' ∧
      w'.trace = (hci_h4_send_int_cmd
          (World.tx_ready 1021 ⟨MSG_STACK_TO_HC_HCI_CMD, 3, 0, 0, [0x03, 0x0C, 0]⟩) 0x0C03 0
          (tINT_CMD_CBACK.external 1)).1.trace ++ t ∧
      tx_disposals t = [Effect.dealloc 0] :=
  (send_msg_disposal Env.ideal
    (World.tx_ready 1021 ⟨MSG_STACK_TO_HC_HCI_CMD, 3, 0, 0, [0x03, 0x0C, 0]⟩) 0 rfl).2
    (World.tx_ready 1021 ⟨MSG_STACK_TO_HC_HCI_CMD, 3, 0, 0, [0x03, 0x0C, 0]⟩) 0x0C03
    (tINT_CMD_CBACK.external 1) (by decide) (by decide) (by decide) (by decide) (by decide)

/-- C18 (counterexample): the Command buffer 0 (HCI_Reset, opcode 0x0C03) is
accepted by `hci_h4_send_int_cmd` and stamped with its opcode; before it is
sent, a Command-Complete event for opcode 0x0C03 is received and intercepted, so
that no internal command is pending any more. `hci_h4_send_msg` then reports the
buffer through `tx_result` with BT_HC_TX_SUCCESS and does not free it. -/
theorem forwarded_command_reported_not_freed :
    ((hci_h4_send_int_cmd
      (World.tx_ready 1021 ⟨MSG_STACK_TO_HC_HCI_CMD, 3, 0, 0, [0x03, 0x0C, 0]⟩) 0x0C03 0
      (tINT_CMD_CBACK.external 1)).1.buf 0).layer_specific = 0x0C03 ∧
    (hci_h4_receive_msg Env.ideal
      (hci_h4_send_int_cmd
        (World.tx_ready 1021 ⟨MSG_STACK_TO_HC_HCI_CMD, 3, 0, 0, [0x03, 0x0C, 0]⟩) 0x0C03 0
        (tINT_CMD_CBACK.external 1)).1
      [4, 0x0E, 4, 1, 0x03, 0x0C, 0]).2.h4_cb.int_cmd_rsp_pending = 0 ∧
    (hci_h4_send_msg Env.ideal
      (hci_h4_receive_msg Env.ideal
        (hci_h4_send_int_cmd
          (World.tx_ready 1021 ⟨MSG_STACK_TO_HC_HCI_CMD, 3, 0, 0, [0x03, 0x0C, 0]⟩) 0x0C03 0
          (tINT_CMD_CBACK.external 1)).1
        [4, 0x0E, 4, 1, 0x03, 0x0C, 0]).2 0).map (fun w => tx_disposals w.trace) =
      some [Effect.tx_result 0 BT_HC_TX_SUCCESS] := by
  decide

/-- C19 (code as it is): an ACL buffer of 12 bytes sent against the data-size
limit 4 with the fragment budget 1. The call wakes the device, writes one
segment, reports BT_HC_TX_FRAGMENT and returns: `lpm_tx_done` is not called.
The same buffer without fragment budget is sent completely and the trace ends
with `lpm_tx_done(TRUE)`. -/
theorem partial_send_skips_lpm_tx_done :
    (hci_h4_send_msg Env.ideal
      (World.tx_ready 4 ⟨MSG_STACK_TO_HC_HCI_ACL, 12, 0, 1, [1, 0x20, 8, 0, 1, 2, 3, 4, 5, 6, 7, 8]⟩)
      0).map (fun w => (w.trace.head?, tx_writes w.trace, w.trace.getLast?,
        decide (Effect.lpm_tx_done true ∈ w.trace))) =
      some (some Effect.lpm_wake_assert, [[2, 1, 0x20, 8, 0, 1, 2, 3, 4]],
        some (Effect.tx_result 0 BT_HC_TX_FRAGMENT), false) ∧
    (hci_h4_send_msg Env.ideal
      (World.tx_ready 4 ⟨MSG_STACK_TO_HC_HCI_ACL, 12, 0, 0, [1, 0x20, 8, 0, 1, 2, 3, 4, 5, 6, 7, 8]⟩)
      0).map (fun w => (w.trace.head?, tx_writes w.trace, w.trace.getLast?)) =
      some (some Effect.lpm_wake_assert,
        [[2, 1, 0x20, 8, 0, 1, 2, 3, 4], [2, 1, 0x10, 4, 0, 5, 6, 7, 8]],
        some (Effect.lpm_tx_done true)) := by
  decide

/-! ## The fragmentation loop on well-formed messages (C13, C14, C15) -/

theorem put_type_drop_ge (b : HC_BT_HDR) (type k : Nat) (hk : b.offset ≤ k) :
    (put_type b type).data.drop k = b.data.drop k := by
  have h := put_type_drop b type
  have e : k = b.offset + (k - b.offset) := by omega
  rw [e, ← List.drop_drop, ← List.drop_drop, h]

theorem UINT16_TO_STREAM_pair (data : List Nat) (i h l : Nat) :
    UINT16_TO_STREAM (UINT16_TO_STREAM data i h) (i + 2) l =
      write_bytes data i (acl_header_bytes h l) := by
  simp only [UINT16_TO_STREAM, acl_header_bytes]
  rw [show [h % 256, (h >>> 8) % 256, l % 256, (l >>> 8) % 256] =
    [h % 256, (h >>> 8) % 256] ++ [l % 256, (l >>> 8) % 256] from rfl, write_bytes_append]
  rfl

theorem acl_header_bytes_length (h l : Nat) : (acl_header_bytes h l).length = 4 := rfl

/-- The buffer after one pass of the loop on a well-formed message that is longer
than a controller-sized segment. -/
theorem fragment_result_wf (b : HC_BT_HDR) (type handle D : Nat)
    (hwf : tx_wf b) (hlen : D + 4 < b.len) :
    (fragment_result b type handle (D + 4) D).offset = b.offset + D ∧
    (fragment_result b type handle (D + 4) D).len = b.len - D ∧
    (fragment_result b type handle (D + 4) D).data.length = b.data.length ∧
    (fragment_result b type handle (D + 4) D).data.drop (b.offset + D + 4) =
      b.data.drop (b.offset + D + 4) ∧
    ((fragment_result b type handle (D + 4) D).data.drop (b.offset + D)).take 4 =
      acl_header_bytes handle (if b.len - D > D + 4 then D else b.len - D - 4) ∧
    tx_wf (fragment_result b type handle (D + 4) D) := by
  obtain ⟨hw1, hw2⟩ := hwf
  have ho : u16 (b.offset + D) = b.offset + D := u16_of_lt (by omega)
  have hl : u16_sub b.len D = b.len - D := u16_sub_of_le (by omega)
  have h4 : u16_sub (b.len - D) HCI_ACL_PREAMBLE_SIZE = b.len - D - 4 :=
    u16_sub_of_le (by simp only [HCI_ACL_PREAMBLE_SIZE]; omega)
  have hdata : (fragment_result b type handle (D + 4) D).data =
      (put_type b type).data.take (b.offset + D) ++
        acl_header_bytes handle (if b.len - D > D + 4 then D else b.len - D - 4) ++
        (put_type b type).data.drop (b.offset + D + 4) := by
    rw [fragment_result_data]
    simp only [fragment_advance, put_type_offset, put_type_len, ho, hl, h4, UINT16_TO_STREAM_pair]
    rw [write_bytes_eq _ _ _ (by rw [put_type_data_length, acl_header_bytes_length]; omega),
      acl_header_bytes_length]
  have htl : ((put_type b type).data.take (b.offset + D)).length = b.offset + D := by
    rw [List.length_take, put_type_data_length]; omega
  refine ⟨by rw [fragment_result_offset, ho], by rw [fragment_result_len, hl], ?_, ?_, ?_, ?_⟩
  · rw [hdata]
    simp only [List.length_append, htl, acl_header_bytes_length, List.length_drop,
      put_type_data_length]
    omega
  · rw [hdata, List.append_assoc, List.drop_append_eq_append_drop, htl,
      List.drop_eq_nil_of_le (by rw [htl]; omega), List.nil_append,
      List.drop_append_eq_append_drop, acl_header_bytes_length,
      List.drop_eq_nil_of_le (by rw [acl_header_bytes_length]; omega), List.nil_append]
    rw [show b.offset + D + 4 - (b.offset + D) - 4 = 0 by omega, List.drop_zero]
    exact put_type_drop_ge b type _ (by omega)
  · rw [hdata, List.append_assoc, List.drop_append_eq_append_drop, htl,
      List.drop_eq_nil_of_le (by rw [htl]), List.nil_append, Nat.sub_self, List.drop_zero,
      List.take_append_of_le_length (by rw [acl_header_bytes_length]),
      List.take_of_length_le (by rw [acl_header_bytes_length])]
  · rw [tx_wf, fragment_result_offset, ho, fragment_result_len, hl, hdata]
    simp only [List.length_append, htl, acl_header_bytes_length, List.length_drop,
      put_type_data_length]
    omega

theorem tx_bytes_put_type (b : HC_BT_HDR) (type n : Nat) :
    tx_bytes (put_type b type) type (n + 1) = type :: (b.data.drop b.offset).take n := by
  simp only [tx_bytes, put_type_offset, put_type_drop, List.take_succ_cons]

theorem tx_writes_append (a b : List Effect) : tx_writes (a ++ b) = tx_writes a ++ tx_writes b := by
  simp [tx_writes]

theorem tx_segments_succ (type handle D : Nat) (b : HC_BT_HDR) (k : Nat) :
    tx_segments type handle D b (k + 1) = tx_segments type handle D b k ++
      [type :: ((if k = 0 then (b.data.drop b.offset).take 4 else acl_header_bytes handle D) ++
        (b.data.drop (b.offset + 4 + k * D)).take D)] := by
  simp [tx_segments, List.range_succ]

/-- One pass of the loop from a world whose buffer is well formed and longer
than a controller-sized segment, when the fragment budget is not used up by
it. -/
theorem hci_h4_send_loop_pass (env : Env) (p type event handle D : Nat) (w : World) (fuel : Nat)
    (hlen : D + 4 < (w.buf p).len) (hls : (w.buf p).layer_specific ≠ 1) :
    hci_h4_send_loop env p type event handle (D + 4) D (fuel + 1) w =
      hci_h4_send_loop env p type event handle (D + 4) D fuel
        { w with
          heap := w.heap.set p (fragment_result (w.buf p) type handle (D + 4) D)
          trace := w.trace ++
            [Effect.userial_write event
              (tx_bytes (put_type (w.buf p) type) type (u16 (D + 4 + 1))),
             Effect.btsnoop_capture (put_type (w.buf p) type) false] } := by
  rw [hci_h4_send_loop, if_pos hlen]
  simp only [hci_h4_send_fragment_eq, hls, decide_False, Bool.false_eq_true, if_false,
    false_and, List.append_nil]

/-- The first `k` passes of the fragmentation loop on a well-formed message that
needs them, when the fragment budget is zero or larger than `k`. -/
theorem hci_h4_send_loop_steps (env : Env) (p type event handle D : Nat) :
    ∀ (k : Nat) (w : World), p < w.heap.length → tx_wf (w.buf p) →
      k * D + 4 < (w.buf p).len →
      ((w.buf p).layer_specific = 0 ∨ k < (w.buf p).layer_specific) →
      ∃ wk : World,
        (∀ fuel, hci_h4_send_loop env p type event handle (D + 4) D (fuel + k) w =
          hci_h4_send_loop env p type event handle (D + 4) D fuel wk) ∧
        wk.h4_cb = w.h4_cb ∧ wk.h4_num_hci_cmd_pkts = w.h4_num_hci_cmd_pkts ∧
        wk.heap.length = w.heap.length ∧
        tx_wf (wk.buf p) ∧
        (wk.buf p).offset = (w.buf p).offset + k * D ∧
        (wk.buf p).len = (w.buf p).len - k * D ∧
        (wk.buf p).layer_specific = (w.buf p).layer_specific - k ∧
        (wk.buf p).event = (w.buf p).event ∧
        (wk.buf p).data.drop ((w.buf p).offset + k * D + 4) =
          (w.buf p).data.drop ((w.buf p).offset + k * D + 4) ∧
        ((wk.buf p).data.drop ((w.buf p).offset + k * D)).take 4 =
          (if k = 0 then ((w.buf p).data.drop (w.buf p).offset).take 4
           else acl_header_bytes handle
            (if (w.buf p).len - k * D > D + 4 then D else (w.buf p).len - k * D - 4)) ∧
        ∃ t, wk.trace = w.trace ++ t ∧ t.all Effect.is_segment_io = true ∧
          tx_writes t = tx_segments type handle D (w.buf p) k := by
  intro k
  induction k with
  | zero =>
    intro w hpl hwf hlen hls
    refine ⟨w, fun _ => rfl, rfl, rfl, rfl, hwf, by simp, by simp, by simp, rfl, rfl, by simp,
      [], by simp, rfl, rfl⟩
  | succ k ih =>
    intro w hpl hwf hlen hls
    have hkD : (k + 1) * D = k * D + D := by ring
    rw [hkD] at hlen
    obtain ⟨wk, hrun, a1, a2, a3, a4, a5, a6, a7, a8, a9, a10, t, ht1, ht2, ht3⟩ :=
      ih w hpl hwf (by omega) (by omega)
    have hpk : p < wk.heap.length := by rw [a3]; exact hpl
    have hlenk : D + 4 < (wk.buf p).len := by rw [a6]; omega
    have hlsk : (wk.buf p).layer_specific ≠ 1 := by rw [a7]; omega
    obtain ⟨f1, f2, f3, f4, f5, f6⟩ := fragment_result_wf (wk.buf p) type handle D a4 hlenk
    have hD5 : u16 (D + 4 + 1) = D + 4 + 1 := by
      apply u16_of_lt
      have := hwf.1; have := hwf.2
      omega
    refine ⟨{ wk with
          heap := wk.heap.set p (fragment_result (wk.buf p) type handle (D + 4) D)
          trace := wk.trace ++
            [Effect.userial_write event
              (tx_bytes (put_type (wk.buf p) type) type (u16 (D + 4 + 1))),
             Effect.btsnoop_capture (put_type (wk.buf p) type) false] }, ?_, a1, a2, ?_, ?_⟩
    · intro fuel
      rw [show fuel + (k + 1) = (fuel + 1) + k by omega, hrun (fuel + 1)]
      exact hci_h4_send_loop_pass env p type event handle D wk fuel hlenk hlsk
    · simp [a3]
    · rw [buf_set_self _ _ _ _ hpk]
      refine ⟨f6, ?_, ?_, ?_, ?_, ?_, ?_, ?_⟩
      · rw [f1, a5, hkD]; omega
      · rw [f2, a6, hkD]; omega
      · rw [fragment_result_layer_specific, a7]; omega
      · rw [fragment_result_event, if_neg hlsk, a8]
      · rw [hkD, show (w.buf p).offset + (k * D + D) + 4 = (wk.buf p).offset + D + 4 by
          rw [a5]; omega, f4]
        have := congrArg (List.drop D) a9
        simp only [List.drop_drop] at this
        rw [a5]
        rw [show (w.buf p).offset + k * D + D + 4 = (w.buf p).offset + k * D + 4 + D by omega]
        exact this
      · rw [hkD, show (w.buf p).offset + (k * D + D) = (wk.buf p).offset + D by rw [a5]; omega,
          f5, a6, if_neg (Nat.succ_ne_zero k)]
        rw [show (w.buf p).len - k * D - D = (w.buf p).len - (k * D + D) by omega]
      · refine ⟨t ++ [Effect.userial_write event
              (tx_bytes (put_type (wk.buf p) type) type (u16 (D + 4 + 1))),
             Effect.btsnoop_capture (put_type (wk.buf p) type) false], ?_, ?_, ?_⟩
        · simp only [ht1, List.append_assoc]
        · simp only [List.all_append, ht2, Bool.true_and]; rfl
        · have hseg : ((wk.buf p).data.drop (wk.buf p).offset).take (D + 4) =
              (if k = 0 then ((w.buf p).data.drop (w.buf p).offset).take 4
                else acl_header_bytes handle D) ++
              ((w.buf p).data.drop ((w.buf p).offset + 4 + k * D)).take D := by
            rw [show D + 4 = 4 + D by omega, List.take_add, List.drop_drop, a5, a10, a9]
            have hgt : (w.buf p).len - k * D > D + 4 := by omega
            rw [if_pos hgt,
              show (w.buf p).offset + k * D + 4 = (w.buf p).offset + 4 + k * D by omega]
          rw [tx_writes_append, ht3, tx_segments_succ, hD5, tx_bytes_put_type, hseg]
          simp only [tx_writes, List.filterMap_cons, List.filterMap_nil]

theorem tx_type_acl (b : HC_BT_HDR) (h : tx_event b = MSG_STACK_TO_HC_HCI_ACL) :
    tx_type b = H4_TYPE_ACL_DATA := by
  simp [tx_type, h]

/-- A complete send of a well-formed ACL message without fragment budget that
needs `k ≥ 1` controller-sized segments before its tail. -/
theorem hci_h4_send_msg_fragmented (env : Env) (w : World) (p D k : Nat)
    (hpl : p < w.heap.length) (hev : tx_event (w.buf p) = MSG_STACK_TO_HC_HCI_ACL)
    (hD : tx_data_size w (w.buf p) = D) (hwf : tx_wf (w.buf p))
    (hls : (w.buf p).layer_specific = 0) (hk : 1 ≤ k)
    (h1 : k * D + 4 < (w.buf p).len) (h2 : (w.buf p).len ≤ (k + 1) * D + 4) :
    ∃ w' t, hci_h4_send_msg env w p = some w' ∧ w'.trace = w.trace ++ t ∧
      w'.h4_cb = w.h4_cb ∧ w'.h4_num_hci_cmd_pkts = w.h4_num_hci_cmd_pkts ∧
      tx_writes t = tx_segments H4_TYPE_ACL_DATA (tx_handle (w.buf p)) D (w.buf p) k ++
        [tx_tail_segment H4_TYPE_ACL_DATA (tx_handle (w.buf p)) D (w.buf p) k] ∧
      tx_disposals t =
        (if env.bt_hc_cbacks = true then [Effect.tx_result p BT_HC_TX_SUCCESS] else []) ∧
      t.head? = some Effect.lpm_wake_assert ∧ t.getLast? = some (Effect.lpm_tx_done true) ∧
      (w'.buf p).offset = (w.buf p).offset + k * D ∧
      (w'.buf p).len = (w.buf p).len - k * D ∧
      (w'.buf p).event = (w.buf p).event ∧ (w'.buf p).layer_specific = 0 := by
  have hkD : k * D + D = (k + 1) * D := by ring
  have hDk : D ≤ k * D := Nat.le_mul_of_pos_left D (by omega)
  have hD1 : 1 ≤ D := by
    rcases Nat.eq_zero_or_pos D with h0 | h0
    · subst h0; simp at h1 h2; omega
    · exact h0
  have hkk : k ≤ k * D := Nat.le_mul_of_pos_right k (by omega)
  have hw1 := hwf.1
  have hw2 := hwf.2
  have hpkt : u16 (D + HCI_ACL_PREAMBLE_SIZE) = D + 4 := by
    simp only [HCI_ACL_PREAMBLE_SIZE]; exact u16_of_lt (by omega)
  obtain ⟨wk, hrun, a1, a2, a3, a4, a5, a6, a7, a8, a9, a10, t, ht1, ht2, ht3⟩ :=
    hci_h4_send_loop_steps env p H4_TYPE_ACL_DATA (tx_event (w.buf p)) (tx_handle (w.buf p)) D k
      (w.emit Effect.lpm_wake_assert) hpl hwf h1 (Or.inl hls)
  simp only [buf_emit] at a5 a6 a7 a8 a9 a10 ht3
  have hpk : p < wk.heap.length := by rw [a3]; exact hpl
  have hloop : hci_h4_send_loop env p H4_TYPE_ACL_DATA (tx_event (w.buf p)) (tx_handle (w.buf p))
      (D + 4) D ((w.buf p).len + (w.buf p).layer_specific + 1) (w.emit Effect.lpm_wake_assert) =
      some (wk, false) := by
    rw [show (w.buf p).len + (w.buf p).layer_specific + 1 =
      ((w.buf p).len + (w.buf p).layer_specific - k) + 1 + k by omega, hrun, hci_h4_send_loop,
      if_neg (by rw [a6]; omega)]
  rw [hci_h4_send_msg_eq, hD, hpkt, if_pos ⟨hev, by omega⟩, tx_type_acl _ hev, hloop]
  simp only [hci_h4_send_tail_eq]
  have hne : ¬ (tx_event (w.buf p) = MSG_STACK_TO_HC_HCI_CMD) := by rw [hev]; decide
  have hlk : u16 ((wk.buf p).len + 1) = (wk.buf p).len + 1 := by
    apply u16_of_lt; rw [a6]; omega
  have htail : tx_bytes (put_type (wk.buf p) H4_TYPE_ACL_DATA) H4_TYPE_ACL_DATA
      (u16 ((wk.buf p).len + 1)) =
      tx_tail_segment H4_TYPE_ACL_DATA (tx_handle (w.buf p)) D (w.buf p) k := by
    rw [hlk, tx_bytes_put_type, tx_tail_segment, a5, a6]
    have hk0 : k ≠ 0 := by omega
    have hng : ¬ ((w.buf p).len - k * D > D + 4) := by omega
    have htake := List.take_add ((wk.buf p).data.drop ((w.buf p).offset + k * D)) 4
      ((w.buf p).len - k * D - 4)
    rw [show 4 + ((w.buf p).len - k * D - 4) = (w.buf p).len - k * D by omega, List.drop_drop,
      a10, a9, if_neg hk0, if_neg hng,
      show (w.buf p).offset + k * D + 4 = (w.buf p).offset + 4 + k * D by omega] at htake
    rw [htake, if_neg hk0]
  refine ⟨_, [Effect.lpm_wake_assert] ++ t ++
      [Effect.userial_write (tx_event (w.buf p))
          (tx_tail_segment H4_TYPE_ACL_DATA (tx_handle (w.buf p)) D (w.buf p) k),
       Effect.btsnoop_capture { put_type (wk.buf p) H4_TYPE_ACL_DATA with
          layer_specific := (wk.buf p).layer_specific } false] ++
      (if env.bt_hc_cbacks = true then [Effect.tx_result p BT_HC_TX_SUCCESS] else []) ++
      [Effect.lpm_tx_done true], rfl, ?_, a1, ?_, ?_, ?_, ?_, ?_, ?_⟩
  · simp only [ht1, htail, hne, false_and, if_false, World.emit, List.append_assoc,
      List.singleton_append, List.cons_append, List.nil_append]
  · simp only [hne, if_false, a2]; rfl
  · simp only [tx_writes_append, ht3]
    cases env.bt_hc_cbacks <;> simp [tx_writes]
  · simp only [tx_disposals_append, tx_disposals_segment_io t ht2]
    cases env.bt_hc_cbacks <;> simp [tx_disposals]
  · simp
  · exact List.getLast?_concat _
  · rw [buf_of_heap_set wk _ p _ rfl hpk]
    simp only [put_type_offset, put_type_len, put_type_event, a5, a6, a7, a8, hls]
    simp

/-- A partial send: a well-formed ACL message with the fragment budget `n ≥ 1`
that needs at least `n` controller-sized segments before its tail. -/
theorem hci_h4_send_msg_partial (env : Env) (w : World) (p D n : Nat)
    (hpl : p < w.heap.length) (hev : tx_event (w.buf p) = MSG_STACK_TO_HC_HCI_ACL)
    (hD : tx_data_size w (w.buf p) = D) (hwf : tx_wf (w.buf p))
    (hn : 1 ≤ n) (hls : (w.buf p).layer_specific = n)
    (h1 : n * D + 4 < (w.buf p).len) :
    ∃ w' t, hci_h4_send_msg env w p = some w' ∧ w'.trace = w.trace ++ t ∧
      w'.h4_cb = w.h4_cb ∧ w'.h4_num_hci_cmd_pkts = w.h4_num_hci_cmd_pkts ∧
      tx_writes t = tx_segments H4_TYPE_ACL_DATA (tx_handle (w.buf p)) D (w.buf p) n ∧
      tx_disposals t =
        (if env.bt_hc_cbacks = true then [Effect.tx_result p BT_HC_TX_FRAGMENT] else []) ∧
      t.head? = some Effect.lpm_wake_assert ∧ Effect.lpm_tx_done true ∉ t ∧
      (w'.buf p).event = MSG_HC_TO_STACK_L2C_SEG_XMIT ∧
      (w'.buf p).offset = (w.buf p).offset + n * D ∧
      (w'.buf p).len = (w.buf p).len - n * D ∧
      (w'.buf p).layer_specific = 0 := by
  obtain ⟨k, rfl⟩ : ∃ k, n = k + 1 := ⟨n - 1, by omega⟩
  have hkD : (k + 1) * D = k * D + D := by ring
  rw [hkD] at h1
  have hw1 := hwf.1
  have hw2 := hwf.2
  have hpkt : u16 (D + HCI_ACL_PREAMBLE_SIZE) = D + 4 := by
    simp only [HCI_ACL_PREAMBLE_SIZE]; exact u16_of_lt (by omega)
  obtain ⟨wk, hrun, a1, a2, a3, a4, a5, a6, a7, a8, a9, a10, t, ht1, ht2, ht3⟩ :=
    hci_h4_send_loop_steps env p H4_TYPE_ACL_DATA (tx_event (w.buf p)) (tx_handle (w.buf p)) D k
      (w.emit Effect.lpm_wake_assert) hpl hwf (by simp only [buf_emit]; omega)
      (Or.inr (by simp only [buf_emit]; omega))
  simp only [buf_emit] at a5 a6 a7 a8 a9 a10 ht3
  have hpk : p < wk.heap.length := by rw [a3]; exact hpl
  have hlenk : D + 4 < (wk.buf p).len := by rw [a6]; omega
  have hlsk : (wk.buf p).layer_specific = 1 := by rw [a7, hls]; omega
  obtain ⟨f1, f2, f3, f4, f5, f6⟩ :=
    fragment_result_wf (wk.buf p) H4_TYPE_ACL_DATA (tx_handle (w.buf p)) D a4 hlenk
  have hD5 : u16 (D + 4 + 1) = D + 4 + 1 := u16_of_lt (by omega)
  have hseg : ((wk.buf p).data.drop (wk.buf p).offset).take (D + 4) =
      (if k = 0 then ((w.buf p).data.drop (w.buf p).offset).take 4
        else acl_header_bytes (tx_handle (w.buf p)) D) ++
      ((w.buf p).data.drop ((w.buf p).offset + 4 + k * D)).take D := by
    rw [show D + 4 = 4 + D by omega, List.take_add, List.drop_drop, a5, a10, a9]
    have hgt : (w.buf p).len - k * D > D + 4 := by omega
    rw [if_pos hgt,
      show (w.buf p).offset + k * D + 4 = (w.buf p).offset + 4 + k * D by omega]
  have hloop : hci_h4_send_loop env p H4_TYPE_ACL_DATA (tx_event (w.buf p)) (tx_handle (w.buf p))
      (D + 4) D ((w.buf p).len + (w.buf p).layer_specific + 1) (w.emit Effect.lpm_wake_assert) =
      some ({ wk with
          heap := wk.heap.set p
            (fragment_result (wk.buf p) H4_TYPE_ACL_DATA (tx_handle (w.buf p)) (D + 4) D)
          trace := wk.trace ++
            [Effect.userial_write (tx_event (w.buf p))
              (tx_bytes (put_type (wk.buf p) H4_TYPE_ACL_DATA) H4_TYPE_ACL_DATA (u16 (D + 4 + 1))),
             Effect.btsnoop_capture (put_type (wk.buf p) H4_TYPE_ACL_DATA) false] ++
            (if env.bt_hc_cbacks = true then [Effect.tx_result p BT_HC_TX_FRAGMENT] else []) },
        true) := by
    rw [show (w.buf p).len + (w.buf p).layer_specific + 1 =
      ((w.buf p).len + 1) + 1 + k by omega, hrun, hci_h4_send_loop, if_pos hlenk]
    simp only [hci_h4_send_fragment_eq, hlsk, decide_True, if_true, true_and]
  rw [hci_h4_send_msg_eq, hD, hpkt, if_pos ⟨hev, by omega⟩, tx_type_acl _ hev, hloop]
  refine ⟨_, [Effect.lpm_wake_assert] ++ t ++
      [Effect.userial_write (tx_event (w.buf p))
        (tx_bytes (put_type (wk.buf p) H4_TYPE_ACL_DATA) H4_TYPE_ACL_DATA (u16 (D + 4 + 1))),
       Effect.btsnoop_capture (put_type (wk.buf p) H4_TYPE_ACL_DATA) false] ++
      (if env.bt_hc_cbacks = true then [Effect.tx_result p BT_HC_TX_FRAGMENT] else []),
    rfl, ?_, a1, a2, ?_, ?_, ?_, ?_, ?_⟩
  · simp only [ht1, World.emit, List.append_assoc, List.singleton_append, List.cons_append,
      List.nil_append]
  · simp only [tx_writes_append, ht3, tx_segments_succ, hD5, tx_bytes_put_type, hseg]
    cases env.bt_hc_cbacks <;> simp [tx_writes]
  · simp only [tx_disposals_append, tx_disposals_segment_io t ht2]
    cases env.bt_hc_cbacks <;> simp [tx_disposals]
  · simp
  · intro hmem
    simp only [List.mem_append, List.mem_singleton, List.mem_cons] at hmem
    rcases hmem with ((h | h) | h) | h
    · simp at h
    · have := List.all_eq_true.mp ht2 _ h
      simp [Effect.is_segment_io] at this
    · rcases h with h | h | h <;> simp at h
    · cases env.bt_hc_cbacks <;> simp at h
  · rw [buf_of_heap_set wk _ p _ rfl hpk]
    refine ⟨?_, ?_, ?_, ?_⟩
    · rw [fragment_result_event, if_pos hlsk]
    · rw [f1, a5, hkD]; omega
    · rw [f2, a6, hkD]; omega
    · rw [fragment_result_layer_specific, hlsk]

theorem tx_segments_length (type handle D : Nat) (b : HC_BT_HDR) (k : Nat) :
    (tx_segments type handle D b k).length = k := by
  simp [tx_segments]

theorem tx_segments_mem (type handle D : Nat) (b : HC_BT_HDR) (k : Nat) (x : List Nat)
    (hx : x ∈ tx_segments type handle D b k) (hb : b.offset + 4 + k * D ≤ b.data.length) :
    ∃ hdr pay, x = type :: (hdr ++ pay) ∧ hdr.length = 4 ∧ pay.length = D ∧
      (hdr = (b.data.drop b.offset).take 4 ∨ hdr = acl_header_bytes handle D) := by
  simp only [tx_segments, List.mem_map, List.mem_range] at hx
  obtain ⟨j, hj, rfl⟩ := hx
  have hjk : j * D + D ≤ k * D := by
    have : (j + 1) * D ≤ k * D := Nat.mul_le_mul_right D hj
    rw [Nat.add_mul] at this
    simpa using this
  refine ⟨_, _, rfl, ?_, ?_, ?_⟩
  · split
    · rw [List.length_take, List.length_drop]; omega
    · rfl
  · rw [List.length_take, List.length_drop]; omega
  · split
    · left; rfl
    · right; rfl

/-- C15: partial send. An outbound ACL buffer (well formed: the message lies
inside the buffer, which is shorter than 65536 bytes) needs `k` controller-sized
segments before its tail for the data-size limit `D` selected by its sub-event
(`k * D + 4 < len`) and carries the fragment budget `layer_specific = n` with
`1 ≤ n ≤ k`; the host callbacks are registered. Then `hci_h4_send_msg` returns
after exactly `n` writes, each of `D + 4` bytes plus the type byte (no tail);
the only disposal is one `tx_result` with BT_HC_TX_FRAGMENT; the buffer's event
is MSG_HC_TO_STACK_L2C_SEG_XMIT, its offset advanced by `n * D`, its len reduced
by `n * D`, its `layer_specific` 0; the credit counter and the control block are
unchanged. -/
theorem partial_send_stops_at_budget (env : Env) (w : World) (p n k : Nat)
    (hcb : env.bt_hc_cbacks = true) (hpl : p < w.heap.length)
    (hev : tx_event (w.buf p) = MSG_STACK_TO_HC_HCI_ACL) (hwf : tx_wf (w.buf p))
    (hk : k * tx_data_size w (w.buf p) + 4 < (w.buf p).len)
    (hn : 1 ≤ n) (hnk : n ≤ k) (hls : (w.buf p).layer_specific = n) :
    ∃ w' t, hci_h4_send_msg env w p = some w' ∧ w'.trace = w.trace ++ t ∧
      (tx_writes t).length = n ∧
      (∀ x ∈ tx_writes t, x.length = tx_data_size w (w.buf p) + 4 + 1) ∧
      tx_disposals t = [Effect.tx_result p BT_HC_TX_FRAGMENT] ∧
      (w'.buf p).event = MSG_HC_TO_STACK_L2C_SEG_XMIT ∧
      (w'.buf p).offset = (w.buf p).offset + n * tx_data_size w (w.buf p) ∧
      (w'.buf p).len = (w.buf p).len - n * tx_data_size w (w.buf p) ∧
      (w'.buf p).layer_specific = 0 ∧
      w'.h4_num_hci_cmd_pkts = w.h4_num_hci_cmd_pkts ∧ w'.h4_cb = w.h4_cb := by
  have hnD : n * tx_data_size w (w.buf p) ≤ k * tx_data_size w (w.buf p) :=
    Nat.mul_le_mul_right _ hnk
  obtain ⟨w', t, h1, h2, h3, h4, h5, h6, _, _, h9, h10, h11, h12⟩ :=
    hci_h4_send_msg_partial env w p (tx_data_size w (w.buf p)) n hpl hev rfl hwf hn hls
      (by omega)
  refine ⟨w', t, h1, h2, ?_, ?_, ?_, h9, h10, h11, h12, h4, h3⟩
  · rw [h5, tx_segments_length]
  · intro x hx
    rw [h5] at hx
    obtain ⟨hdr, pay, rfl, e1, e2, _⟩ := tx_segments_mem _ _ _ _ _ x hx
      (by have := hwf.1; omega)
    simp only [List.length_cons, List.length_append, e1, e2]
    omega
  · rw [h6, if_pos hcb]

theorem partial_send_stops_at_budget_witness :
    ∃ w' t, hci_h4_send_msg Env.ideal
        (World.tx_ready 4
          ⟨MSG_STACK_TO_HC_HCI_ACL, 12, 0, 1, [1, 0x20, 8, 0, 1, 2, 3, 4, 5, 6, 7, 8]⟩) 0 = some w' ∧
      w'.trace = (World.tx_ready 4
          ⟨MSG_STACK_TO_HC_HCI_ACL, 12, 0, 1, [1, 0x20, 8, 0, 1, 2, 3, 4, 5, 6, 7, 8]⟩).trace ++ t ∧
      (tx_writes t).length = 1 :=
  have h := partial_send_stops_at_budget Env.ideal
    (World.tx_ready 4
      ⟨MSG_STACK_TO_HC_HCI_ACL, 12, 0, 1, [1, 0x20, 8, 0, 1, 2, 3, 4, 5, 6, 7, 8]⟩) 0 1 1
    rfl (by decide) (by decide) ⟨by decide, by decide⟩ (by decide) (by decide) (by decide)
    (by decide)
  h.elim fun w' h1 => h1.elim fun t h2 => ⟨w', t, h2.1, h2.2.1, h2.2.2.1⟩

theorem tx_segments_payload (type handle D : Nat) (b : HC_BT_HDR) :
    ∀ k, b.offset + 4 + k * D ≤ b.data.length →
      ((tx_segments type handle D b k).map (List.drop 5)).flatten =
        (b.data.drop (b.offset + 4)).take (k * D) := by
  intro k
  induction k with
  | zero => intro _; simp [tx_segments]
  | succ k ih =>
    intro hb
    have hkD : (k + 1) * D = k * D + D := by ring
    rw [hkD] at hb
    rw [tx_segments_succ, List.map_append, List.flatten_append, ih (by omega), hkD,
      List.take_add, List.drop_drop]
    congr 1
    have hh : ((if k = 0 then (b.data.drop b.offset).take 4
        else acl_header_bytes handle D)).length = 4 := by
      split
      · rw [List.length_take, List.length_drop]; omega
      · rfl
    simp only [List.map_cons, List.map_nil, List.flatten_cons, List.flatten_nil,
      List.append_nil]
    rw [show (5 : Nat) = 4 + 1 from rfl, List.drop_succ_cons,
      List.drop_append_of_le_length (by rw [hh]), List.drop_eq_nil_of_le (by rw [hh]),
      List.nil_append]

theorem tx_tail_segment_payload (type handle D : Nat) (b : HC_BT_HDR) (k : Nat)
    (hb : b.offset + 4 ≤ b.data.length) :
    (tx_tail_segment type handle D b k).drop 5 =
      (b.data.drop (b.offset + 4 + k * D)).take (b.len - k * D - 4) := by
  have hh : ((if k = 0 then (b.data.drop b.offset).take 4
      else acl_header_bytes handle (b.len - k * D - 4))).length = 4 := by
    split
    · rw [List.length_take, List.length_drop]; omega
    · rfl
  rw [tx_tail_segment, show (5 : Nat) = 4 + 1 from rfl, List.drop_succ_cons,
    List.drop_append_of_le_length (by rw [hh]), List.drop_eq_nil_of_le (by rw [hh]),
    List.nil_append]

theorem tx_tail_segment_shape (type handle D : Nat) (b : HC_BT_HDR) (k : Nat)
    (hb : b.offset + b.len ≤ b.data.length) (hk : k * D + 4 < b.len) :
    ∃ hdr pay, tx_tail_segment type handle D b k = type :: (hdr ++ pay) ∧ hdr.length = 4 ∧
      pay.length = b.len - k * D - 4 := by
  refine ⟨_, _, rfl, ?_, ?_⟩
  · split
    · rw [List.length_take, List.length_drop]; omega
    · rfl
  · rw [List.length_take, List.length_drop]; omega

/-- C14: fragmentation preserves the payload. For a data-size limit `D` with
`1 ≤ D ≤ 65531` and a well-formed outbound ACL buffer (the message lies inside
the buffer, which is shorter than 65536 bytes) that is longer than `D + 4` and
carries no fragment budget, `hci_h4_send_msg` returns, every write it makes is
the type byte 2, a 4-byte ACL header and at most `D` payload bytes, and the
payload parts of all writes, concatenated in order, are the bytes of the
original message after its 4-byte ACL header. -/
theorem fragmentation_preserves_payload (env : Env) (w : World) (p : Nat)
    (hpl : p < w.heap.length) (hev : tx_event (w.buf p) = MSG_STACK_TO_HC_HCI_ACL)
    (hwf : tx_wf (w.buf p)) (hls : (w.buf p).layer_specific = 0)
    (hD1 : 1 ≤ tx_data_size w (w.buf p)) (hD2 : tx_data_size w (w.buf p) ≤ 65531)
    (hlen : tx_data_size w (w.buf p) + 4 < (w.buf p).len) :
    ∃ w' t, hci_h4_send_msg env w p = some w' ∧ w'.trace = w.trace ++ t ∧
      (∀ x ∈ tx_writes t, ∃ hdr pay, x = 2 :: (hdr ++ pay) ∧ hdr.length = 4 ∧
        pay.length ≤ tx_data_size w (w.buf p)) ∧
      ((tx_writes t).map (List.drop 5)).flatten =
        ((w.buf p).data.drop ((w.buf p).offset + 4)).take ((w.buf p).len - 4) := by
  generalize hD : tx_data_size w (w.buf p) = D at *
  have hw1 := hwf.1
  obtain ⟨k, hk1, hk2, hk3⟩ : ∃ k, 1 ≤ k ∧ k * D + 4 < (w.buf p).len ∧
      (w.buf p).len ≤ (k + 1) * D + 4 := by
    have hdm := Nat.div_add_mod ((w.buf p).len - 5) D
    have hml := Nat.mod_lt ((w.buf p).len - 5) (show D > 0 by omega)
    rw [Nat.mul_comm] at hdm
    refine ⟨((w.buf p).len - 5) / D, ?_, by omega, ?_⟩
    · exact (Nat.one_le_div_iff (by omega)).mpr (by omega)
    · rw [Nat.add_mul]; omega
  obtain ⟨w', t, h1, h2, _, _, h5, _⟩ :=
    hci_h4_send_msg_fragmented env w p D k hpl hev hD hwf hls hk1 hk2 hk3
  refine ⟨w', t, h1, h2, ?_, ?_⟩
  · intro x hx
    rw [h5, List.mem_append, List.mem_singleton] at hx
    rcases hx with hx | hx
    · obtain ⟨hdr, pay, e0, e1, e2, _⟩ := tx_segments_mem _ _ _ _ _ x hx (by omega)
      exact ⟨hdr, pay, e0, e1, by omega⟩
    · obtain ⟨hdr, pay, e0, e1, e2⟩ := tx_tail_segment_shape H4_TYPE_ACL_DATA
        (tx_handle (w.buf p)) D (w.buf p) k hw1 hk2
      have hkD : (k + 1) * D = k * D + D := by ring
      exact ⟨hdr, pay, by rw [hx, e0]; rfl, e1, by omega⟩
  · rw [h5, List.map_append, List.flatten_append, tx_segments_payload _ _ _ _ k (by omega)]
    simp only [List.map_cons, List.map_nil, List.flatten_cons, List.flatten_nil,
      List.append_nil]
    rw [tx_tail_segment_payload _ _ _ _ _ (by omega)]
    have := List.take_add ((w.buf p).data.drop ((w.buf p).offset + 4)) (k * D)
      ((w.buf p).len - k * D - 4)
    rw [List.drop_drop, show k * D + ((w.buf p).len - k * D - 4) = (w.buf p).len - 4 by omega]
      at this
    rw [this]

theorem fragmentation_preserves_payload_witness :
    ∃ w' t, hci_h4_send_msg Env.ideal
        (World.tx_ready 4
          ⟨MSG_STACK_TO_HC_HCI_ACL, 12, 0, 0, [1, 0x20, 8, 0, 1, 2, 3, 4, 5, 6, 7, 8]⟩) 0 = some w' ∧
      w'.trace = (World.tx_ready 4
          ⟨MSG_STACK_TO_HC_HCI_ACL, 12, 0, 0, [1, 0x20, 8, 0, 1, 2, 3, 4, 5, 6, 7, 8]⟩).trace ++ t ∧
      ((tx_writes t).map (List.drop 5)).flatten = [1, 2, 3, 4, 5, 6, 7, 8] :=
  have h := fragmentation_preserves_payload Env.ideal
    (World.tx_ready 4
      ⟨MSG_STACK_TO_HC_HCI_ACL, 12, 0, 0, [1, 0x20, 8, 0, 1, 2, 3, 4, 5, 6, 7, 8]⟩) 0
    (by decide) (by decide) ⟨by decide, by decide⟩ (by decide) (by decide) (by decide)
    (by decide)
  h.elim fun w' h1 => h1.elim fun t h2 => ⟨w', t, h2.1, h2.2.1, h2.2.2.2⟩

theorem tx_handle_low (H : Nat) : ((H &&& 0xCFFF) ||| 0x1000) &&& 0x0FFF = H &&& 0x0FFF := by
  rw [Nat.and_comm, Nat.and_or_distrib_left, Nat.and_comm 0x0FFF (H &&& _), Nat.and_assoc]
  have h1 : 0xCFFF &&& 0x0FFF = 0x0FFF := by decide
  have h2 : 0x0FFF &&& 0x1000 = 0 := by decide
  rw [h1, h2, Nat.or_zero]

theorem tx_handle_flags (H : Nat) : (((H &&& 0xCFFF) ||| 0x1000) >>> 12) &&& 0x3 = 1 := by
  apply Nat.eq_of_testBit_eq
  intro i
  rw [Nat.testBit_and, Nat.testBit_shiftRight, Nat.testBit_or, Nat.testBit_and]
  rcases i with _ | _ | i
  · have a : Nat.testBit 4096 (12 + 0) = true := by decide
    have b : Nat.testBit 3 0 = true := by decide
    have c : Nat.testBit 1 0 = true := by decide
    rw [a, b, c]; simp
  · have a : Nat.testBit 4096 (12 + (0 + 1)) = false := by decide
    have a2 : Nat.testBit 53247 (12 + (0 + 1)) = false := by decide
    have c : Nat.testBit 1 (0 + 1) = false := by decide
    rw [a, a2, c]; simp
  · have h3 : Nat.testBit 3 (i + 1 + 1) = false :=
      Nat.testBit_lt_two_pow (lt_of_lt_of_le (by decide : 3 < 2 ^ 2)
        (Nat.pow_le_pow_right (by decide) (by omega)))
    have h1 : Nat.testBit 1 (i + 1 + 1) = false :=
      Nat.testBit_lt_two_pow (lt_of_lt_of_le (by decide : 1 < 2 ^ 2)
        (Nat.pow_le_pow_right (by decide) (by omega)))
    rw [h3, h1]; simp

theorem tx_handle_lt (H : Nat) : ((H &&& 0xCFFF) ||| 0x1000) < 65536 := by
  apply @Nat.or_lt_two_pow _ _ 16
  · exact lt_of_le_of_lt Nat.and_le_right (by decide)
  · decide

/-- The first header word of a segment that carries the header of the original
message. -/
theorem stream_hdr_orig (t : Nat) (d : List Nat) (o : Nat) (rest : List Nat)
    (h : o + 4 ≤ d.length) :
    STREAM_TO_UINT16 (t :: ((d.drop o).take 4 ++ rest)) 1 = STREAM_TO_UINT16 d o := by
  have hl : ((d.drop o).take 4).length = 4 := by
    rw [List.length_take, List.length_drop]; omega
  simp only [STREAM_TO_UINT16, List.getD_eq_getElem?_getD]
  rw [show (1 : Nat) + 1 = 1 + 1 from rfl, List.getElem?_cons_succ, List.getElem?_cons_succ,
    List.getElem?_append_left (by omega), List.getElem?_append_left (by omega),
    List.getElem?_take_of_lt (by omega), List.getElem?_take_of_lt (by omega),
    List.getElem?_drop, List.getElem?_drop]
  rfl

/-- The first header word of a segment whose header was written by the loop. -/
theorem stream_hdr_cont (t h l : Nat) (rest : List Nat) (hh : h < 65536) :
    STREAM_TO_UINT16 (t :: (acl_header_bytes h l ++ rest)) 1 = h := by
  simp only [STREAM_TO_UINT16, acl_header_bytes, List.cons_append, List.getD_cons_succ,
    List.getD_cons_zero, Nat.shiftRight_eq_div_pow, Nat.shiftLeft_eq]
  omega

theorem tx_segments_three (type handle D : Nat) (b : HC_BT_HDR) :
    tx_segments type handle D b 3 =
      [type :: ((b.data.drop b.offset).take 4 ++ (b.data.drop (b.offset + 4)).take D),
       type :: (acl_header_bytes handle D ++ (b.data.drop (b.offset + 4 + D)).take D),
       type :: (acl_header_bytes handle D ++ (b.data.drop (b.offset + 4 + 2 * D)).take D)] := by
  simp [tx_segments, List.range_succ]

/-- C13 (amended): for a data-size limit `D ≥ 6` and a well-formed outbound ACL
buffer of length `3 * D + 10` sent with no fragment budget, `hci_h4_send_msg`
returns after exactly 4 writes to the byte transport: 3 controller-sized
segments of `D + 4` bytes plus the type byte, then one tail segment of 10 bytes
plus the type byte. All 4 segments start with the ACL type byte and carry the
connection handle (low 12 bits of the first header word) of the original
packet; segments 2, 3 and 4 carry the Continuation packet-boundary flag. -/
theorem three_segments_and_tail (env : Env) (w : World) (p D : Nat)
    (hpl : p < w.heap.length) (hev : tx_event (w.buf p) = MSG_STACK_TO_HC_HCI_ACL)
    (hD : tx_data_size w (w.buf p) = D) (hwf : tx_wf (w.buf p))
    (hls : (w.buf p).layer_specific = 0) (hD6 : 6 ≤ D)
    (hlen : (w.buf p).len = 3 * D + 10) :
    ∃ w' t s1 s2 s3 s4, hci_h4_send_msg env w p = some w' ∧ w'.trace = w.trace ++ t ∧
      tx_writes t = [s1, s2, s3, s4] ∧
      s1.length = D + 4 + 1 ∧ s2.length = D + 4 + 1 ∧ s3.length = D + 4 + 1 ∧
      s4.length = 10 + 1 ∧
      (∀ s ∈ [s1, s2, s3, s4], s.head? = some H4_TYPE_ACL_DATA ∧
        STREAM_TO_UINT16 s 1 &&& 0x0FFF =
          STREAM_TO_UINT16 (w.buf p).data (w.buf p).offset &&& 0x0FFF) ∧
      (∀ s ∈ [s2, s3, s4], (STREAM_TO_UINT16 s 1 >>> 12) &&& 0x3 = 1) := by
  have hw1 := hwf.1
  obtain ⟨w', t, h1, h2, _, _, h5, _⟩ :=
    hci_h4_send_msg_fragmented env w p D 3 hpl hev hD hwf hls (by omega) (by omega) (by omega)
  rw [tx_segments_three] at h5
  have hk : (w.buf p).len - 3 * D - 4 = 6 := by omega
  have htail : tx_tail_segment H4_TYPE_ACL_DATA (tx_handle (w.buf p)) D (w.buf p) 3 =
      H4_TYPE_ACL_DATA :: (acl_header_bytes (tx_handle (w.buf p)) 6 ++
        ((w.buf p).data.drop ((w.buf p).offset + 4 + 3 * D)).take 6) := by
    unfold tx_tail_segment
    rw [hk, if_neg (by decide)]
  rw [htail] at h5
  have hlt : tx_handle (w.buf p) < 65536 := tx_handle_lt _
  have hc : ∀ l rest, STREAM_TO_UINT16 (H4_TYPE_ACL_DATA ::
      (acl_header_bytes (tx_handle (w.buf p)) l ++ rest)) 1 = tx_handle (w.buf p) :=
    fun l rest => stream_hdr_cont _ _ l rest hlt
  have hlow : tx_handle (w.buf p) &&& 0x0FFF =
      STREAM_TO_UINT16 (w.buf p).data (w.buf p).offset &&& 0x0FFF := tx_handle_low _
  have hfl : (tx_handle (w.buf p) >>> 12) &&& 0x3 = 1 := tx_handle_flags _
  refine ⟨w', t, _, _, _, _, h1, h2, h5, ?_, ?_, ?_, ?_, ?_, ?_⟩
  · simp only [List.length_cons, List.length_append, List.length_take, List.length_drop]
    omega
  · simp only [List.length_cons, List.length_append, List.length_take, List.length_drop,
      acl_header_bytes_length]
    omega
  · simp only [List.length_cons, List.length_append, List.length_take, List.length_drop,
      acl_header_bytes_length]
    omega
  · simp only [List.length_cons, List.length_append, List.length_take, List.length_drop,
      acl_header_bytes_length]
    omega
  · intro s hs
    simp only [List.mem_cons, List.mem_singleton, List.not_mem_nil, or_false] at hs
    rcases hs with hs | hs | hs | hs
    · subst hs
      exact ⟨rfl, by rw [stream_hdr_orig _ _ _ _ (by omega)]⟩
    · subst hs; exact ⟨rfl, by rw [hc, hlow]⟩
    · subst hs; exact ⟨rfl, by rw [hc, hlow]⟩
    · subst hs; exact ⟨rfl, by rw [hc, hlow]⟩
  · intro s hs
    simp only [List.mem_cons, List.mem_singleton, List.not_mem_nil, or_false] at hs
    rcases hs with hs | hs | hs
    · subst hs; rw [hc]; exact hfl
    · subst hs; rw [hc]; exact hfl
    · subst hs; rw [hc]; exact hfl

theorem three_segments_and_tail_witness :
    ∃ w' t s1 s2 s3 s4, hci_h4_send_msg Env.ideal
        (World.tx_ready 6 ⟨MSG_STACK_TO_HC_HCI_ACL, 28, 0, 0,
          [1, 0x20, 24, 0, 1, 2, 3, 4, 5, 6, 7, 8, 9, 10, 11, 12, 13, 14, 15, 16, 17, 18, 19,
            20, 21, 22, 23, 24]⟩) 0 = some w' ∧
      w'.trace = (World.tx_ready 6 ⟨MSG_STACK_TO_HC_HCI_ACL, 28, 0, 0,
          [1, 0x20, 24, 0, 1, 2, 3, 4, 5, 6, 7, 8, 9, 10, 11, 12, 13, 14, 15, 16, 17, 18, 19,
            20, 21, 22, 23, 24]⟩).trace ++ t ∧
      tx_writes t = [s1, s2, s3, s4] :=
  have h := three_segments_and_tail Env.ideal
    (World.tx_ready 6 ⟨MSG_STACK_TO_HC_HCI_ACL, 28, 0, 0,
      [1, 0x20, 24, 0, 1, 2, 3, 4, 5, 6, 7, 8, 9, 10, 11, 12, 13, 14, 15, 16, 17, 18, 19,
        20, 21, 22, 23, 24]⟩) 0 6
    (by decide) (by decide) (by decide) ⟨by decide, by decide⟩ (by decide) (by decide)
    (by decide)
  h.elim fun w' h1 => h1.elim fun t h2 => h2.elim fun s1 h3 => h3.elim fun s2 h4 =>
    h4.elim fun s3 h5 => h5.elim fun s4 h6 => ⟨w', t, s1, s2, s3, s4, h6.1, h6.2.1, h6.2.2.1⟩

/-- C13 as stated fails for small limits: with `D = 5` a message of
`3 * D + 10 = 25` bytes still exceeds `D + 4` after three segments, so the loop
runs a fourth time and `hci_h4_send_msg` makes 5 writes. -/
theorem small_limit_needs_five_writes :
    ((hci_h4_send_msg Env.ideal
        (World.tx_ready 5 ⟨MSG_STACK_TO_HC_HCI_ACL, 25, 0, 0,
          [1, 0x20, 21, 0, 1, 2, 3, 4, 5, 6, 7, 8, 9, 10, 11, 12, 13, 14, 15, 16, 17, 18, 19,
            20, 21]⟩) 0).map (fun w => (tx_writes w.trace).map List.length)) =
      some [10, 10, 10, 10, 6] := by
  decide

/-! ## The credit counter along a run (C17) -/

theorem alloc_credits (env : Env) (w : World) (size : Nat) :
    (alloc env w size).1.h4_num_hci_cmd_pkts = w.h4_num_hci_cmd_pkts := by
  unfold alloc
  split <;> rfl

theorem rx_msgtype_credits (w : World) (byte : Nat) :
    (rx_msgtype w byte).h4_num_hci_cmd_pkts = w.h4_num_hci_cmd_pkts := by
  unfold rx_msgtype
  split <;> rfl

theorem acl_rx_frame_end_chk_credits (w : World) :
    (acl_rx_frame_end_chk w).1.h4_num_hci_cmd_pkts = w.h4_num_hci_cmd_pkts := by
  unfold acl_rx_frame_end_chk
  cases w.h4_cb.p_rcv_msg with
  | none => rfl
  | some p =>
    simp only
    split_ifs <;> rfl

theorem acl_rx_frame_buffer_alloc_credits (env : Env) (w : World) :
    (acl_rx_frame_buffer_alloc env w).1.h4_num_hci_cmd_pkts = w.h4_num_hci_cmd_pkts := by
  unfold acl_rx_frame_buffer_alloc
  simp only
  split_ifs <;> (repeat' split) <;>
    simp only [World.setCb, World.setBuf, World.emit, dealloc, alloc_credits]

theorem rx_len_acquired_credits (w : World) (msg_len : Nat) :
    (rx_len_acquired w msg_len).1.h4_num_hci_cmd_pkts = w.h4_num_hci_cmd_pkts := by
  unfold rx_len_acquired
  cases w.h4_cb.p_rcv_msg with
  | none => simp only; split <;> rfl
  | some p =>
    simp only
    split_ifs <;> simp only [World.setCb, acl_rx_frame_end_chk_credits]

theorem rx_len_credits (env : Env) (w : World) (byte : Nat) :
    (rx_len env w byte).1.h4_num_hci_cmd_pkts = w.h4_num_hci_cmd_pkts := by
  unfold rx_len
  simp only
  split_ifs <;> (repeat' split) <;>
    simp only [rx_len_acquired_credits, World.setCb, World.setBuf,
      acl_rx_frame_buffer_alloc_credits, alloc_credits]

theorem rx_data_store_credits (env : Env) (w : World) (p byte : Nat) (rest : List Nat) :
    (rx_data_store env w p byte rest).1.h4_num_hci_cmd_pkts = w.h4_num_hci_cmd_pkts := by
  unfold rx_data_store
  simp only
  split <;> rfl

theorem rx_data_end_credits (w : World) :
    (rx_data_end w).1.h4_num_hci_cmd_pkts = w.h4_num_hci_cmd_pkts := by
  unfold rx_data_end
  simp only
  split_ifs <;> simp only [World.setCb, acl_rx_frame_end_chk_credits]

theorem rx_data_credits (env : Env) (w : World) (byte : Nat) (rest : List Nat) :
    (rx_data env w byte rest).w.h4_num_hci_cmd_pkts = w.h4_num_hci_cmd_pkts := by
  unfold rx_data
  cases w.h4_cb.p_rcv_msg with
  | none => rfl
  | some p => simp only [rx_data_end_credits, rx_data_store_credits]

theorem rx_ignore_credits (w : World) :
    (rx_ignore w).h4_num_hci_cmd_pkts = w.h4_num_hci_cmd_pkts := by
  unfold rx_ignore
  simp only
  split <;> rfl

theorem internal_event_intercept_nonneg (env : Env) (w : World)
    (h : 0 ≤ w.h4_num_hci_cmd_pkts) :
    0 ≤ (internal_event_intercept env w).1.h4_num_hci_cmd_pkts := by
  unfold internal_event_intercept
  cases w.h4_cb.p_rcv_msg with
  | none => exact h
  | some p =>
    simp only
    split_ifs <;>
      simp only [World.setCb, World.emit, dealloc, call_cback_credits, Int.natCast_nonneg, h]

theorem rx_deliver_nonneg (env : Env) (w : World) (h : 0 ≤ w.h4_num_hci_cmd_pkts) :
    0 ≤ (rx_deliver env w).h4_num_hci_cmd_pkts := by
  unfold rx_deliver
  cases w.h4_cb.p_rcv_msg with
  | none => exact h
  | some p =>
    simp only
    split_ifs <;>
      first
        | exact h
        | exact internal_event_intercept_nonneg env _ h

theorem rx_byte_nonneg (env : Env) (w : World) (byte : Nat) (rest : List Nat)
    (h : 0 ≤ w.h4_num_hci_cmd_pkts) :
    0 ≤ (rx_byte env w byte rest).1.h4_num_hci_cmd_pkts := by
  unfold rx_byte
  simp only
  cases w.h4_cb.rcv_state <;> simp only <;> split <;>
    first
      | apply rx_deliver_nonneg
        simp only [rx_msgtype_credits, rx_len_credits, rx_data_credits, rx_ignore_credits, h]
      | simp only [rx_msgtype_credits, rx_len_credits, rx_data_credits, rx_ignore_credits, h]

theorem hci_h4_receive_loop_nonneg (env : Env) :
    ∀ (fuel : Nat) (w : World) (input : List Nat) (n : Nat), 0 ≤ w.h4_num_hci_cmd_pkts →
      0 ≤ (hci_h4_receive_loop env fuel w input n).2.h4_num_hci_cmd_pkts := by
  intro fuel
  induction fuel with
  | zero => intro w input n h; exact h
  | succ fuel ih =>
    intro w input n h
    cases input with
    | nil => exact h
    | cons byte rest =>
      rw [hci_h4_receive_loop]
      exact ih _ _ _ (rx_byte_nonneg env w byte rest h)

theorem hci_h4_send_msg_credits (env : Env) (w : World) (p : Nat) (w' : World)
    (h : hci_h4_send_msg env w p = some w') :
    w'.h4_num_hci_cmd_pkts =
      (if tx_event (w.buf p) = MSG_STACK_TO_HC_HCI_CMD then w.h4_num_hci_cmd_pkts - 1
       else w.h4_num_hci_cmd_pkts) := by
  obtain ⟨t, early, _, he, hl⟩ := hci_h4_send_msg_shape env w p w' h
  cases early
  · obtain ⟨w1, b1, b2, _, _, b4⟩ := hl rfl
    rw [b4, hci_h4_send_tail_eq]
    simp only [b2]
  · obtain ⟨c1, _, c3, c4, _⟩ := he rfl
    have hne : ¬ (tx_event (w.buf p) = MSG_STACK_TO_HC_HCI_CMD) := by
      rw [c1]; decide
    rw [c4, if_neg hne]

theorem step_nonneg (env : Env) (w : World) (a : Action) (w' : World)
    (hs : step env w a = some w') (h : 0 ≤ w.h4_num_hci_cmd_pkts) :
    0 ≤ w'.h4_num_hci_cmd_pkts := by
  cases a with
  | receive bytes =>
    simp only [step, Option.some.injEq] at hs
    rw [← hs]
    exact hci_h4_receive_loop_nonneg env _ _ _ _ h
  | send p =>
    simp only [step] at hs
    split at hs
    · exact absurd hs (by simp)
    · rename_i hg
      rw [hci_h4_send_msg_credits env w p w' hs]
      split
      · rename_i hc
        have : 0 < w.h4_num_hci_cmd_pkts := by
          by_contra hn
          exact hg ⟨hc, hn⟩
        omega
      · exact h
  | send_int_cmd opcode p f =>
    simp only [step, Option.some.injEq] at hs
    rw [← hs, hci_h4_send_int_cmd_credits]
    exact h
  | stack heap =>
    simp only [step, Option.some.injEq] at hs
    rw [← hs]
    exact h

theorem exec_nonneg (env : Env) :
    ∀ (actions : List Action) (w w' : World), exec env w actions = some w' →
      0 ≤ w.h4_num_hci_cmd_pkts → 0 ≤ w'.h4_num_hci_cmd_pkts := by
  intro actions
  induction actions with
  | nil =>
    intro w w' he h
    simp only [exec, Option.some.injEq] at he
    rw [← he]; exact h
  | cons a rest ih =>
    intro w w' he h
    rw [exec] at he
    cases hs : step env w a with
    | none => rw [hs] at he; simp at he
    | some w1 =>
      rw [hs] at he
      exact ih w1 w' he (step_nonneg env w a w1 hs h)

/-- C17: starting from `hci_h4_init` (counter 1), after every prefix of every
run of module entry points (bytes handed to `hci_h4_receive_msg`, buffers passed
to `hci_h4_send_msg`, internal commands registered with `hci_h4_send_int_cmd`,
the host stack rewriting buffers in between) in which a Command buffer is passed
to `hci_h4_send_msg` only while the credit counter is greater than 0, the credit
counter is not negative. -/
theorem credit_counter_never_negative (env : Env) (w0 : World) (actions : List Action)
    (n : Nat) (w : World) (h : exec env (hci_h4_init w0) (actions.take n) = some w) :
    0 ≤ w.h4_num_hci_cmd_pkts :=
  exec_nonneg env _ _ _ h (show (0 : Int) ≤ 1 by decide)

theorem credit_counter_never_negative_witness :
    ∃ w, exec Env.ideal (hci_h4_init World.boot)
        ([Action.stack [⟨MSG_STACK_TO_HC_HCI_CMD, 3, 0, 0, [0x03, 0x0C, 0]⟩], Action.send 0,
          Action.receive [4, 0x0E, 4, 1, 0x03, 0x0C, 0], Action.send 0].take 4) = some w ∧
      0 ≤ w.h4_num_hci_cmd_pkts := by
  have hs : (exec Env.ideal (hci_h4_init World.boot)
      ([Action.stack [⟨MSG_STACK_TO_HC_HCI_CMD, 3, 0, 0, [0x03, 0x0C, 0]⟩], Action.send 0,
        Action.receive [4, 0x0E, 4, 1, 0x03, 0x0C, 0], Action.send 0].take 4)).isSome = true := by
    decide
  obtain ⟨w, hw⟩ := Option.isSome_iff_exists.mp hs
  exact ⟨w, hw, credit_counter_never_negative Env.ideal World.boot _ 4 w hw⟩

/-! ## The bootstrap callback on failures and on the LE completion (C21, C22, C23) -/

/-- C21 (amended): when `get_acl_data_length_cback` receives a Command-Complete
buffer for opcode 0x1005 whose status byte is non-zero, it leaves both data
sizes unchanged and goes on like after a success: the buffer is turned into the
HCI_LE_READ_BUFFER_SIZE command and passed to `hci_h4_send_int_cmd`. While the
ring accepts the command (at most 8 pending) the buffer is forwarded to the
transmit path and neither freed nor reported; when the ring rejects it the
buffer is freed and `postload_cb` is invoked with BT_HC_POSTLOAD_SUCCESS. -/
theorem read_buffer_size_failure_goes_on (env : Env) (w : World) (p : Nat)
    (hpl : p < w.heap.length)
    (hop : STREAM_TO_UINT16 (w.buf p).data 3 = HCI_READ_BUFFER_SIZE)
    (hst : (w.buf p).data.getD 5 0 ≠ 0) :
    (w.h4_cb.int_cmd_rsp_pending ≤ 8 →
      get_acl_data_length_cback env w p =
        { w with
          h4_cb := { w.h4_cb with
            int_cmd_rsp_pending := w.h4_cb.int_cmd_rsp_pending + 1
            int_cmd := w.h4_cb.int_cmd.set w.h4_cb.int_cmd_wrt_idx
              ⟨HCI_LE_READ_BUFFER_SIZE, tINT_CMD_CBACK.get_acl_data_length_cback⟩
            int_cmd_wrt_idx := (w.h4_cb.int_cmd_wrt_idx + 1) &&& INT_CMD_PKT_IDX_MASK }
          heap := w.heap.set p
            ⟨MSG_STACK_TO_HC_HCI_CMD, 3, 0, HCI_LE_READ_BUFFER_SIZE,
              (UINT16_TO_STREAM (w.buf p).data 0 HCI_LE_READ_BUFFER_SIZE).set 2 0⟩
          trace := w.trace ++ [Effect.bthc_tx p] }) ∧
    (8 < w.h4_cb.int_cmd_rsp_pending →
      get_acl_data_length_cback env w p =
        { w with
          heap := w.heap.set p
            ⟨MSG_STACK_TO_HC_HCI_CMD, 3, 0, 0,
              (UINT16_TO_STREAM (w.buf p).data 0 HCI_LE_READ_BUFFER_SIZE).set 2 0⟩
          trace := w.trace ++
            [Effect.dealloc p, Effect.postload_cb BT_HC_POSTLOAD_SUCCESS] }) := by
  constructor
  · intro hpend
    have hg : ¬ (w.h4_cb.int_cmd_rsp_pending > ((INT_CMD_PKT_MAX_COUNT : Nat) : Int)) := by
      simp only [INT_CMD_PKT_MAX_COUNT]; push_cast; omega
    unfold get_acl_data_length_cback
    simp only [hop, hst, if_true, if_false]
    unfold hci_h4_send_int_cmd
    simp only [buf_setCb, buf_setBuf_self _ _ _ hpl, setBuf_setBuf]
    simp only [World.setCb, World.setBuf, World.emit, hg, if_false, Bool.true_eq_false,
      List.set_set]
  · intro hpend
    have hg : w.h4_cb.int_cmd_rsp_pending > ((INT_CMD_PKT_MAX_COUNT : Nat) : Int) := by
      simp only [INT_CMD_PKT_MAX_COUNT]; push_cast; omega
    unfold get_acl_data_length_cback
    simp only [hop, hst, if_true, if_false]
    unfold hci_h4_send_int_cmd
    simp only [World.setCb, World.setBuf, World.emit, dealloc, hg, if_true,
      List.append_assoc, List.singleton_append]

theorem read_buffer_size_failure_goes_on_witness :
    get_acl_data_length_cback Env.ideal
        (received (hci_h4_init World.boot) 4 MSG_HC_TO_STACK_HCI_EVT [0x0E, 4]
          [1, 0x05, 0x10, 1] 0) 0 =
      { received (hci_h4_init World.boot) 4 MSG_HC_TO_STACK_HCI_EVT [0x0E, 4]
          [1, 0x05, 0x10, 1] 0 with
        h4_cb := { (received (hci_h4_init World.boot) 4 MSG_HC_TO_STACK_HCI_EVT [0x0E, 4]
            [1, 0x05, 0x10, 1] 0).h4_cb with
          int_cmd_rsp_pending := 0 + 1
          int_cmd := (received (hci_h4_init World.boot) 4 MSG_HC_TO_STACK_HCI_EVT [0x0E, 4]
            [1, 0x05, 0x10, 1] 0).h4_cb.int_cmd.set 0
              ⟨HCI_LE_READ_BUFFER_SIZE, tINT_CMD_CBACK.get_acl_data_length_cback⟩
          int_cmd_wrt_idx := (0 + 1) &&& INT_CMD_PKT_IDX_MASK }
        heap := (received (hci_h4_init World.boot) 4 MSG_HC_TO_STACK_HCI_EVT [0x0E, 4]
            [1, 0x05, 0x10, 1] 0).heap.set 0
          ⟨MSG_STACK_TO_HC_HCI_CMD, 3, 0, HCI_LE_READ_BUFFER_SIZE,
            (UINT16_TO_STREAM [0x0E, 4, 1, 0x05, 0x10, 1] 0 HCI_LE_READ_BUFFER_SIZE).set 2 0⟩
        trace := [] ++ [Effect.bthc_tx 0] } :=
  (read_buffer_size_failure_goes_on Env.ideal
    (received (hci_h4_init World.boot) 4 MSG_HC_TO_STACK_HCI_EVT [0x0E, 4] [1, 0x05, 0x10, 1] 0)
    0 (by decide) (by decide) (by decide)).1 (by decide)

/-- C21 as stated fails: the Command-Complete event 0E 04 01 05 10 01 (opcode
0x1005, status 1) is in buffer 0. The callback neither frees the buffer nor
calls `postload_cb`; it forwards the buffer, now holding the command 02 20 00,
to the transmit path with the opcode 0x2002 registered in the ring. -/
theorem read_buffer_size_failure_not_reported :
    (get_acl_data_length_cback Env.ideal
        (received (hci_h4_init World.boot) 4 MSG_HC_TO_STACK_HCI_EVT [0x0E, 4]
          [1, 0x05, 0x10, 1] 0) 0).trace = [Effect.bthc_tx 0] ∧
    ((get_acl_data_length_cback Env.ideal
        (received (hci_h4_init World.boot) 4 MSG_HC_TO_STACK_HCI_EVT [0x0E, 4]
          [1, 0x05, 0x10, 1] 0) 0).buf 0).data.take 3 = [0x02, 0x20, 0] ∧
    (get_acl_data_length_cback Env.ideal
        (received (hci_h4_init World.boot) 4 MSG_HC_TO_STACK_HCI_EVT [0x0E, 4]
          [1, 0x05, 0x10, 1] 0) 0).h4_cb.int_cmd_rsp_pending = 1 ∧
    (int_cmd_slot (get_acl_data_length_cback Env.ideal
        (received (hci_h4_init World.boot) 4 MSG_HC_TO_STACK_HCI_EVT [0x0E, 4]
          [1, 0x05, 0x10, 1] 0) 0)).opcode = HCI_LE_READ_BUFFER_SIZE := by
  decide

/-- C22: when `get_acl_data_length_cback` receives a Command-Complete buffer for
opcode 0x2002 with status 0 and 16-bit length value `v` (host callbacks
registered), the only changes are: `hc_ble_acl_data_size` becomes `v` if `v` is
non-zero and the current `hc_acl_data_size` if `v` is zero, and the trace gains
one `dealloc` of the buffer followed by one `postload_cb` with
BT_HC_POSTLOAD_SUCCESS; `hc_acl_data_size` is unchanged. -/
theorem le_buffer_size_success (env : Env) (w : World) (p v : Nat)
    (hcb : env.bt_hc_cbacks = true)
    (hop : STREAM_TO_UINT16 (w.buf p).data 3 = HCI_LE_READ_BUFFER_SIZE)
    (hst : (w.buf p).data.getD 5 0 = 0)
    (hv : STREAM_TO_UINT16 (w.buf p).data 6 = v) :
    get_acl_data_length_cback env w p =
      { w with
        h4_cb := { w.h4_cb with
          hc_ble_acl_data_size := if v ≠ 0 then v else w.h4_cb.hc_acl_data_size }
        trace := w.trace ++ [Effect.dealloc p, Effect.postload_cb BT_HC_POSTLOAD_SUCCESS] } ∧
    (get_acl_data_length_cback env w p).h4_cb.hc_acl_data_size = w.h4_cb.hc_acl_data_size := by
  have hne : ¬ (HCI_LE_READ_BUFFER_SIZE = HCI_READ_BUFFER_SIZE) := by decide
  have h : get_acl_data_length_cback env w p =
      { w with
        h4_cb := { w.h4_cb with
          hc_ble_acl_data_size := if v ≠ 0 then v else w.h4_cb.hc_acl_data_size }
        trace := w.trace ++ [Effect.dealloc p, Effect.postload_cb BT_HC_POSTLOAD_SUCCESS] } := by
    unfold get_acl_data_length_cback
    simp only [hop, hst, hv, hne, hcb, if_true, if_false, World.setCb, World.emit, dealloc,
      List.append_assoc, List.singleton_append]
  exact ⟨h, by rw [h]⟩

theorem le_buffer_size_success_witness :
    (get_acl_data_length_cback Env.ideal
        (received (hci_h4_init World.boot) 4 MSG_HC_TO_STACK_HCI_EVT [0x0E, 7]
          [1, 0x02, 0x20, 0, 0, 0, 0] 0) 0).h4_cb.hc_ble_acl_data_size = 1021 ∧
    (get_acl_data_length_cback Env.ideal
        (received (hci_h4_init World.boot) 4 MSG_HC_TO_STACK_HCI_EVT [0x0E, 7]
          [1, 0x02, 0x20, 0, 0, 0, 0] 0) 0).trace =
      [Effect.dealloc 0, Effect.postload_cb BT_HC_POSTLOAD_SUCCESS] := by
  have h := (le_buffer_size_success Env.ideal
    (received (hci_h4_init World.boot) 4 MSG_HC_TO_STACK_HCI_EVT [0x0E, 7]
      [1, 0x02, 0x20, 0, 0, 0, 0] 0) 0 0 rfl (by decide) (by decide) (by decide)).1
  rw [h]
  exact ⟨rfl, rfl⟩

/-- C23: when `get_acl_data_length_cback` receives a Command-Complete buffer for
opcode 0x2002 whose status byte is non-zero (host callbacks registered), the
only change is that the trace gains one `dealloc` of the buffer followed by one
`postload_cb` with BT_HC_POSTLOAD_SUCCESS: both data sizes are unchanged. -/
theorem le_buffer_size_failure (env : Env) (w : World) (p : Nat)
    (hcb : env.bt_hc_cbacks = true)
    (hop : STREAM_TO_UINT16 (w.buf p).data 3 = HCI_LE_READ_BUFFER_SIZE)
    (hst : (w.buf p).data.getD 5 0 ≠ 0) :
    get_acl_data_length_cback env w p =
      { w with
        trace := w.trace ++ [Effect.dealloc p, Effect.postload_cb BT_HC_POSTLOAD_SUCCESS] } ∧
    (get_acl_data_length_cback env w p).h4_cb.hc_acl_data_size = w.h4_cb.hc_acl_data_size ∧
    (get_acl_data_length_cback env w p).h4_cb.hc_ble_acl_data_size =
      w.h4_cb.hc_ble_acl_data_size := by
  have hne : ¬ (HCI_LE_READ_BUFFER_SIZE = HCI_READ_BUFFER_SIZE) := by decide
  have h : get_acl_data_length_cback env w p =
      { w with
        trace := w.trace ++
          [Effect.dealloc p, Effect.postload_cb BT_HC_POSTLOAD_SUCCESS] } := by
    unfold get_acl_data_length_cback
    simp only [hop, hst, hne, hcb, if_true, if_false, World.emit, dealloc,
      List.append_assoc, List.singleton_append]
  exact ⟨h, by rw [h], by rw [h]⟩

theorem le_buffer_size_failure_witness :
    (get_acl_data_length_cback Env.ideal
        (received (hci_h4_init World.boot) 4 MSG_HC_TO_STACK_HCI_EVT [0x0E, 4]
          [1, 0x02, 0x20, 0x0C] 0) 0).h4_cb.hc_ble_acl_data_size = 27 ∧
    (get_acl_data_length_cback Env.ideal
        (received (hci_h4_init World.boot) 4 MSG_HC_TO_STACK_HCI_EVT [0x0E, 4]
          [1, 0x02, 0x20, 0x0C] 0) 0).trace =
      [Effect.dealloc 0, Effect.postload_cb BT_HC_POSTLOAD_SUCCESS] := by
  have h := (le_buffer_size_failure Env.ideal
    (received (hci_h4_init World.boot) 4 MSG_HC_TO_STACK_HCI_EVT [0x0E, 4]
      [1, 0x02, 0x20, 0x0C] 0) 0 rfl (by decide) (by decide)).1
  rw [h]
  exact ⟨rfl, rfl⟩

/-! ## The reassembly functions on their own (C27, C28, C29) -/

theorem UINT16_TO_STREAM_eq (d : List Nat) (i v : Nat) :
    UINT16_TO_STREAM d i v = (d.set i (v % 256)).set (i + 1) ((v >>> 8) % 256) := rfl

theorem UINT16_TO_STREAM_length (d : List Nat) (i v : Nat) :
    (UINT16_TO_STREAM d i v).length = d.length := by
  simp [UINT16_TO_STREAM_eq]

theorem UINT16_TO_STREAM_getD_ne (d : List Nat) (i v j : Nat) (h1 : j ≠ i) (h2 : j ≠ i + 1) :
    (UINT16_TO_STREAM d i v).getD j 0 = d.getD j 0 := by
  simp only [UINT16_TO_STREAM_eq, List.getD_eq_getElem?_getD]
  rw [List.getElem?_set_ne (by omega), List.getElem?_set_ne (by omega)]

theorem STREAM_TO_UINT16_UINT16_TO_STREAM (d : List Nat) (i v : Nat)
    (h : i + 2 ≤ d.length) (hv : v < 65536) :
    STREAM_TO_UINT16 (UINT16_TO_STREAM d i v) i = v := by
  simp only [UINT16_TO_STREAM_eq, STREAM_TO_UINT16, List.getD_eq_getElem?_getD]
  rw [List.getElem?_set_ne (by omega), List.getElem?_set_eq_of_lt _ (by omega),
    List.getElem?_set_eq_of_lt _ (by simp; omega)]
  simp only [Option.getD_some, Nat.shiftRight_eq_div_pow, Nat.shiftLeft_eq]
  omega

theorem u16_lt (x : Nat) : u16 x < 65536 := Nat.mod_lt _ (by decide)

/-- C28 (amended): for an ACL Continuation packet with HCI length `n` whose
handle has a live base buffer `B` (at least 4 data bytes) in the reassembly
queue, `acl_rx_frame_buffer_alloc` allocates nothing and returns `B` itself,
sets the remaining length to `n`, and increases the 16-bit field at data bytes
2..3 of `B` (the HCI length field of the base header) by `n` modulo 2^16. Every
other byte of `B`, in particular the L2CAP length at data bytes 4..5, the other
header fields of `B`, every other buffer and the queue are unchanged. -/
theorem continuation_merge (env : Env) (w : World) (h bc n B : Nat)
    (hh : h < 4096)
    (hpre : w.h4_cb.preload_buffer = acl_preamble h ACL_RX_PKT_CONTINUE bc n ++ [0, 0])
    (hf : acl_rx_q_find w h = some B)
    (hB : B < w.heap.length) (hd : 4 ≤ (w.buf B).data.length) :
    (acl_rx_frame_buffer_alloc env w).2 = some B ∧
    (acl_rx_frame_buffer_alloc env w).1.n_alloc = w.n_alloc ∧
    (acl_rx_frame_buffer_alloc env w).1.heap.length = w.heap.length ∧
    (acl_rx_frame_buffer_alloc env w).1.trace = w.trace ∧
    (acl_rx_frame_buffer_alloc env w).1.h4_cb = { w.h4_cb with rcv_len := n } ∧
    STREAM_TO_UINT16 ((acl_rx_frame_buffer_alloc env w).1.buf B).data 2 =
      (STREAM_TO_UINT16 (w.buf B).data 2 + n) % 65536 ∧
    (∀ i, i ≠ 2 → i ≠ 3 →
      ((acl_rx_frame_buffer_alloc env w).1.buf B).data.getD i 0 = (w.buf B).data.getD i 0) ∧
    ((acl_rx_frame_buffer_alloc env w).1.buf B).data.length = (w.buf B).data.length ∧
    ((acl_rx_frame_buffer_alloc env w).1.buf B).len = (w.buf B).len ∧
    ((acl_rx_frame_buffer_alloc env w).1.buf B).offset = (w.buf B).offset ∧
    ((acl_rx_frame_buffer_alloc env w).1.buf B).event = (w.buf B).event ∧
    ((acl_rx_frame_buffer_alloc env w).1.buf B).layer_specific = (w.buf B).layer_specific ∧
    (∀ q, q ≠ B → (acl_rx_frame_buffer_alloc env w).1.buf q = w.buf q) := by
  have hq : w.h4_cb.acl_rx_q.length ≠ 0 := by
    intro h0
    rw [acl_rx_q_find, List.length_eq_zero.mp h0] at hf
    simp at hf
  rw [acl_rx_frame_buffer_alloc_cont env w h bc n B hh hpre hf hq]
  have hb : ((w.setCb { w.h4_cb with rcv_len := n }).setBuf B
      { w.buf B with
        data := UINT16_TO_STREAM (w.buf B).data 2
          (u16 (STREAM_TO_UINT16 (w.buf B).data 2 + n)) }).buf B =
      { w.buf B with
        data := UINT16_TO_STREAM (w.buf B).data 2
          (u16 (STREAM_TO_UINT16 (w.buf B).data 2 + n)) } :=
    buf_setBuf_self _ _ _ hB
  refine ⟨rfl, rfl, ?_, rfl, rfl, ?_, ?_, ?_, ?_, ?_, ?_, ?_, ?_⟩
  · simp only [World.setBuf, World.setCb, List.length_set]
  · rw [hb]
    exact STREAM_TO_UINT16_UINT16_TO_STREAM _ _ _ (by omega) (u16_lt _)
  · intro i h2 h3
    rw [hb]
    exact UINT16_TO_STREAM_getD_ne _ _ _ _ h2 h3
  · rw [hb]; exact UINT16_TO_STREAM_length _ _ _
  · rw [hb]
  · rw [hb]
  · rw [hb]
  · rw [hb]
  · intro q hq
    simp only [World.buf, World.setBuf, World.setCb, List.getD_eq_getElem?_getD]
    rw [List.getElem?_set_ne (fun e => hq e.symm)]

theorem continuation_merge_witness :
    (acl_rx_frame_buffer_alloc Env.ideal
      (acl_hdr (World.with_pending Env.ideal)
        (acl_preamble 1 ACL_RX_PKT_CONTINUE 0 2 ++ [0, 0]) 4)).2 = some 0 ∧
    STREAM_TO_UINT16 ((acl_rx_frame_buffer_alloc Env.ideal
      (acl_hdr (World.with_pending Env.ideal)
        (acl_preamble 1 ACL_RX_PKT_CONTINUE 0 2 ++ [0, 0]) 4)).1.buf 0).data 2 =
      (STREAM_TO_UINT16 ((acl_hdr (World.with_pending Env.ideal)
        (acl_preamble 1 ACL_RX_PKT_CONTINUE 0 2 ++ [0, 0]) 4).buf 0).data 2 + 2) % 65536 :=
  have h := continuation_merge Env.ideal
    (acl_hdr (World.with_pending Env.ideal) (acl_preamble 1 ACL_RX_PKT_CONTINUE 0 2 ++ [0, 0]) 4)
    1 0 2 0 (by decide) rfl (by decide) (by decide) (by decide)
  ⟨h.1, h.2.2.2.2.2.1⟩

/-- C28 as stated fails: buffer 0 (handle 1, HCI length 4, L2CAP length 4) is
parked in the queue when the Continuation header 02 01 10 02 00 arrives. The
field at data bytes 4..5 keeps the value 4; the field that grows by 2 is the
HCI length at data bytes 2..3. -/
theorem continuation_patches_hci_length :
    ((World.with_pending Env.ideal).buf 0).data.take 6 = [1, 0x20, 4, 0, 4, 0] ∧
    (World.with_pending Env.ideal).h4_cb.acl_rx_q = [0] ∧
    ((hci_h4_receive_msg Env.ideal (World.with_pending Env.ideal)
      [2, 1, 0x10, 2, 0]).2.buf 0).data.take 6 = [1, 0x20, 6, 0, 4, 0] ∧
    (hci_h4_receive_msg Env.ideal (World.with_pending Env.ideal)
      [2, 1, 0x10, 2, 0]).2.h4_cb.p_rcv_msg = some 0 := by
  decide
theorem write_bytes_getElem? (bs : List Nat) :
    ∀ (data : List Nat) (i j : Nat),
      (write_bytes data i bs)[j]? =
        if i ≤ j ∧ j < i + bs.length ∧ j < data.length then bs[j - i]? else data[j]? := by
  induction bs with
  | nil =>
    intro data i j
    have h : ¬ (i ≤ j ∧ j < i + ([] : List Nat).length ∧ j < data.length) := by
      simp only [List.length_nil]; omega
    rw [write_bytes, if_neg h]
  | cons b bs ih =>
    intro data i j
    rw [write_bytes, ih]
    simp only [List.length_set, List.length_cons]
    by_cases hij : i = j
    · subst hij
      by_cases hl : i < data.length
      · simp [hl]
      · have h2 : ¬ (i + 1 ≤ i ∧ i < i + 1 + bs.length ∧ i < data.length) := by omega
        have h3 : ¬ (i ≤ i ∧ i < i + (bs.length + 1) ∧ i < data.length) := by omega
        rw [if_neg h2, if_neg h3, List.getElem?_eq_none (by simp; omega),
          List.getElem?_eq_none (by omega)]
    · rw [List.getElem?_set_ne hij]
      by_cases h1 : i + 1 ≤ j ∧ j < i + 1 + bs.length ∧ j < data.length
      · have h2 : i ≤ j ∧ j < i + (bs.length + 1) ∧ j < data.length := by omega
        rw [if_pos h1, if_pos h2]
        have : j - i = (j - (i + 1)) + 1 := by omega
        rw [this, List.getElem?_cons_succ]
      · have h2 : ¬ (i ≤ j ∧ j < i + (bs.length + 1) ∧ j < data.length) := by omega
        rw [if_neg h1, if_neg h2]

/-- The snoop trace of a continuation borrows four bytes in front of the
segment and puts them back: the data of the buffer are the same afterwards,
wherever the borrowed range lies. -/
theorem snoop_restore_any (data pre : List Nat) (pos a b : Nat) (hpre : 4 ≤ pre.length) :
    write_bytes (UINT16_TO_STREAM (UINT16_TO_STREAM data pos a) (pos + 2) b) pos
      ((write_bytes pre 0 ((data.drop pos).take 4)).take 4) = data := by
  apply List.ext_getElem?
  intro j
  rw [write_bytes_getElem?]
  simp only [UINT16_TO_STREAM_length, List.length_take, write_bytes_length]
  have hmin : min 4 pre.length = 4 := by omega
  rw [hmin]
  by_cases hc : pos ≤ j ∧ j < pos + 4 ∧ j < data.length
  · rw [if_pos hc, List.getElem?_take_of_lt (by omega), write_bytes_getElem?]
    have hc2 : 0 ≤ j - pos ∧ j - pos < 0 + ((data.drop pos).take 4).length ∧
        j - pos < pre.length := by
      rw [List.length_take, List.length_drop]; omega
    rw [if_pos hc2, Nat.sub_zero, List.getElem?_take_of_lt (by omega), List.getElem?_drop]
    congr 1; omega
  · rw [if_neg hc]
    simp only [UINT16_TO_STREAM, write_bytes_getElem?, write_bytes_length]
    by_cases hj : j < data.length
    · have h1 : ¬ (pos + 2 ≤ j ∧ j < pos + 2 + [b % 256, (b >>> 8) % 256].length ∧
          j < data.length) := by simp only [List.length_cons, List.length_nil]; omega
      have h2 : ¬ (pos ≤ j ∧ j < pos + [a % 256, (a >>> 8) % 256].length ∧
          j < data.length) := by simp only [List.length_cons, List.length_nil]; omega
      rw [if_neg h1, if_neg h2]
    · have h1 : ¬ (pos + 2 ≤ j ∧ j < pos + 2 + [b % 256, (b >>> 8) % 256].length ∧
          j < data.length) := by omega
      have h2 : ¬ (pos ≤ j ∧ j < pos + [a % 256, (a >>> 8) % 256].length ∧
          j < data.length) := by omega
      rw [if_neg h1, if_neg h2]
/-- The explicit result of `acl_rx_frame_end_chk` on a live receive buffer `p`,
whatever the state. -/
theorem end_chk_eq (w : World) (p : Nat)
    (hp : w.h4_cb.p_rcv_msg = some p) (hpl : p < w.heap.length) :
    ∃ (pl d : List Nat) (m : HC_BT_HDR),
      acl_rx_frame_end_chk w =
        ({ w with
            h4_cb := { w.h4_cb with
              preload_buffer := pl
              acl_rx_q :=
                if 0 < STREAM_TO_UINT16 (w.buf p).data 2 ∧
                    ¬ ((STREAM_TO_UINT16 (w.buf p).data 4 : Int) > ((w.buf p).len : Int) - 8)
                then utils_remove_from_queue w.h4_cb.acl_rx_q p else w.h4_cb.acl_rx_q }
            heap := w.heap.set p
              { w.buf p with
                data := d
                offset :=
                  if 0 < STREAM_TO_UINT16 (w.buf p).data 2 ∧
                    (STREAM_TO_UINT16 (w.buf p).data 4 : Int) > ((w.buf p).len : Int) - 8
                  then (w.buf p).len else 0 }
            trace := w.trace ++ [Effect.btsnoop_capture m true] },
          decide (¬ (0 < STREAM_TO_UINT16 (w.buf p).data 2 ∧
            (STREAM_TO_UINT16 (w.buf p).data 4 : Int) > ((w.buf p).len : Int) - 8))) ∧
      pl.length = w.h4_cb.preload_buffer.length ∧
      (4 ≤ w.h4_cb.preload_buffer.length → d = (w.buf p).data) := by
  have herase : ¬ (w.h4_cb.acl_rx_q.length ≠ 0) →
      utils_remove_from_queue w.h4_cb.acl_rx_q p = w.h4_cb.acl_rx_q :=
    fun h => erase_of_length_zero _ p h
  have hcast : ((4 + L2CAP_HEADER_SIZE : Nat) : Int) = 8 := by decide
  simp only [World.buf]
  by_cases h4 : (w.heap.getD p ⟨0, 0, 0, 0, []⟩).offset = 0
  · refine ⟨w.h4_cb.preload_buffer, (w.heap.getD p ⟨0, 0, 0, 0, []⟩).data,
      w.heap.getD p ⟨0, 0, 0, 0, []⟩, ?_, rfl, fun _ => rfl⟩
    rw [acl_rx_frame_end_chk, hp]
    by_cases h1 : 0 < STREAM_TO_UINT16 (w.heap.getD p ⟨0, 0, 0, 0, []⟩).data 2
    · by_cases h2 : (STREAM_TO_UINT16 (w.heap.getD p ⟨0, 0, 0, 0, []⟩).data 4 : Int) >
          ((w.heap.getD p ⟨0, 0, 0, 0, []⟩).len : Int) - 8
      · simp only [World.buf, HCI_ACL_PREAMBLE_SIZE, hcast, gt_iff_lt, h1, h2, h4, if_true,
          ne_eq, not_true_eq_false, not_false_eq_true, if_false, World.emit, World.setBuf,
          World.setCb, Bool.false_eq_true, and_self, and_false, decide_False, decide_True]
        rw [← hp]
      · by_cases h3 : w.h4_cb.acl_rx_q.length ≠ 0
        · simp only [World.buf, HCI_ACL_PREAMBLE_SIZE, hcast, gt_iff_lt, h1, h2, h3, h4, if_true,
            ne_eq, not_true_eq_false, not_false_eq_true, if_false, World.emit, World.setBuf,
            World.setCb, Bool.false_eq_true, and_self, and_false, and_true, decide_False,
            decide_True]
          rw [← hp]
        · rw [herase h3]
          simp only [World.buf, HCI_ACL_PREAMBLE_SIZE, hcast, gt_iff_lt, h1, h2, h3, h4, if_true,
            ne_eq, not_true_eq_false, not_false_eq_true, if_false, World.emit, World.setBuf,
            World.setCb, Bool.false_eq_true, and_self, and_false, and_true, decide_False,
            decide_True, ite_self]
          rw [← hp]
    · simp only [World.buf, HCI_ACL_PREAMBLE_SIZE, hcast, gt_iff_lt, h1, h4, if_true,
        ne_eq, not_true_eq_false, not_false_eq_true, if_false, World.emit, World.setBuf,
        World.setCb, Bool.false_eq_true, and_self, and_false, false_and, decide_False,
        decide_True]
      rw [← hp]
  · refine ⟨write_bytes w.h4_cb.preload_buffer 0
        (((w.heap.getD p ⟨0, 0, 0, 0, []⟩).data.drop
          ((w.heap.getD p ⟨0, 0, 0, 0, []⟩).offset - HCI_ACL_PREAMBLE_SIZE)).take
            HCI_ACL_PREAMBLE_SIZE),
      write_bytes (UINT16_TO_STREAM
          (UINT16_TO_STREAM (w.heap.getD p ⟨0, 0, 0, 0, []⟩).data
            ((w.heap.getD p ⟨0, 0, 0, 0, []⟩).offset - 4)
            ((STREAM_TO_UINT16 (w.heap.getD p ⟨0, 0, 0, 0, []⟩).data 0 &&& 0xCFFF) ||| 0x1000))
          ((w.heap.getD p ⟨0, 0, 0, 0, []⟩).offset - 4 + 2)
          (u16_sub (w.heap.getD p ⟨0, 0, 0, 0, []⟩).len (w.heap.getD p ⟨0, 0, 0, 0, []⟩).offset))
        ((w.heap.getD p ⟨0, 0, 0, 0, []⟩).offset - 4)
        ((write_bytes w.h4_cb.preload_buffer 0
          (((w.heap.getD p ⟨0, 0, 0, 0, []⟩).data.drop
            ((w.heap.getD p ⟨0, 0, 0, 0, []⟩).offset - 4)).take 4)).take 4),
      { w.heap.getD p ⟨0, 0, 0, 0, []⟩ with
        data := UINT16_TO_STREAM
          (UINT16_TO_STREAM (w.heap.getD p ⟨0, 0, 0, 0, []⟩).data
            ((w.heap.getD p ⟨0, 0, 0, 0, []⟩).offset - HCI_ACL_PREAMBLE_SIZE)
            ((STREAM_TO_UINT16 (w.heap.getD p ⟨0, 0, 0, 0, []⟩).data 0 &&& 0xCFFF) ||| 0x1000))
          ((w.heap.getD p ⟨0, 0, 0, 0, []⟩).offset - HCI_ACL_PREAMBLE_SIZE + 2)
          (u16_sub (w.heap.getD p ⟨0, 0, 0, 0, []⟩).len (w.heap.getD p ⟨0, 0, 0, 0, []⟩).offset)
        offset := u16_sub (w.heap.getD p ⟨0, 0, 0, 0, []⟩).offset HCI_ACL_PREAMBLE_SIZE
        len := u16_sub (w.heap.getD p ⟨0, 0, 0, 0, []⟩).len
          (u16_sub (w.heap.getD p ⟨0, 0, 0, 0, []⟩).offset HCI_ACL_PREAMBLE_SIZE) },
      ?_, write_bytes_length _ _ _, fun hpre => snoop_restore_any _ _ _ _ _ hpre⟩
    rw [acl_rx_frame_end_chk, hp]
    by_cases h1 : 0 < STREAM_TO_UINT16 (w.heap.getD p ⟨0, 0, 0, 0, []⟩).data 2
    · by_cases h2 : (STREAM_TO_UINT16 (w.heap.getD p ⟨0, 0, 0, 0, []⟩).data 4 : Int) >
          ((w.heap.getD p ⟨0, 0, 0, 0, []⟩).len : Int) - 8
      · simp only [World.buf, HCI_ACL_PREAMBLE_SIZE, hcast, gt_iff_lt, h1, h2, h4, if_true,
          ne_eq, not_true_eq_false, not_false_eq_true, if_false, World.emit, World.setBuf,
          World.setCb, Bool.false_eq_true, and_self, and_false, decide_False, decide_True,
          getD_set_self _ _ _ _ hpl, List.set_set]
        rw [← hp]
      · by_cases h3 : w.h4_cb.acl_rx_q.length ≠ 0
        · simp only [World.buf, HCI_ACL_PREAMBLE_SIZE, hcast, gt_iff_lt, h1, h2, h3, h4, if_true,
            ne_eq, not_true_eq_false, not_false_eq_true, if_false, World.emit, World.setBuf,
            World.setCb, Bool.false_eq_true, and_self, and_false, and_true, decide_False,
            decide_True, getD_set_self _ _ _ _ hpl, List.set_set]
          rw [← hp]
        · rw [herase h3]
          simp only [World.buf, HCI_ACL_PREAMBLE_SIZE, hcast, gt_iff_lt, h1, h2, h3, h4, if_true,
            ne_eq, not_true_eq_false, not_false_eq_true, if_false, World.emit, World.setBuf,
            World.setCb, Bool.false_eq_true, and_self, and_false, and_true, decide_False,
            decide_True, ite_self, getD_set_self _ _ _ _ hpl, List.set_set]
          rw [← hp]
    · simp only [World.buf, HCI_ACL_PREAMBLE_SIZE, hcast, gt_iff_lt, h1, h4, if_true,
        ne_eq, not_true_eq_false, not_false_eq_true, if_false, World.emit, World.setBuf,
        World.setCb, Bool.false_eq_true, and_self, and_false, false_and, decide_False,
        decide_True, getD_set_self _ _ _ _ hpl, List.set_set]
      rw [← hp]
/-- C27 (amended): `acl_rx_frame_end_chk` on a live receive buffer decides
completeness from the base header: it returns FALSE exactly when the HCI length
field (data bytes 2..3) is non-zero and the L2CAP length field (data bytes
4..5) is greater than `len - 8`, computed in signed arithmetic. When it returns
FALSE the queue is unchanged and the buffer's offset is set to `len`. When it
returns TRUE the offset is 0 and, if the HCI length field is non-zero, one
occurrence of the buffer has been removed from the queue, so a buffer that was
queued at most once is no longer queued; with an HCI length field of zero the
queue is not touched. The buffer's `len` is never changed. -/
theorem end_chk_decides_from_header (w : World) (p : Nat)
    (hp : w.h4_cb.p_rcv_msg = some p) (hpl : p < w.heap.length) :
    ((acl_rx_frame_end_chk w).2 = false ↔
      (0 < STREAM_TO_UINT16 (w.buf p).data 2 ∧
        (STREAM_TO_UINT16 (w.buf p).data 4 : Int) > ((w.buf p).len : Int) - 8)) ∧
    ((acl_rx_frame_end_chk w).2 = false →
      (acl_rx_frame_end_chk w).1.h4_cb.acl_rx_q = w.h4_cb.acl_rx_q ∧
      ((acl_rx_frame_end_chk w).1.buf p).offset = (w.buf p).len) ∧
    ((acl_rx_frame_end_chk w).2 = true →
      ((acl_rx_frame_end_chk w).1.buf p).offset = 0 ∧
      (acl_rx_frame_end_chk w).1.h4_cb.acl_rx_q =
        (if 0 < STREAM_TO_UINT16 (w.buf p).data 2
          then utils_remove_from_queue w.h4_cb.acl_rx_q p else w.h4_cb.acl_rx_q) ∧
      (0 < STREAM_TO_UINT16 (w.buf p).data 2 → w.h4_cb.acl_rx_q.Nodup →
        p ∉ (acl_rx_frame_end_chk w).1.h4_cb.acl_rx_q)) ∧
    ((acl_rx_frame_end_chk w).1.buf p).len = (w.buf p).len := by
  obtain ⟨pl, d, m, he, _, _⟩ := end_chk_eq w p hp hpl
  rw [he]
  have hbuf : ∀ (cb : tHCI_H4_CB) (t : List Effect) (b : HC_BT_HDR),
      World.buf { w with h4_cb := cb, heap := w.heap.set p b, trace := t } p = b := by
    intro cb t b
    simp [World.buf, List.getD_eq_getElem?_getD, hpl]
  simp only [hbuf]
  clear he hbuf
  generalize STREAM_TO_UINT16 (w.buf p).data 2 = H
  generalize (STREAM_TO_UINT16 (w.buf p).data 4 : Int) = L
  generalize (w.buf p).len = N
  generalize w.h4_cb.acl_rx_q = q
  by_cases h1 : 0 < H
  · by_cases h2 : L > (N : Int) - 8
    · simp [h1, h2]
    · have h3 : ¬ ((N : Int) - 8 < L) := h2
      simp only [gt_iff_lt, h1, h3, and_false, not_false_eq_true, decide_True, and_self,
        if_true, if_false, true_and, Bool.true_eq_false, false_iff, false_implies,
        true_implies, and_true, utils_remove_from_queue]
      intro hnd
      exact fun hmem => ((List.Nodup.mem_erase_iff hnd).mp hmem).1 rfl
  · simp [h1]

theorem end_chk_decides_from_header_witness :
    (acl_rx_frame_end_chk
      (hci_h4_receive_msg Env.ideal (World.with_pending Env.ideal)
        [2, 1, 0x10, 2, 0, 7, 7]).2).2 = false ↔
      (0 < STREAM_TO_UINT16 (((hci_h4_receive_msg Env.ideal (World.with_pending Env.ideal)
        [2, 1, 0x10, 2, 0, 7, 7]).2).buf 0).data 2 ∧
        (STREAM_TO_UINT16 (((hci_h4_receive_msg Env.ideal (World.with_pending Env.ideal)
          [2, 1, 0x10, 2, 0, 7, 7]).2).buf 0).data 4 : Int) >
        ((((hci_h4_receive_msg Env.ideal (World.with_pending Env.ideal)
          [2, 1, 0x10, 2, 0, 7, 7]).2).buf 0).len : Int) - 8) :=
  (end_chk_decides_from_header
    (hci_h4_receive_msg Env.ideal (World.with_pending Env.ideal) [2, 1, 0x10, 2, 0, 7, 7]).2 0
    (by decide) (by decide)).1

/-- C27 as stated fails where the HCI length field is zero: buffer 0 is in the
queue and its data bytes 2..3 are zero. `acl_rx_frame_end_chk` skips the whole
check, returns TRUE and leaves the buffer in the queue. -/
theorem end_chk_zero_hci_length_keeps_queue :
    (acl_rx_frame_end_chk
      { hci_h4_init World.boot with
        h4_cb := { (hci_h4_init World.boot).h4_cb with p_rcv_msg := some 0, acl_rx_q := [0] }
        heap := [⟨MSG_HC_TO_STACK_HCI_ACL, 8, 0, 0, [1, 0x20, 0, 0, 4, 0, 0, 0]⟩] }).2 = true ∧
    (acl_rx_frame_end_chk
      { hci_h4_init World.boot with
        h4_cb := { (hci_h4_init World.boot).h4_cb with p_rcv_msg := some 0, acl_rx_q := [0] }
        heap := [⟨MSG_HC_TO_STACK_HCI_ACL, 8, 0, 0, [1, 0x20, 0, 0, 4, 0, 0, 0]⟩] }).1.h4_cb.acl_rx_q
      = [0] := by
  decide

/-- What `acl_rx_frame_buffer_alloc` does for a Start packet when the handles
in the queue are pairwise distinct and the allocation succeeds, with or without
an older base buffer on the same handle: `q0` is the queue after the eviction. -/
theorem start_alloc_shape (env : Env) (w : World) (h bc n L : Nat)
    (hh : h < 4096) (hcb : env.bt_hc_cbacks = true)
    (hpre : w.h4_cb.preload_buffer =
      acl_preamble h ACL_RX_PKT_START bc n ++ [L % 256, L / 256])
    (hnd : (w.h4_cb.acl_rx_q.map (saved_handle w)).Nodup)
    (hal : env.alloc_ok w.n_alloc
      (L + HCI_ACL_PREAMBLE_SIZE + L2CAP_HEADER_SIZE + BT_HC_HDR_SIZE) = true) :
    ∃ q0 : List Nat,
      (acl_rx_frame_buffer_alloc env w).2 = some w.heap.length ∧
      (acl_rx_frame_buffer_alloc env w).1.h4_cb.acl_rx_q =
        (if n ≠ 0 ∧ L + L2CAP_HEADER_SIZE > n then utils_enqueue q0 w.heap.length else q0) ∧
      (∀ x ∈ q0, x ∈ w.h4_cb.acl_rx_q ∧ saved_handle w x ≠ h) ∧
      (acl_rx_frame_buffer_alloc env w).1.heap = w.heap ++
        [⟨MSG_HC_TO_STACK_HCI_ACL, w.h4_cb.preload_count, 0, 0,
          write_bytes (List.replicate (L + 8) 0) 0
            ((acl_preamble h ACL_RX_PKT_START bc n ++ [L % 256, L / 256]).take
              w.h4_cb.preload_count)⟩] ∧
      (acl_rx_frame_buffer_alloc env w).1.h4_cb.preload_buffer = w.h4_cb.preload_buffer := by
  have hndq : w.h4_cb.acl_rx_q.Nodup := List.Nodup.of_map _ hnd
  by_cases hex : ∃ B ∈ w.h4_cb.acl_rx_q, saved_handle w B = h
  · obtain ⟨B, hB, hhB⟩ := hex
    have hu : ∀ p ∈ w.h4_cb.acl_rx_q, saved_handle w p = h → p = B := by
      intro p hp hsp
      exact List.inj_on_of_nodup_map hnd hp hB (by rw [hsp, hhB])
    refine ⟨utils_remove_from_queue w.h4_cb.acl_rx_q B, ?_⟩
    rw [acl_rx_frame_buffer_alloc_evict env w h bc n L B hh hcb hpre hB hhB hu hal]
    refine ⟨rfl, rfl, ?_, rfl, rfl⟩
    intro x hx
    have hxq : x ∈ w.h4_cb.acl_rx_q := List.mem_of_mem_erase hx
    have hxne : x ≠ B := ((List.Nodup.mem_erase_iff hndq).mp hx).1
    exact ⟨hxq, fun hsx => hxne (hu x hxq hsx)⟩
  · have hq : ∀ p ∈ w.h4_cb.acl_rx_q, saved_handle w p ≠ h :=
      fun p hp hsp => hex ⟨p, hp, hsp⟩
    refine ⟨w.h4_cb.acl_rx_q, ?_⟩
    rw [acl_rx_frame_buffer_alloc_start env w h bc n L hh hcb hpre hq hal]
    exact ⟨rfl, rfl, fun x hx => ⟨hx, hq x hx⟩, rfl, rfl⟩
theorem STREAM_TO_UINT16_write_bytes_lt (d bs : List Nat) (i j : Nat) (h : j + 1 < i) :
    STREAM_TO_UINT16 (write_bytes d i bs) j = STREAM_TO_UINT16 d j := by
  simp only [STREAM_TO_UINT16]
  rw [write_bytes_getD_lt _ _ _ _ (by omega), write_bytes_getD_lt _ _ _ _ (by omega)]

/-- The world in which `acl_rx_frame_end_chk` runs after the body bytes of a
Start segment have been appended to the freshly allocated base buffer. -/
theorem start_stored_world (env : Env) (w : World) (h bc n L : Nat) (body : List Nat) (nb : Nat)
    (hh : h < 4096) (hcb : env.bt_hc_cbacks = true)
    (hpre : w.h4_cb.preload_buffer =
      acl_preamble h ACL_RX_PKT_START bc n ++ [L % 256, L / 256])
    (hcnt : w.h4_cb.preload_count = 6)
    (hnd : (w.h4_cb.acl_rx_q.map (saved_handle w)).Nodup)
    (hal : env.alloc_ok w.n_alloc
      (L + HCI_ACL_PREAMBLE_SIZE + L2CAP_HEADER_SIZE + BT_HC_HDR_SIZE) = true) :
    ∃ q0 : List Nat,
      (∀ x ∈ q0, x ∈ w.h4_cb.acl_rx_q ∧ saved_handle w x ≠ h) ∧
      (acl_rx_frame_buffer_alloc env w).1.h4_cb.acl_rx_q =
        (if n ≠ 0 ∧ L + L2CAP_HEADER_SIZE > n then utils_enqueue q0 w.heap.length else q0) ∧
      (stored (acl_acquire env w) w.heap.length body nb).h4_cb.acl_rx_q =
        (if n ≠ 0 ∧ L + L2CAP_HEADER_SIZE > n then utils_enqueue q0 w.heap.length else q0) ∧
      (stored (acl_acquire env w) w.heap.length body nb).h4_cb.p_rcv_msg = some w.heap.length ∧
      (stored (acl_acquire env w) w.heap.length body nb).h4_cb.preload_buffer.length = 6 ∧
      (stored (acl_acquire env w) w.heap.length body nb).heap = w.heap ++
        [⟨MSG_HC_TO_STACK_HCI_ACL, u16 (6 + body.length), 0, 0,
          write_bytes (acl_preamble h ACL_RX_PKT_START bc n ++ [L % 256, L / 256] ++
            List.replicate (L + 2) 0) 6 body⟩] := by
  obtain ⟨q0, h2, hq, hq0, hheap, hpl⟩ :=
    start_alloc_shape env w h bc n L hh hcb hpre hnd hal
  rw [hcnt, write_preload _ _ _ _ (acl_preamble_length h ACL_RX_PKT_START bc n)] at hheap
  have hbuf : (acl_acquire env w).buf w.heap.length =
      ⟨MSG_HC_TO_STACK_HCI_ACL, 6, 0, 0,
        acl_preamble h ACL_RX_PKT_START bc n ++ [L % 256, L / 256] ++
          List.replicate (L + 2) 0⟩ :=
    buf_of_heap _ _ _ (by simp only [acl_acquire, World.setCb]; exact hheap)
  refine ⟨q0, hq0, hq, ?_, ?_, ?_, ?_⟩
  · simp only [stored, acl_acquire, World.setCb]; exact hq
  · simp only [stored, acl_acquire, World.setCb]; exact h2
  · simp only [stored, acl_acquire, World.setCb]; rw [hpl, hpre]; rfl
  · have hh2 : (acl_acquire env w).heap = (acl_rx_frame_buffer_alloc env w).1.heap := rfl
    simp only [stored, hbuf, hh2, hheap, set_append_length]

/-- The verdict of `acl_rx_frame_end_chk` after the body bytes of a Start
segment with HCI length `n` and L2CAP length `L` have been appended. -/
theorem start_end_chk_verdict (env : Env) (w : World) (h bc n L : Nat) (body : List Nat)
    (nb : Nat) (hh : h < 4096) (hcb : env.bt_hc_cbacks = true)
    (hpre : w.h4_cb.preload_buffer =
      acl_preamble h ACL_RX_PKT_START bc n ++ [L % 256, L / 256])
    (hcnt : w.h4_cb.preload_count = 6)
    (hnd : (w.h4_cb.acl_rx_q.map (saved_handle w)).Nodup)
    (hal : env.alloc_ok w.n_alloc
      (L + HCI_ACL_PREAMBLE_SIZE + L2CAP_HEADER_SIZE + BT_HC_HDR_SIZE) = true) :
    ((acl_rx_frame_end_chk (stored (acl_acquire env w) w.heap.length body nb)).2 = false ↔
      (0 < n ∧ (L : Int) > ((u16 (6 + body.length) : Nat) : Int) - 8)) := by
  obtain ⟨q0, _, _, _, hp2, hpl2, hheap2⟩ :=
    start_stored_world env w h bc n L body nb hh hcb hpre hcnt hnd hal
  have hbuf2 := buf_of_heap _ _ _ hheap2
  have hlive : w.heap.length < (stored (acl_acquire env w) w.heap.length body nb).heap.length := by
    rw [hheap2]; simp
  generalize stored (acl_acquire env w) w.heap.length body nb = W2 at *
  obtain ⟨pl, d, m, he, _, _⟩ := end_chk_eq W2 w.heap.length hp2 hlive
  rw [he, hbuf2]
  simp only [STREAM_TO_UINT16_write_bytes_lt _ _ _ _ (show 2 + 1 < 6 by decide),
    STREAM_TO_UINT16_write_bytes_lt _ _ _ _ (show 4 + 1 < 6 by decide),
    List.append_assoc, acl_len_bytes, List.cons_append, List.nil_append, acl_total_bytes,
    decide_eq_false_iff_not, not_not]
/-- C29 (amended): for an ACL Start packet with HCI length `3 ≤ n ≤ 65531` and
L2CAP length `L` whose buffer allocation succeeds (handles in the queue pairwise
distinct, queued buffers live), `acl_rx_frame_buffer_alloc` registers the new
base buffer in the reassembly queue if and only if `L + 4 > n`; this is exactly
the condition under which `acl_rx_frame_end_chk`, called after the `n - 2`
remaining body bytes of that segment have been appended, reports the message
incomplete; and in that case the parked buffer is the one found by handle. -/
theorem start_registration_matches_end_chk (env : Env) (w : World) (h bc n L : Nat)
    (body : List Nat) (nb : Nat) (hh : h < 4096) (hcb : env.bt_hc_cbacks = true)
    (hpre : w.h4_cb.preload_buffer =
      acl_preamble h ACL_RX_PKT_START bc n ++ [L % 256, L / 256])
    (hcnt : w.h4_cb.preload_count = 6)
    (hnd : (w.h4_cb.acl_rx_q.map (saved_handle w)).Nodup)
    (hwf : ∀ p ∈ w.h4_cb.acl_rx_q, p < w.heap.length)
    (hal : env.alloc_ok w.n_alloc
      (L + HCI_ACL_PREAMBLE_SIZE + L2CAP_HEADER_SIZE + BT_HC_HDR_SIZE) = true)
    (hn3 : 3 ≤ n) (hn : n ≤ 65531) (hbody : body.length = n - 2) :
    (acl_rx_frame_buffer_alloc env w).2 = some w.heap.length ∧
    (w.heap.length ∈ (acl_rx_frame_buffer_alloc env w).1.h4_cb.acl_rx_q ↔ L + 4 > n) ∧
    ((acl_rx_frame_end_chk (stored (acl_acquire env w) w.heap.length body nb)).2 = false ↔
      L + 4 > n) ∧
    (L + 4 > n →
      acl_rx_q_find (acl_rx_frame_end_chk (stored (acl_acquire env w) w.heap.length body nb)).1 h
        = some w.heap.length) := by
  have hverdict := start_end_chk_verdict env w h bc n L body nb hh hcb hpre hcnt hnd hal
  have hu16 : u16 (6 + body.length) = n + 4 := by
    rw [hbody, show 6 + (n - 2) = n + 4 by omega]
    exact u16_of_lt (by omega)
  rw [hu16] at hverdict
  have hiff : (0 < n ∧ (L : Int) > ((n + 4 : Nat) : Int) - 8) ↔ L + 4 > n := by
    push_cast; omega
  rw [hiff] at hverdict
  obtain ⟨q0, hq0, hq, hq2, hp2, hpl2, hheap2⟩ :=
    start_stored_world env w h bc n L body nb hh hcb hpre hcnt hnd hal
  have hfresh : w.heap.length ∉ q0 := fun hm => Nat.lt_irrefl _ (hwf _ (hq0 _ hm).1)
  have h2 := (start_alloc_shape env w h bc n L hh hcb hpre hnd hal).choose_spec.1
  refine ⟨h2, ?_, hverdict, ?_⟩
  · rw [hq]
    by_cases hc : L + 4 > n
    · have hc2 : n ≠ 0 ∧ L + L2CAP_HEADER_SIZE > n := ⟨by omega, hc⟩
      rw [if_pos hc2]
      simp [utils_enqueue, hc]
    · have hc2 : ¬ (n ≠ 0 ∧ L + L2CAP_HEADER_SIZE > n) := fun hx => hc hx.2
      rw [if_neg hc2]
      simp [hc, hfresh]
  · intro hc
    have hc2 : n ≠ 0 ∧ L + L2CAP_HEADER_SIZE > n := ⟨by omega, hc⟩
    rw [if_pos hc2] at hq2
    have hinc := hverdict.mpr hc
    have hbuf2 := buf_of_heap _ _ _ hheap2
    have hlive : w.heap.length <
        (stored (acl_acquire env w) w.heap.length body nb).heap.length := by
      rw [hheap2]; simp
    generalize stored (acl_acquire env w) w.heap.length body nb = W2 at *
    obtain ⟨pl, d, m, he, _, hd⟩ := end_chk_eq W2 w.heap.length hp2 hlive
    have hd2 := hd (by omega)
    rw [he] at hinc ⊢
    simp only [decide_eq_false_iff_not, not_not] at hinc
    have hninc : ¬ (0 < STREAM_TO_UINT16 (W2.buf w.heap.length).data 2 ∧
        ¬ ((STREAM_TO_UINT16 (W2.buf w.heap.length).data 4 : Int) >
          ((W2.buf w.heap.length).len : Int) - 8)) := fun hx => hx.2 hinc.2
    rw [if_neg hninc, hq2, hd2, hheap2, set_append_length, hbuf2]
    apply acl_rx_q_find_some
    · simp [utils_enqueue]
    · simp only [saved_handle, World.buf, getD_append_length]
      rw [STREAM_TO_UINT16_write_bytes_lt _ _ _ _ (show 0 + 1 < 6 by decide), List.append_assoc]
      obtain ⟨e0, _, e2, _⟩ := acl_word_bytes (n := n)
        (t := [L % 256, L / 256] ++ List.replicate (L + 2) 0) h ACL_RX_PKT_START bc hh
        (by decide)
      rw [e0, e2]
    · intro x hx hsx
      simp only [utils_enqueue, List.mem_append, List.mem_singleton] at hx
      rcases hx with hx | hx
      · exfalso
        have hxl : x < w.heap.length := hwf _ (hq0 _ hx).1
        apply (hq0 _ hx).2
        rw [← hsx]
        simp only [saved_handle, World.buf]
        rw [List.getD_append _ _ _ _ hxl]
      · exact hx

theorem start_registration_matches_end_chk_witness :
    (0 ∈ (acl_rx_frame_buffer_alloc Env.ideal
      (acl_hdr (hci_h4_init World.boot) (acl_preamble 1 ACL_RX_PKT_START 0 4 ++ [4, 0]) 6)
        ).1.h4_cb.acl_rx_q ↔ 4 + 4 > 4) ∧
    ((acl_rx_frame_end_chk (stored (acl_acquire Env.ideal
      (acl_hdr (hci_h4_init World.boot) (acl_preamble 1 ACL_RX_PKT_START 0 4 ++ [4, 0]) 6))
        0 [0x40, 0] 0)).2 = false ↔ 4 + 4 > 4) :=
  have h := start_registration_matches_end_chk Env.ideal
    (acl_hdr (hci_h4_init World.boot) (acl_preamble 1 ACL_RX_PKT_START 0 4 ++ [4, 0]) 6)
    1 0 4 4 [0x40, 0] 0 (by decide) rfl rfl rfl (by decide) (by decide) rfl (by decide)
    (by decide) rfl
  ⟨h.2.1, h.2.2.1⟩

/-- C29 as stated fails for HCI lengths above 65531: a Start packet with HCI
length 65532 and L2CAP length 65528 is a complete message (`L + 4 = n`), so the
new buffer is not registered in the queue; after its 65530 remaining body bytes
the 16-bit `len` of the buffer has wrapped to 0 and `acl_rx_frame_end_chk`
reports the message incomplete. -/
theorem start_not_registered_but_incomplete :
    (acl_rx_frame_buffer_alloc Env.ideal
      (acl_hdr (hci_h4_init World.boot)
        (acl_preamble 1 ACL_RX_PKT_START 0 65532 ++ [65528 % 256, 65528 / 256]) 6)).2 = some 0 ∧
    (acl_rx_frame_buffer_alloc Env.ideal
      (acl_hdr (hci_h4_init World.boot)
        (acl_preamble 1 ACL_RX_PKT_START 0 65532 ++ [65528 % 256, 65528 / 256]) 6)
      ).1.h4_cb.acl_rx_q = [] ∧
    (acl_rx_frame_end_chk (stored (acl_acquire Env.ideal
      (acl_hdr (hci_h4_init World.boot)
        (acl_preamble 1 ACL_RX_PKT_START 0 65532 ++ [65528 % 256, 65528 / 256]) 6))
      0 (List.replicate 65530 0) 0)).2 = false := by
  have hv := start_end_chk_verdict Env.ideal
    (acl_hdr (hci_h4_init World.boot)
      (acl_preamble 1 ACL_RX_PKT_START 0 65532 ++ [65528 % 256, 65528 / 256]) 6)
    1 0 65532 65528 (List.replicate 65530 0) 0 (by decide) rfl rfl rfl (by decide) rfl
  have hlen : (List.replicate 65530 0).length = 65530 := List.length_replicate _ _
  refine ⟨by decide, by decide, ?_⟩
  apply hv.mpr
  rw [hlen]
  exact ⟨by decide, by decide⟩

/-! ## What the delivery block leaves alone, and zero-length bodies (C30) -/

theorem rx_frame_refl (w : World) (p : Nat) : rx_frame w.h4_cb w.heap w p :=
  ⟨rfl, rfl, rfl, rfl, rfl, rfl, rfl, rfl, fun _ _ => rfl⟩

theorem rx_frame_trans (cb0 : tHCI_H4_CB) (heap0 : List HC_BT_HDR) (W W' : World) (p : Nat)
    (h1 : rx_frame cb0 heap0 W p) (h2 : rx_frame W.h4_cb W.heap W' p) :
    rx_frame cb0 heap0 W' p :=
  ⟨h2.1.trans h1.1, h2.2.1.trans h1.2.1, h2.2.2.1.trans h1.2.2.1,
    h2.2.2.2.1.trans h1.2.2.2.1, h2.2.2.2.2.1.trans h1.2.2.2.2.1,
    h2.2.2.2.2.2.1.trans h1.2.2.2.2.2.1, h2.2.2.2.2.2.2.1.trans h1.2.2.2.2.2.2.1,
    h2.2.2.2.2.2.2.2.1.trans h1.2.2.2.2.2.2.2.1,
    fun q hq => (h2.2.2.2.2.2.2.2.2 q hq).trans (h1.2.2.2.2.2.2.2.2 q hq)⟩

theorem getD_set_ne {α : Type} (l : List α) (p q : Nat) (a d : α) (h : q ≠ p) :
    (l.set p a).getD q d = l.getD q d := by
  simp only [List.getD_eq_getElem?_getD]
  rw [List.getElem?_set_ne (fun e => h e.symm)]

theorem hci_h4_send_int_cmd_frame (w : World) (opcode p : Nat) (f : tINT_CMD_CBACK) :
    rx_frame w.h4_cb w.heap (hci_h4_send_int_cmd w opcode p f).1 p := by
  unfold hci_h4_send_int_cmd
  split
  · exact rx_frame_refl w p
  · exact ⟨rfl, rfl, rfl, rfl, rfl, rfl, rfl, List.length_set _ _ _,
      fun q hq => getD_set_ne _ _ _ _ _ hq⟩

theorem get_acl_data_length_cback_frame (env : Env) (w : World) (p : Nat) :
    rx_frame w.h4_cb w.heap (get_acl_data_length_cback env w p) p := by
  have hset : ∀ (W : World) (b : HC_BT_HDR), W.h4_cb.rcv_state = w.h4_cb.rcv_state →
      W.h4_cb.rcv_len = w.h4_cb.rcv_len → W.h4_cb.rcv_msg_type = w.h4_cb.rcv_msg_type →
      W.h4_cb.acl_rx_q = w.h4_cb.acl_rx_q → W.h4_cb.preload_count = w.h4_cb.preload_count →
      W.h4_cb.preload_buffer = w.h4_cb.preload_buffer →
      W.h4_cb.p_rcv_msg = w.h4_cb.p_rcv_msg → W.heap = w.heap →
      rx_frame w.h4_cb w.heap
        (hci_h4_send_int_cmd (W.setBuf p b) HCI_LE_READ_BUFFER_SIZE p
          tINT_CMD_CBACK.get_acl_data_length_cback).1 p := by
    intro W b h1 h2 h3 h4 h5 h6 h7 h8
    refine rx_frame_trans _ _ _ _ p ?_ (hci_h4_send_int_cmd_frame (W.setBuf p b) _ p _)
    exact ⟨h1, h2, h3, h4, h5, h6, h7, by simp only [World.setBuf, List.length_set, h8],
      fun q hq => by simp only [World.setBuf, h8]; exact getD_set_ne _ _ _ _ _ hq⟩
  unfold get_acl_data_length_cback
  simp only
  split_ifs
  all_goals
    first
      | exact rx_frame_refl w p
      | exact ⟨rfl, rfl, rfl, rfl, rfl, rfl, rfl, rfl, fun _ _ => rfl⟩
      | exact hset _ _ rfl rfl rfl rfl rfl rfl rfl rfl

theorem call_cback_frame (env : Env) (w : World) (f : tINT_CMD_CBACK) (p : Nat) :
    rx_frame w.h4_cb w.heap (call_cback env w f p) p := by
  cases f with
  | NULL => exact rx_frame_refl w p
  | get_acl_data_length_cback => exact get_acl_data_length_cback_frame env w p
  | external k => exact rx_frame_refl w p

theorem internal_event_intercept_frame (env : Env) (w : World) (p : Nat)
    (hp : w.h4_cb.p_rcv_msg = some p) :
    rx_frame w.h4_cb w.heap (internal_event_intercept env w).1 p := by
  unfold internal_event_intercept
  rw [hp]
  simp only
  split_ifs
  all_goals
    first
      | exact rx_frame_refl w p
      | exact ⟨rfl, rfl, rfl, rfl, rfl, rfl, rfl, rfl, fun _ _ => rfl⟩
      | exact call_cback_frame env _ _ p

/-- What the delivery block leaves alone: the receive state machine fields, the
queue, and every buffer but the delivered one; the reference to the current
receive buffer is cleared. -/
theorem rx_deliver_frame (env : Env) (w : World) (p : Nat) (hp : w.h4_cb.p_rcv_msg = some p) :
    rx_frame { w.h4_cb with p_rcv_msg := none } w.heap (rx_deliver env w) p ∧
    ((w.buf p).event ≠ MSG_HC_TO_STACK_HCI_EVT → (rx_deliver env w).heap = w.heap) := by
  unfold rx_deliver
  rw [hp]
  simp only
  constructor
  · have h1 := internal_event_intercept_frame env w p hp
    have h2 := internal_event_intercept_frame env
      (w.emit (Effect.btsnoop_capture (w.buf p) true)) p hp
    split_ifs
    all_goals
      first
        | exact ⟨rfl, rfl, rfl, rfl, rfl, rfl, rfl, rfl, fun _ _ => rfl⟩
        | exact ⟨h1.1, h1.2.1, h1.2.2.1, h1.2.2.2.1, h1.2.2.2.2.1, h1.2.2.2.2.2.1, rfl,
            h1.2.2.2.2.2.2.2.1, h1.2.2.2.2.2.2.2.2⟩
        | exact ⟨h2.1, h2.2.1, h2.2.2.1, h2.2.2.2.1, h2.2.2.2.2.1, h2.2.2.2.2.2.1, rfl,
            h2.2.2.2.2.2.2.2.1, h2.2.2.2.2.2.2.2.2⟩
  · intro hne
    simp only [World.buf, World.emit] at hne ⊢
    split_ifs <;> rfl
theorem end_chk_eq_p_rcv_msg (w : World) :
    (acl_rx_frame_end_chk w).1.h4_cb.p_rcv_msg = w.h4_cb.p_rcv_msg := by
  unfold acl_rx_frame_end_chk
  split
  · rfl
  · simp only
    split_ifs <;> rfl
theorem rx_len_acquired_zero (w : World) (p : Nat) (hp : w.h4_cb.p_rcv_msg = some p) :
    (rx_len_acquired w 0).2 = true ∧
    (rx_len_acquired w 0).1.h4_cb.rcv_state = H4_RX_MSGTYPE_ST ∧
    (rx_len_acquired w 0).1.h4_cb.p_rcv_msg = some p := by
  unfold rx_len_acquired
  rw [hp]
  simp only [ne_eq, not_true_eq_false, if_false, World.setCb, true_and]
  split
  · have h := end_chk_eq_p_rcv_msg w
    exact h.trans hp
  · exact hp

/-- C30: a packet of an accepted kind whose declared body length is 0 and whose
buffer is acquired is complete as soon as its last preamble byte is read. For an
Event or SCO packet (length byte 0, callbacks registered, allocation
successful) and for an ACL packet (HCI length 0, `acl_rx_frame_buffer_alloc`
returns a buffer), the step that reads the last preamble byte in
H4_RX_LEN_ST sets `msg_received`, runs the delivery block in the same step and
leaves the machine in H4_RX_MSGTYPE_ST with no current receive buffer: the state
H4_RX_DATA_ST is not entered. -/
theorem zero_length_body_completes (env : Env) (w : World) (b : Nat) (rest : List Nat)
    (hs : w.h4_cb.rcv_state = H4_RX_LEN_ST) (hl : w.h4_cb.rcv_len = 1)
    (hacq :
      (w.h4_cb.rcv_msg_type ≠ H4_TYPE_ACL_DATA ∧ b = 0 ∧ env.bt_hc_cbacks = true ∧
        env.alloc_ok w.n_alloc
          (u16 (0 + (w.h4_cb.preload_count + 1) % 256 + BT_HC_HDR_SIZE)) = true) ∨
      (w.h4_cb.rcv_msg_type = H4_TYPE_ACL_DATA ∧
        u16 (((w.h4_cb.preload_buffer.set w.h4_cb.preload_count b).getD 3 0 <<< 8) +
          (w.h4_cb.preload_buffer.set w.h4_cb.preload_count b).getD 2 0) = 0 ∧
        (acl_rx_frame_buffer_alloc env
          (w.setCb { w.h4_cb with
            preload_buffer := w.h4_cb.preload_buffer.set w.h4_cb.preload_count b
            preload_count := (w.h4_cb.preload_count + 1) % 256
            rcv_len := 0 })).2 ≠ none)) :
    (rx_len env w b).2 = true ∧
    (rx_len env w b).1.h4_cb.rcv_state = H4_RX_MSGTYPE_ST ∧
    rx_byte env w b rest = (rx_deliver env (rx_len env w b).1, rest, 0) ∧
    (rx_byte env w b rest).1.h4_cb.rcv_state = H4_RX_MSGTYPE_ST ∧
    (rx_byte env w b rest).1.h4_cb.p_rcv_msg = none := by
  have hsub : u16_sub 1 1 = 0 := by decide
  have hmain : (rx_len env w b).2 = true ∧
      (rx_len env w b).1.h4_cb.rcv_state = H4_RX_MSGTYPE_ST ∧
      ∃ p, (rx_len env w b).1.h4_cb.p_rcv_msg = some p := by
    rcases hacq with ⟨ht, hb, hcb, hal⟩ | ⟨ht, hm, ha⟩
    · subst hb
      unfold rx_len
      simp only [hl, hsub, World.setCb, ht, if_true, if_false, hcb, alloc, hal, World.setBuf]
      have h := rx_len_acquired_zero
      refine ⟨(h _ _ rfl).1, (h _ _ rfl).2.1, _, (h _ _ rfl).2.2⟩
    · obtain ⟨p, hp⟩ := Option.ne_none_iff_exists.mp ha
      unfold rx_len
      simp only [hl, hsub, World.setCb, ht, if_true, hm, ne_eq, not_true_eq_false, false_and,
        if_false] at hp ⊢
      have h := rx_len_acquired_zero
      rw [← hp]
      refine ⟨(h _ _ rfl).1, (h _ _ rfl).2.1, _, (h _ _ rfl).2.2⟩
  obtain ⟨h1, h2, p, hp⟩ := hmain
  have hbyte : rx_byte env w b rest = (rx_deliver env (rx_len env w b).1, rest, 0) := by
    rw [rx_byte_len env w b rest hs, h1, if_pos rfl]
  have hfr := (rx_deliver_frame env (rx_len env w b).1 p hp).1
  refine ⟨h1, h2, hbyte, ?_, ?_⟩
  · rw [hbyte]; exact hfr.1.trans h2
  · rw [hbyte]; exact hfr.2.2.2.2.2.2.1
theorem zero_length_body_completes_witness :
    (rx_len Env.ideal (hci_h4_receive_msg Env.ideal (hci_h4_init World.boot) [4, 0x13]).2 0).2
      = true ∧
    (rx_byte Env.ideal (hci_h4_receive_msg Env.ideal (hci_h4_init World.boot) [4, 0x13]).2 0
      []).1.h4_cb.rcv_state = H4_RX_MSGTYPE_ST ∧
    (rx_byte Env.ideal (hci_h4_receive_msg Env.ideal (hci_h4_init World.boot) [4, 0x13]).2 0
      []).1.h4_cb.p_rcv_msg = none :=
  have h := zero_length_body_completes Env.ideal
    (hci_h4_receive_msg Env.ideal (hci_h4_init World.boot) [4, 0x13]).2 0 []
    (by decide) (by decide) (Or.inl ⟨by decide, rfl, rfl, rfl⟩)
  ⟨h.1, h.2.2.2.1, h.2.2.2.2⟩

/-- C25 (code as it is): buffer 0 (handle 1, 4 of 8 announced bytes) is parked
in the queue when the zero-length Continuation 02 01 10 00 00 arrives. The
zero-length path hands the buffer to `data_ind` and clears `p_rcv_msg`, but the
buffer stays in the reassembly queue. A later Continuation with two body bytes
is appended to the delivered buffer, and a later Start packet on the handle
frees it. -/
theorem delivered_buffer_stays_queued :
    (delivered (hci_h4_receive_msg Env.ideal (World.with_pending Env.ideal)
      [2, 1, 0x10, 0, 0]).2).map Prod.fst = [0] ∧
    (hci_h4_receive_msg Env.ideal (World.with_pending Env.ideal)
      [2, 1, 0x10, 0, 0]).2.h4_cb.acl_rx_q = [0] ∧
    (hci_h4_receive_msg Env.ideal (World.with_pending Env.ideal)
      [2, 1, 0x10, 0, 0]).2.h4_cb.p_rcv_msg = none ∧
    ((hci_h4_receive_msg Env.ideal (World.with_pending Env.ideal)
      [2, 1, 0x10, 0, 0]).2.buf 0).len = 8 ∧
    ((hci_h4_receive_msg Env.ideal
      (hci_h4_receive_msg Env.ideal (World.with_pending Env.ideal) [2, 1, 0x10, 0, 0]).2
      [2, 1, 0x10, 2, 0, 7, 7]).2.buf 0).len = 10 ∧
    ((hci_h4_receive_msg Env.ideal
      (hci_h4_receive_msg Env.ideal (World.with_pending Env.ideal) [2, 1, 0x10, 0, 0]).2
      [2, 1, 0x10, 2, 0, 7, 7]).2.buf 0).data.take 10 = [1, 0x20, 6, 0, 4, 0, 0x40, 0, 7, 7] ∧
    freed (hci_h4_receive_msg Env.ideal
      (hci_h4_receive_msg Env.ideal (World.with_pending Env.ideal) [2, 1, 0x10, 0, 0]).2
      [2, 1, 0x20, 0, 0]).2 = [0] := by
  decide

/-! ## Bulk reads against byte-wise reads (C26) -/

theorem with_bulk_h4_cb (w : World) (k : Nat) : (w.with_bulk k).h4_cb = w.h4_cb := rfl
theorem with_bulk_heap (w : World) (k : Nat) : (w.with_bulk k).heap = w.heap := rfl
theorem with_bulk_trace (w : World) (k : Nat) : (w.with_bulk k).trace = w.trace := rfl
theorem with_bulk_n_alloc (w : World) (k : Nat) : (w.with_bulk k).n_alloc = w.n_alloc := rfl
theorem with_bulk_n_bulk (w : World) (k : Nat) : (w.with_bulk k).n_bulk = k := rfl
theorem with_bulk_credits (w : World) (k : Nat) :
    (w.with_bulk k).h4_num_hci_cmd_pkts = w.h4_num_hci_cmd_pkts := rfl
theorem with_bulk_buf (w : World) (k p : Nat) : (w.with_bulk k).buf p = w.buf p := rfl
theorem with_bulk_setCb (w : World) (k : Nat) (cb : tHCI_H4_CB) :
    (w.with_bulk k).setCb cb = (w.setCb cb).with_bulk k := rfl
theorem with_bulk_setBuf (w : World) (k p : Nat) (b : HC_BT_HDR) :
    (w.with_bulk k).setBuf p b = (w.setBuf p b).with_bulk k := rfl
theorem with_bulk_emit (w : World) (k : Nat) (e : Effect) :
    (w.with_bulk k).emit e = (w.emit e).with_bulk k := rfl
theorem with_bulk_dealloc (w : World) (k p : Nat) :
    dealloc (w.with_bulk k) p = (dealloc w p).with_bulk k := rfl
theorem with_bulk_with_bulk (w : World) (k j : Nat) :
    (w.with_bulk k).with_bulk j = w.with_bulk j := rfl
theorem with_bulk_find (w : World) (k h : Nat) :
    acl_rx_q_find (w.with_bulk k) h = acl_rx_q_find w h := rfl

theorem alloc_with_bulk (env : Env) (w : World) (size k : Nat) :
    alloc env (w.with_bulk k) size = ((alloc env w size).1.with_bulk k, (alloc env w size).2) := by
  unfold alloc World.with_bulk
  simp only
  split <;> rfl

theorem rx_msgtype_with_bulk (w : World) (b k : Nat) :
    rx_msgtype (w.with_bulk k) b = (rx_msgtype w b).with_bulk k := by
  unfold rx_msgtype World.with_bulk
  simp only
  split <;> rfl

theorem rx_ignore_with_bulk (w : World) (k : Nat) :
    rx_ignore (w.with_bulk k) = (rx_ignore w).with_bulk k := by
  unfold rx_ignore World.with_bulk
  simp only [World.setCb]
  split <;> rfl

theorem acl_rx_frame_end_chk_with_bulk (w : World) (k : Nat) :
    acl_rx_frame_end_chk (w.with_bulk k) =
      ((acl_rx_frame_end_chk w).1.with_bulk k, (acl_rx_frame_end_chk w).2) := by
  unfold acl_rx_frame_end_chk World.with_bulk
  simp only
  split
  · rfl
  · simp only [World.buf]
    split_ifs <;> rfl

theorem acl_rx_frame_buffer_alloc_with_bulk (env : Env) (w : World) (k : Nat) :
    acl_rx_frame_buffer_alloc env (w.with_bulk k) =
      ((acl_rx_frame_buffer_alloc env w).1.with_bulk k, (acl_rx_frame_buffer_alloc env w).2) := by
  unfold acl_rx_frame_buffer_alloc
  simp only [with_bulk_h4_cb, with_bulk_find]
  generalize (if w.h4_cb.acl_rx_q.length ≠ 0 then
    acl_rx_q_find w (STREAM_TO_UINT16 w.h4_cb.preload_buffer 0 &&& 0x0FFF) else none) = found
  by_cases hstart : (STREAM_TO_UINT16 w.h4_cb.preload_buffer 0 >>> 12) &&& 0x0003 = ACL_RX_PKT_START
  · simp only [hstart, if_true]
    cases found with
    | none =>
      simp only [with_bulk_setCb, with_bulk_h4_cb]
      by_cases hcb : env.bt_hc_cbacks = true
      · simp only [hcb, if_true, alloc_with_bulk]
        split <;> simp only [with_bulk_setCb, with_bulk_h4_cb, with_bulk_setBuf, with_bulk_buf]
        split <;> rfl
      · simp only [hcb, if_false, Bool.false_eq_true]
    | some B =>
      simp only [with_bulk_setCb, with_bulk_h4_cb]
      by_cases hcb : env.bt_hc_cbacks = true
      · simp only [hcb, if_true, alloc_with_bulk, with_bulk_dealloc]
        split <;> simp only [with_bulk_setCb, with_bulk_h4_cb, with_bulk_setBuf, with_bulk_buf]
        split <;> rfl
      · simp only [hcb, if_false, Bool.false_eq_true]
  · simp only [hstart, if_false]
    cases found with
    | none => rfl
    | some B => rfl
theorem rx_len_acquired_with_bulk (w : World) (n k : Nat) :
    rx_len_acquired (w.with_bulk k) n =
      ((rx_len_acquired w n).1.with_bulk k, (rx_len_acquired w n).2) := by
  unfold rx_len_acquired
  simp only [with_bulk_h4_cb, with_bulk_setCb, acl_rx_frame_end_chk_with_bulk]
  split
  · split <;> rfl
  · split
    · rfl
    · split <;> rfl

theorem rx_len_with_bulk (env : Env) (w : World) (b k : Nat) :
    rx_len env (w.with_bulk k) b = ((rx_len env w b).1.with_bulk k, (rx_len env w b).2) := by
  unfold rx_len
  simp only [with_bulk_h4_cb, with_bulk_setCb]
  split
  · split
    · split
      · rfl
      · simp only [acl_rx_frame_buffer_alloc_with_bulk, with_bulk_setCb, with_bulk_h4_cb,
          rx_len_acquired_with_bulk]
    · by_cases hcb : env.bt_hc_cbacks = true
      · simp only [hcb, if_true, alloc_with_bulk, with_bulk_setCb, with_bulk_h4_cb]
        split <;>
          simp only [with_bulk_setBuf, with_bulk_buf, with_bulk_h4_cb, rx_len_acquired_with_bulk]
      · simp only [hcb, if_false, Bool.false_eq_true, with_bulk_h4_cb]
        split <;>
          simp only [with_bulk_setBuf, with_bulk_buf, with_bulk_h4_cb, rx_len_acquired_with_bulk]
  · rfl

theorem rx_data_end_with_bulk (w : World) (k : Nat) :
    rx_data_end (w.with_bulk k) = ((rx_data_end w).1.with_bulk k, (rx_data_end w).2) := by
  unfold rx_data_end
  simp only [with_bulk_h4_cb, acl_rx_frame_end_chk_with_bulk, with_bulk_setCb]
  split
  · split
    · split <;> rfl
    · rfl
  · rfl

theorem hci_h4_send_int_cmd_with_bulk (w : World) (opcode p k : Nat) (f : tINT_CMD_CBACK) :
    hci_h4_send_int_cmd (w.with_bulk k) opcode p f =
      ((hci_h4_send_int_cmd w opcode p f).1.with_bulk k, (hci_h4_send_int_cmd w opcode p f).2) := by
  unfold hci_h4_send_int_cmd
  simp only [with_bulk_h4_cb]
  split <;> rfl

theorem get_acl_data_length_cback_with_bulk (env : Env) (w : World) (p k : Nat) :
    get_acl_data_length_cback env (w.with_bulk k) p =
      (get_acl_data_length_cback env w p).with_bulk k := by
  unfold get_acl_data_length_cback
  simp only [with_bulk_h4_cb, with_bulk_buf]
  split
  · split
    · simp only [with_bulk_setCb, with_bulk_buf, with_bulk_setBuf, hci_h4_send_int_cmd_with_bulk,
        with_bulk_dealloc, with_bulk_emit]
      split <;> rfl
    · simp only [with_bulk_setCb, with_bulk_buf, with_bulk_setBuf, hci_h4_send_int_cmd_with_bulk,
        with_bulk_dealloc, with_bulk_emit]
      split <;> rfl
  · split
    · split
      · split <;> rfl
      · split <;> rfl
    · rfl

theorem call_cback_with_bulk (env : Env) (w : World) (f : tINT_CMD_CBACK) (p k : Nat) :
    call_cback env (w.with_bulk k) f p = (call_cback env w f p).with_bulk k := by
  cases f with
  | NULL => rfl
  | get_acl_data_length_cback => exact get_acl_data_length_cback_with_bulk env w p k
  | external j => rfl

theorem internal_event_intercept_with_bulk (env : Env) (w : World) (k : Nat) :
    internal_event_intercept env (w.with_bulk k) =
      ((internal_event_intercept env w).1.with_bulk k, (internal_event_intercept env w).2) := by
  unfold internal_event_intercept
  simp only [with_bulk_h4_cb, with_bulk_buf]
  split
  · rfl
  · split
    · split
      · split
        · have hc : ∀ (c : Int),
              ({ h4_cb := w.h4_cb, h4_num_hci_cmd_pkts := c, heap := (w.with_bulk k).heap,
                 trace := (w.with_bulk k).trace, n_alloc := (w.with_bulk k).n_alloc,
                 n_bulk := (w.with_bulk k).n_bulk } : World) =
                ({ w with h4_num_hci_cmd_pkts := c } : World).with_bulk k := fun _ => rfl
          simp only [hc, call_cback_with_bulk, with_bulk_dealloc, with_bulk_h4_cb, with_bulk_setCb]
          split
          · rfl
          · split <;> rfl
        · rfl
      · rfl
    · split <;> rfl

theorem rx_deliver_with_bulk (env : Env) (w : World) (k : Nat) :
    rx_deliver env (w.with_bulk k) = (rx_deliver env w).with_bulk k := by
  unfold rx_deliver
  simp only [with_bulk_h4_cb, with_bulk_buf]
  split
  · rfl
  · split
    · simp only [with_bulk_emit, with_bulk_buf, internal_event_intercept_with_bulk]
      split
      · split <;> rfl
      · split <;> rfl
    · simp only [with_bulk_emit, with_bulk_buf, internal_event_intercept_with_bulk]
      split
      · split <;> rfl
      · split <;> rfl
theorem rx_data_store_bytewise (env : Env) (w : World) (p b : Nat) (rest : List Nat) :
    rx_data_store (Env.bytewise env) w p b rest =
      ((rx_data_store (Env.bytewise env) w p b []).1, rest, 0) := by
  unfold rx_data_store
  simp only [Env.bytewise, Nat.zero_min, List.take_zero, List.drop_zero]
  split <;> rfl

theorem rx_data_store_bytewise_with_bulk (env : Env) (w : World) (p b k : Nat)
    (rest : List Nat) :
    ∃ j, rx_data_store (Env.bytewise env) (w.with_bulk k) p b rest =
      ((rx_data_store (Env.bytewise env) w p b rest).1.with_bulk j, rest, 0) := by
  unfold rx_data_store
  simp only [Env.bytewise, Nat.zero_min, List.take_zero, List.drop_zero, with_bulk_buf,
    with_bulk_setBuf, with_bulk_setCb, with_bulk_h4_cb]
  split
  · exact ⟨k + 1, rfl⟩
  · exact ⟨k, rfl⟩

theorem rx_byte_bytewise (env : Env) (w : World) (b : Nat) (rest : List Nat) :
    rx_byte (Env.bytewise env) w b rest = ((rx_byte (Env.bytewise env) w b []).1, rest, 0) := by
  cases hs : w.h4_cb.rcv_state
  · rw [rx_byte_msgtype _ w b rest hs, rx_byte_msgtype _ w b [] hs]
  · rw [rx_byte_len _ w b rest hs, rx_byte_len _ w b [] hs]
  · cases hp : w.h4_cb.p_rcv_msg
    · rw [rx_byte_data_null _ w b rest hs hp, rx_byte_data_null _ w b [] hs hp]
    · rw [rx_byte_data _ w b _ rest hs hp, rx_byte_data _ w b _ [] hs hp,
        rx_data_store_bytewise env w _ b rest]
  · rw [rx_byte_ignore _ w b rest hs, rx_byte_ignore _ w b [] hs]

theorem rx_byte_bytewise_with_bulk (env : Env) (w : World) (b k : Nat) (rest : List Nat) :
    ∃ j, rx_byte (Env.bytewise env) (w.with_bulk k) b rest =
      ((rx_byte (Env.bytewise env) w b rest).1.with_bulk j, rest, 0) := by
  cases hs : w.h4_cb.rcv_state
  · refine ⟨k, ?_⟩
    rw [rx_byte_msgtype _ (w.with_bulk k) b rest hs, rx_byte_msgtype _ w b rest hs,
      rx_msgtype_with_bulk]
  · refine ⟨k, ?_⟩
    rw [rx_byte_len _ (w.with_bulk k) b rest hs, rx_byte_len _ w b rest hs, rx_len_with_bulk]
    simp only [rx_deliver_with_bulk]
    split <;> rfl
  · cases hp : w.h4_cb.p_rcv_msg
    · refine ⟨k, ?_⟩
      rw [rx_byte_data_null _ (w.with_bulk k) b rest hs hp, rx_byte_data_null _ w b rest hs hp]
    · rename_i p
      obtain ⟨j, hj⟩ := rx_data_store_bytewise_with_bulk env w p b k rest
      refine ⟨j, ?_⟩
      rw [rx_byte_data _ (w.with_bulk k) b p rest hs hp, rx_byte_data _ w b p rest hs hp, hj,
        rx_data_store_bytewise env w p b rest]
      simp only [rx_data_end_with_bulk, rx_deliver_with_bulk]
      split <;> rfl
  · refine ⟨k, ?_⟩
    rw [rx_byte_ignore _ (w.with_bulk k) b rest hs, rx_byte_ignore _ w b rest hs,
      rx_ignore_with_bulk]

theorem run_bytewise_cons (env : Env) (w : World) (b : Nat) (rest : List Nat) (br : Nat) :
    run (Env.bytewise env) w (b :: rest) br =
      run (Env.bytewise env) (rx_byte (Env.bytewise env) w b rest).1 rest (u16 (br + 1)) := by
  rw [run_cons, rx_byte_bytewise env w b rest]
  simp only [Nat.add_zero, u16_idem]

theorem run_bytewise_with_bulk (env : Env) :
    ∀ (s : List Nat) (w : World) (k br : Nat),
      ∃ j, run (Env.bytewise env) (w.with_bulk k) s br =
        ((run (Env.bytewise env) w s br).1, (run (Env.bytewise env) w s br).2.with_bulk j) := by
  intro s
  induction s with
  | nil => intro w k br; exact ⟨k, by rw [run_nil, run_nil]⟩
  | cons b rest ih =>
    intro w k br
    obtain ⟨j, hj⟩ := rx_byte_bytewise_with_bulk env w b k rest
    obtain ⟨j2, hj2⟩ := ih (rx_byte (Env.bytewise env) w b rest).1 j (u16 (br + 1))
    refine ⟨j2, ?_⟩
    rw [run_bytewise_cons, run_bytewise_cons, hj, hj2]

theorem rx_guarded_with_bulk (env : Env) :
    ∀ (s : List Nat) (w : World) (k : Nat),
      rx_guarded env (w.with_bulk k) s = rx_guarded env w s := by
  intro s
  induction s with
  | nil => intro w k; rfl
  | cons b rest ih =>
    intro w k
    obtain ⟨j, hj⟩ := rx_byte_bytewise_with_bulk env w b k rest
    simp only [rx_guarded, hj, ih]
    rfl

theorem run_bytewise_append (env : Env) :
    ∀ (xs : List Nat) (w : World) (s : List Nat) (br : Nat),
      run (Env.bytewise env) w (xs ++ s) br =
        run (Env.bytewise env) (run (Env.bytewise env) w xs br).2 s
          (run (Env.bytewise env) w xs br).1 := by
  intro xs
  induction xs with
  | nil => intro w s br; rw [run_nil]; rfl
  | cons b rest ih =>
    intro w s br
    have h1 := rx_byte_bytewise env w b (rest ++ s)
    have h2 := rx_byte_bytewise env w b rest
    have hw : (rx_byte (Env.bytewise env) w b (rest ++ s)).1 =
        (rx_byte (Env.bytewise env) w b rest).1 := by rw [h1, h2]
    rw [List.cons_append, run_bytewise_cons, run_bytewise_cons, hw, ih]

theorem rx_guarded_append (env : Env) :
    ∀ (xs : List Nat) (w : World) (s : List Nat) (br : Nat),
      rx_guarded env w (xs ++ s) = true →
      rx_guarded env w xs = true ∧
      rx_guarded env (run (Env.bytewise env) w xs br).2 s = true := by
  intro xs
  induction xs with
  | nil => intro w s br h; rw [run_nil]; exact ⟨rfl, h⟩
  | cons b rest ih =>
    intro w s br h
    have h1 := rx_byte_bytewise env w b (rest ++ s)
    have h2 := rx_byte_bytewise env w b rest
    have hw : (rx_byte (Env.bytewise env) w b (rest ++ s)).1 =
        (rx_byte (Env.bytewise env) w b rest).1 := by rw [h1, h2]
    simp only [List.cons_append, rx_guarded, Bool.and_eq_true] at h ⊢
    have h3 : rx_guarded env (rx_byte (Env.bytewise env) w b rest).1 (rest ++ s) = true := by
      rw [← hw]; exact h.2
    rw [run_bytewise_cons]
    exact ⟨⟨h.1, (ih _ s (u16 (br + 1)) h3).1⟩, (ih _ s (u16 (br + 1)) h3).2⟩

theorem after_end_more (env : Env) (w : World) (h : w.h4_cb.rcv_len ≠ 0) : after_end env w = w := by
  simp only [after_end, rx_data_end, h, if_false, Bool.false_eq_true]

theorem stored_part_stored_part (w : World) (p : Nat) (xs ys : List Nat) (a c r r2 : Nat)
    (hpl : p < w.heap.length) (hlen : (w.buf p).len + xs.length < 65536) :
    stored_part (stored_part w p xs a r) p ys c r2 = stored_part w p (xs ++ ys) (a + c) r2 := by
  have h := stored_stored w p xs ys a c r hpl hlen
  simp only [stored_part]
  rw [h]

/-- One pass of the loop in H4_RX_DATA_ST: the byte and whatever the bulk read
hands over are stored behind the bytes of the buffer. -/
theorem rx_data_store_part (env : Env) (w : World) (p b : Nat) (rest : List Nat) (n : Nat)
    (hl : w.h4_cb.rcv_len = n) (hn1 : 1 ≤ n) (hpl : p < w.heap.length)
    (hlen : (w.buf p).len + 1 < 65536) :
    ∃ nb, (rx_data_store env w p b rest).2.2 ≤ rest.length ∧
      (rx_data_store env w p b rest).2.2 + 1 ≤ n ∧
      rx_data_store env w p b rest =
        (stored_part w p (b :: rest.take (rx_data_store env w p b rest).2.2) nb
          (n - 1 - (rx_data_store env w p b rest).2.2),
         rest.drop (rx_data_store env w p b rest).2.2, (rx_data_store env w p b rest).2.2) := by
  by_cases h1 : n = 1
  · subst h1
    have h := rx_data_store_last env w p b rest hl
    refine ⟨0, ?_, ?_, ?_⟩
    · rw [h]; exact Nat.zero_le _
    · rw [h]
    · rw [h]; rfl
  · have h := rx_data_store_more env w p b rest n hl (by omega) hpl hlen
    refine ⟨1, ?_, ?_, ?_⟩
    · rw [h]; exact Nat.min_le_right _ _
    · rw [h]
      have := Nat.min_le_left (min (env.bulk w.n_bulk) (n - 1)) rest.length
      have := Nat.min_le_right (env.bulk w.n_bulk) (n - 1)
      simp only at *
      omega
    · rw [h]; rfl

theorem rx_byte_data_part (env : Env) (w : World) (p b : Nat) (rest : List Nat) (n : Nat)
    (hs : w.h4_cb.rcv_state = H4_RX_DATA_ST) (hp : w.h4_cb.p_rcv_msg = some p)
    (hl : w.h4_cb.rcv_len = n) (hn1 : 1 ≤ n) (hpl : p < w.heap.length)
    (hlen : (w.buf p).len + 1 < 65536) :
    ∃ nb k, k ≤ rest.length ∧ k + 1 ≤ n ∧
      (env.bulk = (fun _ => 0) → k = 0) ∧
      rx_byte env w b rest =
        (after_end env (stored_part w p (b :: rest.take k) nb (n - 1 - k)), rest.drop k, k) := by
  obtain ⟨nb, h1, h2, h3⟩ := rx_data_store_part env w p b rest n hl hn1 hpl hlen
  refine ⟨nb, (rx_data_store env w p b rest).2.2, h1, h2, ?_, ?_⟩
  · intro h0
    unfold rx_data_store
    simp only [h0, Nat.zero_min]
    split <;> rfl
  · rw [rx_byte_data env w b p rest hs hp]
    generalize (rx_data_store env w p b rest).2.2 = k at *
    rw [h3]
    rfl

theorem after_end_bytewise (env : Env) (w : World) :
    after_end (Env.bytewise env) w = after_end env w := rfl

theorem rx_byte_nodata_bytewise (env : Env) (w : World) (b : Nat) (rest : List Nat)
    (h : w.h4_cb.rcv_state ≠ H4_RX_DATA_ST ∨ w.h4_cb.p_rcv_msg = none) :
    rx_byte env w b rest = rx_byte (Env.bytewise env) w b rest := by
  cases hs : w.h4_cb.rcv_state
  · rw [rx_byte_msgtype _ w b rest hs, rx_byte_msgtype _ w b rest hs]
  · rw [rx_byte_len _ w b rest hs, rx_byte_len _ w b rest hs]; rfl
  · rcases h with h | h
    · exact absurd hs h
    · rw [rx_byte_data_null _ w b rest hs h, rx_byte_data_null _ w b rest hs h]
  · rw [rx_byte_ignore _ w b rest hs, rx_byte_ignore _ w b rest hs]

theorem after_end_with_bulk (env : Env) (w : World) (k : Nat) :
    after_end env (w.with_bulk k) = (after_end env w).with_bulk k := by
  unfold after_end
  rw [rx_data_end_with_bulk]
  simp only
  split
  · rw [rx_deliver_with_bulk]
  · rfl

theorem stored_part_bulk (w : World) (p : Nat) (xs : List Nat) (a c r : Nat) :
    stored_part w p xs a r = (stored_part w p xs c r).with_bulk (w.n_bulk + a) := rfl

theorem stored_part_facts (w : World) (p : Nat) (xs : List Nat) (a r : Nat)
    (hpl : p < w.heap.length) :
    (stored_part w p xs a r).h4_cb.rcv_state = w.h4_cb.rcv_state ∧
    (stored_part w p xs a r).h4_cb.p_rcv_msg = w.h4_cb.p_rcv_msg ∧
    (stored_part w p xs a r).h4_cb.rcv_len = r ∧
    (stored_part w p xs a r).heap.length = w.heap.length ∧
    ((stored_part w p xs a r).buf p).len = u16 ((w.buf p).len + xs.length) := by
  refine ⟨rfl, rfl, rfl, ?_, ?_⟩
  · simp only [stored_part, stored, List.length_set]
  · simp only [stored_part, stored, World.buf, getD_set_self _ _ _ _ hpl]

/-- A chunk of body bytes taken one at a time: the same store as one bulk read. -/
theorem run_bytewise_chunk (env : Env) :
    ∀ (ys : List Nat) (b : Nat) (w : World) (p n : Nat),
      w.h4_cb.rcv_state = H4_RX_DATA_ST → w.h4_cb.p_rcv_msg = some p → p < w.heap.length →
      w.h4_cb.rcv_len = n → ys.length + 1 ≤ n → (w.buf p).len + ys.length + 1 ≤ 65535 →
      ∃ nb, ∀ (s : List Nat) (br : Nat),
        run (Env.bytewise env) w (b :: ys ++ s) br =
          run (Env.bytewise env)
            (after_end env (stored_part w p (b :: ys) nb (n - 1 - ys.length))) s
            (u16 (br + ys.length + 1)) := by
  intro ys
  induction ys with
  | nil =>
    intro b w p n hs hp hpl hl hn hlen
    simp only [List.length_nil, Nat.add_zero] at hn hlen
    obtain ⟨nb, k, _, _, hk, h⟩ :=
      rx_byte_data_part (Env.bytewise env) w p b [] n hs hp hl hn hpl (by omega)
    have hk0 : k = 0 := hk rfl
    subst hk0
    refine ⟨nb, ?_⟩
    intro s br
    rw [List.cons_append, run_bytewise_cons, rx_byte_bytewise, h]
    simp only [List.take_zero, Nat.sub_zero, after_end_bytewise, List.length_nil, Nat.add_zero,
      List.nil_append]
  | cons b2 ys ih =>
    intro b w p n hs hp hpl hl hn hlen
    simp only [List.length_cons] at hn hlen
    obtain ⟨nb, k, _, _, hk, h⟩ :=
      rx_byte_data_part (Env.bytewise env) w p b [] n hs hp hl (by omega) hpl (by omega)
    have hk0 : k = 0 := hk rfl
    subst hk0
    simp only [List.take_zero, Nat.sub_zero, after_end_bytewise] at h
    have hne : (stored_part w p [b] nb (n - 1)).h4_cb.rcv_len ≠ 0 := by
      show n - 1 ≠ 0
      omega
    rw [after_end_more env _ hne] at h
    obtain ⟨f1, f2, f3, f4, f5⟩ := stored_part_facts w p [b] nb (n - 1) hpl
    have hu : u16 ((w.buf p).len + [b].length) = (w.buf p).len + 1 :=
      u16_of_lt (by simp only [List.length_singleton]; omega)
    rw [hu] at f5
    obtain ⟨nb2, h2⟩ := ih b2 (stored_part w p [b] nb (n - 1)) p (n - 1)
      (f1.trans hs) (f2.trans hp) (by rw [f4]; exact hpl) f3 (by omega) (by rw [f5]; omega)
    refine ⟨nb + nb2, ?_⟩
    intro s br
    rw [List.cons_append, run_bytewise_cons, rx_byte_bytewise, h]
    simp only
    rw [h2 s, stored_part_stored_part w p [b] (b2 :: ys) nb nb2 (n - 1) _ hpl
      (by simp only [List.length_singleton]; omega)]
    have e1 : n - 1 - 1 - ys.length = n - 1 - (ys.length + 1) := by omega
    have e2 : u16 (u16 (br + 1) + ys.length + 1) = u16 (br + (ys.length + 1) + 1) := by
      rw [Nat.add_assoc, u16_u16_add]
      congr 1
      omega
    rw [e1, e2]
    rfl

theorem rx_guard_data (w : World) (p : Nat) (hs : w.h4_cb.rcv_state = H4_RX_DATA_ST)
    (hp : w.h4_cb.p_rcv_msg = some p) (h : rx_guard w = true) :
    p < w.heap.length ∧ 1 ≤ w.h4_cb.rcv_len ∧ (w.buf p).len + w.h4_cb.rcv_len ≤ 65535 := by
  simp only [rx_guard, hs, hp, decide_eq_true_eq] at h
  exact h

/-- Away from the 16-bit wrap of the length field, the loop with bulk reads ends
in the world of the byte-wise loop (the count of bulk reads apart) and reports
the same number of bytes. -/
theorem run_guarded (env : Env) :
    ∀ (N : Nat) (s : List Nat) (w : World) (br : Nat), s.length ≤ N →
      rx_guarded env w s = true →
      ∃ j, run env w s br =
        ((run (Env.bytewise env) w s br).1, (run (Env.bytewise env) w s br).2.with_bulk j) := by
  intro N
  induction N with
  | zero =>
    intro s w br hN _
    have : s = [] := List.length_eq_zero.mp (Nat.le_zero.mp hN)
    subst this
    exact ⟨w.n_bulk, by rw [run_nil, run_nil]; rfl⟩
  | succ N ih =>
    intro s w br hN hg
    cases s with
    | nil => exact ⟨w.n_bulk, by rw [run_nil, run_nil]; rfl⟩
    | cons b rest =>
      simp only [List.length_cons] at hN
      have hg0 := hg
      simp only [rx_guarded, Bool.and_eq_true] at hg
      obtain ⟨hg1, hg2⟩ := hg
      by_cases hd : w.h4_cb.rcv_state ≠ H4_RX_DATA_ST ∨ w.h4_cb.p_rcv_msg = none
      · have e := rx_byte_nodata_bytewise env w b rest hd
        obtain ⟨j, hj⟩ := ih rest (rx_byte (Env.bytewise env) w b rest).1 (u16 (br + 1))
          (by omega) hg2
        refine ⟨j, ?_⟩
        rw [run_bytewise_cons, ← hj, run_cons, e, rx_byte_bytewise env w b rest]
        simp only [Nat.add_zero, u16_idem]
      · have hs : w.h4_cb.rcv_state = H4_RX_DATA_ST := by
          by_contra hc
          exact hd (Or.inl hc)
        obtain ⟨p, hp⟩ : ∃ p, w.h4_cb.p_rcv_msg = some p := by
          cases hq : w.h4_cb.p_rcv_msg with
          | none => exact absurd (Or.inr hq) hd
          | some p => exact ⟨p, rfl⟩
        obtain ⟨hpl, hn1, hlen⟩ := rx_guard_data w p hs hp hg1
        obtain ⟨nb, k, hk1, hk2, _, h⟩ :=
          rx_byte_data_part env w p b rest w.h4_cb.rcv_len hs hp rfl hn1 hpl (by omega)
        obtain ⟨nb2, hB⟩ := run_bytewise_chunk env (rest.take k) b w p w.h4_cb.rcv_len hs hp hpl
          rfl (by rw [List.length_take, Nat.min_eq_left hk1]; exact hk2)
          (by rw [List.length_take, Nat.min_eq_left hk1]; omega)
        rw [List.length_take, Nat.min_eq_left hk1] at hB
        have hsplit : b :: rest = (b :: rest.take k) ++ rest.drop k := by
          rw [List.cons_append, List.take_append_drop]
        have hgB : rx_guarded env
            (after_end env (stored_part w p (b :: rest.take k) nb2 (w.h4_cb.rcv_len - 1 - k)))
            (rest.drop k) = true := by
          have h1 := hg0
          rw [hsplit] at h1
          have h2 := (rx_guarded_append env (b :: rest.take k) w (rest.drop k) br h1).2
          have h3 := hB [] br
          rw [List.append_nil, run_nil] at h3
          rw [h3] at h2
          exact h2
        have hW : after_end env (stored_part w p (b :: rest.take k) nb (w.h4_cb.rcv_len - 1 - k)) =
            (after_end env
              (stored_part w p (b :: rest.take k) nb2 (w.h4_cb.rcv_len - 1 - k))).with_bulk
              (w.n_bulk + nb) := by
          rw [stored_part_bulk w p (b :: rest.take k) nb nb2, after_end_with_bulk]
        have hlen2 : (rest.drop k).length ≤ N := by
          rw [List.length_drop]; omega
        obtain ⟨j2, hj2⟩ := run_bytewise_with_bulk env (rest.drop k)
          (after_end env (stored_part w p (b :: rest.take k) nb2 (w.h4_cb.rcv_len - 1 - k)))
          (w.n_bulk + nb) (u16 (br + k + 1))
        obtain ⟨j3, hj3⟩ := ih (rest.drop k)
          ((after_end env (stored_part w p (b :: rest.take k) nb2
            (w.h4_cb.rcv_len - 1 - k))).with_bulk (w.n_bulk + nb)) (u16 (br + k + 1)) hlen2
          (by rw [rx_guarded_with_bulk]; exact hgB)
        refine ⟨j3, ?_⟩
        have e2 : u16 (u16 (br + 1) + k) = u16 (br + k + 1) := by
          rw [u16_u16_add]
          congr 1
          omega
        have hrun0 : run (Env.bytewise env) w (b :: rest) br =
            run (Env.bytewise env)
              (after_end env (stored_part w p (b :: rest.take k) nb2 (w.h4_cb.rcv_len - 1 - k)))
              (rest.drop k) (u16 (br + k + 1)) := by
          have := hB (rest.drop k) br
          rw [← hsplit] at this
          exact this
        rw [hrun0, run_cons, h]
        simp only
        rw [e2, hW, hj3, hj2]
        rfl

theorem rx_guarded_env (env env2 : Env) (h : Env.bytewise env2 = Env.bytewise env) :
    ∀ (s : List Nat) (w : World), rx_guarded env2 w s = rx_guarded env w s := by
  intro s
  induction s with
  | nil => intro w; rfl
  | cons b rest ih =>
    intro w
    simp only [rx_guarded, h, ih]

theorem run_bytewise_count (env : Env) :
    ∀ (s : List Nat) (w : World) (br : Nat), br < 65536 →
      (run (Env.bytewise env) w s br).1 = u16 (br + s.length) := by
  intro s
  induction s with
  | nil => intro w br h; rw [run_nil]; exact (u16_of_lt h).symm
  | cons b rest ih =>
    intro w br _
    rw [run_bytewise_cons, ih (rx_byte (Env.bytewise env) w b rest).1 (u16 (br + 1))
      (Nat.mod_lt _ (by decide)), u16_u16_add, List.length_cons]
    congr 1
    omega

/-- Two calls of the receive driver against one call, for any three bulk-read
behaviours, as long as no store wraps the 16-bit length field. -/
theorem receive_split (env : Env) (f1 f2 f3 : Nat → Nat) (w : World) (s1 s2 : List Nat)
    (hg : rx_guarded env w (s1 ++ s2) = true) :
    ∃ (X : World) (j k : Nat),
      hci_h4_receive_msg { env with bulk := f2 }
        (hci_h4_receive_msg { env with bulk := f1 } w s1).2 s2 =
        (u16 s2.length, X.with_bulk j) ∧
      hci_h4_receive_msg { env with bulk := f3 } w (s1 ++ s2) =
        (u16 (s1.length + s2.length), X.with_bulk k) ∧
      (hci_h4_receive_msg { env with bulk := f1 } w s1).1 = u16 s1.length := by
  have hb : ∀ f, Env.bytewise { env with bulk := f } = Env.bytewise env := fun _ => rfl
  obtain ⟨g1, g2⟩ := rx_guarded_append env s1 w s2 0 hg
  obtain ⟨j1, h1⟩ := run_guarded { env with bulk := f1 } s1.length s1 w 0 (le_refl _)
    (by rw [rx_guarded_env env _ (hb f1)]; exact g1)
  rw [hb f1] at h1
  obtain ⟨j2, h2⟩ := run_guarded { env with bulk := f2 } s2.length s2
    ((run (Env.bytewise env) w s1 0).2.with_bulk j1) 0 (le_refl _)
    (by rw [rx_guarded_env env _ (hb f2), rx_guarded_with_bulk]; exact g2)
  rw [hb f2] at h2
  obtain ⟨j3, h3⟩ := run_guarded { env with bulk := f3 } (s1 ++ s2).length (s1 ++ s2) w 0
    (le_refl _) (by rw [rx_guarded_env env _ (hb f3)]; exact hg)
  rw [hb f3] at h3
  obtain ⟨j4, h4⟩ := run_bytewise_with_bulk env s2 (run (Env.bytewise env) w s1 0).2 j1 0
  have hw : (run (Env.bytewise env) w (s1 ++ s2) 0).2 =
      (run (Env.bytewise env) (run (Env.bytewise env) w s1 0).2 s2 0).2 := by
    rw [run_bytewise_append]
    exact run_world_indep _ s2.length _ s2 _ _ (le_refl _)
  refine ⟨(run (Env.bytewise env) (run (Env.bytewise env) w s1 0).2 s2 0).2, j2, j3, ?_, ?_, ?_⟩
  · rw [hci_h4_receive_msg_eq_run, hci_h4_receive_msg_eq_run, h1]
    simp only
    rw [h2, h4]
    simp only [with_bulk_with_bulk]
    rw [run_bytewise_count env s2 _ 0 (by decide), Nat.zero_add]
  · rw [hci_h4_receive_msg_eq_run, h3, hw, run_bytewise_count env _ _ 0 (by decide),
      Nat.zero_add, List.length_append]
  · rw [hci_h4_receive_msg_eq_run, h1]
    simp only
    rw [run_bytewise_count env s1 _ 0 (by decide), Nat.zero_add]

/-- C26 (amended): the receive driver is resumable at every byte as long as no
store wraps the 16-bit length field of the receive buffer. Let the stream
`s1 ++ s2` be guarded from the framer state `w`: whenever a body byte is stored,
the receive buffer is live, at least one byte is still expected and the length
of the buffer plus the bytes still expected is at most 65535. Then for any
behaviour `f1`, `f2`, `f3` of the bulk body read, running `hci_h4_receive_msg`
on `s1` and then on `s2` yields the same control block, credit counter, buffers,
trace (deliveries, interceptions, frees) and allocation count as running it
once on `s1 ++ s2`, and the two return values add up to the single return
value modulo 2^16. -/
theorem receive_resumable (env : Env) (f1 f2 f3 : Nat → Nat) (w : World) (s1 s2 : List Nat)
    (hg : rx_guarded env w (s1 ++ s2) = true) :
    (hci_h4_receive_msg { env with bulk := f2 }
      (hci_h4_receive_msg { env with bulk := f1 } w s1).2 s2).2.h4_cb =
      (hci_h4_receive_msg { env with bulk := f3 } w (s1 ++ s2)).2.h4_cb ∧
    (hci_h4_receive_msg { env with bulk := f2 }
      (hci_h4_receive_msg { env with bulk := f1 } w s1).2 s2).2.h4_num_hci_cmd_pkts =
      (hci_h4_receive_msg { env with bulk := f3 } w (s1 ++ s2)).2.h4_num_hci_cmd_pkts ∧
    (hci_h4_receive_msg { env with bulk := f2 }
      (hci_h4_receive_msg { env with bulk := f1 } w s1).2 s2).2.heap =
      (hci_h4_receive_msg { env with bulk := f3 } w (s1 ++ s2)).2.heap ∧
    (hci_h4_receive_msg { env with bulk := f2 }
      (hci_h4_receive_msg { env with bulk := f1 } w s1).2 s2).2.trace =
      (hci_h4_receive_msg { env with bulk := f3 } w (s1 ++ s2)).2.trace ∧
    (hci_h4_receive_msg { env with bulk := f2 }
      (hci_h4_receive_msg { env with bulk := f1 } w s1).2 s2).2.n_alloc =
      (hci_h4_receive_msg { env with bulk := f3 } w (s1 ++ s2)).2.n_alloc ∧
    u16 ((hci_h4_receive_msg { env with bulk := f1 } w s1).1 +
      (hci_h4_receive_msg { env with bulk := f2 }
        (hci_h4_receive_msg { env with bulk := f1 } w s1).2 s2).1) =
      (hci_h4_receive_msg { env with bulk := f3 } w (s1 ++ s2)).1 := by
  obtain ⟨X, j, k, h1, h2, h3⟩ := receive_split env f1 f2 f3 w s1 s2 hg
  rw [h1, h2, h3]
  refine ⟨rfl, rfl, rfl, rfl, rfl, ?_⟩
  simp only [u16, Nat.add_mod, Nat.mod_mod]

theorem receive_resumable_witness :
    rx_guarded Env.ideal (hci_h4_init World.boot) ([4, 0x0e, 4, 1] ++ [3, 0x0c, 0]) = true ∧
    (hci_h4_receive_msg { Env.ideal with bulk := fun _ => 0 }
      (hci_h4_receive_msg { Env.ideal with bulk := fun _ => 1 } (hci_h4_init World.boot)
        [4, 0x0e, 4, 1]).2 [3, 0x0c, 0]).2.trace =
      (hci_h4_receive_msg { Env.ideal with bulk := fun _ => 7 } (hci_h4_init World.boot)
        ([4, 0x0e, 4, 1] ++ [3, 0x0c, 0])).2.trace :=
  ⟨by decide,
   (receive_resumable Env.ideal (fun _ => 1) (fun _ => 0) (fun _ => 7) (hci_h4_init World.boot)
      [4, 0x0e, 4, 1] [3, 0x0c, 0] (by decide)).2.2.2.1⟩

/-- C26 as stated fails next to the 16-bit limit of the length field: buffer 0
holds 65534 bytes and 5 more are expected. In one call on 9, 8, 7, 6 the byte 9
goes to index 65534 and the bulk read stores 8, 7, 6 at indices 65535 to 65537.
In two calls, on 9 and then on 8, 7, 6, the byte 8 goes to index 65535, `len`
wraps to 0 and the bulk read stores 7, 6 at indices 0 and 1. -/
theorem bulk_read_wrap_not_resumable :
    rx_guarded ⟨true, fun _ _ => true, fun _ => 65535⟩ World.near_wrap [9, 8, 7, 6] = false ∧
    ((hci_h4_receive_msg ⟨true, fun _ _ => true, fun _ => 65535⟩
      (hci_h4_receive_msg ⟨true, fun _ _ => true, fun _ => 65535⟩ World.near_wrap [9]).2
      [8, 7, 6]).2.buf 0).data.take 2 = [7, 6] ∧
    ((hci_h4_receive_msg ⟨true, fun _ _ => true, fun _ => 65535⟩ World.near_wrap
      ([9] ++ [8, 7, 6])).2.buf 0).data.take 2 = [0, 0] ∧
    ((hci_h4_receive_msg ⟨true, fun _ _ => true, fun _ => 65535⟩
      (hci_h4_receive_msg ⟨true, fun _ _ => true, fun _ => 65535⟩ World.near_wrap [9]).2
      [8, 7, 6]).2.buf 0).len = 2 ∧
    ((hci_h4_receive_msg ⟨true, fun _ _ => true, fun _ => 65535⟩ World.near_wrap
      ([9] ++ [8, 7, 6])).2.buf 0).len = 2 := by
  decide

/-! ## The handles of the reassembly queue (C24) -/

theorem rxq_core_transfer (env : Env) (w W : World) (hc : rxq_core env w)
    (hq : W.h4_cb.acl_rx_q.Sublist w.h4_cb.acl_rx_q) (hl : w.heap.length ≤ W.heap.length)
    (hb : ∀ x ∈ W.h4_cb.acl_rx_q, x < w.heap.length →
      (w.buf x).event = MSG_HC_TO_STACK_HCI_ACL → 2 ≤ (w.buf x).len →
      saved_handle W x = saved_handle w x ∧ (W.buf x).event = MSG_HC_TO_STACK_HCI_ACL ∧
        2 ≤ (W.buf x).len) :
    rxq_core env W := by
  obtain ⟨h1, h2, h3⟩ := hc
  have hb2 : ∀ x ∈ W.h4_cb.acl_rx_q,
      saved_handle W x = saved_handle w x ∧ (W.buf x).event = MSG_HC_TO_STACK_HCI_ACL ∧
        2 ≤ (W.buf x).len := by
    intro x hx
    obtain ⟨a, b, c⟩ := h2 x (hq.subset hx)
    exact hb x hx a b c
  refine ⟨?_, ?_, ?_⟩
  · have e : W.h4_cb.acl_rx_q.map (saved_handle W) = W.h4_cb.acl_rx_q.map (saved_handle w) :=
      List.map_congr_left (fun x hx => (hb2 x hx).1)
    rw [e]
    exact List.Nodup.sublist (List.Sublist.map _ hq) h1
  · intro x hx
    exact ⟨lt_of_lt_of_le (h2 x (hq.subset hx)).1 hl, (hb2 x hx).2.1, (hb2 x hx).2.2⟩
  · intro hcb
    have := h3 hcb
    rw [this] at hq
    exact List.sublist_nil.mp hq

theorem rxq_core_of_eq (env : Env) (w W : World) (hc : rxq_core env w)
    (hq : W.h4_cb.acl_rx_q = w.h4_cb.acl_rx_q) (hh : W.heap = w.heap) : rxq_core env W := by
  apply rxq_core_transfer env w W hc (by rw [hq]) (by rw [hh])
  intro x _ _ he hl
  have hbuf : W.buf x = w.buf x := by simp only [World.buf, hh]
  have hs : saved_handle W x = saved_handle w x := by simp only [saved_handle, hbuf]
  rw [hbuf]
  exact ⟨hs, he, hl⟩

theorem rxq_core_of_frame (env : Env) (w W : World) (p : Nat) (hc : rxq_core env w)
    (hf : rx_frame w.h4_cb w.heap W p)
    (hp : (w.buf p).event = MSG_HC_TO_STACK_HCI_ACL → W.buf p = w.buf p) :
    rxq_core env W := by
  obtain ⟨_, _, _, f4, _, _, _, f8, f9⟩ := hf
  apply rxq_core_transfer env w W hc (by rw [f4]) (by rw [f8])
  intro x _ _ he hl
  have hbuf : W.buf x = w.buf x := by
    by_cases hx : x = p
    · subst hx; exact hp he
    · exact f9 x hx
  have hs : saved_handle W x = saved_handle w x := by simp only [saved_handle, hbuf]
  rw [hbuf]
  exact ⟨hs, he, hl⟩

theorem rx_deliver_core (env : Env) (w : World) (hc : rxq_core env w) :
    rxq_core env (rx_deliver env w) := by
  cases hp : w.h4_cb.p_rcv_msg with
  | none =>
    have : rx_deliver env w = w := by unfold rx_deliver; rw [hp]
    rw [this]; exact hc
  | some p =>
    obtain ⟨hf, hh⟩ := rx_deliver_frame env w p hp
    apply rxq_core_transfer env w _ hc (by rw [hf.2.2.2.1]) (by rw [hf.2.2.2.2.2.2.2.1])
    intro x _ _ he hl
    have hbuf : (rx_deliver env w).buf x = w.buf x := by
      by_cases hx : x = p
      · subst hx
        have hne : (w.buf x).event ≠ MSG_HC_TO_STACK_HCI_EVT := by rw [he]; decide
        simp only [World.buf, hh hne]
      · exact hf.2.2.2.2.2.2.2.2 x hx
    have hs : saved_handle (rx_deliver env w) x = saved_handle w x := by
      simp only [saved_handle, hbuf]
    rw [hbuf]
    exact ⟨hs, he, hl⟩

theorem rx_deliver_hdr (env : Env) (w : World) (hc : rx_hdr_ok w) :
    rx_hdr_ok (rx_deliver env w) := by
  cases hp : w.h4_cb.p_rcv_msg with
  | none =>
    have : rx_deliver env w = w := by unfold rx_deliver; rw [hp]
    rw [this]; exact hc
  | some p =>
    obtain ⟨⟨f1, f2, f3, _, f5, f6, _, _, _⟩, _⟩ := rx_deliver_frame env w p hp
    unfold rx_hdr_ok
    rw [f1, f2, f3, f5, f6]
    exact hc

theorem end_chk_core (env : Env) (w : World) (p : Nat)
    (hp : w.h4_cb.p_rcv_msg = some p) (hpl : p < w.heap.length)
    (hc : rxq_core env w) (hm : w.h4_cb.preload_buffer.length = 6) :
    rxq_core env (acl_rx_frame_end_chk w).1 ∧
    (acl_rx_frame_end_chk w).1.h4_cb.preload_buffer.length = 6 := by
  obtain ⟨pl, d, m, he, hpll, hd⟩ := end_chk_eq w p hp hpl
  have hd2 := hd (by omega)
  rw [he]
  simp only
  refine ⟨?_, by rw [hpll, hm]⟩
  apply rxq_core_transfer env w _ hc
  · simp only
    split
    · exact List.erase_sublist _ _
    · exact List.Sublist.refl _
  · simp only [List.length_set]; exact le_refl _
  · intro x _ _ hev hl
    simp only [saved_handle, World.buf]
    by_cases hx : x = p
    · subst hx
      rw [getD_set_self _ _ _ _ hpl]
      simp only [hd2]
      exact ⟨rfl, hev, hl⟩
    · rw [getD_set_ne _ _ _ _ _ hx]
      exact ⟨rfl, hev, hl⟩

theorem rx_hdr_ok_of_state (w : World) (h : w.h4_cb.preload_buffer.length = 6)
    (hs : w.h4_cb.rcv_state ≠ H4_RX_LEN_ST) : rx_hdr_ok w :=
  ⟨h, fun h1 => absurd h1 hs⟩

theorem stored_part_core (env : Env) (w : World) (p : Nat) (xs : List Nat) (nb r : Nat)
    (hc : rxq_core env w) (hpl : p < w.heap.length)
    (hlen : (w.buf p).len + xs.length < 65536) :
    rxq_core env (stored_part w p xs nb r) := by
  apply rxq_core_transfer env w (stored_part w p xs nb r) hc (List.Sublist.refl _)
  · simp only [stored_part, stored, List.length_set]; exact le_refl _
  · intro x _ _ hev hl
    simp only [saved_handle, World.buf, stored_part, stored]
    by_cases hx : x = p
    · subst hx
      simp only [World.buf] at hl hev hlen
      rw [getD_set_self _ _ _ _ hpl]
      simp only
      rw [STREAM_TO_UINT16_write_bytes_lt _ _ _ _ (by omega), u16_of_lt hlen]
      exact ⟨rfl, hev, by omega⟩
    · rw [getD_set_ne _ _ _ _ _ hx]
      exact ⟨rfl, hev, hl⟩

theorem rx_data_end_inv (env : Env) (w : World) (p : Nat)
    (hp : w.h4_cb.p_rcv_msg = some p) (hpl : p < w.heap.length)
    (hs : w.h4_cb.rcv_state = H4_RX_DATA_ST)
    (hc : rxq_core env w) (hm : w.h4_cb.preload_buffer.length = 6) :
    rxq_core env (rx_data_end w).1 ∧ rx_hdr_ok (rx_data_end w).1 := by
  obtain ⟨h1, h2⟩ := end_chk_core env w p hp hpl hc hm
  unfold rx_data_end
  split
  · split
    · simp only
      split
      · exact ⟨rxq_core_of_eq env _ _ h1 rfl rfl,
          rx_hdr_ok_of_state _ h2 (by simp [World.setCb])⟩
      · exact ⟨rxq_core_of_eq env _ _ h1 rfl rfl,
          rx_hdr_ok_of_state _ h2 (by simp [World.setCb])⟩
    · exact ⟨rxq_core_of_eq env _ _ hc rfl rfl,
        rx_hdr_ok_of_state _ hm (by simp [World.setCb])⟩
  · exact ⟨hc, rx_hdr_ok_of_state _ hm (by rw [hs]; decide)⟩

theorem after_end_inv (env : Env) (w : World) (p : Nat)
    (hp : w.h4_cb.p_rcv_msg = some p) (hpl : p < w.heap.length)
    (hs : w.h4_cb.rcv_state = H4_RX_DATA_ST)
    (hc : rxq_core env w) (hm : w.h4_cb.preload_buffer.length = 6) :
    rxq_core env (after_end env w) ∧ rx_hdr_ok (after_end env w) := by
  obtain ⟨h1, h2⟩ := rx_data_end_inv env w p hp hpl hs hc hm
  unfold after_end
  split
  · exact ⟨rx_deliver_core env _ h1, rx_deliver_hdr env _ h2⟩
  · exact ⟨h1, h2⟩

theorem rx_byte_data_inv (env : Env) (w : World) (b : Nat) (rest : List Nat) (p : Nat)
    (hs : w.h4_cb.rcv_state = H4_RX_DATA_ST) (hp : w.h4_cb.p_rcv_msg = some p)
    (hg : rx_guard w = true) (hc : rxq_core env w) (hm : rx_hdr_ok w) :
    rxq_core env (rx_byte (Env.bytewise env) w b rest).1 ∧
    rx_hdr_ok (rx_byte (Env.bytewise env) w b rest).1 := by
  obtain ⟨hpl, hn1, hlen⟩ := rx_guard_data w p hs hp hg
  obtain ⟨nb, k, _, _, hk, h⟩ :=
    rx_byte_data_part (Env.bytewise env) w p b rest w.h4_cb.rcv_len hs hp rfl hn1 hpl (by omega)
  have hk0 : k = 0 := hk rfl
  subst hk0
  rw [h, after_end_bytewise]
  simp only [List.take_zero]
  obtain ⟨f1, f2, _, f4, _⟩ := stored_part_facts w p [b] nb (w.h4_cb.rcv_len - 1 - 0) hpl
  exact after_end_inv env _ p (f2.trans hp) (by rw [f4]; exact hpl) (f1.trans hs)
    (stored_part_core env w p [b] nb _ hc hpl (by simp only [List.length_singleton]; omega))
    hm.1

theorem write_bytes_getD_in (data bs : List Nat) (j : Nat) (hj : j < bs.length)
    (hd : j < data.length) : (write_bytes data 0 bs).getD j 0 = bs.getD j 0 := by
  simp only [List.getD_eq_getElem?_getD]
  rw [write_bytes_getElem?, if_pos ⟨Nat.zero_le _, by omega, hd⟩, Nat.sub_zero]

theorem fresh_handle (pre : List Nat) (m cnt : Nat) (hm : 2 ≤ m) (hc : 2 ≤ cnt)
    (hp : 2 ≤ pre.length) :
    STREAM_TO_UINT16 (write_bytes (List.replicate m 0) 0 (pre.take cnt)) 0 =
      STREAM_TO_UINT16 pre 0 := by
  have hl : 2 ≤ (pre.take cnt).length := by rw [List.length_take]; omega
  simp only [STREAM_TO_UINT16]
  rw [write_bytes_getD_in _ _ 0 (by omega) (by rw [List.length_replicate]; omega),
    write_bytes_getD_in _ _ (0 + 1) (by omega) (by rw [List.length_replicate]; omega)]
  simp only [List.getD_eq_getElem?_getD, List.getElem?_take]
  rw [if_pos (by omega), if_pos (by omega)]

theorem core_append (env : Env) (X W : World) (nbuf : HC_BT_HDR) (hc : rxq_core env X)
    (hheap : W.heap = X.heap ++ [nbuf]) (hq : W.h4_cb.acl_rx_q = X.h4_cb.acl_rx_q) :
    rxq_core env W := by
  apply rxq_core_transfer env X W hc (by rw [hq]) (by rw [hheap]; simp)
  intro x _ hx hev hl
  have hbuf : W.buf x = X.buf x := by
    simp only [World.buf, hheap]
    rw [List.getD_append _ _ _ _ hx]
  have hs : saved_handle W x = saved_handle X x := by simp only [saved_handle, hbuf]
  rw [hbuf]
  exact ⟨hs, hev, hl⟩

theorem core_enqueue (env : Env) (X W : World) (hd : Nat) (nbuf : HC_BT_HDR)
    (hc : rxq_core env X) (hcb : env.bt_hc_cbacks = true)
    (hne : ∀ x ∈ X.h4_cb.acl_rx_q, saved_handle X x ≠ hd)
    (hheap : W.heap = X.heap ++ [nbuf])
    (hq : W.h4_cb.acl_rx_q = X.h4_cb.acl_rx_q ++ [X.heap.length])
    (hev : nbuf.event = MSG_HC_TO_STACK_HCI_ACL) (hlen : 2 ≤ nbuf.len)
    (hh : STREAM_TO_UINT16 nbuf.data 0 &&& 0x0FFF = hd) : rxq_core env W := by
  obtain ⟨h1, h2, _⟩ := hc
  have hold : ∀ x ∈ X.h4_cb.acl_rx_q, W.buf x = X.buf x := by
    intro x hx
    simp only [World.buf, hheap]
    rw [List.getD_append _ _ _ _ (h2 x hx).1]
  have hnew : W.buf X.heap.length = nbuf := buf_of_heap W X.heap nbuf hheap
  have hsh : ∀ x ∈ X.h4_cb.acl_rx_q, saved_handle W x = saved_handle X x := by
    intro x hx
    simp only [saved_handle, hold x hx]
  refine ⟨?_, ?_, ?_⟩
  · rw [hq, List.map_append, List.map_congr_left hsh]
    simp only [List.map_cons, List.map_nil]
    rw [List.nodup_append]
    refine ⟨h1, List.nodup_singleton _, ?_⟩
    intro a ha hb
    rw [List.mem_singleton] at hb
    obtain ⟨x, hx, hxa⟩ := List.mem_map.mp ha
    apply hne x hx
    rw [hxa, hb]
    simp only [saved_handle, hnew, hh]
  · intro x hx
    rw [hq, List.mem_append, List.mem_singleton] at hx
    rcases hx with hx | hx
    · rw [hold x hx, hheap]
      exact ⟨by simp only [List.length_append, List.length_singleton]; have := (h2 x hx).1; omega,
        (h2 x hx).2.1, (h2 x hx).2.2⟩
    · subst hx
      rw [hnew, hheap]
      exact ⟨by simp, hev, hlen⟩
  · intro hf
    rw [hcb] at hf
    exact absurd hf (by decide)

theorem core_evict (env : Env) (w X : World) (B hd : Nat) (hc : rxq_core env w)
    (hB : B ∈ w.h4_cb.acl_rx_q) (hhB : saved_handle w B = hd)
    (hheap : X.heap = w.heap)
    (hq : X.h4_cb.acl_rx_q = utils_remove_from_queue w.h4_cb.acl_rx_q B) :
    rxq_core env X ∧ ∀ x ∈ X.h4_cb.acl_rx_q, saved_handle X x ≠ hd := by
  have hsub : X.h4_cb.acl_rx_q.Sublist w.h4_cb.acl_rx_q := by
    rw [hq]; exact List.erase_sublist _ _
  have hbuf : ∀ x, X.buf x = w.buf x := fun x => by simp only [World.buf, hheap]
  have hsh : ∀ x, saved_handle X x = saved_handle w x := fun x => by
    simp only [saved_handle, hbuf]
  constructor
  · apply rxq_core_transfer env w X hc hsub (by rw [hheap])
    intro x _ _ hev hl
    rw [hbuf x]
    exact ⟨hsh x, hev, hl⟩
  · intro x hx hsx
    have hndq : w.h4_cb.acl_rx_q.Nodup := List.Nodup.of_map _ hc.1
    rw [hq] at hx
    have hxq : x ∈ w.h4_cb.acl_rx_q := List.mem_of_mem_erase hx
    have hxne : x ≠ B := ((List.Nodup.mem_erase_iff hndq).mp hx).1
    apply hxne
    apply List.inj_on_of_nodup_map hc.1 hxq hB
    rw [← hsh x, hsx, hhB]

/-- The shapes of the world after `acl_rx_frame_buffer_alloc` on a Start packet
when no queued buffer has the handle. -/
theorem acl_alloc_start_none (env : Env) (w : World)
    (hfound : (if w.h4_cb.acl_rx_q.length ≠ 0 then
      acl_rx_q_find w (STREAM_TO_UINT16 w.h4_cb.preload_buffer 0 &&& 0x0FFF) else none) = none)
    (hstart : (STREAM_TO_UINT16 w.h4_cb.preload_buffer 0 >>> 12) &&& 0x0003 = ACL_RX_PKT_START) :
    ∃ (W : World) (r : Option Nat), acl_rx_frame_buffer_alloc env w = (W, r) ∧
    W.h4_cb.preload_buffer = w.h4_cb.preload_buffer ∧
    ((r = none ∧ W.heap = w.heap ∧ W.h4_cb.acl_rx_q = w.h4_cb.acl_rx_q) ∨
     (env.bt_hc_cbacks = true ∧ r = some w.heap.length ∧
      W.heap = w.heap ++
        [⟨MSG_HC_TO_STACK_HCI_ACL, w.h4_cb.preload_count, 0, 0,
          write_bytes (List.replicate (STREAM_TO_UINT16 w.h4_cb.preload_buffer 4 +
            HCI_ACL_PREAMBLE_SIZE + L2CAP_HEADER_SIZE + BT_HC_HDR_SIZE - BT_HC_HDR_SIZE) 0) 0
            (w.h4_cb.preload_buffer.take w.h4_cb.preload_count)⟩] ∧
      (W.h4_cb.acl_rx_q = w.h4_cb.acl_rx_q ∨
       W.h4_cb.acl_rx_q = w.h4_cb.acl_rx_q ++ [w.heap.length]))) := by
  unfold acl_rx_frame_buffer_alloc
  simp only [hfound, hstart, if_true]
  by_cases hcb : env.bt_hc_cbacks = true
  · simp only [hcb, if_true, alloc, World.setCb]
    by_cases hal : env.alloc_ok w.n_alloc (STREAM_TO_UINT16 w.h4_cb.preload_buffer 4 +
        HCI_ACL_PREAMBLE_SIZE + L2CAP_HEADER_SIZE + BT_HC_HDR_SIZE) = true
    · simp only [hal, if_true, World.setBuf, World.buf, getD_append_length, set_append_length]
      by_cases henq : STREAM_TO_UINT16 w.h4_cb.preload_buffer 2 ≠ 0 ∧
          STREAM_TO_UINT16 w.h4_cb.preload_buffer 4 + L2CAP_HEADER_SIZE >
            STREAM_TO_UINT16 w.h4_cb.preload_buffer 2
      · rw [if_pos henq]
        exact ⟨_, _, rfl, rfl, Or.inr ⟨trivial, rfl, rfl, Or.inr rfl⟩⟩
      · rw [if_neg henq]
        exact ⟨_, _, rfl, rfl, Or.inr ⟨trivial, rfl, rfl, Or.inl rfl⟩⟩
    · simp only [hal, if_false, Bool.false_eq_true]
      exact ⟨_, _, rfl, rfl, Or.inl ⟨rfl, rfl, rfl⟩⟩
  · simp only [hcb, if_false, Bool.false_eq_true, World.setCb]
    exact ⟨_, _, rfl, rfl, Or.inl ⟨rfl, rfl, rfl⟩⟩

set_option maxHeartbeats 1000000 in
/-- The shapes of the world after `acl_rx_frame_buffer_alloc` on a Start packet
when the queued buffer `B` has the handle. -/
theorem acl_alloc_start_some (env : Env) (w : World) (B : Nat)
    (hfound : (if w.h4_cb.acl_rx_q.length ≠ 0 then
      acl_rx_q_find w (STREAM_TO_UINT16 w.h4_cb.preload_buffer 0 &&& 0x0FFF) else none) = some B)
    (hstart : (STREAM_TO_UINT16 w.h4_cb.preload_buffer 0 >>> 12) &&& 0x0003 = ACL_RX_PKT_START) :
    ∃ (W : World) (r : Option Nat), acl_rx_frame_buffer_alloc env w = (W, r) ∧
    W.h4_cb.preload_buffer = w.h4_cb.preload_buffer ∧
    ((r = none ∧ W.heap = w.heap ∧
      W.h4_cb.acl_rx_q = utils_remove_from_queue w.h4_cb.acl_rx_q B) ∨
     (env.bt_hc_cbacks = true ∧ r = some w.heap.length ∧
      W.heap = w.heap ++
        [⟨MSG_HC_TO_STACK_HCI_ACL, w.h4_cb.preload_count, 0, 0,
          write_bytes (List.replicate (STREAM_TO_UINT16 w.h4_cb.preload_buffer 4 +
            HCI_ACL_PREAMBLE_SIZE + L2CAP_HEADER_SIZE + BT_HC_HDR_SIZE - BT_HC_HDR_SIZE) 0) 0
            (w.h4_cb.preload_buffer.take w.h4_cb.preload_count)⟩] ∧
      (W.h4_cb.acl_rx_q = utils_remove_from_queue w.h4_cb.acl_rx_q B ∨
       W.h4_cb.acl_rx_q = utils_remove_from_queue w.h4_cb.acl_rx_q B ++ [w.heap.length]))) := by
  unfold acl_rx_frame_buffer_alloc
  simp only [hfound, hstart, if_true]
  by_cases hcb : env.bt_hc_cbacks = true
  · simp only [hcb, if_true, alloc, World.setCb, dealloc, World.emit]
    by_cases hal : env.alloc_ok w.n_alloc (STREAM_TO_UINT16 w.h4_cb.preload_buffer 4 +
        HCI_ACL_PREAMBLE_SIZE + L2CAP_HEADER_SIZE + BT_HC_HDR_SIZE) = true
    · simp only [hal, if_true, World.setBuf, World.buf, getD_append_length, set_append_length]
      by_cases henq : STREAM_TO_UINT16 w.h4_cb.preload_buffer 2 ≠ 0 ∧
          STREAM_TO_UINT16 w.h4_cb.preload_buffer 4 + L2CAP_HEADER_SIZE >
            STREAM_TO_UINT16 w.h4_cb.preload_buffer 2
      · rw [if_pos henq]
        exact ⟨_, _, rfl, rfl, Or.inr ⟨trivial, rfl, rfl, Or.inr rfl⟩⟩
      · rw [if_neg henq]
        exact ⟨_, _, rfl, rfl, Or.inr ⟨trivial, rfl, rfl, Or.inl rfl⟩⟩
    · simp only [hal, if_false, Bool.false_eq_true]
      exact ⟨_, _, rfl, rfl, Or.inl ⟨rfl, rfl, rfl⟩⟩
  · simp only [hcb, if_false, Bool.false_eq_true, World.setCb]
    exact ⟨_, _, rfl, rfl, Or.inl ⟨rfl, rfl, rfl⟩⟩

theorem acl_alloc_inv (env : Env) (w : World) (hc : rxq_core env w)
    (hm : w.h4_cb.preload_buffer.length = 6) (hcnt : 2 ≤ w.h4_cb.preload_count) :
    rxq_core env (acl_rx_frame_buffer_alloc env w).1 ∧
    (acl_rx_frame_buffer_alloc env w).1.h4_cb.preload_buffer.length = 6 ∧
    (∀ p, (acl_rx_frame_buffer_alloc env w).2 = some p →
      p < (acl_rx_frame_buffer_alloc env w).1.heap.length) := by
  have hf1 : ∀ B, (if w.h4_cb.acl_rx_q.length ≠ 0 then
      acl_rx_q_find w (STREAM_TO_UINT16 w.h4_cb.preload_buffer 0 &&& 0x0FFF) else none) = some B →
      B ∈ w.h4_cb.acl_rx_q ∧
        saved_handle w B = STREAM_TO_UINT16 w.h4_cb.preload_buffer 0 &&& 0x0FFF := by
    intro B hB
    split at hB
    · unfold acl_rx_q_find at hB
      have h1 := List.mem_of_find?_eq_some hB
      have h2 := List.find?_some hB
      exact ⟨h1, by simpa using h2⟩
    · exact absurd hB (by simp)
  have hf2 : (if w.h4_cb.acl_rx_q.length ≠ 0 then
      acl_rx_q_find w (STREAM_TO_UINT16 w.h4_cb.preload_buffer 0 &&& 0x0FFF) else none) = none →
      ∀ x ∈ w.h4_cb.acl_rx_q,
        saved_handle w x ≠ STREAM_TO_UINT16 w.h4_cb.preload_buffer 0 &&& 0x0FFF := by
    intro hn x hx
    split at hn
    · unfold acl_rx_q_find at hn
      have := List.find?_eq_none.mp hn x hx
      simpa using this
    · rename_i h0
      have : w.h4_cb.acl_rx_q = [] := by
        apply List.length_eq_zero.mp
        by_contra hne
        exact h0 hne
      rw [this] at hx
      exact absurd hx (List.not_mem_nil x)
  have hfresh : STREAM_TO_UINT16 (write_bytes (List.replicate
      (STREAM_TO_UINT16 w.h4_cb.preload_buffer 4 +
        HCI_ACL_PREAMBLE_SIZE + L2CAP_HEADER_SIZE + BT_HC_HDR_SIZE - BT_HC_HDR_SIZE) 0) 0
      (w.h4_cb.preload_buffer.take w.h4_cb.preload_count)) 0 &&& 0x0FFF =
      STREAM_TO_UINT16 w.h4_cb.preload_buffer 0 &&& 0x0FFF := by
    have hsz : 2 ≤ STREAM_TO_UINT16 w.h4_cb.preload_buffer 4 +
        HCI_ACL_PREAMBLE_SIZE + L2CAP_HEADER_SIZE + BT_HC_HDR_SIZE - BT_HC_HDR_SIZE := by
      simp only [HCI_ACL_PREAMBLE_SIZE, L2CAP_HEADER_SIZE, BT_HC_HDR_SIZE]
      omega
    rw [fresh_handle _ _ _ hsz hcnt (by omega)]
  by_cases hstart : (STREAM_TO_UINT16 w.h4_cb.preload_buffer 0 >>> 12) &&& 0x0003 = ACL_RX_PKT_START
  · cases hfound : (if w.h4_cb.acl_rx_q.length ≠ 0 then
      acl_rx_q_find w (STREAM_TO_UINT16 w.h4_cb.preload_buffer 0 &&& 0x0FFF) else none) with
    | none =>
      have hne := hf2 hfound
      obtain ⟨W, r, he, hpre, hcase⟩ := acl_alloc_start_none env w hfound hstart
      rw [he]
      simp only
      rcases hcase with ⟨hr, hheap, hq⟩ | ⟨hcb, hr, hheap, hq | hq⟩
      · exact ⟨rxq_core_of_eq env w W hc hq hheap, by rw [hpre, hm],
          fun p hp => by rw [hr] at hp; exact absurd hp (by simp)⟩
      · refine ⟨core_append env w W _ hc hheap hq, by rw [hpre, hm], ?_⟩
        intro p hp
        rw [hr] at hp
        simp only [Option.some.injEq] at hp
        subst hp
        rw [hheap]; simp
      · refine ⟨core_enqueue env w W _ _ hc hcb hne hheap hq rfl hcnt hfresh,
          by rw [hpre, hm], ?_⟩
        intro p hp
        rw [hr] at hp
        simp only [Option.some.injEq] at hp
        subst hp
        rw [hheap]; simp
    | some B =>
      obtain ⟨hB, hhB⟩ := hf1 B hfound
      obtain ⟨W, r, he, hpre, hcase⟩ := acl_alloc_start_some env w B hfound hstart
      rw [he]
      simp only
      have hX := core_evict env w
        { w with h4_cb := { w.h4_cb with
            acl_rx_q := utils_remove_from_queue w.h4_cb.acl_rx_q B } } B _ hc hB hhB rfl rfl
      rcases hcase with ⟨hr, hheap, hq⟩ | ⟨hcb, hr, hheap, hq | hq⟩
      · exact ⟨rxq_core_of_eq env _ W hX.1 hq hheap, by rw [hpre, hm],
          fun p hp => by rw [hr] at hp; exact absurd hp (by simp)⟩
      · refine ⟨core_append env _ W _ hX.1 hheap hq, by rw [hpre, hm], ?_⟩
        intro p hp
        rw [hr] at hp
        simp only [Option.some.injEq] at hp
        subst hp
        rw [hheap]; simp
      · refine ⟨core_enqueue env _ W _ _ hX.1 hcb hX.2 hheap hq rfl hcnt hfresh,
          by rw [hpre, hm], ?_⟩
        intro p hp
        rw [hr] at hp
        simp only [Option.some.injEq] at hp
        subst hp
        rw [hheap]; simp
  · unfold acl_rx_frame_buffer_alloc
    simp only
    generalize (if w.h4_cb.acl_rx_q.length ≠ 0 then
      acl_rx_q_find w (STREAM_TO_UINT16 w.h4_cb.preload_buffer 0 &&& 0x0FFF) else none) = found
      at hf1 hf2
    simp only [hstart, if_false]
    cases found with
    | none =>
      simp only
      exact ⟨rxq_core_of_eq env w _ hc rfl rfl, hm, fun p hp => absurd hp (by simp)⟩
    | some B =>
      simp only
      obtain ⟨hB, _⟩ := hf1 B rfl
      obtain ⟨hBl, hBe, hBn⟩ := hc.2.1 B hB
      refine ⟨?_, hm, ?_⟩
      · refine rxq_core_transfer env w _ hc ?_ ?_ ?_
        · exact List.Sublist.refl _
        · simp only [World.setBuf, World.setCb, List.length_set]; exact le_refl _
        · intro x _ _ hev hl
          simp only [saved_handle, World.buf, World.setBuf, World.setCb]
          by_cases hx : x = B
          · subst hx
            rw [getD_set_self _ _ _ _ hBl]
            simp only [STREAM_TO_UINT16]
            rw [UINT16_TO_STREAM_getD_ne _ _ _ _ (by decide) (by decide),
              UINT16_TO_STREAM_getD_ne _ _ _ _ (by decide) (by decide)]
            exact ⟨rfl, hev, hl⟩
          · rw [getD_set_ne _ _ _ _ _ hx]
            exact ⟨rfl, hev, hl⟩
      · intro p hp
        simp only [Option.some.injEq] at hp
        subst hp
        simp only [World.setBuf, World.setCb, List.length_set]
        exact hBl

theorem rxq_core_of_nil (env : Env) (W : World) (h : W.h4_cb.acl_rx_q = []) : rxq_core env W := by
  refine ⟨?_, ?_, fun _ => h⟩
  · rw [h]; exact List.nodup_nil
  · intro x hx; rw [h] at hx; exact absurd hx (List.not_mem_nil x)

theorem rx_msgtype_inv (env : Env) (w : World) (b : Nat) (hc : rxq_core env w)
    (hm : rx_hdr_ok w) : rxq_core env (rx_msgtype w b) ∧ rx_hdr_ok (rx_msgtype w b) := by
  unfold rx_msgtype
  split
  · exact ⟨hc, hm⟩
  · rename_i hb
    refine ⟨rxq_core_of_eq env w _ hc rfl rfl, by simp [World.setCb], ?_⟩
    intro _ ht
    simp only [World.setCb] at ht ⊢
    rw [ht]
    decide

theorem rx_ignore_inv (env : Env) (w : World) (hc : rxq_core env w)
    (hm : rx_hdr_ok w) (hs : w.h4_cb.rcv_state = H4_RX_IGNORE_ST) :
    rxq_core env (rx_ignore w) ∧ rx_hdr_ok (rx_ignore w) := by
  unfold rx_ignore
  simp only
  split
  · exact ⟨rxq_core_of_eq env w _ hc rfl rfl, rx_hdr_ok_of_state _ hm.1 (by simp [World.setCb])⟩
  · exact ⟨rxq_core_of_eq env w _ hc rfl rfl,
      rx_hdr_ok_of_state _ hm.1 (by simp [World.setCb, hs])⟩

theorem rx_len_acquired_inv (env : Env) (w : World) (n : Nat) (hc : rxq_core env w)
    (hm : w.h4_cb.preload_buffer.length = 6)
    (hlive : w.h4_cb.rcv_msg_type = H4_TYPE_ACL_DATA →
      ∀ p, w.h4_cb.p_rcv_msg = some p → p < w.heap.length) :
    rxq_core env (rx_len_acquired w n).1 ∧ rx_hdr_ok (rx_len_acquired w n).1 := by
  unfold rx_len_acquired
  cases hp : w.h4_cb.p_rcv_msg with
  | none =>
    simp only
    split
    · exact ⟨rxq_core_of_eq env w _ hc rfl rfl, rx_hdr_ok_of_state _ hm (by simp [World.setCb])⟩
    · exact ⟨rxq_core_of_eq env w _ hc rfl rfl, rx_hdr_ok_of_state _ hm (by simp [World.setCb])⟩
  | some p =>
    simp only
    split
    · exact ⟨rxq_core_of_eq env w _ hc rfl rfl, rx_hdr_ok_of_state _ hm (by simp [World.setCb])⟩
    · simp only
      split
      · rename_i ht
        obtain ⟨h1, h2⟩ := end_chk_core env w p hp (hlive ht p hp) hc hm
        exact ⟨rxq_core_of_eq env _ _ h1 rfl rfl,
          rx_hdr_ok_of_state _ h2 (by simp [World.setCb])⟩
      · exact ⟨rxq_core_of_eq env w _ hc rfl rfl,
          rx_hdr_ok_of_state _ hm (by simp [World.setCb])⟩

theorem rx_len_inv (env : Env) (w : World) (b : Nat) (hc : rxq_core env w)
    (hm : rx_hdr_ok w) (hs : w.h4_cb.rcv_state = H4_RX_LEN_ST) :
    rxq_core env (rx_len env w b).1 ∧ rx_hdr_ok (rx_len env w b).1 := by
  obtain ⟨hm1, hm2⟩ := hm
  have hset : (w.h4_cb.preload_buffer.set w.h4_cb.preload_count b).length = 6 := by
    rw [List.length_set]; exact hm1
  unfold rx_len
  simp only [World.setCb]
  by_cases h0 : u16_sub w.h4_cb.rcv_len 1 = 0
  · simp only [h0, if_true]
    by_cases ht : w.h4_cb.rcv_msg_type = H4_TYPE_ACL_DATA
    · simp only [ht, if_true]
      obtain ⟨g1, g2, g3⟩ := hm2 hs ht
      have hl1 : w.h4_cb.rcv_len = 1 := by
        rw [u16_sub_of_le g1] at h0
        omega
      have hcnt : (w.h4_cb.preload_count + 1) % 256 = w.h4_cb.preload_count + 1 :=
        Nat.mod_eq_of_lt (by omega)
      split
      · rename_i hcond
        refine ⟨rxq_core_of_eq env w _ hc rfl rfl, hset, ?_⟩
        intro _ _
        show 1 ≤ 2 ∧ 3 ≤ (w.h4_cb.preload_count + 1) % 256 + 2 ∧
          (w.h4_cb.preload_count + 1) % 256 + 2 ≤ 6
        have h4 : (w.h4_cb.preload_count + 1) % 256 = 4 := hcond.2.1
        omega
      · have hw1 : rxq_core env { w with h4_cb := { w.h4_cb with
            preload_buffer := w.h4_cb.preload_buffer.set w.h4_cb.preload_count b
            preload_count := (w.h4_cb.preload_count + 1) % 256
            rcv_len := 0
            rcv_msg_type := H4_TYPE_ACL_DATA } } := rxq_core_of_eq env w _ hc rfl rfl
        obtain ⟨a1, a2, a3⟩ := acl_alloc_inv env _ hw1 hset
          (by show 2 ≤ (w.h4_cb.preload_count + 1) % 256; omega)
        exact rx_len_acquired_inv env _ _ (rxq_core_of_eq env _ _ a1 rfl rfl) a2
          (fun _ p hp => a3 p hp)
    · simp only [ht, if_false]
      by_cases hcb : env.bt_hc_cbacks = true
      · by_cases hal : env.alloc_ok w.n_alloc
            (u16 (b + (w.h4_cb.preload_count + 1) % 256 + BT_HC_HDR_SIZE)) = true
        · simp only [hcb, if_true, alloc, hal, World.setBuf, World.buf, getD_append_length,
            set_append_length]
          exact rx_len_acquired_inv env _ _ (core_append env w _ _ hc rfl rfl) hset
            (fun htt => absurd htt ht)
        · simp only [hcb, if_true, alloc, hal, if_false, Bool.false_eq_true]
          exact rx_len_acquired_inv env _ _ (rxq_core_of_eq env w _ hc rfl rfl) hset
            (fun htt => absurd htt ht)
      · have hq := hc.2.2 (by simpa using hcb)
        simp only [hcb, if_false, Bool.false_eq_true]
        split
        · exact rx_len_acquired_inv env _ _ (rxq_core_of_nil env _ hq) hset
            (fun htt => absurd htt ht)
        · exact rx_len_acquired_inv env _ _ (rxq_core_of_nil env _ hq) hset
            (fun htt => absurd htt ht)
  · simp only [h0, if_false]
    refine ⟨rxq_core_of_eq env w _ hc rfl rfl, hset, ?_⟩
    intro _ ht
    obtain ⟨g1, g2, g3⟩ := hm2 hs ht
    show 1 ≤ u16_sub w.h4_cb.rcv_len 1 ∧
      3 ≤ (w.h4_cb.preload_count + 1) % 256 + u16_sub w.h4_cb.rcv_len 1 ∧
      (w.h4_cb.preload_count + 1) % 256 + u16_sub w.h4_cb.rcv_len 1 ≤ 6
    rw [u16_sub_of_le g1] at h0 ⊢
    have hcnt : (w.h4_cb.preload_count + 1) % 256 = w.h4_cb.preload_count + 1 :=
      Nat.mod_eq_of_lt (by omega)
    omega

theorem rx_byte_inv (env : Env) (w : World) (b : Nat) (rest : List Nat)
    (hg : rx_guard w = true) (hc : rxq_core env w) (hm : rx_hdr_ok w) :
    rxq_core env (rx_byte (Env.bytewise env) w b rest).1 ∧
    rx_hdr_ok (rx_byte (Env.bytewise env) w b rest).1 := by
  cases hs : w.h4_cb.rcv_state
  · rw [rx_byte_msgtype _ w b rest hs]
    exact rx_msgtype_inv env w b hc hm
  · rw [rx_byte_len _ w b rest hs]
    have h := rx_len_inv (Env.bytewise env) w b hc hm hs
    simp only
    split
    · exact ⟨rx_deliver_core (Env.bytewise env) _ h.1, rx_deliver_hdr (Env.bytewise env) _ h.2⟩
    · exact h
  · cases hp : w.h4_cb.p_rcv_msg with
    | none =>
      rw [rx_byte_data_null _ w b rest hs hp]
      exact ⟨hc, hm⟩
    | some p => exact rx_byte_data_inv env w b rest p hs hp hg hc hm
  · rw [rx_byte_ignore _ w b rest hs]
    exact rx_ignore_inv env w hc hm hs

theorem run_bytewise_inv (env : Env) :
    ∀ (s : List Nat) (w : World) (br : Nat), rx_guarded env w s = true →
      rxq_core env w → rx_hdr_ok w →
      rxq_core env (run (Env.bytewise env) w s br).2 := by
  intro s
  induction s with
  | nil => intro w br _ hc _; rw [run_nil]; exact hc
  | cons b rest ih =>
    intro w br hg hc hm
    simp only [rx_guarded, Bool.and_eq_true] at hg
    obtain ⟨h1, h2⟩ := rx_byte_inv env w b rest hg.1 hc hm
    rw [run_bytewise_cons]
    exact ih _ _ hg.2 h1 h2

/-- The handles of the queued buffers stay pairwise distinct along a guarded
stream (`rx_guarded`: no store wraps the 16-bit length field of a receive
buffer), from `hci_h4_init` on, for every pattern of allocation results and
every behaviour of the bulk read. -/
theorem queue_handles_nodup_guarded (env : Env) (w0 : World) (s : List Nat)
    (hg : rx_guarded env (hci_h4_init w0) s = true) :
    ((hci_h4_receive_msg env (hci_h4_init w0) s).2.h4_cb.acl_rx_q.map
      (saved_handle (hci_h4_receive_msg env (hci_h4_init w0) s).2)).Nodup := by
  have hc : rxq_core env (hci_h4_init w0) := rxq_core_of_nil env _ rfl
  have hm : rx_hdr_ok (hci_h4_init w0) :=
    rx_hdr_ok_of_state _ (List.length_replicate _ _) (by simp [hci_h4_init])
  have h := (run_bytewise_inv env s (hci_h4_init w0) 0 hg hc hm).1
  obtain ⟨j, hj⟩ := run_guarded env s.length s (hci_h4_init w0) 0 (le_refl _) hg
  rw [hci_h4_receive_msg_eq_run, hj]
  exact h

/-- The body of an ACL segment whose end check cannot find the frame complete
(the announced L2CAP length exceeds `len - 8`): the bytes are stored behind the
bytes of the buffer, the queue is kept and the machine returns to
H4_RX_MSGTYPE_ST. -/
theorem acl_segment_kept (env : Env) (X : World) (p n : Nat) (body : List Nat)
    (hb : body.length = n) (hn0 : 0 < n) (hn : n < 65536)
    (hs : X.h4_cb.rcv_state = H4_RX_DATA_ST) (hp : X.h4_cb.p_rcv_msg = some p)
    (hpl : p < X.heap.length) (ht : X.h4_cb.rcv_msg_type = H4_TYPE_ACL_DATA)
    (hl : X.h4_cb.rcv_len = n) (hlen : (X.buf p).len + n ≤ 65536)
    (hev : (X.buf p).event = MSG_HC_TO_STACK_HCI_ACL)
    (hpre : 4 ≤ X.h4_cb.preload_buffer.length)
    (hkeep : (STREAM_TO_UINT16 (write_bytes (X.buf p).data (X.buf p).len body) 4 : Int) >
      ((u16 ((X.buf p).len + n) : Nat) : Int) - 8) :
    ∃ Y : World,
      (∀ (s : List Nat) (br : Nat), run env X (body ++ s) br = run env Y s (u16 (br + n))) ∧
      Y.h4_cb.rcv_state = H4_RX_MSGTYPE_ST ∧ Y.h4_cb.acl_rx_q = X.h4_cb.acl_rx_q ∧
      Y.heap.length = X.heap.length ∧ (∀ x, x ≠ p → Y.buf x = X.buf x) ∧
      (Y.buf p).data = write_bytes (X.buf p).data (X.buf p).len body ∧
      (Y.buf p).len = u16 ((X.buf p).len + n) ∧
      (Y.buf p).event = MSG_HC_TO_STACK_HCI_ACL ∧
      Y.h4_cb.preload_buffer.length = X.h4_cb.preload_buffer.length := by
  obtain ⟨nb, hrun⟩ := run_data env n body X p hb hn0 hn hs hp hpl hl hlen
  refine ⟨after_end env (stored X p body nb), hrun, ?_⟩
  have h2p : (stored X p body nb).h4_cb.p_rcv_msg = some p := hp
  have h2l : (stored X p body nb).h4_cb.rcv_len = 0 := rfl
  have h2t : (stored X p body nb).h4_cb.rcv_msg_type = H4_TYPE_ACL_DATA := ht
  have h2pl : p < (stored X p body nb).heap.length := by
    rw [stored_heap_length]; exact hpl
  have h2q : (stored X p body nb).h4_cb.acl_rx_q = X.h4_cb.acl_rx_q := rfl
  have h2pre : (stored X p body nb).h4_cb.preload_buffer = X.h4_cb.preload_buffer := rfl
  have h2len : (stored X p body nb).heap.length = X.heap.length := stored_heap_length _ _ _ _
  have h2buf : (stored X p body nb).buf p =
      { X.buf p with data := write_bytes (X.buf p).data (X.buf p).len body,
                     len := u16 ((X.buf p).len + body.length) } := by
    simp only [stored, World.buf, getD_set_self _ _ _ _ hpl]
  have h2oth : ∀ x, x ≠ p → (stored X p body nb).buf x = X.buf x := by
    intro x hx
    simp only [stored, World.buf, getD_set_ne _ _ _ _ _ hx]
  rw [hb] at h2buf
  generalize stored X p body nb = X2 at *
  obtain ⟨pl, d, m, he, hpll, hd⟩ := end_chk_eq X2 p h2p h2pl
  have hd2 := hd (by rw [h2pre]; exact hpre)
  have hk2 : (STREAM_TO_UINT16 (X2.buf p).data 4 : Int) > ((X2.buf p).len : Int) - 8 := by
    rw [h2buf]; exact hkeep
  have hcond : ¬ (0 < STREAM_TO_UINT16 (X2.buf p).data 2 ∧
      ¬ ((STREAM_TO_UINT16 (X2.buf p).data 4 : Int) > ((X2.buf p).len : Int) - 8)) :=
    fun h => h.2 hk2
  rw [if_neg hcond] at he
  have hE : ∀ E : World, (acl_rx_frame_end_chk X2).1 = E →
      E.h4_cb.acl_rx_q = X2.h4_cb.acl_rx_q → E.heap.length = X2.heap.length →
      (∀ x, x ≠ p → E.buf x = X2.buf x) → (E.buf p).data = (X2.buf p).data →
      (E.buf p).len = (X2.buf p).len → (E.buf p).event = (X2.buf p).event →
      E.h4_cb.preload_buffer.length = X2.h4_cb.preload_buffer.length →
      E.h4_cb.p_rcv_msg = some p →
      (after_end env X2).h4_cb.rcv_state = H4_RX_MSGTYPE_ST ∧
      (after_end env X2).h4_cb.acl_rx_q = X.h4_cb.acl_rx_q ∧
      (after_end env X2).heap.length = X.heap.length ∧
      (∀ x, x ≠ p → (after_end env X2).buf x = X.buf x) ∧
      ((after_end env X2).buf p).data = write_bytes (X.buf p).data (X.buf p).len body ∧
      ((after_end env X2).buf p).len = u16 ((X.buf p).len + n) ∧
      ((after_end env X2).buf p).event = MSG_HC_TO_STACK_HCI_ACL ∧
      (after_end env X2).h4_cb.preload_buffer.length = X.h4_cb.preload_buffer.length := by
    intro E hEe e1 e2 e3 e4 e5 e6 e7 e8
    have hR : ∀ R : World, R.h4_cb.rcv_state = H4_RX_MSGTYPE_ST →
        R.h4_cb.acl_rx_q = E.h4_cb.acl_rx_q → R.heap = E.heap →
        R.h4_cb.preload_buffer = E.h4_cb.preload_buffer →
        R.h4_cb.rcv_state = H4_RX_MSGTYPE_ST ∧
        R.h4_cb.acl_rx_q = X.h4_cb.acl_rx_q ∧
        R.heap.length = X.heap.length ∧
        (∀ x, x ≠ p → R.buf x = X.buf x) ∧
        (R.buf p).data = write_bytes (X.buf p).data (X.buf p).len body ∧
        (R.buf p).len = u16 ((X.buf p).len + n) ∧
        (R.buf p).event = MSG_HC_TO_STACK_HCI_ACL ∧
        R.h4_cb.preload_buffer.length = X.h4_cb.preload_buffer.length := by
      intro R r1 r2 r3 r4
      have rb : ∀ x, R.buf x = E.buf x := fun x => by simp only [World.buf, r3]
      refine ⟨r1, by rw [r2, e1, h2q], by rw [r3, e2, h2len],
        fun x hx => by rw [rb, e3 x hx, h2oth x hx], by rw [rb, e4, h2buf],
        by rw [rb, e5, h2buf], by rw [rb, e6, h2buf]; exact hev, by rw [r4, e7, h2pre]⟩
    have hend : rx_data_end X2 =
        (E.setCb { E.h4_cb with rcv_state := H4_RX_MSGTYPE_ST }, (acl_rx_frame_end_chk X2).2) := by
      unfold rx_data_end
      rw [if_pos h2l, if_pos h2t]
      simp only [hEe]
      split
      · rename_i hv; rw [hv]
      · rename_i hv
        have : (acl_rx_frame_end_chk X2).2 = true := by simpa using hv
        rw [this]
    unfold after_end
    rw [hend]
    simp only
    split
    · have hpE : (E.setCb { E.h4_cb with rcv_state := H4_RX_MSGTYPE_ST }).h4_cb.p_rcv_msg =
          some p := e8
      obtain ⟨hf, hh⟩ := rx_deliver_frame env _ p hpE
      have hne : ((E.setCb { E.h4_cb with rcv_state := H4_RX_MSGTYPE_ST }).buf p).event ≠
          MSG_HC_TO_STACK_HCI_EVT := by
        show (E.buf p).event ≠ _
        rw [e6, h2buf]
        simp only
        rw [hev]
        decide
      exact hR _ hf.1 hf.2.2.2.1 (hh hne) hf.2.2.2.2.2.1
    · exact hR _ rfl rfl rfl rfl
  rw [he] at hE
  refine hE _ rfl rfl ?_ ?_ ?_ ?_ ?_ hpll h2p
  · simp only [List.length_set]
  · intro x hx
    simp only [World.buf, getD_set_ne _ _ _ _ _ hx]
  · simp only [World.buf, getD_set_self _ _ _ _ h2pl]
    exact hd2
  · simp only [World.buf, getD_set_self _ _ _ _ h2pl]
  · simp only [World.buf, getD_set_self _ _ _ _ h2pl]

/-- An ACL Start packet whose end check cannot find the frame complete: the
new buffer is filled and the machine returns to H4_RX_MSGTYPE_ST; the buffer is
in the queue if the header registered it. -/
theorem acl_start_kept (env : Env) (w0 : World) (h bc L : Nat) (body0 : List Nat)
    (hs : w0.h4_cb.rcv_state = H4_RX_MSGTYPE_ST) (hh : h < 4096)
    (hcb : env.bt_hc_cbacks = true)
    (hal : env.alloc_ok w0.n_alloc
      (L + HCI_ACL_PREAMBLE_SIZE + L2CAP_HEADER_SIZE + BT_HC_HDR_SIZE) = true)
    (hq : ∀ p ∈ w0.h4_cb.acl_rx_q, saved_handle w0 p ≠ h)
    (hk0 : 0 < body0.length) (hfit : 6 + body0.length ≤ 65536)
    (hreg : L + L2CAP_HEADER_SIZE > 2 + body0.length)
    (hkeep : (L : Int) > ((u16 (6 + body0.length) : Nat) : Int) - 8) :
    ∃ Y : World,
      (∀ (s : List Nat) (br : Nat),
        run env w0 (acl_start_packet h bc L body0 ++ s) br =
          run env Y s (u16 (u16 (br + 7) + body0.length))) ∧
      Y.h4_cb.rcv_state = H4_RX_MSGTYPE_ST ∧
      Y.h4_cb.acl_rx_q = w0.h4_cb.acl_rx_q ++ [w0.heap.length] ∧
      Y.heap.length = w0.heap.length + 1 ∧
      (∀ x, x < w0.heap.length → Y.buf x = w0.buf x) ∧
      saved_handle Y w0.heap.length = h ∧
      (Y.buf w0.heap.length).len = u16 (6 + body0.length) ∧
      (Y.buf w0.heap.length).event = MSG_HC_TO_STACK_HCI_ACL ∧
      (Y.buf w0.heap.length).data.length = L + 8 := by
  have hn0 : 2 + body0.length ≠ 0 := by omega
  have hA := acl_rx_frame_buffer_alloc_start env
    (acl_hdr w0 (acl_preamble h ACL_RX_PKT_START bc (2 + body0.length) ++ [L % 256, L / 256]) 6)
    h bc (2 + body0.length) L hh hcb rfl hq hal
  have hhead := fun s br => acl_start_header env w0 h bc (2 + body0.length) L (body0 ++ s) br hs hh
    hn0 (by omega)
  rw [rx_len_acquired_some env _ _ w0.heap.length hn0 (by rw [hA]; rfl)] at hhead
  have hsub : u16_sub (2 + body0.length) 2 = body0.length := by
    rw [u16_sub_of_le (by omega)]; omega
  rw [hA] at hhead
  simp only [acl_hdr, World.setCb, hn0, ne_eq, not_false_eq_true, if_true, hsub, true_and,
    write_preload _ _ _ _ (acl_preamble_length h ACL_RX_PKT_START bc (2 + body0.length)),
    hreg] at hhead
  have key : ∀ X : World,
      (∀ (s : List Nat) (br : Nat),
        run env w0 (2 :: (acl_preamble h ACL_RX_PKT_START bc (2 + body0.length) ++
          (L % 256) :: (L / 256) :: (body0 ++ s))) br = run env X (body0 ++ s) (u16 (br + 7))) →
      X.h4_cb.rcv_state = H4_RX_DATA_ST → X.h4_cb.p_rcv_msg = some w0.heap.length →
      X.h4_cb.rcv_msg_type = 2 → X.h4_cb.rcv_len = body0.length →
      X.heap = w0.heap ++ [⟨MSG_HC_TO_STACK_HCI_ACL, 6, 0, 0,
        acl_preamble h ACL_RX_PKT_START bc (2 + body0.length) ++ [L % 256, L / 256] ++
          List.replicate (L + 2) 0⟩] →
      X.h4_cb.preload_buffer =
        acl_preamble h ACL_RX_PKT_START bc (2 + body0.length) ++ [L % 256, L / 256] →
      X.h4_cb.acl_rx_q = utils_enqueue w0.h4_cb.acl_rx_q w0.heap.length →
      ∃ Y : World,
        (∀ (s : List Nat) (br : Nat),
          run env w0 (acl_start_packet h bc L body0 ++ s) br =
            run env Y s (u16 (u16 (br + 7) + body0.length))) ∧
        Y.h4_cb.rcv_state = H4_RX_MSGTYPE_ST ∧
        Y.h4_cb.acl_rx_q = w0.h4_cb.acl_rx_q ++ [w0.heap.length] ∧
        Y.heap.length = w0.heap.length + 1 ∧
        (∀ x, x < w0.heap.length → Y.buf x = w0.buf x) ∧
        saved_handle Y w0.heap.length = h ∧
        (Y.buf w0.heap.length).len = u16 (6 + body0.length) ∧
        (Y.buf w0.heap.length).event = MSG_HC_TO_STACK_HCI_ACL ∧
        (Y.buf w0.heap.length).data.length = L + 8 := by
    intro X hrunX hXs hXp hXt hXl hXh hXpl hXq
    have hbuf := buf_of_heap X _ _ hXh
    have hXlen : X.heap.length = w0.heap.length + 1 := by rw [hXh]; simp
    obtain ⟨Y, y1, y2, y3, y4, y5, y6, y7, y8, _⟩ := acl_segment_kept env X w0.heap.length
      body0.length body0 rfl hk0 (by omega) hXs hXp (by omega) hXt hXl
      (by rw [hbuf]; exact hfit) (by rw [hbuf]) (by rw [hXpl]; simp [acl_preamble])
      (by
        rw [hbuf]
        simp only
        rw [STREAM_TO_UINT16_write_bytes_lt _ _ _ _ (show 4 + 1 < 6 by decide)]
        simp only [List.append_assoc, List.cons_append, List.nil_append, acl_total_bytes]
        exact hkeep)
    refine ⟨Y, ?_, y2, by rw [y3, hXq]; rfl, by rw [y4, hXlen], ?_, ?_, by rw [y7, hbuf],
      y8, ?_⟩
    · intro s br
      have hin : acl_start_packet h bc L body0 ++ s =
          2 :: (acl_preamble h ACL_RX_PKT_START bc (2 + body0.length) ++
            (L % 256) :: (L / 256) :: (body0 ++ s)) := by
        simp [acl_start_packet]
      rw [hin, hrunX, y1]
    · intro x hx
      rw [y5 x (by omega)]
      simp only [World.buf, hXh]
      rw [List.getD_append _ _ _ _ hx]
    · simp only [saved_handle]
      rw [y6, hbuf]
      simp only
      rw [STREAM_TO_UINT16_write_bytes_lt _ _ _ _ (show 0 + 1 < 6 by decide)]
      obtain ⟨e0, _, e2, _⟩ := acl_word_bytes (n := 2 + body0.length)
        (t := [L % 256, L / 256] ++ List.replicate (L + 2) 0) h ACL_RX_PKT_START bc hh (by decide)
      rw [List.append_assoc, e0, e2]
    · rw [y6, hbuf]
      simp only [write_bytes_length, List.length_append, acl_preamble_length, List.length_cons,
        List.length_nil, List.length_replicate]
      omega
  exact key _ hhead rfl rfl rfl rfl rfl rfl rfl

/-- An ACL Continuation packet for a queued buffer whose `len` is below 8 after
the body: the body is stored from index `len` on, the queue is kept. -/
theorem acl_cont_kept (env : Env) (X : World) (h bc p : Nat) (body : List Nat)
    (hs : X.h4_cb.rcv_state = H4_RX_MSGTYPE_ST) (hh : h < 4096)
    (hf : acl_rx_q_find X h = some p) (hq : X.h4_cb.acl_rx_q.length ≠ 0)
    (hpl : p < X.heap.length) (hev : (X.buf p).event = MSG_HC_TO_STACK_HCI_ACL)
    (hk0 : 0 < body.length) (hn : body.length < 65536)
    (hfit : (X.buf p).len + body.length ≤ 65536)
    (hsmall : u16 ((X.buf p).len + body.length) < 8) :
    ∃ (Y : World) (v : Nat),
      (∀ (s : List Nat) (br : Nat),
        run env X (acl_cont_packet h (bc, body) ++ s) br =
          run env Y s (u16 (u16 (br + 5) + body.length))) ∧
      Y.h4_cb.rcv_state = H4_RX_MSGTYPE_ST ∧
      Y.h4_cb.acl_rx_q = X.h4_cb.acl_rx_q ∧
      Y.heap.length = X.heap.length ∧
      (∀ x, x ≠ p → Y.buf x = X.buf x) ∧
      (Y.buf p).data =
        write_bytes (UINT16_TO_STREAM (X.buf p).data 2 v) (X.buf p).len body := by
  have hn0 : body.length ≠ 0 := by omega
  have hfind : acl_rx_q_find
      (acl_hdr X (acl_preamble h ACL_RX_PKT_CONTINUE bc body.length ++ [0, 0]) 4) h = some p := hf
  have hqne : (acl_hdr X (acl_preamble h ACL_RX_PKT_CONTINUE bc body.length ++ [0, 0])
      4).h4_cb.acl_rx_q.length ≠ 0 := hq
  have hA := acl_rx_frame_buffer_alloc_cont env
    (acl_hdr X (acl_preamble h ACL_RX_PKT_CONTINUE bc body.length ++ [0, 0]) 4)
    h bc body.length p hh rfl hfind hqne
  have hhead := fun s br => acl_cont_header env X h bc body.length (body ++ s) br hs hh
    hn0 (by omega)
  rw [rx_len_acquired_some env _ _ p hn0 (by rw [hA])] at hhead
  rw [hA] at hhead
  have key : ∀ X1 : World,
      (∀ (s : List Nat) (br : Nat),
        run env X (2 :: (acl_preamble h ACL_RX_PKT_CONTINUE bc body.length ++ (body ++ s))) br =
          run env X1 (body ++ s) (u16 (br + 5))) →
      X1.h4_cb.rcv_state = H4_RX_DATA_ST → X1.h4_cb.p_rcv_msg = some p →
      X1.h4_cb.rcv_msg_type = 2 → X1.h4_cb.rcv_len = body.length →
      X1.heap = X.heap.set p { X.buf p with
        data := UINT16_TO_STREAM (X.buf p).data 2
          (u16 (STREAM_TO_UINT16 (X.buf p).data 2 + body.length)) } →
      X1.h4_cb.preload_buffer = acl_preamble h ACL_RX_PKT_CONTINUE bc body.length ++ [0, 0] →
      X1.h4_cb.acl_rx_q = X.h4_cb.acl_rx_q →
      ∃ (Y : World) (v : Nat),
        (∀ (s : List Nat) (br : Nat),
          run env X (acl_cont_packet h (bc, body) ++ s) br =
            run env Y s (u16 (u16 (br + 5) + body.length))) ∧
        Y.h4_cb.rcv_state = H4_RX_MSGTYPE_ST ∧
        Y.h4_cb.acl_rx_q = X.h4_cb.acl_rx_q ∧
        Y.heap.length = X.heap.length ∧
        (∀ x, x ≠ p → Y.buf x = X.buf x) ∧
        (Y.buf p).data =
          write_bytes (UINT16_TO_STREAM (X.buf p).data 2 v) (X.buf p).len body := by
    intro X1 hrun1 h1s h1p h1t h1l h1h h1pl h1q
    have hbuf : X1.buf p = { X.buf p with
        data := UINT16_TO_STREAM (X.buf p).data 2
          (u16 (STREAM_TO_UINT16 (X.buf p).data 2 + body.length)) } := by
      simp only [World.buf, h1h, getD_set_self _ _ _ _ hpl]
    have hoth : ∀ x, x ≠ p → X1.buf x = X.buf x := by
      intro x hx
      simp only [World.buf, h1h, getD_set_ne _ _ _ _ _ hx]
    have h1len : X1.heap.length = X.heap.length := by rw [h1h, List.length_set]
    obtain ⟨Y, y1, y2, y3, y4, y5, y6, _, _, _⟩ := acl_segment_kept env X1 p
      body.length body rfl hk0 (by omega) h1s h1p (by rw [h1len]; exact hpl) h1t h1l
      (by rw [hbuf]; exact hfit) (by rw [hbuf]; exact hev) (by rw [h1pl]; simp [acl_preamble])
      (by
        rw [hbuf]
        simp only
        have : ((u16 ((X.buf p).len + body.length) : Nat) : Int) < 8 := by exact_mod_cast hsmall
        have h0 : (0 : Int) ≤ (STREAM_TO_UINT16 (write_bytes (UINT16_TO_STREAM (X.buf p).data 2
          (u16 (STREAM_TO_UINT16 (X.buf p).data 2 + body.length))) (X.buf p).len body) 4 : Nat) :=
          Int.natCast_nonneg _
        omega)
    refine ⟨Y, _, ?_, y2, by rw [y3, h1q], by rw [y4, h1len],
      fun x hx => by rw [y5 x hx, hoth x hx], by rw [y6, hbuf]⟩
    intro s br
    have e : acl_cont_packet h (bc, body) ++ s =
        2 :: (acl_preamble h ACL_RX_PKT_CONTINUE bc body.length ++ (body ++ s)) := by
      simp [acl_cont_packet]
    rw [e, hrun1, y1]
  exact key _ hhead rfl rfl rfl rfl rfl rfl rfl

/-- C24 as stated fails once the 16-bit `len` of a queued buffer has wrapped.
Callbacks registered, every allocation successful, the bytes read one by one:
a Start packet on handle 2 (HCI length 4, L2CAP length 4) parks buffer 0; a
Start packet on handle 1 with HCI length 65532 and L2CAP length 65535 fills
buffer 1 up to index 65535, its `len` wraps to 0 and the buffer stays parked; a
Continuation packet on handle 1 with the two body bytes 02 20 is then stored at
indices 0 and 1 of buffer 1, over the saved handle. Both queue entries now
carry handle 2. -/
theorem queue_handles_repeat_after_wrap :
    (hci_h4_receive_msg Env.ideal (hci_h4_init World.boot)
      (acl_start_packet 2 0 4 [0x40, 0] ++
        (acl_start_packet 1 0 65535 (List.replicate 65530 0) ++
          acl_cont_packet 1 (0, [2, 0x20])))).2.h4_cb.acl_rx_q = [0, 1] ∧
    (hci_h4_receive_msg Env.ideal (hci_h4_init World.boot)
      (acl_start_packet 2 0 4 [0x40, 0] ++
        (acl_start_packet 1 0 65535 (List.replicate 65530 0) ++
          acl_cont_packet 1 (0, [2, 0x20])))).2.h4_cb.acl_rx_q.map
      (saved_handle (hci_h4_receive_msg Env.ideal (hci_h4_init World.boot)
        (acl_start_packet 2 0 4 [0x40, 0] ++
          (acl_start_packet 1 0 65535 (List.replicate 65530 0) ++
            acl_cont_packet 1 (0, [2, 0x20])))).2) = [2, 2] := by
  have hrl : (List.replicate 65530 0).length = 65530 := List.length_replicate _ _
  obtain ⟨Y1, r1, s1, q1, l1, _, sh1, _, _, _⟩ := acl_start_kept Env.ideal
    (hci_h4_init World.boot) 2 0 4 [0x40, 0] rfl (by decide) rfl rfl
    (fun p hp => absurd hp (List.not_mem_nil p)) (by decide) (by decide) (by decide) (by decide)
  have q1' : Y1.h4_cb.acl_rx_q = [0] := q1
  have l1' : Y1.heap.length = 1 := l1
  have sh1' : saved_handle Y1 0 = 2 := sh1
  obtain ⟨Y2, r2, s2, q2, l2, o2, sh2, len2, ev2, dl2⟩ := acl_start_kept Env.ideal
    Y1 1 0 65535 (List.replicate 65530 0) s1 (by decide) rfl rfl
    (by
      intro p hp
      rw [q1', List.mem_singleton] at hp
      rw [hp, sh1']
      decide)
    (by rw [hrl]; decide) (by rw [hrl]) (by rw [hrl]; decide) (by rw [hrl]; decide)
  rw [l1'] at q2 l2 o2 sh2 len2 ev2 dl2
  rw [q1'] at q2
  rw [hrl] at len2
  have q2' : Y2.h4_cb.acl_rx_q = [0, 1] := q2
  have len2' : (Y2.buf 1).len = 0 := len2
  have sh20 : saved_handle Y2 0 = 2 := by
    simp only [saved_handle]
    rw [o2 0 (by decide)]
    exact sh1'
  have hf : acl_rx_q_find Y2 1 = some 1 := by
    apply acl_rx_q_find_some Y2 1 1 (by rw [q2']; simp) sh2
    intro p hp hsp
    rw [q2'] at hp
    simp only [List.mem_cons, List.mem_singleton, List.not_mem_nil, or_false] at hp
    rcases hp with hp | hp
    · rw [hp, sh20] at hsp
      exact absurd hsp (by decide)
    · exact hp
  obtain ⟨Y3, v, r3, _, q3, _, o3, d3⟩ := acl_cont_kept Env.ideal Y2 1 0 1 [2, 0x20] s2
    (by decide) hf (by rw [q2']; decide) (by rw [l2]; decide) ev2 (by decide) (by decide)
    (by rw [len2']; decide) (by rw [len2']; decide)
  have hrun : (hci_h4_receive_msg Env.ideal (hci_h4_init World.boot)
      (acl_start_packet 2 0 4 [0x40, 0] ++
        (acl_start_packet 1 0 65535 (List.replicate 65530 0) ++
          acl_cont_packet 1 (0, [2, 0x20])))).2 = Y3 := by
    rw [hci_h4_receive_msg_eq_run, r1, r2,
      ← List.append_nil (acl_cont_packet 1 (0, [2, 0x20])), r3, run_nil]
  rw [hrun, q3, q2']
  refine ⟨rfl, ?_⟩
  have sh30 : saved_handle Y3 0 = 2 := by
    simp only [saved_handle]
    rw [o3 0 (by decide)]
    exact sh20
  have sh31 : saved_handle Y3 1 = 2 := by
    have hcap : 2 ≤ (UINT16_TO_STREAM (Y2.buf 1).data 2 v).length := by
      rw [UINT16_TO_STREAM_length, dl2]; decide
    simp only [saved_handle, STREAM_TO_UINT16]
    rw [d3, len2', write_bytes_getD_in _ _ 0 (by decide) (by omega),
      write_bytes_getD_in _ _ (0 + 1) (by decide) (by omega)]
    decide
  simp only [List.map_cons, List.map_nil, sh30, sh31]

/-! ## Submission of an internal command (C32) -/

/-- C32: `hci_h4_send_int_cmd` on a live buffer `p` with the write cursor inside
the ring. When it returns FALSE the whole world is unchanged: pending count,
both cursors, every ring slot, every buffer (the `layer_specific` of `p`
included) and the trace, so the buffer was neither forwarded nor freed. When it
returns TRUE the buffer differs from before only in `layer_specific`, which
equals the opcode, the other buffers are unchanged, the slot at the old write
cursor holds the opcode and the callback, the other slots are unchanged, the
write cursor advanced by one modulo 8, the read cursor is unchanged, the
pending count grew by one, and the only new effect is one `bthc_tx` of the
buffer. -/
theorem send_int_cmd_atomic_or_complete (w : World) (opcode p : Nat) (f : tINT_CMD_CBACK)
    (hpl : p < w.heap.length) (hw : w.h4_cb.int_cmd_wrt_idx < w.h4_cb.int_cmd.length) :
    ((hci_h4_send_int_cmd w opcode p f).2 = false →
      (hci_h4_send_int_cmd w opcode p f).1 = w) ∧
    ((hci_h4_send_int_cmd w opcode p f).2 = true →
      ((hci_h4_send_int_cmd w opcode p f).1.buf p).layer_specific = opcode ∧
      (hci_h4_send_int_cmd w opcode p f).1.buf p = { w.buf p with layer_specific := opcode } ∧
      (∀ q, q ≠ p → (hci_h4_send_int_cmd w opcode p f).1.buf q = w.buf q) ∧
      (hci_h4_send_int_cmd w opcode p f).1.h4_cb.int_cmd.getD w.h4_cb.int_cmd_wrt_idx
        ⟨0, tINT_CMD_CBACK.NULL⟩ = ⟨opcode, f⟩ ∧
      (∀ i, i ≠ w.h4_cb.int_cmd_wrt_idx →
        (hci_h4_send_int_cmd w opcode p f).1.h4_cb.int_cmd.getD i ⟨0, tINT_CMD_CBACK.NULL⟩ =
          w.h4_cb.int_cmd.getD i ⟨0, tINT_CMD_CBACK.NULL⟩) ∧
      (hci_h4_send_int_cmd w opcode p f).1.h4_cb.int_cmd_wrt_idx =
        (w.h4_cb.int_cmd_wrt_idx + 1) % 8 ∧
      (hci_h4_send_int_cmd w opcode p f).1.h4_cb.int_cmd_rd_idx = w.h4_cb.int_cmd_rd_idx ∧
      (hci_h4_send_int_cmd w opcode p f).1.h4_cb.int_cmd_rsp_pending =
        w.h4_cb.int_cmd_rsp_pending + 1 ∧
      (hci_h4_send_int_cmd w opcode p f).1.trace = w.trace ++ [Effect.bthc_tx p]) := by
  constructor
  · intro h
    unfold hci_h4_send_int_cmd at h ⊢
    split
    · rfl
    · rename_i hg
      rw [if_neg hg] at h
      exact absurd h (by simp)
  · intro h
    rw [hci_h4_send_int_cmd_accepted w opcode p f h]
    simp only [World.buf]
    refine ⟨?_, ?_, ?_, ?_, ?_, ?_, ?_, ?_, ?_⟩ <;> try trivial
    · rw [List.getD_eq_getElem _ _ (by rw [List.length_set]; exact hpl), List.getElem_set_self]
    · rw [List.getD_eq_getElem _ _ (by rw [List.length_set]; exact hpl), List.getElem_set_self]
    · intro q hq
      simp only [List.getD_eq_getElem?_getD]
      rw [List.getElem?_set_ne (Ne.symm hq)]
    · rw [List.getD_eq_getElem _ _ (by rw [List.length_set]; exact hw), List.getElem_set_self]
    · intro i hi
      simp only [List.getD_eq_getElem?_getD]
      rw [List.getElem?_set_ne (Ne.symm hi)]
    · exact land_7 _

theorem send_int_cmd_atomic_or_complete_witness :
    ((hci_h4_send_int_cmd (World.tx_ready 1021 ⟨0, 3, 0, 0, [5, 0x10, 0]⟩) 0x1005 0
        tINT_CMD_CBACK.get_acl_data_length_cback).2 = true) ∧
    ((hci_h4_send_int_cmd (World.tx_ready 1021 ⟨0, 3, 0, 0, [5, 0x10, 0]⟩) 0x1005 0
        tINT_CMD_CBACK.get_acl_data_length_cback).1.buf 0).layer_specific = 0x1005 :=
  ⟨by decide,
   ((send_int_cmd_atomic_or_complete (World.tx_ready 1021 ⟨0, 3, 0, 0, [5, 0x10, 0]⟩) 0x1005 0
      tINT_CMD_CBACK.get_acl_data_length_cback (by decide) (by decide)).2 (by decide)).1⟩

/-! ## The message across the end-of-frame check (C39) -/

/-- C39: `acl_rx_frame_end_chk` on a live receive buffer `p` whose `offset` is 0
(Start case) or at least 4 (continuation case), with the 6-byte scratch
`preload_buffer`: after the call the data bytes, `len`, `event` and
`layer_specific` of the buffer are those before the call, every other buffer is
unchanged, and the control block differs at most in the reassembly queue (the
buffer may have been unlinked) and in `preload_buffer`; the credit counter is
unchanged. Only `offset` of the buffer may differ. -/
theorem end_chk_keeps_message (w : World) (p : Nat)
    (hp : w.h4_cb.p_rcv_msg = some p) (hpl : p < w.heap.length)
    (hpre : w.h4_cb.preload_buffer.length = 6)
    (hoff : (w.buf p).offset = 0 ∨ 4 ≤ (w.buf p).offset) :
    ((acl_rx_frame_end_chk w).1.buf p).data = (w.buf p).data ∧
    ((acl_rx_frame_end_chk w).1.buf p).len = (w.buf p).len ∧
    ((acl_rx_frame_end_chk w).1.buf p).event = (w.buf p).event ∧
    ((acl_rx_frame_end_chk w).1.buf p).layer_specific = (w.buf p).layer_specific ∧
    (∀ q, q ≠ p → (acl_rx_frame_end_chk w).1.buf q = w.buf q) ∧
    (acl_rx_frame_end_chk w).1.heap.length = w.heap.length ∧
    (acl_rx_frame_end_chk w).1.h4_cb =
      { w.h4_cb with
        acl_rx_q := (acl_rx_frame_end_chk w).1.h4_cb.acl_rx_q
        preload_buffer := (acl_rx_frame_end_chk w).1.h4_cb.preload_buffer } ∧
    ((acl_rx_frame_end_chk w).1.h4_cb.acl_rx_q = w.h4_cb.acl_rx_q ∨
      (acl_rx_frame_end_chk w).1.h4_cb.acl_rx_q =
        utils_remove_from_queue w.h4_cb.acl_rx_q p) ∧
    (acl_rx_frame_end_chk w).1.h4_cb.preload_buffer.length = 6 ∧
    (acl_rx_frame_end_chk w).1.h4_num_hci_cmd_pkts = w.h4_num_hci_cmd_pkts := by
  have _ := hoff
  obtain ⟨pl, d, m, e, hl, hd⟩ := end_chk_eq w p hp hpl
  have hd := hd (by omega)
  rw [e]
  simp only [World.buf]
  refine ⟨?_, ?_, ?_, ?_, ?_, ?_, ?_, ?_, ?_, ?_⟩ <;> try trivial
  · rw [List.getD_eq_getElem _ _ (by rw [List.length_set]; exact hpl), List.getElem_set_self]
    exact hd
  · rw [List.getD_eq_getElem _ _ (by rw [List.length_set]; exact hpl), List.getElem_set_self]
  · rw [List.getD_eq_getElem _ _ (by rw [List.length_set]; exact hpl), List.getElem_set_self]
  · rw [List.getD_eq_getElem _ _ (by rw [List.length_set]; exact hpl), List.getElem_set_self]
  · intro q hq
    simp only [List.getD_eq_getElem?_getD]
    rw [List.getElem?_set_ne (Ne.symm hq)]
  · rw [List.length_set]
  · split_ifs
    · exact Or.inr rfl
    · exact Or.inl rfl
  · rw [hl, hpre]

theorem end_chk_keeps_message_witness :
    4 ≤ (World.at_segment_end.buf 0).offset ∧
    ((acl_rx_frame_end_chk World.at_segment_end).1.buf 0).data =
      (World.at_segment_end.buf 0).data ∧
    ((acl_rx_frame_end_chk World.at_segment_end).1.buf 0).len =
      (World.at_segment_end.buf 0).len :=
  ⟨by decide,
   (end_chk_keeps_message World.at_segment_end 0 rfl (by decide) (by decide)
      (Or.inr (by decide))).1,
   (end_chk_keeps_message World.at_segment_end 0 rfl (by decide) (by decide)
      (Or.inr (by decide))).2.1⟩

/-! ## Framing of short ACL Start packets (C33) -/

/-- C33 (code as it is): with every allocation successful, an ACL Start packet
with HCI length 2 (type byte, preamble, the two body bytes) leaves the machine
in H4_RX_DATA_ST with remaining length 0 instead of H4_RX_MSGTYPE_ST, and the
Event packet that follows is stored as body (still H4_RX_DATA_ST, 65532 bytes
to go); an ACL Start packet with HCI length 1 is still in H4_RX_LEN_ST after
its 6 bytes, takes the type byte of the next packet as second L2CAP length byte
and then expects 65535 body bytes. Nothing is delivered in either case. -/
theorem short_acl_start_desyncs :
    (hci_h4_receive_msg Env.ideal (hci_h4_init World.boot)
      [2, 1, 0x20, 2, 0, 5, 0]).2.h4_cb.rcv_state = H4_RX_DATA_ST ∧
    (hci_h4_receive_msg Env.ideal (hci_h4_init World.boot)
      [2, 1, 0x20, 2, 0, 5, 0]).2.h4_cb.rcv_len = 0 ∧
    (hci_h4_receive_msg Env.ideal (hci_h4_init World.boot)
      [2, 1, 0x20, 2, 0, 5, 0, 4, 0x13, 1, 5]).2.h4_cb.rcv_state = H4_RX_DATA_ST ∧
    (hci_h4_receive_msg Env.ideal (hci_h4_init World.boot)
      [2, 1, 0x20, 2, 0, 5, 0, 4, 0x13, 1, 5]).2.h4_cb.rcv_len = 65532 ∧
    delivered (hci_h4_receive_msg Env.ideal (hci_h4_init World.boot)
      [2, 1, 0x20, 2, 0, 5, 0, 4, 0x13, 1, 5]).2 = [] ∧
    (hci_h4_receive_msg Env.ideal (hci_h4_init World.boot)
      [2, 1, 0x20, 1, 0, 5]).2.h4_cb.rcv_state = H4_RX_LEN_ST ∧
    (hci_h4_receive_msg Env.ideal (hci_h4_init World.boot)
      [2, 1, 0x20, 1, 0, 5, 4]).2.h4_cb.rcv_state = H4_RX_DATA_ST ∧
    (hci_h4_receive_msg Env.ideal (hci_h4_init World.boot)
      [2, 1, 0x20, 1, 0, 5, 4]).2.h4_cb.rcv_len = 65535 ∧
    delivered (hci_h4_receive_msg Env.ideal (hci_h4_init World.boot)
      [2, 1, 0x20, 1, 0, 5, 4, 0x13, 1, 5]).2 = [] := by
  decide
/-! ## The length field of the written segments (C31) and the number of writes (C34) -/

/-- The length field of a segment whose header was written by the loop. -/
theorem stream_len_cont (t h l : Nat) (rest : List Nat) (hl : l < 65536) :
    STREAM_TO_UINT16 (t :: (acl_header_bytes h l ++ rest)) 3 = l := by
  simp only [STREAM_TO_UINT16, acl_header_bytes, List.cons_append, List.getD_cons_succ,
    List.getD_cons_zero, Nat.shiftRight_eq_div_pow, Nat.shiftLeft_eq]
  omega

/-- The length field of a segment that carries the header of the original
message. -/
theorem stream_len_orig (t : Nat) (d : List Nat) (o : Nat) (rest : List Nat)
    (h : o + 4 ≤ d.length) :
    STREAM_TO_UINT16 (t :: ((d.drop o).take 4 ++ rest)) 3 = STREAM_TO_UINT16 d (o + 2) := by
  have e : (d.drop o).take 4 = [d.getD o 0, d.getD (o + 1) 0, d.getD (o + 2) 0,
      d.getD (o + 3) 0] := by
    apply List.ext_getElem
    · simp only [List.length_take, List.length_drop, List.length_cons, List.length_nil]
      omega
    · intro i h1 h2
      simp only [List.length_cons, List.length_nil] at h2
      rw [List.getElem_take, List.getElem_drop]
      have : i = 0 ∨ i = 1 ∨ i = 2 ∨ i = 3 := by omega
      rcases this with rfl | rfl | rfl | rfl <;>
        simp only [List.getElem_cons_zero, List.getElem_cons_succ, Nat.add_zero] <;>
        rw [List.getD_eq_getElem _ _ (by omega)]
  rw [e]
  simp only [STREAM_TO_UINT16, List.cons_append, List.getD_cons_succ, List.getD_cons_zero]

/-- The controller-sized segments of a message: the first one with the header of
the message, the others with the header written by the loop. -/
theorem tx_segments_head (type handle D : Nat) (b : HC_BT_HDR) (k : Nat) :
    tx_segments type handle D b (k + 1) =
      (type :: ((b.data.drop b.offset).take 4 ++ (b.data.drop (b.offset + 4)).take D)) ::
        (List.range k).map (fun j =>
          type :: (acl_header_bytes handle D ++
            (b.data.drop (b.offset + 4 + (j + 1) * D)).take D)) := by
  unfold tx_segments
  rw [List.range_succ_eq_map, List.map_cons, List.map_map]
  simp only [if_true, Nat.zero_mul, Nat.add_zero, List.cons.injEq, true_and]
  apply List.map_congr_left
  intro j _
  simp only [Function.comp, Nat.succ_ne_zero, if_false, Nat.succ_eq_add_one]

/-- C31 (amended): a well-formed outbound ACL message longer than `D + 4`
(`1 ≤ D ≤ 65531`) sent with no fragment budget. `hci_h4_send_msg` returns; its
first write carries the four header bytes the caller stored, so its length
field is the caller's value, with `D` payload bytes behind it; every later
write carries in its length field (bytes 2..3 of the header, bytes 3..4 of the
write) the number of payload bytes of that same write: `D` for each
controller-sized segment and the remaining payload length for the tail, which
is the last write. -/
theorem later_segments_carry_their_length (env : Env) (w : World) (p : Nat)
    (hpl : p < w.heap.length) (hev : tx_event (w.buf p) = MSG_STACK_TO_HC_HCI_ACL)
    (hwf : tx_wf (w.buf p)) (hls : (w.buf p).layer_specific = 0)
    (hD1 : 1 ≤ tx_data_size w (w.buf p)) (hD2 : tx_data_size w (w.buf p) ≤ 65531)
    (hlen : tx_data_size w (w.buf p) + 4 < (w.buf p).len) :
    ∃ w' t first mid tail, hci_h4_send_msg env w p = some w' ∧ w'.trace = w.trace ++ t ∧
      tx_writes t = first :: (mid ++ [tail]) ∧
      (first.drop 1).take 4 = ((w.buf p).data.drop (w.buf p).offset).take 4 ∧
      STREAM_TO_UINT16 first 3 = STREAM_TO_UINT16 (w.buf p).data ((w.buf p).offset + 2) ∧
      first.length = 1 + 4 + tx_data_size w (w.buf p) ∧
      (∀ x ∈ mid, STREAM_TO_UINT16 x 3 = tx_data_size w (w.buf p) ∧
        x.length = 1 + 4 + tx_data_size w (w.buf p)) ∧
      STREAM_TO_UINT16 tail 3 =
        (w.buf p).len - 4 - (mid.length + 1) * tx_data_size w (w.buf p) ∧
      tail.length = 1 + 4 + STREAM_TO_UINT16 tail 3 ∧
      1 ≤ STREAM_TO_UINT16 tail 3 ∧ STREAM_TO_UINT16 tail 3 ≤ tx_data_size w (w.buf p) := by
  have hw1 := hwf.1
  have hw2 := hwf.2
  generalize hD : tx_data_size w (w.buf p) = D at hD1 hD2 hlen ⊢
  obtain ⟨k, hk1, hk2, hk3⟩ : ∃ k, 1 ≤ k ∧ k * D + 4 < (w.buf p).len ∧
      (w.buf p).len ≤ (k + 1) * D + 4 := by
    have hdm := Nat.div_add_mod ((w.buf p).len - 5) D
    have hml := Nat.mod_lt ((w.buf p).len - 5) (show D > 0 by omega)
    rw [Nat.mul_comm] at hdm
    refine ⟨((w.buf p).len - 5) / D, ?_, by omega, ?_⟩
    · exact (Nat.one_le_div_iff (by omega)).mpr (by omega)
    · rw [Nat.add_mul]; omega
  obtain ⟨w', t, h1, h2, _, _, h5, _⟩ :=
    hci_h4_send_msg_fragmented env w p D k hpl hev hD hwf hls hk1 hk2 hk3
  obtain ⟨j, rfl⟩ : ∃ j, k = j + 1 := ⟨k - 1, by omega⟩
  have hkD : (j + 1) * D = j * D + D := by ring
  have hkD2 : (j + 1 + 1) * D = j * D + D + D := by ring
  rw [tx_segments_head, List.cons_append] at h5
  have hne : ¬ (j + 1 = 0) := by omega
  refine ⟨w', t, _, _, _, h1, h2, h5, ?_, ?_, ?_, ?_, ?_, ?_, ?_, ?_⟩
  · rw [List.drop_succ_cons, List.drop_zero, List.take_left']
    rw [List.length_take, List.length_drop]; omega
  · exact stream_len_orig _ _ _ _ (by omega)
  · simp only [List.length_cons, List.length_append, List.length_take, List.length_drop]
    omega
  · intro x hx
    simp only [List.mem_map, List.mem_range] at hx
    obtain ⟨i, hi, rfl⟩ := hx
    have hiD : (i + 1) * D + D ≤ (j + 1) * D := by
      have : (i + 1 + 1) * D ≤ (j + 1) * D := Nat.mul_le_mul_right D (by omega)
      rw [Nat.add_mul (i + 1) 1, Nat.one_mul] at this
      exact this
    refine ⟨stream_len_cont _ _ _ _ (by omega), ?_⟩
    simp only [List.length_cons, List.length_append, List.length_take, List.length_drop,
      acl_header_bytes, List.length_nil]
    omega
  · simp only [tx_tail_segment, if_neg hne, List.length_map, List.length_range]
    rw [stream_len_cont _ _ _ _ (by omega)]
    omega
  · simp only [tx_tail_segment, if_neg hne]
    rw [stream_len_cont _ _ _ _ (by omega)]
    simp only [List.length_cons, List.length_append, List.length_take, List.length_drop,
      acl_header_bytes, List.length_nil]
    omega
  · simp only [tx_tail_segment, if_neg hne]
    rw [stream_len_cont _ _ _ _ (by omega)]
    omega
  · simp only [tx_tail_segment, if_neg hne]
    rw [stream_len_cont _ _ _ _ (by omega)]
    omega

theorem later_segments_carry_their_length_witness :
    ∃ w' t first mid tail, hci_h4_send_msg Env.ideal
        (World.tx_ready 4
          ⟨MSG_STACK_TO_HC_HCI_ACL, 12, 0, 0, [1, 0x20, 8, 0, 1, 2, 3, 4, 5, 6, 7, 8]⟩) 0 = some w' ∧
      w'.trace = (World.tx_ready 4
          ⟨MSG_STACK_TO_HC_HCI_ACL, 12, 0, 0, [1, 0x20, 8, 0, 1, 2, 3, 4, 5, 6, 7, 8]⟩).trace ++ t ∧
      tx_writes t = first :: (mid ++ [tail]) ∧
      tail.length = 1 + 4 + STREAM_TO_UINT16 tail 3 :=
  have h := later_segments_carry_their_length Env.ideal
    (World.tx_ready 4
      ⟨MSG_STACK_TO_HC_HCI_ACL, 12, 0, 0, [1, 0x20, 8, 0, 1, 2, 3, 4, 5, 6, 7, 8]⟩) 0
    (by decide) (by decide) ⟨by decide, by decide⟩ (by decide) (by decide) (by decide)
    (by decide)
  h.elim fun w' h1 => h1.elim fun t h2 => h2.elim fun a h3 => h3.elim fun b h4 =>
    h4.elim fun c h5 => ⟨w', t, a, b, c, h5.1, h5.2.1, h5.2.2.1, h5.2.2.2.2.2.2.2.2.1⟩

/-- C31 (as stated, refuted): with the data-size limit 4, a 12-byte ACL message
whose header announces its 8 payload bytes is written in two segments; the first
write carries the length field 8 of the caller with 4 payload bytes behind it,
the second (the tail) carries the length field 4. -/
theorem first_segment_keeps_caller_length :
    (hci_h4_send_msg Env.ideal
        (World.tx_ready 4
          ⟨MSG_STACK_TO_HC_HCI_ACL, 12, 0, 0, [1, 0x20, 8, 0, 1, 2, 3, 4, 5, 6, 7, 8]⟩) 0).map
      (fun w' => tx_writes w'.trace) =
      some [[2, 1, 0x20, 8, 0, 1, 2, 3, 4], [2, 1, 0x10, 4, 0, 5, 6, 7, 8]] := by
  decide

/-- C34: for a data-size limit `D` with `1 ≤ D ≤ 65531` and a well-formed
outbound ACL buffer with payload length `P = len - 4 > D` and no fragment
budget, `hci_h4_send_msg` returns after exactly `ceil (P / D)` transport
writes, written here `(P + D - 1) / D`: one write per pass of the loop,
`ceil (P / D) - 1` controller-sized segments, followed by the tail; each pass
takes `D` off `len`, which ends at `len - (ceil (P / D) - 1) * D`, at most
`D + 4`. -/
theorem fragmentation_write_count (env : Env) (w : World) (p : Nat)
    (hpl : p < w.heap.length) (hev : tx_event (w.buf p) = MSG_STACK_TO_HC_HCI_ACL)
    (hwf : tx_wf (w.buf p)) (hls : (w.buf p).layer_specific = 0)
    (hD1 : 1 ≤ tx_data_size w (w.buf p)) (hD2 : tx_data_size w (w.buf p) ≤ 65531)
    (hlen : tx_data_size w (w.buf p) < (w.buf p).len - 4) :
    ∃ w' t, hci_h4_send_msg env w p = some w' ∧ w'.trace = w.trace ++ t ∧
      (tx_writes t).length =
        ((w.buf p).len - 4 + tx_data_size w (w.buf p) - 1) / tx_data_size w (w.buf p) ∧
      tx_writes t =
        tx_segments H4_TYPE_ACL_DATA (tx_handle (w.buf p)) (tx_data_size w (w.buf p)) (w.buf p)
          (((w.buf p).len - 4 + tx_data_size w (w.buf p) - 1) / tx_data_size w (w.buf p) - 1) ++
        [tx_tail_segment H4_TYPE_ACL_DATA (tx_handle (w.buf p)) (tx_data_size w (w.buf p))
          (w.buf p)
          (((w.buf p).len - 4 + tx_data_size w (w.buf p) - 1) / tx_data_size w (w.buf p) - 1)] ∧
      (w'.buf p).len = (w.buf p).len -
        (((w.buf p).len - 4 + tx_data_size w (w.buf p) - 1) / tx_data_size w (w.buf p) - 1) *
          tx_data_size w (w.buf p) ∧
      (w'.buf p).len ≤ tx_data_size w (w.buf p) + 4 ∧
      (w'.buf p).offset = (w.buf p).offset +
        (((w.buf p).len - 4 + tx_data_size w (w.buf p) - 1) / tx_data_size w (w.buf p) - 1) *
          tx_data_size w (w.buf p) := by
  generalize hD : tx_data_size w (w.buf p) = D at hD1 hD2 hlen ⊢
  have hdm := Nat.div_add_mod ((w.buf p).len - 5) D
  have hml := Nat.mod_lt ((w.buf p).len - 5) (show D > 0 by omega)
  rw [Nat.mul_comm] at hdm
  have hc : ((w.buf p).len - 4 + D - 1) / D = ((w.buf p).len - 5) / D + 1 := by
    rw [show (w.buf p).len - 4 + D - 1 = (w.buf p).len - 5 + D by omega,
      Nat.add_div_right _ (by omega)]
  rw [hc, Nat.add_sub_cancel]
  have hk1 : 1 ≤ ((w.buf p).len - 5) / D := (Nat.one_le_div_iff (by omega)).mpr (by omega)
  have hk3 : (w.buf p).len ≤ (((w.buf p).len - 5) / D + 1) * D + 4 := by
    rw [Nat.add_mul]; omega
  obtain ⟨w', t, h1, h2, _, _, h5, _, _, _, h9, h10, _⟩ :=
    hci_h4_send_msg_fragmented env w p D (((w.buf p).len - 5) / D) hpl hev hD hwf hls hk1
      (by omega) hk3
  refine ⟨w', t, h1, h2, ?_, h5, h10, ?_, h9⟩
  · rw [h5, List.length_append, tx_segments_length]; rfl
  · rw [h10]; rw [Nat.add_mul] at hk3; omega

theorem fragmentation_write_count_witness :
    ∃ w' t, hci_h4_send_msg Env.ideal
        (World.tx_ready 4
          ⟨MSG_STACK_TO_HC_HCI_ACL, 12, 0, 0, [1, 0x20, 8, 0, 1, 2, 3, 4, 5, 6, 7, 8]⟩) 0 = some w' ∧
      w'.trace = (World.tx_ready 4
          ⟨MSG_STACK_TO_HC_HCI_ACL, 12, 0, 0, [1, 0x20, 8, 0, 1, 2, 3, 4, 5, 6, 7, 8]⟩).trace ++ t ∧
      (tx_writes t).length = 2 :=
  have h := fragmentation_write_count Env.ideal
    (World.tx_ready 4
      ⟨MSG_STACK_TO_HC_HCI_ACL, 12, 0, 0, [1, 0x20, 8, 0, 1, 2, 3, 4, 5, 6, 7, 8]⟩) 0
    (by decide) (by decide) ⟨by decide, by decide⟩ (by decide) (by decide) (by decide)
    (by decide)
  h.elim fun w' h1 => h1.elim fun t h2 => ⟨w', t, h2.1, h2.2.1, h2.2.2.1⟩

/-! ## The data-size limits (C35) -/

/-- The data-size limits after `get_acl_data_length_cback` when both were at
least 1 and the buffer is not a successful completion of HCI_READ_BUFFER_SIZE
with length 0. -/
theorem get_acl_data_length_cback_sizes (env : Env) (w : World) (p : Nat)
    (h1 : 1 ≤ w.h4_cb.hc_acl_data_size) (h2 : 1 ≤ w.h4_cb.hc_ble_acl_data_size)
    (hb : STREAM_TO_UINT16 (w.buf p).data 3 = HCI_READ_BUFFER_SIZE →
      (w.buf p).data.getD 5 0 = 0 → STREAM_TO_UINT16 (w.buf p).data 6 ≠ 0) :
    1 ≤ (get_acl_data_length_cback env w p).h4_cb.hc_acl_data_size ∧
    1 ≤ (get_acl_data_length_cback env w p).h4_cb.hc_ble_acl_data_size := by
  unfold get_acl_data_length_cback
  simp only
  by_cases ho : STREAM_TO_UINT16 (w.buf p).data 3 = HCI_READ_BUFFER_SIZE
  · rw [if_pos ho]
    by_cases hs : (w.buf p).data.getD 5 0 = 0
    · have hv := hb ho hs
      simp only [hs, if_true]
      split <;>
        simp only [hci_h4_send_int_cmd, World.setCb, World.setBuf, World.emit, dealloc] <;>
        split <;> exact ⟨Nat.pos_of_ne_zero hv, h2⟩
    · simp only [hs, if_false]
      split <;>
        simp only [hci_h4_send_int_cmd, World.setCb, World.setBuf, World.emit, dealloc] <;>
        split <;> exact ⟨h1, h2⟩
  · rw [if_neg ho]
    by_cases ho2 : STREAM_TO_UINT16 (w.buf p).data 3 = HCI_LE_READ_BUFFER_SIZE
    · rw [if_pos ho2]
      by_cases hs : (w.buf p).data.getD 5 0 = 0
      · simp only [hs, if_true]
        split <;> simp only [World.setCb, World.emit, dealloc] <;>
          (refine ⟨h1, ?_⟩; split <;> omega)
      · simp only [hs, if_false]
        split <;> exact ⟨h1, h2⟩
    · rw [if_neg ho2]
      exact ⟨h1, h2⟩

theorem cback_runs_sizes (env : Env) :
    ∀ (bs : List HC_BT_HDR) (w : World),
      1 ≤ w.h4_cb.hc_acl_data_size → 1 ≤ w.h4_cb.hc_ble_acl_data_size →
      (∀ b ∈ bs, STREAM_TO_UINT16 b.data 3 = HCI_READ_BUFFER_SIZE →
        b.data.getD 5 0 = 0 → STREAM_TO_UINT16 b.data 6 ≠ 0) →
      1 ≤ (cback_runs env w bs).h4_cb.hc_acl_data_size ∧
      1 ≤ (cback_runs env w bs).h4_cb.hc_ble_acl_data_size := by
  intro bs
  induction bs with
  | nil => intro w h1 h2 _; exact ⟨h1, h2⟩
  | cons b bs ih =>
    intro w h1 h2 hb
    rw [cback_runs]
    have hbuf : World.buf { w with heap := w.heap ++ [b] } w.heap.length = b := by
      simp only [World.buf, List.getD_eq_getElem?_getD]
      rw [List.getElem?_append_right (Nat.le_refl _), Nat.sub_self]
      rfl
    have := get_acl_data_length_cback_sizes env { w with heap := w.heap ++ [b] } w.heap.length
      h1 h2 (by rw [hbuf]; exact hb b (List.mem_cons_self _ _))
    exact ih _ this.1 this.2 (fun x hx => hb x (List.mem_cons_of_mem _ hx))

/-- C35 (amended): from the state of `hci_h4_init` (limits 1021 and 27), after
any sequence of `get_acl_data_length_cback` invocations on buffers of arbitrary
contents, among them Command-Complete buffers for opcodes 0x1005 and 0x2002
with arbitrary status and length, in which no buffer is a completion of 0x1005
with status 0 and length value 0, both `hc_acl_data_size` and
`hc_ble_acl_data_size` are at least 1. -/
theorem data_sizes_positive (env : Env) (w0 : World) (bs : List HC_BT_HDR)
    (hb : ∀ b ∈ bs, STREAM_TO_UINT16 b.data 3 = HCI_READ_BUFFER_SIZE →
      b.data.getD 5 0 = 0 → STREAM_TO_UINT16 b.data 6 ≠ 0) :
    1 ≤ (cback_runs env (hci_h4_init w0) bs).h4_cb.hc_acl_data_size ∧
    1 ≤ (cback_runs env (hci_h4_init w0) bs).h4_cb.hc_ble_acl_data_size :=
  cback_runs_sizes env bs (hci_h4_init w0) (show 1 ≤ 1021 by decide) (show 1 ≤ 27 by decide) hb

theorem data_sizes_positive_witness :
    (∀ b ∈ [cc_buffer 0x1005 0 1021, cc_buffer 0x2002 0 0, cc_buffer 0x1005 1 0],
      STREAM_TO_UINT16 b.data 3 = HCI_READ_BUFFER_SIZE →
        b.data.getD 5 0 = 0 → STREAM_TO_UINT16 b.data 6 ≠ 0) ∧
    1 ≤ (cback_runs Env.ideal (hci_h4_init World.boot)
      [cc_buffer 0x1005 0 1021, cc_buffer 0x2002 0 0,
        cc_buffer 0x1005 1 0]).h4_cb.hc_acl_data_size ∧
    1 ≤ (cback_runs Env.ideal (hci_h4_init World.boot)
      [cc_buffer 0x1005 0 1021, cc_buffer 0x2002 0 0,
        cc_buffer 0x1005 1 0]).h4_cb.hc_ble_acl_data_size :=
  ⟨by decide,
   data_sizes_positive Env.ideal World.boot
     [cc_buffer 0x1005 0 1021, cc_buffer 0x2002 0 0, cc_buffer 0x1005 1 0] (by decide)⟩

/-- C35 (as stated, refuted): from the state of `hci_h4_init`, one invocation of
`get_acl_data_length_cback` on a Command-Complete buffer for opcode 0x1005 with
status 0 and length value 0 sets `hc_acl_data_size` to 0; a following
completion of 0x2002 with status 0 and length value 0 copies it, so that both
limits are 0. -/
theorem data_size_zero_from_controller :
    (cback_runs Env.ideal (hci_h4_init World.boot)
      [cc_buffer 0x1005 0 0]).h4_cb.hc_acl_data_size = 0 ∧
    (cback_runs Env.ideal (hci_h4_init World.boot)
      [cc_buffer 0x1005 0 0, cc_buffer 0x2002 0 0]).h4_cb.hc_acl_data_size = 0 ∧
    (cback_runs Env.ideal (hci_h4_init World.boot)
      [cc_buffer 0x1005 0 0, cc_buffer 0x2002 0 0]).h4_cb.hc_ble_acl_data_size = 0 := by
  decide

/-! ## The cursors of the internal-command ring (C36) -/

theorem hci_h4_send_int_cmd_ring_ok (w : World) (opcode p : Nat) (f : tINT_CMD_CBACK)
    (h : ring_ok w) :
    ring_ok (hci_h4_send_int_cmd w opcode p f).1 ∧
    w.h4_cb.int_cmd_rsp_pending ≤ (hci_h4_send_int_cmd w opcode p f).1.h4_cb.int_cmd_rsp_pending := by
  obtain ⟨h1, h2, h3, h4⟩ := h
  unfold hci_h4_send_int_cmd
  split
  · exact ⟨⟨h1, h2, h3, h4⟩, Int.le_refl _⟩
  · simp only [World.setCb, World.setBuf, World.emit, ring_ok, land_7, INT_CMD_PKT_IDX_MASK]
    refine ⟨⟨h1, Nat.mod_lt _ (by decide), by omega, ?_⟩, by omega⟩
    have e : (w.h4_cb.int_cmd_rsp_pending + 1).toNat = w.h4_cb.int_cmd_rsp_pending.toNat + 1 := by
      omega
    rw [e]
    omega

theorem get_acl_data_length_cback_ring_ok (env : Env) (w : World) (p : Nat) (h : ring_ok w) :
    ring_ok (get_acl_data_length_cback env w p) ∧
    w.h4_cb.int_cmd_rsp_pending ≤ (get_acl_data_length_cback env w p).h4_cb.int_cmd_rsp_pending := by
  unfold get_acl_data_length_cback
  simp only
  split_ifs <;>
    first
      | exact ⟨h, Int.le_refl _⟩
      | exact hci_h4_send_int_cmd_ring_ok _ _ _ _ h

theorem call_cback_ring_ok (env : Env) (w : World) (f : tINT_CMD_CBACK) (p : Nat)
    (h : ring_ok w) :
    ring_ok (call_cback env w f p) ∧
    w.h4_cb.int_cmd_rsp_pending ≤ (call_cback env w f p).h4_cb.int_cmd_rsp_pending := by
  cases f with
  | NULL => exact ⟨h, Int.le_refl _⟩
  | get_acl_data_length_cback => exact get_acl_data_length_cback_ring_ok env w p h
  | external k => exact ⟨h, Int.le_refl _⟩

theorem int_cmd_retire_ring_ok (w : World) (h : ring_ok w)
    (hp : 0 < w.h4_cb.int_cmd_rsp_pending) : ring_ok (int_cmd_retire w) := by
  obtain ⟨h1, h2, h3, h4⟩ := h
  simp only [int_cmd_retire, World.setCb, ring_ok, land_7, INT_CMD_PKT_IDX_MASK]
  refine ⟨Nat.mod_lt _ (by decide), h2, by omega, ?_⟩
  have e : w.h4_cb.int_cmd_rsp_pending.toNat = (w.h4_cb.int_cmd_rsp_pending - 1).toNat + 1 := by
    omega
  rw [h4, e]
  omega

theorem internal_event_intercept_ring_ok (env : Env) (w : World) (h : ring_ok w) :
    ring_ok (internal_event_intercept env w).1 := by
  cases hp : w.h4_cb.p_rcv_msg with
  | none =>
    unfold internal_event_intercept
    rw [hp]
    exact h
  | some p =>
    by_cases hi : intercepts w p
    · rw [internal_event_intercept_hit env w p hp hi]
      have hw : ring_ok { w with h4_num_hci_cmd_pkts := (((w.buf p).data.getD 2 0 : Nat) : Int) } := h
      apply int_cmd_retire_ring_ok
      · split_ifs
        · exact (call_cback_ring_ok env _ _ p hw).1
        · exact hw
        · exact hw
      · have h0 : 0 < w.h4_cb.int_cmd_rsp_pending := hi.2.1
        split_ifs
        · exact lt_of_lt_of_le h0 (call_cback_ring_ok env _ _ p hw).2
        · exact h0
        · exact h0
    · obtain ⟨c, e⟩ := internal_event_intercept_pass env w p hp hi
      rw [e]
      exact h

theorem alloc_ring_rd (env : Env) (w : World) (size : Nat) :
    (alloc env w size).1.h4_cb.int_cmd_rd_idx = w.h4_cb.int_cmd_rd_idx := by
  unfold alloc
  split <;> rfl

theorem rx_msgtype_ring_rd (w : World) (byte : Nat) :
    (rx_msgtype w byte).h4_cb.int_cmd_rd_idx = w.h4_cb.int_cmd_rd_idx := by
  unfold rx_msgtype
  split <;> rfl

theorem acl_rx_frame_end_chk_ring_rd (w : World) :
    (acl_rx_frame_end_chk w).1.h4_cb.int_cmd_rd_idx = w.h4_cb.int_cmd_rd_idx := by
  unfold acl_rx_frame_end_chk
  cases w.h4_cb.p_rcv_msg with
  | none => rfl
  | some p =>
    simp only
    split_ifs <;> rfl

theorem acl_rx_frame_buffer_alloc_ring_rd (env : Env) (w : World) :
    (acl_rx_frame_buffer_alloc env w).1.h4_cb.int_cmd_rd_idx = w.h4_cb.int_cmd_rd_idx := by
  unfold acl_rx_frame_buffer_alloc
  simp only
  split_ifs <;> (repeat' split) <;>
    simp only [World.setCb, World.setBuf, World.emit, dealloc, alloc_ring_rd]

theorem rx_len_acquired_ring_rd (w : World) (msg_len : Nat) :
    (rx_len_acquired w msg_len).1.h4_cb.int_cmd_rd_idx = w.h4_cb.int_cmd_rd_idx := by
  unfold rx_len_acquired
  cases w.h4_cb.p_rcv_msg with
  | none => simp only; split <;> rfl
  | some p =>
    simp only
    split_ifs <;> simp only [World.setCb, acl_rx_frame_end_chk_ring_rd]

theorem rx_len_ring_rd (env : Env) (w : World) (byte : Nat) :
    (rx_len env w byte).1.h4_cb.int_cmd_rd_idx = w.h4_cb.int_cmd_rd_idx := by
  unfold rx_len
  simp only
  split_ifs <;> (repeat' split) <;>
    simp only [rx_len_acquired_ring_rd, World.setCb, World.setBuf,
      acl_rx_frame_buffer_alloc_ring_rd, alloc_ring_rd]

theorem rx_data_store_ring_rd (env : Env) (w : World) (p byte : Nat) (rest : List Nat) :
    (rx_data_store env w p byte rest).1.h4_cb.int_cmd_rd_idx = w.h4_cb.int_cmd_rd_idx := by
  unfold rx_data_store
  simp only
  split <;> rfl

theorem rx_data_end_ring_rd (w : World) :
    (rx_data_end w).1.h4_cb.int_cmd_rd_idx = w.h4_cb.int_cmd_rd_idx := by
  unfold rx_data_end
  simp only
  split_ifs <;> simp only [World.setCb, acl_rx_frame_end_chk_ring_rd]

theorem rx_data_ring_rd (env : Env) (w : World) (byte : Nat) (rest : List Nat) :
    (rx_data env w byte rest).w.h4_cb.int_cmd_rd_idx = w.h4_cb.int_cmd_rd_idx := by
  unfold rx_data
  cases w.h4_cb.p_rcv_msg with
  | none => rfl
  | some p => simp only [rx_data_end_ring_rd, rx_data_store_ring_rd]

theorem rx_ignore_ring_rd (w : World) :
    (rx_ignore w).h4_cb.int_cmd_rd_idx = w.h4_cb.int_cmd_rd_idx := by
  unfold rx_ignore
  simp only
  split <;> rfl

theorem alloc_ring_wrt (env : Env) (w : World) (size : Nat) :
    (alloc env w size).1.h4_cb.int_cmd_wrt_idx = w.h4_cb.int_cmd_wrt_idx := by
  unfold alloc
  split <;> rfl

theorem rx_msgtype_ring_wrt (w : World) (byte : Nat) :
    (rx_msgtype w byte).h4_cb.int_cmd_wrt_idx = w.h4_cb.int_cmd_wrt_idx := by
  unfold rx_msgtype
  split <;> rfl

theorem acl_rx_frame_end_chk_ring_wrt (w : World) :
    (acl_rx_frame_end_chk w).1.h4_cb.int_cmd_wrt_idx = w.h4_cb.int_cmd_wrt_idx := by
  unfold acl_rx_frame_end_chk
  cases w.h4_cb.p_rcv_msg with
  | none => rfl
  | some p =>
    simp only
    split_ifs <;> rfl

theorem acl_rx_frame_buffer_alloc_ring_wrt (env : Env) (w : World) :
    (acl_rx_frame_buffer_alloc env w).1.h4_cb.int_cmd_wrt_idx = w.h4_cb.int_cmd_wrt_idx := by
  unfold acl_rx_frame_buffer_alloc
  simp only
  split_ifs <;> (repeat' split) <;>
    simp only [World.setCb, World.setBuf, World.emit, dealloc, alloc_ring_wrt]

theorem rx_len_acquired_ring_wrt (w : World) (msg_len : Nat) :
    (rx_len_acquired w msg_len).1.h4_cb.int_cmd_wrt_idx = w.h4_cb.int_cmd_wrt_idx := by
  unfold rx_len_acquired
  cases w.h4_cb.p_rcv_msg with
  | none => simp only; split <;> rfl
  | some p =>
    simp only
    split_ifs <;> simp only [World.setCb, acl_rx_frame_end_chk_ring_wrt]

theorem rx_len_ring_wrt (env : Env) (w : World) (byte : Nat) :
    (rx_len env w byte).1.h4_cb.int_cmd_wrt_idx = w.h4_cb.int_cmd_wrt_idx := by
  unfold rx_len
  simp only
  split_ifs <;> (repeat' split) <;>
    simp only [rx_len_acquired_ring_wrt, World.setCb, World.setBuf,
      acl_rx_frame_buffer_alloc_ring_wrt, alloc_ring_wrt]

theorem rx_data_store_ring_wrt (env : Env) (w : World) (p byte : Nat) (rest : List Nat) :
    (rx_data_store env w p byte rest).1.h4_cb.int_cmd_wrt_idx = w.h4_cb.int_cmd_wrt_idx := by
  unfold rx_data_store
  simp only
  split <;> rfl

theorem rx_data_end_ring_wrt (w : World) :
    (rx_data_end w).1.h4_cb.int_cmd_wrt_idx = w.h4_cb.int_cmd_wrt_idx := by
  unfold rx_data_end
  simp only
  split_ifs <;> simp only [World.setCb, acl_rx_frame_end_chk_ring_wrt]

theorem rx_data_ring_wrt (env : Env) (w : World) (byte : Nat) (rest : List Nat) :
    (rx_data env w byte rest).w.h4_cb.int_cmd_wrt_idx = w.h4_cb.int_cmd_wrt_idx := by
  unfold rx_data
  cases w.h4_cb.p_rcv_msg with
  | none => rfl
  | some p => simp only [rx_data_end_ring_wrt, rx_data_store_ring_wrt]

theorem rx_ignore_ring_wrt (w : World) :
    (rx_ignore w).h4_cb.int_cmd_wrt_idx = w.h4_cb.int_cmd_wrt_idx := by
  unfold rx_ignore
  simp only
  split <;> rfl

theorem alloc_ring_pending (env : Env) (w : World) (size : Nat) :
    (alloc env w size).1.h4_cb.int_cmd_rsp_pending = w.h4_cb.int_cmd_rsp_pending := by
  unfold alloc
  split <;> rfl

theorem rx_msgtype_ring_pending (w : World) (byte : Nat) :
    (rx_msgtype w byte).h4_cb.int_cmd_rsp_pending = w.h4_cb.int_cmd_rsp_pending := by
  unfold rx_msgtype
  split <;> rfl

theorem acl_rx_frame_end_chk_ring_pending (w : World) :
    (acl_rx_frame_end_chk w).1.h4_cb.int_cmd_rsp_pending = w.h4_cb.int_cmd_rsp_pending := by
  unfold acl_rx_frame_end_chk
  cases w.h4_cb.p_rcv_msg with
  | none => rfl
  | some p =>
    simp only
    split_ifs <;> rfl

theorem acl_rx_frame_buffer_alloc_ring_pending (env : Env) (w : World) :
    (acl_rx_frame_buffer_alloc env w).1.h4_cb.int_cmd_rsp_pending = w.h4_cb.int_cmd_rsp_pending := by
  unfold acl_rx_frame_buffer_alloc
  simp only
  split_ifs <;> (repeat' split) <;>
    simp only [World.setCb, World.setBuf, World.emit, dealloc, alloc_ring_pending]

theorem rx_len_acquired_ring_pending (w : World) (msg_len : Nat) :
    (rx_len_acquired w msg_len).1.h4_cb.int_cmd_rsp_pending = w.h4_cb.int_cmd_rsp_pending := by
  unfold rx_len_acquired
  cases w.h4_cb.p_rcv_msg with
  | none => simp only; split <;> rfl
  | some p =>
    simp only
    split_ifs <;> simp only [World.setCb, acl_rx_frame_end_chk_ring_pending]

theorem rx_len_ring_pending (env : Env) (w : World) (byte : Nat) :
    (rx_len env w byte).1.h4_cb.int_cmd_rsp_pending = w.h4_cb.int_cmd_rsp_pending := by
  unfold rx_len
  simp only
  split_ifs <;> (repeat' split) <;>
    simp only [rx_len_acquired_ring_pending, World.setCb, World.setBuf,
      acl_rx_frame_buffer_alloc_ring_pending, alloc_ring_pending]

theorem rx_data_store_ring_pending (env : Env) (w : World) (p byte : Nat) (rest : List Nat) :
    (rx_data_store env w p byte rest).1.h4_cb.int_cmd_rsp_pending = w.h4_cb.int_cmd_rsp_pending := by
  unfold rx_data_store
  simp only
  split <;> rfl

theorem rx_data_end_ring_pending (w : World) :
    (rx_data_end w).1.h4_cb.int_cmd_rsp_pending = w.h4_cb.int_cmd_rsp_pending := by
  unfold rx_data_end
  simp only
  split_ifs <;> simp only [World.setCb, acl_rx_frame_end_chk_ring_pending]

theorem rx_data_ring_pending (env : Env) (w : World) (byte : Nat) (rest : List Nat) :
    (rx_data env w byte rest).w.h4_cb.int_cmd_rsp_pending = w.h4_cb.int_cmd_rsp_pending := by
  unfold rx_data
  cases w.h4_cb.p_rcv_msg with
  | none => rfl
  | some p => simp only [rx_data_end_ring_pending, rx_data_store_ring_pending]

theorem rx_ignore_ring_pending (w : World) :
    (rx_ignore w).h4_cb.int_cmd_rsp_pending = w.h4_cb.int_cmd_rsp_pending := by
  unfold rx_ignore
  simp only
  split <;> rfl

theorem rx_deliver_ring_ok (env : Env) (w : World) (h : ring_ok w) :
    ring_ok (rx_deliver env w) := by
  unfold rx_deliver
  cases w.h4_cb.p_rcv_msg with
  | none => exact h
  | some p =>
    simp only
    split_ifs <;>
      first
        | exact h
        | exact internal_event_intercept_ring_ok env _ h

theorem ring_ok_of_fields (w W : World)
    (h1 : W.h4_cb.int_cmd_rd_idx = w.h4_cb.int_cmd_rd_idx)
    (h2 : W.h4_cb.int_cmd_wrt_idx = w.h4_cb.int_cmd_wrt_idx)
    (h3 : W.h4_cb.int_cmd_rsp_pending = w.h4_cb.int_cmd_rsp_pending)
    (hw : ring_ok w) : ring_ok W := by
  unfold ring_ok
  rw [h1, h2, h3]
  exact hw

theorem rx_byte_ring_ok (env : Env) (w : World) (byte : Nat) (rest : List Nat)
    (h : ring_ok w) : ring_ok (rx_byte env w byte rest).1 := by
  unfold rx_byte
  simp only
  cases w.h4_cb.rcv_state <;> simp only <;> split <;>
    first
      | apply rx_deliver_ring_ok
        first
          | exact ring_ok_of_fields w _ (rx_msgtype_ring_rd _ _) (rx_msgtype_ring_wrt _ _)
              (rx_msgtype_ring_pending _ _) h
          | exact ring_ok_of_fields w _ (rx_len_ring_rd _ _ _) (rx_len_ring_wrt _ _ _)
              (rx_len_ring_pending _ _ _) h
          | exact ring_ok_of_fields w _ (rx_data_ring_rd _ _ _ _) (rx_data_ring_wrt _ _ _ _)
              (rx_data_ring_pending _ _ _ _) h
          | exact ring_ok_of_fields w _ (rx_ignore_ring_rd _) (rx_ignore_ring_wrt _)
              (rx_ignore_ring_pending _) h
      | exact ring_ok_of_fields w _ (rx_msgtype_ring_rd _ _) (rx_msgtype_ring_wrt _ _)
          (rx_msgtype_ring_pending _ _) h
      | exact ring_ok_of_fields w _ (rx_len_ring_rd _ _ _) (rx_len_ring_wrt _ _ _)
          (rx_len_ring_pending _ _ _) h
      | exact ring_ok_of_fields w _ (rx_data_ring_rd _ _ _ _) (rx_data_ring_wrt _ _ _ _)
          (rx_data_ring_pending _ _ _ _) h
      | exact ring_ok_of_fields w _ (rx_ignore_ring_rd _) (rx_ignore_ring_wrt _)
          (rx_ignore_ring_pending _) h

theorem hci_h4_receive_loop_ring_ok (env : Env) :
    ∀ (fuel : Nat) (w : World) (input : List Nat) (n : Nat), ring_ok w →
      ring_ok (hci_h4_receive_loop env fuel w input n).2 := by
  intro fuel
  induction fuel with
  | zero => intro w input n h; exact h
  | succ fuel ih =>
    intro w input n h
    cases input with
    | nil => exact h
    | cons byte rest =>
      rw [hci_h4_receive_loop]
      exact ih _ _ _ (rx_byte_ring_ok env w byte rest h)

theorem hci_h4_send_msg_ring_ok (env : Env) (w : World) (p : Nat) (w' : World)
    (h : hci_h4_send_msg env w p = some w') (hw : ring_ok w) : ring_ok w' := by
  obtain ⟨t, early, _, he, hl⟩ := hci_h4_send_msg_shape env w p w' h
  cases early
  · obtain ⟨w1, b1, b2, _, _, b4⟩ := hl rfl
    rw [b4, hci_h4_send_tail_eq]
    exact ring_ok_of_fields w _ (by simp only [b1]) (by simp only [b1]) (by simp only [b1]) hw
  · obtain ⟨c1, _, c3, c4, _⟩ := he rfl
    exact ring_ok_of_fields w _ (by rw [c3]) (by rw [c3]) (by rw [c3]) hw

theorem step_ring_ok (env : Env) (w : World) (a : Action) (w' : World)
    (hs : step env w a = some w') (h : ring_ok w) : ring_ok w' := by
  cases a with
  | receive bytes =>
    simp only [step, Option.some.injEq] at hs
    rw [← hs]
    exact hci_h4_receive_loop_ring_ok env _ _ _ _ h
  | send p =>
    simp only [step] at hs
    split at hs
    · exact absurd hs (by simp)
    · exact hci_h4_send_msg_ring_ok env w p w' hs h
  | send_int_cmd opcode p f =>
    simp only [step, Option.some.injEq] at hs
    rw [← hs]
    exact (hci_h4_send_int_cmd_ring_ok w opcode p f h).1
  | stack heap =>
    simp only [step, Option.some.injEq] at hs
    rw [← hs]
    exact h

theorem exec_ring_ok (env : Env) :
    ∀ (actions : List Action) (w w' : World), exec env w actions = some w' →
      ring_ok w → ring_ok w' := by
  intro actions
  induction actions with
  | nil =>
    intro w w' he h
    simp only [exec, Option.some.injEq] at he
    rw [← he]; exact h
  | cons a rest ih =>
    intro w w' he h
    rw [exec] at he
    cases hs : step env w a with
    | none => rw [hs] at he; simp at he
    | some w1 =>
      rw [hs] at he
      exact ih w1 w' he (step_ring_ok env w a w1 hs h)

/-- C36: in every state reached from `hci_h4_init` by a run of module entry
points (internal commands registered with `hci_h4_send_int_cmd`, bytes handed
to `hci_h4_receive_msg`, among them events that are intercepted and events that
are not, buffers passed to `hci_h4_send_msg`, the host stack rewriting buffers
in between), both ring cursors are in 0..7, the pending count is not negative,
and the write cursor equals the read cursor plus the pending count modulo 8. -/
theorem ring_cursors_consistent (env : Env) (w0 : World) (actions : List Action) (w : World)
    (h : exec env (hci_h4_init w0) actions = some w) :
    w.h4_cb.int_cmd_rd_idx < 8 ∧ w.h4_cb.int_cmd_wrt_idx < 8 ∧
    0 ≤ w.h4_cb.int_cmd_rsp_pending ∧
    w.h4_cb.int_cmd_wrt_idx =
      (w.h4_cb.int_cmd_rd_idx + w.h4_cb.int_cmd_rsp_pending.toNat) % 8 ∧
    ring_ok w :=
  have hk : ring_ok w := exec_ring_ok env _ _ _ h
    ⟨show 0 < 8 by decide, show 0 < 8 by decide, show (0 : Int) ≤ 0 by decide,
      show 0 = (0 + 0) % 8 by decide⟩
  ⟨hk.1, hk.2.1, hk.2.2.1, hk.2.2.2, hk⟩

theorem ring_cursors_consistent_witness :
    ∃ w, exec Env.ideal (hci_h4_init World.boot)
        [Action.stack [⟨MSG_STACK_TO_HC_HCI_CMD, 3, 0, 0, [0x05, 0x10, 0]⟩],
          Action.send_int_cmd 0x1005 0 tINT_CMD_CBACK.get_acl_data_length_cback,
          Action.receive [4, 0x0E, 4, 1, 0x03, 0x0C, 0],
          Action.receive [4, 0x0E, 11, 1, 0x05, 0x10, 0, 0xFD, 0x03, 0x40, 8, 0, 1, 0]] = some w ∧
      w.h4_cb.int_cmd_wrt_idx =
        (w.h4_cb.int_cmd_rd_idx + w.h4_cb.int_cmd_rsp_pending.toNat) % 8 := by
  have hs : (exec Env.ideal (hci_h4_init World.boot)
      [Action.stack [⟨MSG_STACK_TO_HC_HCI_CMD, 3, 0, 0, [0x05, 0x10, 0]⟩],
        Action.send_int_cmd 0x1005 0 tINT_CMD_CBACK.get_acl_data_length_cback,
        Action.receive [4, 0x0E, 4, 1, 0x03, 0x0C, 0],
        Action.receive [4, 0x0E, 11, 1, 0x05, 0x10, 0, 0xFD, 0x03, 0x40, 8, 0, 1, 0]]).isSome =
      true := by
    decide
  obtain ⟨w, hw⟩ := Option.isSome_iff_exists.mp hs
  exact ⟨w, hw, (ring_cursors_consistent Env.ideal World.boot _ w hw).2.2.2.1⟩

/-! ## The order of internal completions (C37, C38) -/

/-- The delivery block on a received event that `internal_event_intercept`
claims. -/
theorem rx_deliver_evt_hit (env : Env) (w : World) (pre body : List Nat) (nb : Nat)
    (hi : (pre ++ body).getD 0 0 = HCI_COMMAND_COMPLETE_EVT ∧
      0 < w.h4_cb.int_cmd_rsp_pending ∧
      STREAM_TO_UINT16 (pre ++ body) 3 =
        (w.h4_cb.int_cmd.getD w.h4_cb.int_cmd_rd_idx ⟨0, tINT_CMD_CBACK.NULL⟩).opcode) :
    rx_deliver env (received w 4 MSG_HC_TO_STACK_HCI_EVT pre body nb) =
      World.completed env w pre body
        (w.h4_cb.int_cmd.getD w.h4_cb.int_cmd_rd_idx ⟨0, tINT_CMD_CBACK.NULL⟩).cback nb := by
  have h1 : MSG_HC_TO_STACK_HCI_EVT ≠ MSG_HC_TO_STACK_HCI_ACL := by decide
  have hh := internal_event_intercept_hit env
    ((received w 4 MSG_HC_TO_STACK_HCI_EVT pre body nb).emit
      (Effect.btsnoop_capture
        ⟨MSG_HC_TO_STACK_HCI_EVT, pre.length + body.length, 0, 0, pre ++ body⟩ true))
    w.heap.length rfl
    (by simpa only [intercepts, int_cmd_slot, received, World.emit, World.buf,
      getD_append_length] using hi)
  simp only [received, World.emit, int_cmd_slot, World.buf, getD_append_length] at hh
  simp only [rx_deliver, received, World.buf, getD_append_length, h1, ne_eq,
    not_false_eq_true, if_true, World.emit, hh, Bool.true_eq_false, and_false, if_false,
    World.completed]

theorem ring_records_length (q : List tINT_CMD_Q) (rd n : Nat) :
    (ring_records q rd n).length = n := by
  simp [ring_records]

theorem ring_records_cons (q : List tINT_CMD_Q) (rd n : Nat) :
    ring_records q rd (n + 1) =
      q.getD (rd % 8) ⟨0, tINT_CMD_CBACK.NULL⟩ :: ring_records q ((rd + 1) % 8) n := by
  unfold ring_records
  rw [List.range_succ_eq_map, List.map_cons, List.map_map]
  simp only [Nat.add_zero, List.cons.injEq, true_and]
  apply List.map_congr_left
  intro j _
  simp only [Function.comp, Nat.succ_eq_add_one]
  rw [show ((rd + 1) % 8 + j) % 8 = (rd + (j + 1)) % 8 by omega]

theorem ring_records_snoc (q : List tINT_CMD_Q) (rd n : Nat) :
    ring_records q rd (n + 1) =
      ring_records q rd n ++ [q.getD ((rd + n) % 8) ⟨0, tINT_CMD_CBACK.NULL⟩] := by
  simp [ring_records, List.range_succ]

theorem ring_records_set_miss (q : List tINT_CMD_Q) (rd n i : Nat) (x : tINT_CMD_Q)
    (h : ∀ j, j < n → (rd + j) % 8 ≠ i) :
    ring_records (q.set i x) rd n = ring_records q rd n := by
  unfold ring_records
  apply List.map_congr_left
  intro j hj
  exact getD_set_ne _ _ _ _ _ (h j (List.mem_range.mp hj))

/-- The pending records after a record was stored at the write cursor of a ring
that is not full. -/
theorem ring_records_send (q : List tINT_CMD_Q) (rd n : Nat) (x : tINT_CMD_Q)
    (hq : q.length = 8) (hn : n < 8) :
    ring_records (q.set ((rd + n) % 8) x) rd (n + 1) = ring_records q rd n ++ [x] := by
  rw [ring_records_snoc, getD_set_self _ _ _ _ (by rw [hq]; omega),
    ring_records_set_miss _ _ _ _ _ (by intro j hj; omega)]

/-- The pending records after a record was stored at the write cursor and the
oldest record was retired. -/
theorem ring_records_send_retire (q : List tINT_CMD_Q) (rd n : Nat) (x : tINT_CMD_Q)
    (hq : q.length = 8) (h1 : 1 ≤ n) (hn : n ≤ 8) :
    ring_records (q.set ((rd + n) % 8) x) ((rd + 1) % 8) n =
      ring_records q ((rd + 1) % 8) (n - 1) ++ [x] := by
  obtain ⟨m, rfl⟩ : ∃ m, n = m + 1 := ⟨n - 1, by omega⟩
  rw [ring_records_snoc, Nat.add_sub_cancel,
    show ((rd + 1) % 8 + m) % 8 = (rd + (m + 1)) % 8 by omega,
    getD_set_self _ _ _ _ (by rw [hq]; omega),
    ring_records_set_miss _ _ _ _ _ (by intro j hj; omega)]

theorem hci_h4_send_int_cmd_ring_cases (w : World) (opcode p : Nat) (f : tINT_CMD_CBACK) :
    ((hci_h4_send_int_cmd w opcode p f).1.h4_cb.int_cmd = w.h4_cb.int_cmd ∧
      (hci_h4_send_int_cmd w opcode p f).1.h4_cb.int_cmd_wrt_idx = w.h4_cb.int_cmd_wrt_idx ∧
      (hci_h4_send_int_cmd w opcode p f).1.h4_cb.int_cmd_rsp_pending =
        w.h4_cb.int_cmd_rsp_pending ∧
      8 < w.h4_cb.int_cmd_rsp_pending) ∨
    ((hci_h4_send_int_cmd w opcode p f).1.h4_cb.int_cmd =
        w.h4_cb.int_cmd.set w.h4_cb.int_cmd_wrt_idx ⟨opcode, f⟩ ∧
      (hci_h4_send_int_cmd w opcode p f).1.h4_cb.int_cmd_wrt_idx =
        (w.h4_cb.int_cmd_wrt_idx + 1) % 8 ∧
      (hci_h4_send_int_cmd w opcode p f).1.h4_cb.int_cmd_rsp_pending =
        w.h4_cb.int_cmd_rsp_pending + 1 ∧
      w.h4_cb.int_cmd_rsp_pending ≤ 8 ∧
      (hci_h4_send_int_cmd w opcode p f).2 = true) := by
  unfold hci_h4_send_int_cmd
  split
  · rename_i h
    exact Or.inl ⟨rfl, rfl, rfl, h⟩
  · rename_i h
    have h8 : w.h4_cb.int_cmd_rsp_pending ≤ 8 := by
      have : ¬ (w.h4_cb.int_cmd_rsp_pending > 8) := h
      omega
    exact Or.inr ⟨rfl, land_7 _, rfl, h8, rfl⟩

/-- The ring after `get_acl_data_length_cback`: unchanged, or with the record of
the follow-up command HCI_LE_READ_BUFFER_SIZE stored at the write cursor (a
completion of HCI_READ_BUFFER_SIZE while the ring accepts a command). -/
theorem get_acl_data_length_cback_ring_cases (env : Env) (w : World) (p : Nat) :
    ((get_acl_data_length_cback env w p).h4_cb.int_cmd = w.h4_cb.int_cmd ∧
      (get_acl_data_length_cback env w p).h4_cb.int_cmd_wrt_idx = w.h4_cb.int_cmd_wrt_idx ∧
      (get_acl_data_length_cback env w p).h4_cb.int_cmd_rsp_pending =
        w.h4_cb.int_cmd_rsp_pending ∧
      ¬ (STREAM_TO_UINT16 (w.buf p).data 3 = HCI_READ_BUFFER_SIZE ∧
        w.h4_cb.int_cmd_rsp_pending ≤ 8)) ∨
    ((get_acl_data_length_cback env w p).h4_cb.int_cmd =
        w.h4_cb.int_cmd.set w.h4_cb.int_cmd_wrt_idx
          ⟨HCI_LE_READ_BUFFER_SIZE, tINT_CMD_CBACK.get_acl_data_length_cback⟩ ∧
      (get_acl_data_length_cback env w p).h4_cb.int_cmd_wrt_idx =
        (w.h4_cb.int_cmd_wrt_idx + 1) % 8 ∧
      (get_acl_data_length_cback env w p).h4_cb.int_cmd_rsp_pending =
        w.h4_cb.int_cmd_rsp_pending + 1 ∧
      w.h4_cb.int_cmd_rsp_pending ≤ 8 ∧
      STREAM_TO_UINT16 (w.buf p).data 3 = HCI_READ_BUFFER_SIZE) := by
  have key : ∀ W : World, W.h4_cb.int_cmd = w.h4_cb.int_cmd →
      W.h4_cb.int_cmd_wrt_idx = w.h4_cb.int_cmd_wrt_idx →
      W.h4_cb.int_cmd_rsp_pending = w.h4_cb.int_cmd_rsp_pending →
      STREAM_TO_UINT16 (w.buf p).data 3 = HCI_READ_BUFFER_SIZE →
      ∀ R : World,
        R = (if (hci_h4_send_int_cmd W HCI_LE_READ_BUFFER_SIZE p
            tINT_CMD_CBACK.get_acl_data_length_cback).2 = false then
          (dealloc (hci_h4_send_int_cmd W HCI_LE_READ_BUFFER_SIZE p
            tINT_CMD_CBACK.get_acl_data_length_cback).1 p).emit
              (Effect.postload_cb BT_HC_POSTLOAD_SUCCESS)
          else (hci_h4_send_int_cmd W HCI_LE_READ_BUFFER_SIZE p
            tINT_CMD_CBACK.get_acl_data_length_cback).1) →
      (R.h4_cb.int_cmd = w.h4_cb.int_cmd ∧
        R.h4_cb.int_cmd_wrt_idx = w.h4_cb.int_cmd_wrt_idx ∧
        R.h4_cb.int_cmd_rsp_pending = w.h4_cb.int_cmd_rsp_pending ∧
        ¬ (STREAM_TO_UINT16 (w.buf p).data 3 = HCI_READ_BUFFER_SIZE ∧
          w.h4_cb.int_cmd_rsp_pending ≤ 8)) ∨
      (R.h4_cb.int_cmd = w.h4_cb.int_cmd.set w.h4_cb.int_cmd_wrt_idx
            ⟨HCI_LE_READ_BUFFER_SIZE, tINT_CMD_CBACK.get_acl_data_length_cback⟩ ∧
        R.h4_cb.int_cmd_wrt_idx = (w.h4_cb.int_cmd_wrt_idx + 1) % 8 ∧
        R.h4_cb.int_cmd_rsp_pending = w.h4_cb.int_cmd_rsp_pending + 1 ∧
        w.h4_cb.int_cmd_rsp_pending ≤ 8 ∧
        STREAM_TO_UINT16 (w.buf p).data 3 = HCI_READ_BUFFER_SIZE) := by
    intro W e1 e2 e3 ho R hR
    rcases hci_h4_send_int_cmd_ring_cases W HCI_LE_READ_BUFFER_SIZE p
      tINT_CMD_CBACK.get_acl_data_length_cback with ⟨a, b, c, d⟩ | ⟨a, b, c, d, e⟩
    · left
      rw [e3] at d
      refine ⟨?_, ?_, ?_, fun hh => by omega⟩
      · rw [hR]; split <;> simp only [dealloc, World.emit, a, e1]
      · rw [hR]; split <;> simp only [dealloc, World.emit, b, e2]
      · rw [hR]; split <;> simp only [dealloc, World.emit, c, e3]
    · right
      rw [e3] at d
      rw [hR, e, if_neg (by simp), a, b, c, e1, e2, e3]
      exact ⟨rfl, rfl, rfl, d, ho⟩
  unfold get_acl_data_length_cback
  simp only
  by_cases ho : STREAM_TO_UINT16 (w.buf p).data 3 = HCI_READ_BUFFER_SIZE
  · rw [if_pos ho]
    by_cases hs : (w.buf p).data.getD 5 0 = 0
    · exact key _ (by simp only [hs, if_true]; rfl) (by simp only [hs, if_true]; rfl)
        (by simp only [hs, if_true]; rfl) ho _ rfl
    · exact key _ (by simp only [hs, if_false]; rfl) (by simp only [hs, if_false]; rfl)
        (by simp only [hs, if_false]; rfl) ho _ rfl
  · rw [if_neg ho]
    left
    refine ⟨?_, ?_, ?_, fun hh => ho hh.1⟩ <;>
      (split_ifs <;> rfl)

/-- The world in which the callback of a claimed event has run: receive state
machine, read cursor and deliveries as before the packet, the ring unchanged or
extended by the follow-up command of `get_acl_data_length_cback`. -/
theorem completed_fields (env : Env) (w : World) (pre body : List Nat) (f : tINT_CMD_CBACK)
    (nb : Nat) :
    ∃ Y : World,
      World.completed env w pre body f nb =
        (int_cmd_retire Y).setCb { (int_cmd_retire Y).h4_cb with p_rcv_msg := none } ∧
      Y.h4_cb.rcv_state = H4_RX_MSGTYPE_ST ∧
      Y.h4_cb.int_cmd_rd_idx = w.h4_cb.int_cmd_rd_idx ∧
      delivered Y = delivered w ∧ Y.heap.length = w.heap.length + 1 ∧
      ((Y.h4_cb.int_cmd = w.h4_cb.int_cmd ∧
          Y.h4_cb.int_cmd_wrt_idx = w.h4_cb.int_cmd_wrt_idx ∧
          Y.h4_cb.int_cmd_rsp_pending = w.h4_cb.int_cmd_rsp_pending ∧
          ¬ (f = tINT_CMD_CBACK.get_acl_data_length_cback ∧
            STREAM_TO_UINT16 (pre ++ body) 3 = HCI_READ_BUFFER_SIZE ∧
            w.h4_cb.int_cmd_rsp_pending ≤ 8)) ∨
        (Y.h4_cb.int_cmd = w.h4_cb.int_cmd.set w.h4_cb.int_cmd_wrt_idx
            ⟨HCI_LE_READ_BUFFER_SIZE, tINT_CMD_CBACK.get_acl_data_length_cback⟩ ∧
          Y.h4_cb.int_cmd_wrt_idx = (w.h4_cb.int_cmd_wrt_idx + 1) % 8 ∧
          Y.h4_cb.int_cmd_rsp_pending = w.h4_cb.int_cmd_rsp_pending + 1 ∧
          f = tINT_CMD_CBACK.get_acl_data_length_cback ∧
          STREAM_TO_UINT16 (pre ++ body) 3 = HCI_READ_BUFFER_SIZE ∧
          w.h4_cb.int_cmd_rsp_pending ≤ 8)) := by
  have hd : ∀ (t : List Effect) (m : HC_BT_HDR) (c : Int) (cb : tHCI_H4_CB) (hp : List HC_BT_HDR)
      (a b : Nat),
      delivered ⟨cb, c, hp, w.trace ++ [Effect.btsnoop_capture m true], a, b⟩ = delivered w := by
    intro t m c cb hp a b
    simp [delivered, List.filterMap_append]
  cases f with
  | NULL =>
    have hn : ¬ (tINT_CMD_CBACK.NULL ≠ tINT_CMD_CBACK.NULL) := by simp
    simp only [World.completed, hn, if_false]
    refine ⟨_, rfl, ?_, ?_, ?_, ?_, Or.inl ⟨?_, ?_, ?_, ?_⟩⟩
    · split_ifs <;> rfl
    · split_ifs <;> rfl
    · split_ifs
      · simp only [dealloc, delivered_emit_dealloc]; exact hd [] _ _ _ _ _ _
      · exact hd [] _ _ _ _ _ _
    · split_ifs <;> simp [received, dealloc, World.emit]
    · split_ifs <;> rfl
    · split_ifs <;> rfl
    · split_ifs <;> rfl
    · intro h; exact absurd h.1 (by simp)
  | external k =>
    refine ⟨_, rfl, rfl, rfl, ?_, ?_, Or.inl ⟨rfl, rfl, rfl, ?_⟩⟩
    · simp only [ne_eq, not_false_eq_true, if_true, reduceCtorEq, call_cback,
        delivered_emit_cback]
      exact hd [] _ _ _ _ _ _
    · simp [received, call_cback, World.emit]
    · intro h; exact absurd h.1 (by simp)
  | get_acl_data_length_cback =>
    have hne : tINT_CMD_CBACK.get_acl_data_length_cback ≠ tINT_CMD_CBACK.NULL := by simp
    have key : ∀ X : World, X.h4_cb.int_cmd = w.h4_cb.int_cmd →
        X.h4_cb.int_cmd_wrt_idx = w.h4_cb.int_cmd_wrt_idx →
        X.h4_cb.int_cmd_rsp_pending = w.h4_cb.int_cmd_rsp_pending →
        X.h4_cb.int_cmd_rd_idx = w.h4_cb.int_cmd_rd_idx →
        X.h4_cb.rcv_state = H4_RX_MSGTYPE_ST →
        delivered X = delivered w → X.heap.length = w.heap.length + 1 →
        (X.buf w.heap.length).data = pre ++ body →
        (get_acl_data_length_cback env X w.heap.length).h4_cb.rcv_state = H4_RX_MSGTYPE_ST ∧
        (get_acl_data_length_cback env X w.heap.length).h4_cb.int_cmd_rd_idx =
          w.h4_cb.int_cmd_rd_idx ∧
        delivered (get_acl_data_length_cback env X w.heap.length) = delivered w ∧
        (get_acl_data_length_cback env X w.heap.length).heap.length = w.heap.length + 1 ∧
        (((get_acl_data_length_cback env X w.heap.length).h4_cb.int_cmd = w.h4_cb.int_cmd ∧
          (get_acl_data_length_cback env X w.heap.length).h4_cb.int_cmd_wrt_idx =
            w.h4_cb.int_cmd_wrt_idx ∧
          (get_acl_data_length_cback env X w.heap.length).h4_cb.int_cmd_rsp_pending =
            w.h4_cb.int_cmd_rsp_pending ∧
          ¬ (tINT_CMD_CBACK.get_acl_data_length_cback =
              tINT_CMD_CBACK.get_acl_data_length_cback ∧
            STREAM_TO_UINT16 (pre ++ body) 3 = HCI_READ_BUFFER_SIZE ∧
            w.h4_cb.int_cmd_rsp_pending ≤ 8)) ∨
        ((get_acl_data_length_cback env X w.heap.length).h4_cb.int_cmd =
            w.h4_cb.int_cmd.set w.h4_cb.int_cmd_wrt_idx
              ⟨HCI_LE_READ_BUFFER_SIZE, tINT_CMD_CBACK.get_acl_data_length_cback⟩ ∧
          (get_acl_data_length_cback env X w.heap.length).h4_cb.int_cmd_wrt_idx =
            (w.h4_cb.int_cmd_wrt_idx + 1) % 8 ∧
          (get_acl_data_length_cback env X w.heap.length).h4_cb.int_cmd_rsp_pending =
            w.h4_cb.int_cmd_rsp_pending + 1 ∧
          tINT_CMD_CBACK.get_acl_data_length_cback =
            tINT_CMD_CBACK.get_acl_data_length_cback ∧
          STREAM_TO_UINT16 (pre ++ body) 3 = HCI_READ_BUFFER_SIZE ∧
          w.h4_cb.int_cmd_rsp_pending ≤ 8)) := by
      intro X e1 e2 e3 e4 e5 e6 e7 e8
      refine ⟨?_, ?_, ?_, ?_, ?_⟩
      · rw [(get_acl_data_length_cback_frame env X _).1, e5]
      · rw [get_acl_data_length_cback_rd_idx, e4]
      · rw [get_acl_data_length_cback_delivered, e6]
      · rw [(get_acl_data_length_cback_frame env X _).2.2.2.2.2.2.2.1, e7]
      · rcases get_acl_data_length_cback_ring_cases env X w.heap.length with
          ⟨a, b, c, d⟩ | ⟨a, b, c, d, e⟩
        · rw [e8, e3] at d
          rw [e1] at a; rw [e2] at b; rw [e3] at c
          exact Or.inl ⟨a, b, c, fun h => d ⟨h.2.1, h.2.2⟩⟩
        · rw [e8] at e
          rw [e3] at d
          rw [e1, e2] at a; rw [e2] at b; rw [e3] at c
          exact Or.inr ⟨a, b, c, rfl, e, d⟩
    have hk := key
      { received w 4 MSG_HC_TO_STACK_HCI_EVT pre body nb with
        h4_num_hci_cmd_pkts := (((pre ++ body).getD 2 0 : Nat) : Int)
        trace := w.trace ++
          [Effect.btsnoop_capture
            ⟨MSG_HC_TO_STACK_HCI_EVT, pre.length + body.length, 0, 0, pre ++ body⟩ true] }
      rfl rfl rfl rfl rfl (hd [] _ _ _ _ _ _) (by simp [received])
      (by simp only [World.buf, received, getD_append_length])
    refine ⟨_, ?_, hk⟩
    simp only [World.completed, hne, ne_eq, not_false_eq_true, if_true, call_cback]

theorem ring_view_head (w : World) (r : tINT_CMD_Q) (rest : List tINT_CMD_Q)
    (hinv : ring_inv w) (hv : ring_view w = r :: rest) :
    w.h4_cb.int_cmd.getD w.h4_cb.int_cmd_rd_idx ⟨0, tINT_CMD_CBACK.NULL⟩ = r ∧
    0 < w.h4_cb.int_cmd_rsp_pending ∧
    w.h4_cb.int_cmd_rsp_pending.toNat = rest.length + 1 ∧
    rest = ring_records w.h4_cb.int_cmd ((w.h4_cb.int_cmd_rd_idx + 1) % 8) rest.length := by
  obtain ⟨hq, ⟨h1, h2, h3, h4⟩, h8⟩ := hinv
  have hl := congrArg List.length hv
  rw [ring_view, ring_records_length, List.length_cons] at hl
  rw [ring_view, hl, ring_records_cons, Nat.mod_eq_of_lt h1] at hv
  have := List.cons.inj hv
  exact ⟨this.1, by omega, hl, this.2.symm⟩

/-- The ring after a claimed event: the oldest record is gone, the follow-up
command of `get_acl_data_length_cback`, if any, is the newest record. -/
theorem completed_step (env : Env) (w : World) (pre body : List Nat) (nb : Nat)
    (r : tINT_CMD_Q) (rest : List tINT_CMD_Q)
    (hinv : ring_inv w) (hv : ring_view w = r :: rest) :
    ring_inv (World.completed env w pre body r.cback nb) ∧
    (World.completed env w pre body r.cback nb).h4_cb.rcv_state = H4_RX_MSGTYPE_ST ∧
    delivered (World.completed env w pre body r.cback nb) = delivered w ∧
    ring_view (World.completed env w pre body r.cback nb) =
      rest ++
        (if r.cback = tINT_CMD_CBACK.get_acl_data_length_cback ∧
            STREAM_TO_UINT16 (pre ++ body) 3 = HCI_READ_BUFFER_SIZE
         then [⟨HCI_LE_READ_BUFFER_SIZE, tINT_CMD_CBACK.get_acl_data_length_cback⟩] else []) := by
  obtain ⟨hr, hpos, hn, hrest⟩ := ring_view_head w r rest hinv hv
  obtain ⟨hq, ⟨h1, h2, h3, h4⟩, h8⟩ := hinv
  obtain ⟨Y, hC, hs, hrd, hdl, hlen, hcases⟩ := completed_fields env w pre body r.cback nb
  rw [hC]
  simp only [ring_inv, ring_ok, ring_view, int_cmd_retire, World.setCb, delivered_setCb,
    INT_CMD_PKT_IDX_MASK, land_7, hrd]
  have hd : delivered
      { Y with h4_cb := { Y.h4_cb with
          int_cmd_rd_idx := (w.h4_cb.int_cmd_rd_idx + 1) % 8
          int_cmd_rsp_pending := Y.h4_cb.int_cmd_rsp_pending - 1
          p_rcv_msg := none } } = delivered w := hdl
  rcases hcases with ⟨a, b, c, d⟩ | ⟨a, b, c, d, e, f⟩
  · have hif : ¬ (r.cback = tINT_CMD_CBACK.get_acl_data_length_cback ∧
        STREAM_TO_UINT16 (pre ++ body) 3 = HCI_READ_BUFFER_SIZE) :=
      fun h => d ⟨h.1, h.2, h8⟩
    rw [if_neg hif, List.append_nil, a, b, c]
    have e1 : (w.h4_cb.int_cmd_rsp_pending - 1).toNat = rest.length := by omega
    refine ⟨⟨hq, ⟨Nat.mod_lt _ (by decide), h2, by omega, ?_⟩, by omega⟩, hs, hd, ?_⟩
    · rw [e1, h4, hn]; omega
    · rw [e1]; exact hrest.symm
  · rw [if_pos ⟨d, e⟩, a, b, c]
    have e1 : (w.h4_cb.int_cmd_rsp_pending + 1 - 1).toNat = rest.length + 1 := by omega
    refine ⟨⟨by rw [List.length_set]; exact hq, ⟨Nat.mod_lt _ (by decide),
      Nat.mod_lt _ (by decide), by omega, ?_⟩, by omega⟩, hs, hd, ?_⟩
    · rw [e1, h4, hn]; omega
    · rw [e1, h4, hn, ring_records_send_retire _ _ _ _ hq (by omega) (by omega),
        Nat.add_sub_cancel]
      rw [← hrest]

theorem cc_packet_opcode (nc o : Nat) (ps : List Nat) (ho : o < 65536) :
    STREAM_TO_UINT16
      ([HCI_COMMAND_COMPLETE_EVT, 3 + ps.length] ++ (nc :: o % 256 :: (o >>> 8) % 256 :: ps)) 3 =
      o := by
  simp only [STREAM_TO_UINT16, List.cons_append, List.nil_append, List.getD_cons_succ,
    List.getD_cons_zero, Nat.shiftRight_eq_div_pow, Nat.shiftLeft_eq]
  omega

/-- A Command-Complete packet for the opcode of the oldest pending record is
claimed: the result of `hci_h4_receive_msg` is the world in which the callback
of that record has run and the record is retired. -/
theorem cc_packet_claimed (env : Env) (w : World) (nc o : Nat) (ps : List Nat)
    (r : tINT_CMD_Q) (rest : List tINT_CMD_Q)
    (hcb : env.bt_hc_cbacks = true) (hal : ∀ a b, env.alloc_ok a b = true)
    (hs : w.h4_cb.rcv_state = H4_RX_MSGTYPE_ST) (hinv : ring_inv w)
    (hv : ring_view w = r :: rest) (ho : o < 65536) (hps : ps.length < 253)
    (hop : r.opcode = o) :
    ∃ nb, (hci_h4_receive_msg env w (cc_packet nc o ps)).2 =
      World.completed env w [HCI_COMMAND_COMPLETE_EVT, 3 + ps.length]
        (nc :: o % 256 :: (o >>> 8) % 256 :: ps) r.cback nb := by
  obtain ⟨hr, hpos, _, _⟩ := ring_view_head w r rest hinv hv
  obtain ⟨nb, h⟩ := evt_packet env w HCI_COMMAND_COMPLETE_EVT (3 + ps.length)
    (nc :: o % 256 :: (o >>> 8) % 256 :: ps) hs hcb
    (by simp only [List.length_cons]; omega) (by omega) (hal _ _)
  refine ⟨nb, ?_⟩
  have h0 := h [] 0
  rw [List.append_nil] at h0
  have e : hci_h4_receive_msg env w (cc_packet nc o ps) =
      run env w (4 :: HCI_COMMAND_COMPLETE_EVT :: (3 + ps.length) ::
        (nc :: o % 256 :: (o >>> 8) % 256 :: ps)) 0 := rfl
  rw [e, h0]
  have e2 : ∀ (W : World) (br : Nat), (run env W [] br).2 = W := fun _ _ => rfl
  rw [e2, rx_deliver_evt_hit env w [HCI_COMMAND_COMPLETE_EVT, 3 + ps.length]
    (nc :: o % 256 :: (o >>> 8) % 256 :: ps) nb
    ⟨rfl, hpos, by rw [cc_packet_opcode nc o ps ho, hr, hop]⟩, hr]

/-- A Command-Complete packet for an opcode that is not the one at the read
cursor is handed to the host stack and leaves the ring alone. -/
theorem cc_packet_passed (env : Env) (w : World) (nc o : Nat) (ps : List Nat)
    (hcb : env.bt_hc_cbacks = true) (hal : ∀ a b, env.alloc_ok a b = true)
    (hs : w.h4_cb.rcv_state = H4_RX_MSGTYPE_ST) (ho : o < 65536) (hps : ps.length < 253)
    (hne : o ≠ (int_cmd_slot w).opcode) :
    (hci_h4_receive_msg env w (cc_packet nc o ps)).2.h4_cb.int_cmd = w.h4_cb.int_cmd ∧
    (hci_h4_receive_msg env w (cc_packet nc o ps)).2.h4_cb.int_cmd_rd_idx =
      w.h4_cb.int_cmd_rd_idx ∧
    (hci_h4_receive_msg env w (cc_packet nc o ps)).2.h4_cb.int_cmd_wrt_idx =
      w.h4_cb.int_cmd_wrt_idx ∧
    (hci_h4_receive_msg env w (cc_packet nc o ps)).2.h4_cb.int_cmd_rsp_pending =
      w.h4_cb.int_cmd_rsp_pending ∧
    (hci_h4_receive_msg env w (cc_packet nc o ps)).2.h4_cb.rcv_state = H4_RX_MSGTYPE_ST ∧
    delivered (hci_h4_receive_msg env w (cc_packet nc o ps)).2 =
      delivered w ++ [(w.heap.length,
        ⟨MSG_HC_TO_STACK_HCI_EVT, 2 + (3 + ps.length), 0, 0,
          HCI_COMMAND_COMPLETE_EVT :: (3 + ps.length) :: nc :: o % 256 :: (o >>> 8) % 256 :: ps⟩)] := by
  obtain ⟨nb, h⟩ := evt_packet env w HCI_COMMAND_COMPLETE_EVT (3 + ps.length)
    (nc :: o % 256 :: (o >>> 8) % 256 :: ps) hs hcb
    (by simp only [List.length_cons]; omega) (by omega) (hal _ _)
  have h0 := h [] 0
  rw [List.append_nil] at h0
  have e : hci_h4_receive_msg env w (cc_packet nc o ps) =
      run env w (4 :: HCI_COMMAND_COMPLETE_EVT :: (3 + ps.length) ::
        (nc :: o % 256 :: (o >>> 8) % 256 :: ps)) 0 := rfl
  have e2 : ∀ (W : World) (br : Nat), (run env W [] br).2 = W := fun _ _ => rfl
  obtain ⟨credit, hd⟩ := rx_deliver_evt env w [HCI_COMMAND_COMPLETE_EVT, 3 + ps.length]
    (nc :: o % 256 :: (o >>> 8) % 256 :: ps) nb hcb
    (by
      intro hh
      apply hne
      rw [← cc_packet_opcode nc o ps ho]
      exact hh.2.2)
  rw [e, h0, e2, hd]
  refine ⟨rfl, rfl, rfl, rfl, rfl, ?_⟩
  simp only [delivered, List.filterMap_append, List.filterMap_cons, List.filterMap_nil,
    List.length_cons, List.length_nil, List.cons_append, List.nil_append]
  rw [show 0 + 1 + 1 + (ps.length + 1 + 1 + 1) = 2 + (3 + ps.length) by omega]

/-- An accepted submission to a ring that is not full appends its record to the
pending records. -/
theorem send_int_cmd_view (w : World) (o p : Nat) (f : tINT_CMD_CBACK)
    (hinv : ring_inv w) (hn : w.h4_cb.int_cmd_rsp_pending < 8) :
    (hci_h4_send_int_cmd w o p f).2 = true ∧
    ring_inv (hci_h4_send_int_cmd w o p f).1 ∧
    ring_view (hci_h4_send_int_cmd w o p f).1 = ring_view w ++ [⟨o, f⟩] ∧
    (hci_h4_send_int_cmd w o p f).1.h4_cb.int_cmd_rsp_pending =
      w.h4_cb.int_cmd_rsp_pending + 1 ∧
    (hci_h4_send_int_cmd w o p f).1.h4_cb.rcv_state = w.h4_cb.rcv_state := by
  obtain ⟨hq, ⟨h1, h2, h3, h4⟩, h8⟩ := hinv
  have hrd := hci_h4_send_int_cmd_rd_idx w o p f
  have hst := (hci_h4_send_int_cmd_frame w o p f).1
  rcases hci_h4_send_int_cmd_ring_cases w o p f with ⟨_, _, _, d⟩ | ⟨a, b, c, d, e⟩
  · omega
  · have e1 : (w.h4_cb.int_cmd_rsp_pending + 1).toNat = w.h4_cb.int_cmd_rsp_pending.toNat + 1 := by
      omega
    refine ⟨e, ⟨by rw [a, List.length_set]; exact hq, ⟨by rw [hrd]; exact h1,
      by rw [b]; exact Nat.mod_lt _ (by decide), by rw [c]; omega, ?_⟩, by rw [c]; omega⟩,
      ?_, c, hst⟩
    · rw [b, hrd, c, e1, h4]; omega
    · rw [ring_view, a, hrd, c, e1, h4,
        ring_records_send _ _ _ _ hq (by omega)]
      rfl

theorem send_int_cmds_view :
    ∀ (cs : List (Nat × Nat × tINT_CMD_CBACK)) (w : World), ring_inv w →
      w.h4_cb.int_cmd_rsp_pending + cs.length ≤ 8 →
      (send_int_cmds w cs).2 = List.replicate cs.length true ∧
      ring_inv (send_int_cmds w cs).1 ∧
      ring_view (send_int_cmds w cs).1 =
        ring_view w ++ cs.map (fun c => (⟨c.1, c.2.2⟩ : tINT_CMD_Q)) ∧
      (send_int_cmds w cs).1.h4_cb.rcv_state = w.h4_cb.rcv_state := by
  intro cs
  induction cs with
  | nil =>
    intro w hinv _
    exact ⟨rfl, hinv, by simp [send_int_cmds], rfl⟩
  | cons c cs ih =>
    intro w hinv hn
    simp only [List.length_cons, Nat.cast_add, Nat.cast_one] at hn
    obtain ⟨a1, a2, a3, a4, a5⟩ := send_int_cmd_view w c.1 c.2.1 c.2.2 hinv (by omega)
    obtain ⟨b1, b2, b3, b4⟩ := ih (hci_h4_send_int_cmd w c.1 c.2.1 c.2.2).1 a2
      (by rw [a4]; omega)
    simp only [send_int_cmds]
    refine ⟨?_, b2, ?_, ?_⟩
    · rw [b1, a1]; rfl
    · rw [b3, a3, List.append_assoc]; rfl
    · rw [b4, a5]

theorem completed_trace_external (env : Env) (w : World) (pre body : List Nat) (k nb : Nat) :
    (World.completed env w pre body (tINT_CMD_CBACK.external k) nb).trace =
      w.trace ++
        [Effect.btsnoop_capture
          ⟨MSG_HC_TO_STACK_HCI_EVT, pre.length + body.length, 0, 0, pre ++ body⟩ true,
         Effect.cback k w.heap.length] := by
  simp [World.completed, call_cback, World.emit, int_cmd_retire, World.setCb]

/-- Completions that arrive in the order of the pending records are claimed one
after the other, each with the callback of its record. -/
theorem fifo_aux (env : Env) (hcb : env.bt_hc_cbacks = true)
    (hal : ∀ a b, env.alloc_ok a b = true) :
    ∀ (cs : List (Nat × Nat × tINT_CMD_CBACK)) (es : List (Nat × List Nat)) (W : World)
      (ext : List tINT_CMD_Q),
      ring_inv W → W.h4_cb.rcv_state = H4_RX_MSGTYPE_ST →
      ring_view W = cs.map (fun c => (⟨c.1, c.2.2⟩ : tINT_CMD_Q)) ++ ext →
      (∀ c ∈ cs, c.1 < 65536) → (∀ e ∈ es, e.2.length < 253) →
      ∀ (i : Nat) (c : Nat × Nat × tINT_CMD_CBACK) (e : Nat × List Nat),
        cs[i]? = some c → es[i]? = some e →
        ∃ nb,
          (hci_h4_receive_msg env
            (receive_msgs env W ((List.zipWith (fun c e => cc_packet e.1 c.1 e.2) cs es).take i))
            (cc_packet e.1 c.1 e.2)).2 =
            World.completed env
              (receive_msgs env W ((List.zipWith (fun c e => cc_packet e.1 c.1 e.2) cs es).take i))
              [HCI_COMMAND_COMPLETE_EVT, 3 + e.2.length]
              (e.1 :: c.1 % 256 :: (c.1 >>> 8) % 256 :: e.2) c.2.2 nb ∧
          delivered (World.completed env
              (receive_msgs env W ((List.zipWith (fun c e => cc_packet e.1 c.1 e.2) cs es).take i))
              [HCI_COMMAND_COMPLETE_EVT, 3 + e.2.length]
              (e.1 :: c.1 % 256 :: (c.1 >>> 8) % 256 :: e.2) c.2.2 nb) =
            delivered
              (receive_msgs env W
                ((List.zipWith (fun c e => cc_packet e.1 c.1 e.2) cs es).take i)) := by
  intro cs
  induction cs with
  | nil =>
    intro es W ext _ _ _ _ _ i c e hc _
    simp at hc
  | cons c0 cs ih =>
    intro es W ext hinv hs hv ho hps i c e hc hp
    cases es with
    | nil => simp at hp
    | cons e0 es =>
      rw [List.map_cons, List.cons_append] at hv
      obtain ⟨nb0, h0⟩ := cc_packet_claimed env W e0.1 c0.1 e0.2 ⟨c0.1, c0.2.2⟩ _ hcb hal hs hinv
        hv
        (ho c0 (List.mem_cons_self _ _)) (hps e0 (List.mem_cons_self _ _)) rfl
      obtain ⟨s1, s2, s3, s4⟩ := completed_step env W
        [HCI_COMMAND_COMPLETE_EVT, 3 + e0.2.length]
        (e0.1 :: c0.1 % 256 :: (c0.1 >>> 8) % 256 :: e0.2) nb0 ⟨c0.1, c0.2.2⟩ _ hinv hv
      cases i with
      | zero =>
        simp only [List.getElem?_cons_zero, Option.some.injEq] at hc hp
        subst hc
        subst hp
        simp only [List.take_zero, receive_msgs]
        exact ⟨nb0, h0, s3⟩
      | succ j =>
        simp only [List.getElem?_cons_succ] at hc hp
        simp only [List.zipWith_cons_cons, List.take_succ_cons, receive_msgs]
        rw [h0]
        rw [List.append_assoc] at s4
        exact ih es _ _ s1 s2 s4 (fun x hx => ho x (List.mem_cons_of_mem _ hx))
          (fun x hx => hps x (List.mem_cons_of_mem _ hx)) j c e hc hp

theorem ring_inv_init (w0 : World) : ring_inv (hci_h4_init w0) :=
  ⟨rfl, ⟨show 0 < 8 by decide, show 0 < 8 by decide, show (0 : Int) ≤ 0 by decide,
    show 0 = (0 + 0) % 8 by decide⟩, show (0 : Int) ≤ 8 by decide⟩

/-- C37: internal completions are matched in FIFO order. From the state of
`hci_h4_init`, with registered host callbacks and successful allocations, let
`k ≤ 8` internal commands `cs` (opcode, buffer, callback) be submitted with
`hci_h4_send_int_cmd`: all are accepted. When Command-Complete packets for
their opcodes then arrive in that order (the i-th with the credit byte and
the return parameters `es[i]`, each packet handed to `hci_h4_receive_msg`),
the i-th packet is claimed by the i-th record: the result is the world `World.completed`, in which
the i-th registered callback has been invoked on the event buffer and the
record is retired; nothing is handed to `data_ind`, and a callback of another
module shows in the trace right after the trace of the packet. Moreover, in any
world waiting for a type byte, a Command-Complete packet whose opcode differs
from the opcode at the read cursor (in particular the opcode of a pending
record further back in the ring) is not claimed: slots, cursors and pending
count are unchanged and the event buffer is handed to `data_ind`. -/
theorem internal_completions_fifo (env : Env) (w0 : World)
    (cs : List (Nat × Nat × tINT_CMD_CBACK)) (es : List (Nat × List Nat))
    (hcb : env.bt_hc_cbacks = true) (hal : ∀ a b, env.alloc_ok a b = true)
    (hk : cs.length ≤ 8) (ho : ∀ c ∈ cs, c.1 < 65536) (hps : ∀ e ∈ es, e.2.length < 253) :
    (send_int_cmds (hci_h4_init w0) cs).2 = List.replicate cs.length true ∧
    (∀ (i : Nat) (c : Nat × Nat × tINT_CMD_CBACK) (e : Nat × List Nat),
      cs[i]? = some c → es[i]? = some e →
      ∃ nb,
        (hci_h4_receive_msg env
          (receive_msgs env (send_int_cmds (hci_h4_init w0) cs).1
            ((List.zipWith (fun c e => cc_packet e.1 c.1 e.2) cs es).take i))
          (cc_packet e.1 c.1 e.2)).2 =
          World.completed env
            (receive_msgs env (send_int_cmds (hci_h4_init w0) cs).1
              ((List.zipWith (fun c e => cc_packet e.1 c.1 e.2) cs es).take i))
            [HCI_COMMAND_COMPLETE_EVT, 3 + e.2.length]
            (e.1 :: c.1 % 256 :: (c.1 >>> 8) % 256 :: e.2) c.2.2 nb ∧
        delivered (hci_h4_receive_msg env
          (receive_msgs env (send_int_cmds (hci_h4_init w0) cs).1
            ((List.zipWith (fun c e => cc_packet e.1 c.1 e.2) cs es).take i))
          (cc_packet e.1 c.1 e.2)).2 =
          delivered (receive_msgs env (send_int_cmds (hci_h4_init w0) cs).1
            ((List.zipWith (fun c e => cc_packet e.1 c.1 e.2) cs es).take i)) ∧
        (∀ k, c.2.2 = tINT_CMD_CBACK.external k →
          (hci_h4_receive_msg env
            (receive_msgs env (send_int_cmds (hci_h4_init w0) cs).1
              ((List.zipWith (fun c e => cc_packet e.1 c.1 e.2) cs es).take i))
            (cc_packet e.1 c.1 e.2)).2.trace =
          (receive_msgs env (send_int_cmds (hci_h4_init w0) cs).1
              ((List.zipWith (fun c e => cc_packet e.1 c.1 e.2) cs es).take i)).trace ++
            [Effect.btsnoop_capture
              ⟨MSG_HC_TO_STACK_HCI_EVT, 2 + (3 + e.2.length), 0, 0,
                HCI_COMMAND_COMPLETE_EVT :: (3 + e.2.length) :: e.1 :: c.1 % 256 ::
                  (c.1 >>> 8) % 256 :: e.2⟩ true,
             Effect.cback k
              (receive_msgs env (send_int_cmds (hci_h4_init w0) cs).1
                ((List.zipWith (fun c e => cc_packet e.1 c.1 e.2) cs es).take i)).heap.length])) ∧
    (∀ (w : World) (nc o : Nat) (ps : List Nat),
      w.h4_cb.rcv_state = H4_RX_MSGTYPE_ST → o < 65536 → ps.length < 253 →
      o ≠ (int_cmd_slot w).opcode →
      (hci_h4_receive_msg env w (cc_packet nc o ps)).2.h4_cb.int_cmd = w.h4_cb.int_cmd ∧
      (hci_h4_receive_msg env w (cc_packet nc o ps)).2.h4_cb.int_cmd_rd_idx =
        w.h4_cb.int_cmd_rd_idx ∧
      (hci_h4_receive_msg env w (cc_packet nc o ps)).2.h4_cb.int_cmd_wrt_idx =
        w.h4_cb.int_cmd_wrt_idx ∧
      (hci_h4_receive_msg env w (cc_packet nc o ps)).2.h4_cb.int_cmd_rsp_pending =
        w.h4_cb.int_cmd_rsp_pending ∧
      delivered (hci_h4_receive_msg env w (cc_packet nc o ps)).2 =
        delivered w ++ [(w.heap.length,
          ⟨MSG_HC_TO_STACK_HCI_EVT, 2 + (3 + ps.length), 0, 0,
            HCI_COMMAND_COMPLETE_EVT :: (3 + ps.length) :: nc :: o % 256 ::
              (o >>> 8) % 256 :: ps⟩)]) := by
  obtain ⟨a1, a2, a3, a4⟩ := send_int_cmds_view cs (hci_h4_init w0) (ring_inv_init w0)
    (by
      have : (hci_h4_init w0).h4_cb.int_cmd_rsp_pending = 0 := rfl
      rw [this]; omega)
  refine ⟨a1, ?_, ?_⟩
  · intro i c e hc hp
    have hv : ring_view (send_int_cmds (hci_h4_init w0) cs).1 =
        cs.map (fun c => (⟨c.1, c.2.2⟩ : tINT_CMD_Q)) ++ [] := by
      rw [a3, List.append_nil]; rfl
    obtain ⟨nb, h1, h2⟩ := fifo_aux env hcb hal cs es _ [] a2 a4 hv ho hps i c e hc hp
    refine ⟨nb, h1, ?_, ?_⟩
    · rw [h1]; exact h2
    · intro k hkk
      rw [h1, hkk, completed_trace_external]
      simp only [List.length_cons, List.length_nil, List.cons_append, List.nil_append]
      rw [show 0 + 1 + 1 + (e.2.length + 1 + 1 + 1) = 2 + (3 + e.2.length) by omega]
  · intro w nc o ps hs ho1 hps1 hne
    obtain ⟨b1, b2, b3, b4, _, b6⟩ := cc_packet_passed env w nc o ps hcb hal hs ho1 hps1 hne
    exact ⟨b1, b2, b3, b4, b6⟩

theorem internal_completions_fifo_witness :
    (send_int_cmds (hci_h4_init World.boot)
      [(0x1005, 0, tINT_CMD_CBACK.external 1), (0x0C03, 0, tINT_CMD_CBACK.external 2)]).2 =
      List.replicate 2 true :=
  (internal_completions_fifo Env.ideal World.boot
    [(0x1005, 0, tINT_CMD_CBACK.external 1), (0x0C03, 0, tINT_CMD_CBACK.external 2)]
    [(1, [0]), (1, [0])] rfl (fun _ _ => rfl) (by decide) (by decide) (by decide)).1

/-- C38: bootstrap chaining through the ring. In a world waiting for a type
byte whose ring holds exactly one pending record, HCI_READ_BUFFER_SIZE (0x1005)
with `get_acl_data_length_cback`, a Command-Complete packet for 0x1005 handed to
`hci_h4_receive_msg` is claimed: the callback runs before the record is
retired, and afterwards the ring holds exactly one pending record, at the read
cursor, with opcode HCI_LE_READ_BUFFER_SIZE (0x2002) and the same callback. A
following Command-Complete packet for 0x2002 is claimed as well and leaves the
ring empty (pending count 0, the cursors equal). Neither event is handed to
`data_ind`. -/
theorem bootstrap_chain (env : Env) (w : World) (nc1 nc2 : Nat) (ps1 ps2 : List Nat)
    (hcb : env.bt_hc_cbacks = true) (hal : ∀ a b, env.alloc_ok a b = true)
    (hs : w.h4_cb.rcv_state = H4_RX_MSGTYPE_ST) (hinv : ring_inv w)
    (hv : ring_view w =
      [⟨HCI_READ_BUFFER_SIZE, tINT_CMD_CBACK.get_acl_data_length_cback⟩])
    (h1 : ps1.length < 253) (h2 : ps2.length < 253) :
    ∃ nb1 nb2,
      (hci_h4_receive_msg env w (cc_packet nc1 HCI_READ_BUFFER_SIZE ps1)).2 =
        World.completed env w [HCI_COMMAND_COMPLETE_EVT, 3 + ps1.length]
          (nc1 :: HCI_READ_BUFFER_SIZE % 256 :: (HCI_READ_BUFFER_SIZE >>> 8) % 256 :: ps1)
          tINT_CMD_CBACK.get_acl_data_length_cback nb1 ∧
      ring_view (hci_h4_receive_msg env w (cc_packet nc1 HCI_READ_BUFFER_SIZE ps1)).2 =
        [⟨HCI_LE_READ_BUFFER_SIZE, tINT_CMD_CBACK.get_acl_data_length_cback⟩] ∧
      (hci_h4_receive_msg env w
        (cc_packet nc1 HCI_READ_BUFFER_SIZE ps1)).2.h4_cb.int_cmd_rsp_pending = 1 ∧
      int_cmd_slot (hci_h4_receive_msg env w (cc_packet nc1 HCI_READ_BUFFER_SIZE ps1)).2 =
        ⟨HCI_LE_READ_BUFFER_SIZE, tINT_CMD_CBACK.get_acl_data_length_cback⟩ ∧
      delivered (hci_h4_receive_msg env w (cc_packet nc1 HCI_READ_BUFFER_SIZE ps1)).2 =
        delivered w ∧
      (hci_h4_receive_msg env
        (hci_h4_receive_msg env w (cc_packet nc1 HCI_READ_BUFFER_SIZE ps1)).2
        (cc_packet nc2 HCI_LE_READ_BUFFER_SIZE ps2)).2 =
        World.completed env (hci_h4_receive_msg env w (cc_packet nc1 HCI_READ_BUFFER_SIZE ps1)).2
          [HCI_COMMAND_COMPLETE_EVT, 3 + ps2.length]
          (nc2 :: HCI_LE_READ_BUFFER_SIZE % 256 :: (HCI_LE_READ_BUFFER_SIZE >>> 8) % 256 :: ps2)
          tINT_CMD_CBACK.get_acl_data_length_cback nb2 ∧
      ring_view (hci_h4_receive_msg env
        (hci_h4_receive_msg env w (cc_packet nc1 HCI_READ_BUFFER_SIZE ps1)).2
        (cc_packet nc2 HCI_LE_READ_BUFFER_SIZE ps2)).2 = [] ∧
      (hci_h4_receive_msg env
        (hci_h4_receive_msg env w (cc_packet nc1 HCI_READ_BUFFER_SIZE ps1)).2
        (cc_packet nc2 HCI_LE_READ_BUFFER_SIZE ps2)).2.h4_cb.int_cmd_rsp_pending = 0 ∧
      (hci_h4_receive_msg env
        (hci_h4_receive_msg env w (cc_packet nc1 HCI_READ_BUFFER_SIZE ps1)).2
        (cc_packet nc2 HCI_LE_READ_BUFFER_SIZE ps2)).2.h4_cb.int_cmd_wrt_idx =
      (hci_h4_receive_msg env
        (hci_h4_receive_msg env w (cc_packet nc1 HCI_READ_BUFFER_SIZE ps1)).2
        (cc_packet nc2 HCI_LE_READ_BUFFER_SIZE ps2)).2.h4_cb.int_cmd_rd_idx ∧
      delivered (hci_h4_receive_msg env
        (hci_h4_receive_msg env w (cc_packet nc1 HCI_READ_BUFFER_SIZE ps1)).2
        (cc_packet nc2 HCI_LE_READ_BUFFER_SIZE ps2)).2 = delivered w := by
  have hview : ∀ (W : World) (n : Nat), ring_inv W → (ring_view W).length = n →
      W.h4_cb.int_cmd_rsp_pending = (n : Int) := by
    intro W n hi hl
    rw [ring_view, ring_records_length] at hl
    have := hi.2.1.2.2.1
    omega
  obtain ⟨nb1, e1⟩ := cc_packet_claimed env w nc1 HCI_READ_BUFFER_SIZE ps1
    ⟨HCI_READ_BUFFER_SIZE, tINT_CMD_CBACK.get_acl_data_length_cback⟩ [] hcb hal hs hinv hv
    (by decide) h1 rfl
  obtain ⟨s1, s2, s3, s4⟩ := completed_step env w [HCI_COMMAND_COMPLETE_EVT, 3 + ps1.length]
    (nc1 :: HCI_READ_BUFFER_SIZE % 256 :: (HCI_READ_BUFFER_SIZE >>> 8) % 256 :: ps1) nb1
    ⟨HCI_READ_BUFFER_SIZE, tINT_CMD_CBACK.get_acl_data_length_cback⟩ [] hinv hv
  rw [if_pos ⟨rfl, cc_packet_opcode nc1 HCI_READ_BUFFER_SIZE ps1 (by decide)⟩, List.nil_append] at s4
  rw [← e1] at s1 s2 s3 s4
  obtain ⟨nb2, e2⟩ := cc_packet_claimed env _ nc2 HCI_LE_READ_BUFFER_SIZE ps2
    ⟨HCI_LE_READ_BUFFER_SIZE, tINT_CMD_CBACK.get_acl_data_length_cback⟩ [] hcb hal s2 s1 s4
    (by decide) h2 rfl
  obtain ⟨t1, t2, t3, t4⟩ := completed_step env
    (hci_h4_receive_msg env w (cc_packet nc1 HCI_READ_BUFFER_SIZE ps1)).2
    [HCI_COMMAND_COMPLETE_EVT, 3 + ps2.length]
    (nc2 :: HCI_LE_READ_BUFFER_SIZE % 256 :: (HCI_LE_READ_BUFFER_SIZE >>> 8) % 256 :: ps2) nb2
    ⟨HCI_LE_READ_BUFFER_SIZE, tINT_CMD_CBACK.get_acl_data_length_cback⟩ [] s1 s4
  have hno : ¬ (tINT_CMD_CBACK.get_acl_data_length_cback =
        tINT_CMD_CBACK.get_acl_data_length_cback ∧
      STREAM_TO_UINT16 ([HCI_COMMAND_COMPLETE_EVT, 3 + ps2.length] ++
        (nc2 :: HCI_LE_READ_BUFFER_SIZE % 256 :: (HCI_LE_READ_BUFFER_SIZE >>> 8) % 256 :: ps2)) 3 =
        HCI_READ_BUFFER_SIZE) := by
    rw [cc_packet_opcode nc2 HCI_LE_READ_BUFFER_SIZE ps2 (by decide)]
    decide
  rw [if_neg hno, List.append_nil] at t4
  rw [← e2] at t1 t2 t3 t4
  have p1 := hview _ 1 s1 (by rw [s4]; rfl)
  have p2 := hview _ 0 t1 (by rw [t4]; rfl)
  refine ⟨nb1, nb2, e1, s4, p1, (ring_view_head _ _ _ s1 s4).1, s3, e2, t4, p2, ?_, ?_⟩
  · have := t1.2.1.2.2.2
    rw [p2] at this
    rw [this]
    have := t1.2.1.1
    simp only [Int.toNat_zero, Nat.cast_zero, Nat.add_zero] at *
    omega
  · rw [t3, s3]

theorem bootstrap_chain_witness :
    ∃ nb1 : Nat,
      (hci_h4_receive_msg Env.ideal
        (hci_h4_send_int_cmd (hci_h4_init World.boot) HCI_READ_BUFFER_SIZE 0
          tINT_CMD_CBACK.get_acl_data_length_cback).1
        (cc_packet 1 HCI_READ_BUFFER_SIZE [0, 0xFD, 0x03, 0x40, 8, 0, 1, 0])).2 =
        World.completed Env.ideal
          (hci_h4_send_int_cmd (hci_h4_init World.boot) HCI_READ_BUFFER_SIZE 0
            tINT_CMD_CBACK.get_acl_data_length_cback).1
          [HCI_COMMAND_COMPLETE_EVT, 3 + 8]
          (1 :: HCI_READ_BUFFER_SIZE % 256 :: (HCI_READ_BUFFER_SIZE >>> 8) % 256 ::
            [0, 0xFD, 0x03, 0x40, 8, 0, 1, 0])
          tINT_CMD_CBACK.get_acl_data_length_cback nb1 :=
  have h := bootstrap_chain Env.ideal
    (hci_h4_send_int_cmd (hci_h4_init World.boot) HCI_READ_BUFFER_SIZE 0
      tINT_CMD_CBACK.get_acl_data_length_cback).1
    1 1 [0, 0xFD, 0x03, 0x40, 8, 0, 1, 0] [0, 0x1B, 0, 4] rfl (fun _ _ => rfl) rfl
    (by decide) (by decide) (by decide) (by decide)
  h.elim fun nb1 h1 => h1.elim fun _ h2 => ⟨nb1, h2.1⟩

/-! ## Reassembly inside the allocated buffer (C40) -/

theorem rx_safe_nil (env : Env) (ok : World → Bool) (w : World) (h : ok w = true) :
    rx_safe env ok w [] := by
  intro k br
  cases k <;> simpa [hci_h4_receive_loop] using h

theorem rx_safe_cons (env : Env) (ok : World → Bool) (w : World) (b : Nat) (rest : List Nat)
    (h : ok w = true)
    (hn : rx_safe env ok (rx_byte env w b rest).1 (rx_byte env w b rest).2.1) :
    rx_safe env ok w (b :: rest) := by
  intro k br
  cases k with
  | zero => simpa [hci_h4_receive_loop] using h
  | succ k =>
    rw [hci_h4_receive_loop]
    exact hn k _

theorem cap_ok_of (B cap : Nat) (w : World) (h1 : (w.buf B).len ≤ cap)
    (hcap : B < w.heap.length → (w.buf B).data.length = cap)
    (h2 : w.h4_cb.rcv_state ≠ H4_RX_DATA_ST) : cap_ok B cap w = true := by
  simp only [cap_ok, store_ok, Bool.and_eq_true, decide_eq_true_eq]
  refine ⟨⟨⟨h1, ?_⟩, hcap⟩, fun hs => absurd hs h2⟩
  cases hs : w.h4_cb.rcv_state <;> first | rfl | exact absurd hs h2

theorem cap_ok_data (B cap : Nat) (w : World) (h1 : (w.buf B).len ≤ cap)
    (hs : w.h4_cb.rcv_state = H4_RX_DATA_ST) (hp : w.h4_cb.p_rcv_msg = some B)
    (hpl : B < w.heap.length) (hr : 1 ≤ w.h4_cb.rcv_len)
    (hcap : (w.buf B).data.length = cap)
    (hc : (w.buf B).len + w.h4_cb.rcv_len ≤ cap) :
    cap_ok B cap w = true := by
  simp only [cap_ok, store_ok, hs, hp, Bool.and_eq_true, decide_eq_true_eq]
  exact ⟨⟨⟨h1, hpl, hr, by rw [hcap]; exact hc⟩, fun _ => hcap⟩, fun _ => trivial⟩

theorem rx_byte_type_acl (env : Env) (w : World) (rest : List Nat)
    (hs : w.h4_cb.rcv_state = H4_RX_MSGTYPE_ST) :
    rx_byte env w 2 rest = (hdr_world w [] 4, rest, 0) := by
  rw [rx_byte_msgtype _ _ _ _ hs]
  simp [rx_msgtype, hdr_world, H4_TYPE_ACL_DATA, H4_TYPE_EVENT, hci_preamble_table,
    HCI_ACL_PREAMBLE_SIZE, World.setCb]

theorem rx_byte_hdr (env : Env) (w : World) (bs : List Nat) (k b : Nat) (rest : List Nat)
    (hk : 2 ≤ k) (hk2 : k < 65536) (hb : bs.length < 6) :
    rx_byte env (hdr_world w bs k) b rest = (hdr_world w (bs ++ [b]) (k - 1), rest, 0) := by
  have h1 : u16_sub k 1 = k - 1 := u16_sub_of_le (by omega)
  have h2 : ¬ (k - 1 = 0) := by omega
  have h3 : (bs ++ List.replicate (6 - bs.length) 0).set bs.length b =
      bs ++ [b] ++ List.replicate (6 - (bs.length + 1)) 0 := by
    obtain ⟨m, hm⟩ : ∃ m, 6 - bs.length = m + 1 := ⟨5 - bs.length, by omega⟩
    rw [hm, show 6 - (bs.length + 1) = m by omega, List.replicate_succ,
      List.set_append_right _ _ (Nat.le_refl _), Nat.sub_self, List.set_cons_zero,
      List.append_assoc]
    rfl
  rw [rx_byte_len _ _ _ _ (by rfl)]
  simp only [rx_len, hdr_world, World.setCb, h1, h2, if_false, Bool.false_eq_true, h3,
    List.length_append, List.length_singleton]
  rw [Nat.mod_eq_of_lt (by omega)]

theorem u16_le_self (x : Nat) : u16 x ≤ x := Nat.mod_le _ _

/-- One pass of `case H4_RX_DATA_ST`, whatever the bulk read hands over and
whether or not the 16-bit `len` wraps: the control block changes in `rcv_len`
only, the buffer keeps its capacity and its event, its `len` grows by at most
the number of bytes stored, the other buffers are unchanged. -/
theorem rx_data_store_cap (env : Env) (w : World) (p b : Nat) (rest : List Nat)
    (hpl : p < w.heap.length) (hr : 1 ≤ w.h4_cb.rcv_len) :
    (rx_data_store env w p b rest).2.2 ≤ rest.length ∧
    (rx_data_store env w p b rest).2.2 + 1 ≤ w.h4_cb.rcv_len ∧
    (rx_data_store env w p b rest).2.1 = rest.drop (rx_data_store env w p b rest).2.2 ∧
    (rx_data_store env w p b rest).1.h4_cb =
      { w.h4_cb with
        rcv_len := w.h4_cb.rcv_len - 1 - (rx_data_store env w p b rest).2.2 } ∧
    (rx_data_store env w p b rest).1.heap.length = w.heap.length ∧
    (∀ x, x ≠ p → (rx_data_store env w p b rest).1.buf x = w.buf x) ∧
    ((rx_data_store env w p b rest).1.buf p).len ≤
      (w.buf p).len + 1 + (rx_data_store env w p b rest).2.2 ∧
    ((rx_data_store env w p b rest).1.buf p).data.length = (w.buf p).data.length ∧
    ((rx_data_store env w p b rest).1.buf p).event = (w.buf p).event := by
  have h1 : u16_sub w.h4_cb.rcv_len 1 = w.h4_cb.rcv_len - 1 := u16_sub_of_le hr
  by_cases hone : w.h4_cb.rcv_len - 1 > 0
  · have hmin : min (min (env.bulk w.n_bulk) (w.h4_cb.rcv_len - 1)) rest.length ≤
        w.h4_cb.rcv_len - 1 :=
      le_trans (Nat.min_le_left _ _) (Nat.min_le_right _ _)
    have h3 : u16_sub (w.h4_cb.rcv_len - 1)
        (min (min (env.bulk w.n_bulk) (w.h4_cb.rcv_len - 1)) rest.length) =
        w.h4_cb.rcv_len - 1 - min (min (env.bulk w.n_bulk) (w.h4_cb.rcv_len - 1)) rest.length :=
      u16_sub_of_le hmin
    have e : rx_data_store env w p b rest =
        ({ w with
            heap := (w.heap.set p { w.buf p with
                data := (w.buf p).data.set (w.buf p).len b, len := u16 ((w.buf p).len + 1) }).set p
              { w.buf p with
                data := write_bytes ((w.buf p).data.set (w.buf p).len b)
                  (u16 ((w.buf p).len + 1))
                  (rest.take (min (min (env.bulk w.n_bulk) (w.h4_cb.rcv_len - 1)) rest.length))
                len := u16 (u16 ((w.buf p).len + 1) +
                  min (min (env.bulk w.n_bulk) (w.h4_cb.rcv_len - 1)) rest.length) }
            h4_cb := { w.h4_cb with
              rcv_len := w.h4_cb.rcv_len - 1 -
                min (min (env.bulk w.n_bulk) (w.h4_cb.rcv_len - 1)) rest.length }
            n_bulk := w.n_bulk + 1 },
          rest.drop (min (min (env.bulk w.n_bulk) (w.h4_cb.rcv_len - 1)) rest.length),
          min (min (env.bulk w.n_bulk) (w.h4_cb.rcv_len - 1)) rest.length) := by
      simp only [rx_data_store, World.setBuf, World.setCb, World.buf, h1, hone, if_true, h3,
        getD_set_self _ _ _ _ hpl]
    rw [e]
    simp only [World.buf]
    refine ⟨Nat.min_le_right _ _, by omega, trivial, trivial, ?_, ?_, ?_, ?_, ?_⟩
    · simp only [List.length_set]
    · intro x hx
      rw [getD_set_ne _ _ _ _ _ hx, getD_set_ne _ _ _ _ _ hx]
    · rw [getD_set_self _ _ _ _ (by rw [List.length_set]; exact hpl)]
      have a1 := u16_le_self (u16 ((w.heap.getD p ⟨0, 0, 0, 0, []⟩).len + 1) +
        min (min (env.bulk w.n_bulk) (w.h4_cb.rcv_len - 1)) rest.length)
      have a2 := u16_le_self ((w.heap.getD p ⟨0, 0, 0, 0, []⟩).len + 1)
      simp only at a1 a2 ⊢
      omega
    · rw [getD_set_self _ _ _ _ (by rw [List.length_set]; exact hpl)]
      simp only [write_bytes_length, List.length_set]
    · rw [getD_set_self _ _ _ _ (by rw [List.length_set]; exact hpl)]
  · have e : rx_data_store env w p b rest =
        ({ w with
            heap := w.heap.set p { w.buf p with
                data := (w.buf p).data.set (w.buf p).len b, len := u16 ((w.buf p).len + 1) }
            h4_cb := { w.h4_cb with rcv_len := w.h4_cb.rcv_len - 1 } },
          rest, 0) := by
      simp only [rx_data_store, World.setBuf, World.setCb, World.buf, h1, hone, if_false]
    rw [e]
    simp only [World.buf]
    refine ⟨Nat.zero_le _, by omega, rfl, rfl, ?_, ?_, ?_, ?_, ?_⟩
    · simp only [List.length_set]
    · intro x hx
      rw [getD_set_ne _ _ _ _ _ hx]
    · rw [getD_set_self _ _ _ _ hpl]
      have a2 := u16_le_self ((w.heap.getD p ⟨0, 0, 0, 0, []⟩).len + 1)
      simp only at a2 ⊢
      omega
    · rw [getD_set_self _ _ _ _ hpl]
      simp only [List.length_set]
    · rw [getD_set_self _ _ _ _ hpl]

theorem cap_core_transfer (B h cap : Nat) (w W : World) (hc : cap_core B h cap w)
    (hl : W.heap.length = w.heap.length)
    (hq : ∀ x ∈ W.h4_cb.acl_rx_q, x ∈ w.h4_cb.acl_rx_q)
    (hd : (W.buf B).data.length = (w.buf B).data.length)
    (he : (W.buf B).event = (w.buf B).event)
    (ho : ∀ x, x ≠ B → W.buf x = w.buf x) : cap_core B h cap W := by
  obtain ⟨c1, c2, c3, c4⟩ := hc
  refine ⟨by rw [hl]; exact c1, by rw [hd]; exact c2, by rw [he]; exact c3, ?_⟩
  intro x hx hxB
  have : saved_handle W x = saved_handle w x := by
    simp only [saved_handle, ho x hxB]
  rw [this]
  exact c4 x (hq x hx) hxB

/-- The end check on the receive buffer `p`: what it leaves alone. -/
theorem end_chk_cap (w : World) (p : Nat) (hp : w.h4_cb.p_rcv_msg = some p)
    (hpl : p < w.heap.length) (hm : w.h4_cb.preload_buffer.length = 6) :
    (acl_rx_frame_end_chk w).1.h4_cb.p_rcv_msg = some p ∧
    (acl_rx_frame_end_chk w).1.h4_cb.preload_buffer.length = 6 ∧
    (acl_rx_frame_end_chk w).1.heap.length = w.heap.length ∧
    (∀ x ∈ (acl_rx_frame_end_chk w).1.h4_cb.acl_rx_q, x ∈ w.h4_cb.acl_rx_q) ∧
    ((acl_rx_frame_end_chk w).1.buf p).len = (w.buf p).len ∧
    ((acl_rx_frame_end_chk w).1.buf p).data = (w.buf p).data ∧
    ((acl_rx_frame_end_chk w).1.buf p).event = (w.buf p).event ∧
    (∀ x, x ≠ p → (acl_rx_frame_end_chk w).1.buf x = w.buf x) := by
  obtain ⟨pl, d, m, e, hl, hd⟩ := end_chk_eq w p hp hpl
  have hd := hd (by omega)
  rw [e]
  simp only [World.buf]
  refine ⟨hp, by rw [hl, hm], by rw [List.length_set], ?_, ?_, ?_, ?_, ?_⟩
  · intro x hx
    split at hx
    · exact List.mem_of_mem_erase hx
    · exact hx
  · rw [getD_set_self _ _ _ _ hpl]
  · rw [getD_set_self _ _ _ _ hpl]; exact hd
  · rw [getD_set_self _ _ _ _ hpl]
  · intro x hx
    rw [getD_set_ne _ _ _ _ _ hx]

/-- The delivery block on an ACL buffer: what it leaves alone. -/
theorem rx_deliver_cap (env : Env) (w : World) (p : Nat) (hp : w.h4_cb.p_rcv_msg = some p)
    (he : (w.buf p).event = MSG_HC_TO_STACK_HCI_ACL) :
    (rx_deliver env w).h4_cb.rcv_state = w.h4_cb.rcv_state ∧
    (rx_deliver env w).h4_cb.acl_rx_q = w.h4_cb.acl_rx_q ∧
    (rx_deliver env w).heap = w.heap := by
  obtain ⟨hf, hh⟩ := rx_deliver_frame env w p hp
  have hne : (w.buf p).event ≠ MSG_HC_TO_STACK_HCI_EVT := by rw [he]; decide
  exact ⟨hf.1, hf.2.2.2.1, hh hne⟩

/-- The end check followed by the return to H4_RX_MSGTYPE_ST, with or without
the delivery block: the buffer keeps its `len`, its bytes and its event, the
other buffers are unchanged and no buffer joins the queue. -/
theorem end_then_cap (env : Env) (w : World) (p : Nat) (hp : w.h4_cb.p_rcv_msg = some p)
    (hpl : p < w.heap.length)
    (hev : (w.buf p).event = MSG_HC_TO_STACK_HCI_ACL)
    (hm : w.h4_cb.preload_buffer.length = 6) (X : World)
    (hX : X = (acl_rx_frame_end_chk w).1.setCb
      { (acl_rx_frame_end_chk w).1.h4_cb with rcv_state := H4_RX_MSGTYPE_ST }) :
    (X.h4_cb.rcv_state = H4_RX_MSGTYPE_ST ∧ X.heap.length = w.heap.length ∧
      (∀ x ∈ X.h4_cb.acl_rx_q, x ∈ w.h4_cb.acl_rx_q) ∧ (X.buf p).len = (w.buf p).len ∧
      (X.buf p).data = (w.buf p).data ∧ (X.buf p).event = (w.buf p).event ∧
      (∀ x, x ≠ p → X.buf x = w.buf x)) ∧
    ((rx_deliver env X).h4_cb.rcv_state = H4_RX_MSGTYPE_ST ∧
      (rx_deliver env X).heap.length = w.heap.length ∧
      (∀ x ∈ (rx_deliver env X).h4_cb.acl_rx_q, x ∈ w.h4_cb.acl_rx_q) ∧
      ((rx_deliver env X).buf p).len = (w.buf p).len ∧
      ((rx_deliver env X).buf p).data = (w.buf p).data ∧
      ((rx_deliver env X).buf p).event = (w.buf p).event ∧
      (∀ x, x ≠ p → (rx_deliver env X).buf x = w.buf x)) := by
  obtain ⟨a1, a2, a3, a4, a5, a6, a7, a8⟩ := end_chk_cap w p hp hpl hm
  have b1 : X.h4_cb.rcv_state = H4_RX_MSGTYPE_ST := by rw [hX]; rfl
  have b2 : X.heap = (acl_rx_frame_end_chk w).1.heap := by rw [hX]; rfl
  have b3 : X.h4_cb.acl_rx_q = (acl_rx_frame_end_chk w).1.h4_cb.acl_rx_q := by rw [hX]; rfl
  have b4 : X.h4_cb.p_rcv_msg = some p := by rw [hX]; exact a1
  have b5 : ∀ x, X.buf x = (acl_rx_frame_end_chk w).1.buf x := by
    intro x; simp only [World.buf, b2]
  have hXe : (X.buf p).event = MSG_HC_TO_STACK_HCI_ACL := by rw [b5, a7, hev]
  obtain ⟨c1, c2, c3⟩ := rx_deliver_cap env X p b4 hXe
  have b6 : ∀ x, (rx_deliver env X).buf x = (acl_rx_frame_end_chk w).1.buf x := by
    intro x; simp only [World.buf, c3, b2]
  exact ⟨⟨b1, by rw [b2]; exact a3, by rw [b3]; exact a4, by rw [b5]; exact a5,
    by rw [b5]; exact a6, by rw [b5]; exact a7, fun x hx => by rw [b5]; exact a8 x hx⟩,
    ⟨by rw [c1]; exact b1, by rw [c3, b2]; exact a3, by rw [c2, b3]; exact a4,
    by rw [b6]; exact a5, by rw [b6]; exact a6, by rw [b6]; exact a7,
    fun x hx => by rw [b6]; exact a8 x hx⟩⟩

/-- The end of a segment in the receive buffer `p`: the machine waits for a
type byte again, the buffer keeps its `len`, its bytes and its event, the other
buffers are unchanged and no buffer joins the queue. -/
theorem after_end_cap (env : Env) (w : World) (p : Nat) (hp : w.h4_cb.p_rcv_msg = some p)
    (hpl : p < w.heap.length) (h0 : w.h4_cb.rcv_len = 0)
    (ht : w.h4_cb.rcv_msg_type = H4_TYPE_ACL_DATA)
    (hev : (w.buf p).event = MSG_HC_TO_STACK_HCI_ACL)
    (hm : w.h4_cb.preload_buffer.length = 6) :
    (after_end env w).h4_cb.rcv_state = H4_RX_MSGTYPE_ST ∧
    (after_end env w).heap.length = w.heap.length ∧
    (∀ x ∈ (after_end env w).h4_cb.acl_rx_q, x ∈ w.h4_cb.acl_rx_q) ∧
    ((after_end env w).buf p).len = (w.buf p).len ∧
    ((after_end env w).buf p).data = (w.buf p).data ∧
    ((after_end env w).buf p).event = (w.buf p).event ∧
    (∀ x, x ≠ p → (after_end env w).buf x = w.buf x) := by
  obtain ⟨k1, k2⟩ := end_then_cap env w p hp hpl hev hm _ rfl
  cases he2 : (acl_rx_frame_end_chk w).2
  · simp only [after_end, rx_data_end, h0, ht, he2, if_true, Bool.false_eq_true, if_false]
    exact k1
  · simp only [after_end, rx_data_end, h0, ht, he2, if_true, Bool.true_eq_false, if_false]
    exact k2

/-- The body of a segment that is stored in the base buffer `B`: every pass
stays inside the capacity, and after the last byte the machine is at a packet
boundary with `len` grown by at most the length of the body. -/
theorem body_safe (env : Env) (B h cap R : Nat) (tail : List Nat)
    (hk : ∀ Y : World, cap_core B h cap Y → Y.h4_cb.rcv_state = H4_RX_MSGTYPE_ST →
      (Y.buf B).len + R ≤ cap → rx_safe env (cap_ok B cap) Y tail) :
    ∀ (r : Nat) (W : World) (xs : List Nat), cap_core B h cap W →
      W.h4_cb.rcv_state = H4_RX_DATA_ST → W.h4_cb.p_rcv_msg = some B →
      W.h4_cb.rcv_msg_type = H4_TYPE_ACL_DATA → W.h4_cb.rcv_len = r → 1 ≤ r →
      xs.length = r → W.h4_cb.preload_buffer.length = 6 → (W.buf B).len + r + R ≤ cap →
      rx_safe env (cap_ok B cap) W (xs ++ tail) := by
  intro r
  induction r using Nat.strong_induction_on with
  | _ r ih =>
    intro W xs hc hs hp ht hr h1 hx hm hb
    cases xs with
    | nil => simp only [List.length_nil] at hx; omega
    | cons x xs =>
      simp only [List.length_cons] at hx
      rw [List.cons_append]
      have hc' := hc
      obtain ⟨c1, c2, c3, c4⟩ := hc'
      apply rx_safe_cons
      · exact cap_ok_data B cap W (by omega) hs hp c1 (by omega) c2 (by rw [hr]; omega)
      · have e : rx_byte env W x (xs ++ tail) =
            (after_end env (rx_data_store env W B x (xs ++ tail)).1,
              (rx_data_store env W B x (xs ++ tail)).2.1,
              (rx_data_store env W B x (xs ++ tail)).2.2) :=
          rx_byte_data env W x B (xs ++ tail) hs hp
        obtain ⟨s1, s2, s3, s4, s5, s6, s7, s8, s9⟩ :=
          rx_data_store_cap env W B x (xs ++ tail) c1 (by omega)
        rw [e]
        simp only
        generalize (rx_data_store env W B x (xs ++ tail)).2.2 = k at *
        generalize (rx_data_store env W B x (xs ++ tail)).1 = W1 at *
        rw [s3, List.drop_append_of_le_length (by omega)]
        have q1 : W1.h4_cb.acl_rx_q = W.h4_cb.acl_rx_q := by rw [s4]
        have q2 : W1.h4_cb.rcv_state = H4_RX_DATA_ST := by rw [s4]; exact hs
        have q3 : W1.h4_cb.p_rcv_msg = some B := by rw [s4]; exact hp
        have q4 : W1.h4_cb.rcv_msg_type = H4_TYPE_ACL_DATA := by rw [s4]; exact ht
        have q5 : W1.h4_cb.rcv_len = r - 1 - k := by rw [s4, hr]
        have q6 : W1.h4_cb.preload_buffer.length = 6 := by rw [s4]; exact hm
        have hc1 : cap_core B h cap W1 :=
          cap_core_transfer B h cap W W1 hc s5 (fun y hy => by rw [q1] at hy; exact hy) s8 s9 s6
        by_cases hz : r - 1 - k = 0
        · have hnil : xs.drop k = [] := List.drop_eq_nil_of_le (by omega)
          rw [hnil, List.nil_append]
          obtain ⟨a1, a2, a3, a4, a5, a6, a7⟩ := after_end_cap env W1 B q3 hc1.1
            (by rw [q5]; exact hz) q4 hc1.2.2.1 q6
          apply hk
          · exact cap_core_transfer B h cap W1 _ hc1 a2 a3 (by rw [a5]) a6 a7
          · exact a1
          · rw [a4]; omega
        · rw [after_end_more env W1 (by rw [q5]; exact hz)]
          exact ih (r - 1 - k) (by omega) W1 (xs.drop k) hc1 q2 q3 q4 q5 (by omega)
            (by rw [List.length_drop]; omega) q6 (by omega)

/-- The body of a segment without a buffer is skipped. -/
theorem ignore_safe (env : Env) (B h cap R : Nat) (tail : List Nat)
    (hk : ∀ Y : World, cap_core B h cap Y → Y.h4_cb.rcv_state = H4_RX_MSGTYPE_ST →
      (Y.buf B).len + R ≤ cap → rx_safe env (cap_ok B cap) Y tail) :
    ∀ (xs : List Nat) (W : World), cap_core B h cap W →
      W.h4_cb.rcv_state = H4_RX_IGNORE_ST → W.h4_cb.rcv_len = xs.length → 1 ≤ xs.length →
      (W.buf B).len + R ≤ cap → rx_safe env (cap_ok B cap) W (xs ++ tail) := by
  intro xs
  induction xs with
  | nil => intro W _ _ _ h1 _; simp only [List.length_nil] at h1; omega
  | cons x xs ih =>
    intro W hc hs hr _ hb
    rw [List.cons_append]
    apply rx_safe_cons
    · exact cap_ok_of B cap W (by omega) (fun _ => hc.2.1) (by rw [hs]; decide)
    · rw [rx_byte_ignore _ _ _ _ hs]
      simp only [List.length_cons] at hr
      have h1 : u16_sub W.h4_cb.rcv_len 1 = xs.length := by
        rw [u16_sub_of_le (by omega), hr]; omega
      cases xs with
      | nil =>
        simp only [List.length_nil] at h1
        simp only [rx_ignore, World.setCb, h1, if_true, List.nil_append]
        exact hk _ hc rfl hb
      | cons y ys =>
        have h2 : ¬ ((y :: ys).length = 0) := by simp
        simp only [rx_ignore, World.setCb, h1, h2, if_false]
        exact ih _ hc hs rfl (by simp) hb

/-- The last preamble byte of an ACL packet that is not a Start packet: the
receive buffer is looked for and the state after the preamble is entered. -/
theorem rx_byte_cont_last (env : Env) (w : World) (h bc n : Nat) (rest : List Nat)
    (hh : h < 4096) (hn : n < 65536) :
    rx_byte env
      (hdr_world w [acl_word h ACL_RX_PKT_CONTINUE bc % 256,
        acl_word h ACL_RX_PKT_CONTINUE bc / 256, n % 256] 1) (n / 256) rest =
      (if (rx_len_acquired
            (acl_acquire env
              (acl_hdr w (acl_preamble h ACL_RX_PKT_CONTINUE bc n ++ [0, 0]) 4)) n).2
        then rx_deliver env (rx_len_acquired
            (acl_acquire env
              (acl_hdr w (acl_preamble h ACL_RX_PKT_CONTINUE bc n ++ [0, 0]) 4)) n).1
        else (rx_len_acquired
            (acl_acquire env
              (acl_hdr w (acl_preamble h ACL_RX_PKT_CONTINUE bc n ++ [0, 0]) 4)) n).1,
        rest, 0) := by
  obtain ⟨_, _, _, e4⟩ := acl_word_bytes (n := n) (t := [0, 0]) h ACL_RX_PKT_CONTINUE bc hh
    (by decide)
  have hml : u16 ((n / 256) <<< 8 + n % 256) = n := by
    rw [shl_8, u16_of_lt (by omega)]; omega
  have hsub : u16_sub 1 1 = 0 := by decide
  have hne : ¬ (ACL_RX_PKT_CONTINUE = ACL_RX_PKT_START) := by decide
  rw [rx_byte_len _ _ _ _ (by rfl)]
  simp only [rx_len, hdr_world, hsub, H4_TYPE_ACL_DATA, e4,
    hml, hne, World.setCb, List.getD_cons_zero, List.getD_cons_succ,
    List.set_cons_zero, List.set_cons_succ, List.replicate, if_false, if_true,
    Nat.reduceAdd, Nat.reduceMod, Nat.reduceSub, ne_eq, not_false_eq_true, and_self,
    and_false, Bool.false_eq_true, Nat.add_zero, List.nil_append, List.length_cons,
    List.length_nil, List.cons_append,
    acl_acquire, acl_hdr, acl_preamble]

theorem acl_rx_q_find_mem (w : World) (h p : Nat) (hf : acl_rx_q_find w h = some p) :
    p ∈ w.h4_cb.acl_rx_q ∧ saved_handle w p = h := by
  unfold acl_rx_q_find at hf
  refine ⟨List.mem_of_find?_eq_some hf, ?_⟩
  have := List.find?_some hf
  simpa using this

theorem acl_rx_q_find_cases (B h cap : Nat) (w : World) (hc : cap_core B h cap w) :
    (acl_rx_q_find w h = none ∧ ∀ p ∈ w.h4_cb.acl_rx_q, saved_handle w p ≠ h) ∨
    (acl_rx_q_find w h = some B ∧ w.h4_cb.acl_rx_q.length ≠ 0) := by
  cases hf : acl_rx_q_find w h with
  | none =>
    left
    refine ⟨rfl, ?_⟩
    intro p hp
    have := List.find?_eq_none.mp hf p hp
    simpa using this
  | some p =>
    right
    obtain ⟨h1, h2⟩ := acl_rx_q_find_mem w h p hf
    have hpB : p = B := by
      by_contra hne
      exact hc.2.2.2 p h1 hne h2
    subst hpB
    exact ⟨rfl, by intro h0; rw [List.length_eq_zero.mp h0] at h1; simp at h1⟩

theorem cap_ok_hdr (B cap : Nat) (w : World) (bs : List Nat) (k : Nat)
    (h1 : (w.buf B).len ≤ cap) (hcap : B < w.heap.length → (w.buf B).data.length = cap) :
    cap_ok B cap (hdr_world w bs k) = true :=
  cap_ok_of B cap _ h1 hcap (by simp [hdr_world, World.setCb])

/-- A Continuation packet on handle `h` at a packet boundary: every pass stays
inside the capacity of `B`, and the next boundary is reached with `len` grown by
at most the HCI length of the packet. -/
theorem cont_safe (env : Env) (B h cap R bc : Nat) (body tail : List Nat)
    (hh : h < 4096) (hn2 : body.length < 65536)
    (hk : ∀ Y : World, cap_core B h cap Y → Y.h4_cb.rcv_state = H4_RX_MSGTYPE_ST →
      (Y.buf B).len + R ≤ cap → rx_safe env (cap_ok B cap) Y tail)
    (W : World) (hc : cap_core B h cap W) (hs : W.h4_cb.rcv_state = H4_RX_MSGTYPE_ST)
    (hb : (W.buf B).len + body.length + R ≤ cap) :
    rx_safe env (cap_ok B cap) W (acl_cont_packet h (bc, body) ++ tail) := by
  have hlen : (W.buf B).len ≤ cap := by omega
  have hp : acl_cont_packet h (bc, body) ++ tail =
      2 :: (acl_word h ACL_RX_PKT_CONTINUE bc % 256) ::
        (acl_word h ACL_RX_PKT_CONTINUE bc / 256) :: (body.length % 256) ::
        (body.length / 256) :: (body ++ tail) := by
    simp [acl_cont_packet, acl_preamble]
  rw [hp]
  apply rx_safe_cons _ _ _ _ _ (cap_ok_of B cap W hlen (fun _ => hc.2.1) (by rw [hs]; decide))
  rw [rx_byte_type_acl env W _ hs]
  apply rx_safe_cons _ _ _ _ _ (cap_ok_hdr B cap W _ _ hlen (fun _ => hc.2.1))
  rw [rx_byte_hdr env W [] 4 _ _ (by decide) (by decide) (by decide)]
  simp only [List.nil_append, Nat.reduceSub]
  apply rx_safe_cons _ _ _ _ _ (cap_ok_hdr B cap W _ _ hlen (fun _ => hc.2.1))
  rw [rx_byte_hdr env W [acl_word h ACL_RX_PKT_CONTINUE bc % 256] 3 _ _ (by decide) (by decide)
    (by simp)]
  simp only [List.cons_append, List.nil_append, Nat.reduceSub]
  apply rx_safe_cons _ _ _ _ _ (cap_ok_hdr B cap W _ _ hlen (fun _ => hc.2.1))
  rw [rx_byte_hdr env W [acl_word h ACL_RX_PKT_CONTINUE bc % 256,
    acl_word h ACL_RX_PKT_CONTINUE bc / 256] 2 _ _ (by decide) (by decide) (by simp)]
  simp only [List.cons_append, List.nil_append, Nat.reduceSub]
  apply rx_safe_cons _ _ _ _ _ (cap_ok_hdr B cap W _ _ hlen (fun _ => hc.2.1))
  rw [rx_byte_cont_last env W h bc body.length (body ++ tail) hh hn2]
  simp only
  rcases acl_rx_q_find_cases B h cap W hc with ⟨hf, hq⟩ | ⟨hf, hq⟩
  · -- no base buffer in the queue
    have hA := acl_rx_frame_buffer_alloc_orphan env
      (acl_hdr W (acl_preamble h ACL_RX_PKT_CONTINUE bc body.length ++ [0, 0]) 4) h bc
      body.length hh rfl hq
    have hX : acl_acquire env
        (acl_hdr W (acl_preamble h ACL_RX_PKT_CONTINUE bc body.length ++ [0, 0]) 4) =
        { W with h4_cb := { W.h4_cb with
            rcv_msg_type := 2, rcv_len := body.length, rcv_state := H4_RX_LEN_ST,
            preload_count := 4,
            preload_buffer := acl_preamble h ACL_RX_PKT_CONTINUE bc body.length ++ [0, 0],
            p_rcv_msg := none } } := by
      unfold acl_acquire
      rw [hA]
      rfl
    rw [hX]
    by_cases h0 : body.length = 0
    · have hnil : body = [] := List.length_eq_zero.mp h0
      subst hnil
      simp only [rx_len_acquired, World.setCb, List.length_nil,
        if_true, Bool.false_eq_true, if_false, List.nil_append]
      exact hk _ hc rfl (by simpa using hb)
    · simp only [rx_len_acquired, World.setCb, h0, if_false, Bool.false_eq_true]
      exact ignore_safe env B h cap R tail hk body _ hc rfl rfl (by omega)
        (by show (W.buf B).len + R ≤ cap; omega)
  · -- the base buffer takes the segment
    have hA := acl_rx_frame_buffer_alloc_cont env
      (acl_hdr W (acl_preamble h ACL_RX_PKT_CONTINUE bc body.length ++ [0, 0]) 4) h bc
      body.length B hh rfl hf hq
    obtain ⟨c1, c2, c3, c4⟩ := hc
    have hcX : ∀ (cb : tHCI_H4_CB), cb.acl_rx_q = W.h4_cb.acl_rx_q →
        cap_core B h cap
          { W with
            h4_cb := cb
            heap := W.heap.set B
              { W.buf B with
                data := UINT16_TO_STREAM (W.buf B).data 2
                  (u16 (STREAM_TO_UINT16 (W.buf B).data 2 + body.length)) } } := by
      intro cb hcb
      apply cap_core_transfer B h cap W _ ⟨c1, c2, c3, c4⟩
      · simp only [List.length_set]
      · intro x hx; rw [← hcb]; exact hx
      · simp only [World.buf, getD_set_self _ _ _ _ c1, UINT16_TO_STREAM, write_bytes_length]
      · simp only [World.buf, getD_set_self _ _ _ _ c1]
      · intro x hx
        simp only [World.buf, getD_set_ne _ _ _ _ _ hx]
    have hlX : ∀ (cb : tHCI_H4_CB),
        (World.buf
          { W with
            h4_cb := cb
            heap := W.heap.set B
              { W.buf B with
                data := UINT16_TO_STREAM (W.buf B).data 2
                  (u16 (STREAM_TO_UINT16 (W.buf B).data 2 + body.length)) } } B).len =
          (W.buf B).len := by
      intro cb
      simp only [World.buf, getD_set_self _ _ _ _ c1]
    have hX : acl_acquire env
        (acl_hdr W (acl_preamble h ACL_RX_PKT_CONTINUE bc body.length ++ [0, 0]) 4) =
        { W with
          h4_cb := { W.h4_cb with
            rcv_msg_type := 2, rcv_len := body.length, rcv_state := H4_RX_LEN_ST,
            preload_count := 4,
            preload_buffer := acl_preamble h ACL_RX_PKT_CONTINUE bc body.length ++ [0, 0],
            p_rcv_msg := some B }
          heap := W.heap.set B
            { W.buf B with
              data := UINT16_TO_STREAM (W.buf B).data 2
                (u16 (STREAM_TO_UINT16 (W.buf B).data 2 + body.length)) } } := by
      unfold acl_acquire
      rw [hA]
      rfl
    rw [hX]
    by_cases h0 : body.length = 0
    · have hnil : body = [] := List.length_eq_zero.mp h0
      subst hnil
      have key : ∀ X : World,
          X = { W with
            h4_cb := { W.h4_cb with
              rcv_msg_type := 2, rcv_len := 0, rcv_state := H4_RX_LEN_ST, preload_count := 4,
              preload_buffer := acl_preamble h ACL_RX_PKT_CONTINUE bc 0 ++ [0, 0],
              p_rcv_msg := some B }
            heap := W.heap.set B
              { W.buf B with
                data := UINT16_TO_STREAM (W.buf B).data 2
                  (u16 (STREAM_TO_UINT16 (W.buf B).data 2 + 0)) } } →
          rx_safe env (cap_ok B cap)
            (if (rx_len_acquired X 0).2 then rx_deliver env (rx_len_acquired X 0).1
              else (rx_len_acquired X 0).1) tail := by
        intro X hXe
        have x1 : X.h4_cb.p_rcv_msg = some B := by rw [hXe]
        have x2 : X.h4_cb.rcv_msg_type = H4_TYPE_ACL_DATA := by rw [hXe]; rfl
        have x3 : cap_core B h cap X := by rw [hXe]; exact hcX _ rfl
        have x4 : X.h4_cb.preload_buffer.length = 6 := by rw [hXe]; rfl
        have x5 : (X.buf B).len = (W.buf B).len := by rw [hXe]; exact hlX _
        have e : rx_len_acquired X 0 =
            ((acl_rx_frame_end_chk X).1.setCb
              { (acl_rx_frame_end_chk X).1.h4_cb with rcv_state := H4_RX_MSGTYPE_ST }, true) := by
          simp only [rx_len_acquired, x1, x2, ne_eq, not_true_eq_false, if_false, if_true]
        rw [e]
        simp only [if_true]
        obtain ⟨_, a1, a2, a3, a4, a5, a6, a7⟩ :=
          end_then_cap env X B x1 x3.1 x3.2.2.1 x4 _ rfl
        apply hk
        · exact cap_core_transfer B h cap X _ x3 a2 a3 (by rw [a5]) a6 a7
        · exact a1
        · rw [a4, x5]; simpa using hb
      simp only [List.length_nil, List.nil_append] at key ⊢
      exact key _ rfl
    · have key : ∀ X : World,
          X = { W with
            h4_cb := { W.h4_cb with
              rcv_msg_type := 2, rcv_len := body.length, rcv_state := H4_RX_LEN_ST,
              preload_count := 4,
              preload_buffer := acl_preamble h ACL_RX_PKT_CONTINUE bc body.length ++ [0, 0],
              p_rcv_msg := some B }
            heap := W.heap.set B
              { W.buf B with
                data := UINT16_TO_STREAM (W.buf B).data 2
                  (u16 (STREAM_TO_UINT16 (W.buf B).data 2 + body.length)) } } →
          rx_safe env (cap_ok B cap)
            (if (rx_len_acquired X body.length).2
              then rx_deliver env (rx_len_acquired X body.length).1
              else (rx_len_acquired X body.length).1) (body ++ tail) := by
        intro X hXe
        have x1 : X.h4_cb.p_rcv_msg = some B := by rw [hXe]
        have x2 : X.h4_cb.rcv_msg_type = H4_TYPE_ACL_DATA := by rw [hXe]; rfl
        have x3 : cap_core B h cap X := by rw [hXe]; exact hcX _ rfl
        have x4 : X.h4_cb.preload_buffer.length = 6 := by rw [hXe]; rfl
        have x5 : (X.buf B).len = (W.buf B).len := by rw [hXe]; exact hlX _
        have x6 : X.h4_cb.rcv_len = body.length := by rw [hXe]
        have e : rx_len_acquired X body.length =
            (X.setCb { X.h4_cb with rcv_state := H4_RX_DATA_ST }, false) := by
          simp only [rx_len_acquired, x1, h0, ne_eq, not_false_eq_true, if_true]
        rw [e]
        simp only [Bool.false_eq_true, if_false]
        apply body_safe env B h cap R tail hk body.length
        · exact x3
        · rfl
        · exact x1
        · exact x2
        · exact x6
        · omega
        · rfl
        · exact x4
        · show (X.buf B).len + body.length + R ≤ cap
          rw [x5]; exact hb
      exact key _ rfl

/-- The sequence of Continuation packets on handle `h` from a packet boundary,
the lengths of the bodies adding up to no more than the room left in `B`. -/
theorem conts_safe (env : Env) (B h cap : Nat) (hh : h < 4096) :
    ∀ (cs : List (Nat × List Nat)) (W : World), cap_core B h cap W →
      W.h4_cb.rcv_state = H4_RX_MSGTYPE_ST → (∀ c ∈ cs, c.2.length < 65536) →
      (W.buf B).len + (acl_cont_bodies cs).length ≤ cap →
      rx_safe env (cap_ok B cap) W (acl_cont_stream h cs) := by
  intro cs
  induction cs with
  | nil =>
    intro W hc hs _ hb
    exact rx_safe_nil env _ W
      (cap_ok_of B cap W (by omega) (fun _ => hc.2.1) (by rw [hs]; decide))
  | cons c cs ih =>
    intro W hc hs hn hb
    obtain ⟨bc, body⟩ := c
    simp only [acl_cont_bodies, List.length_append] at hb
    rw [acl_cont_stream]
    exact cont_safe env B h cap (acl_cont_bodies cs).length bc body _ hh
      (hn (bc, body) (List.mem_cons_self _ _))
      (fun Y y1 y2 y3 => ih Y y1 y2 (fun x hx => hn x (List.mem_cons_of_mem _ hx)) y3)
      W hc hs (by omega)

/-- The fourth preamble byte of an ACL Start packet with non-zero HCI length:
two more bytes are read for the L2CAP length. -/
theorem rx_byte_start_4 (env : Env) (w : World) (h bc n : Nat) (rest : List Nat)
    (hh : h < 4096) (hn0 : n ≠ 0) (hn : n < 65536) :
    rx_byte env
      (hdr_world w [acl_word h ACL_RX_PKT_START bc % 256,
        acl_word h ACL_RX_PKT_START bc / 256, n % 256] 1) (n / 256) rest =
      (hdr_world w (acl_preamble h ACL_RX_PKT_START bc n) 2, rest, 0) := by
  obtain ⟨_, _, _, e4⟩ := acl_word_bytes (n := n) (t := [0, 0]) h ACL_RX_PKT_START bc hh
    (by decide)
  have hml : u16 ((n / 256) <<< 8 + n % 256) = n := by
    rw [shl_8, u16_of_lt (by omega)]; omega
  have hsub : u16_sub 1 1 = 0 := by decide
  rw [rx_byte_len _ _ _ _ (by rfl)]
  simp only [rx_len, hdr_world, hsub, H4_TYPE_ACL_DATA, e4,
    hn0, hml, World.setCb, List.getD_cons_zero, List.getD_cons_succ,
    List.set_cons_zero, List.set_cons_succ, List.replicate, if_false, if_true,
    Nat.reduceAdd, Nat.reduceMod, Nat.reduceSub, ne_eq, not_false_eq_true, and_self,
    Bool.false_eq_true, Nat.add_zero, List.nil_append, List.length_cons, List.length_nil,
    List.cons_append, acl_preamble]

/-- The second byte of the L2CAP length of an ACL Start packet: the buffer is
looked for and the state after the preamble is entered. -/
theorem rx_byte_start_last (env : Env) (w : World) (h bc n L : Nat) (rest : List Nat)
    (hn0 : n ≠ 0) (hn : n < 65536) :
    rx_byte env
      (hdr_world w (acl_preamble h ACL_RX_PKT_START bc n ++ [L % 256]) 1) (L / 256) rest =
      ((rx_len_acquired
          (acl_acquire env
            (acl_hdr w (acl_preamble h ACL_RX_PKT_START bc n ++ [L % 256, L / 256]) 6)) n).1,
        rest, 0) := by
  have hml : u16 ((n / 256) <<< 8 + n % 256) = n := by
    rw [shl_8, u16_of_lt (by omega)]; omega
  have hsub3 : u16_sub 1 1 = 0 := by decide
  have hfalse : ∀ X : World, (rx_len_acquired X n).2 = false :=
    fun X => rx_len_acquired_snd X n hn0
  rw [rx_byte_len _ _ _ _ (by rfl)]
  simp only [rx_len, hdr_world, hsub3, H4_TYPE_ACL_DATA, hml, hn0, World.setCb,
    List.getD_cons_zero, List.getD_cons_succ, List.set_cons_zero, List.set_cons_succ,
    if_false, if_true, Nat.reduceAdd, Nat.reduceMod, Nat.reduceSub, ne_eq, not_false_eq_true,
    Nat.reduceEqDiff, and_false, and_true, true_and, false_and, Nat.add_zero,
    hfalse, Bool.false_eq_true, acl_acquire, acl_hdr, acl_preamble,
    List.cons_append, List.nil_append, List.length_cons, List.length_nil, List.replicate]

theorem getD_append_ne {α : Type} (l : List α) (a d : α) (x : Nat) (hx : x ≠ l.length) :
    (l ++ [a]).getD x d = l.getD x d := by
  rcases Nat.lt_or_gt_of_ne hx with h | h
  · exact List.getD_append _ _ _ _ h
  · rw [List.getD_eq_default _ _ (by simp; omega), List.getD_eq_default _ _ (by omega)]

theorem buf_beyond (w : World) : w.buf w.heap.length = ⟨0, 0, 0, 0, []⟩ := by
  simp only [World.buf]
  exact List.getD_eq_default _ _ (Nat.le_refl _)

/-- An ACL Start packet on a handle without a queued base buffer, from a packet
boundary: the new buffer `B` has the capacity `L + 8`, every pass stays inside
it, and the next boundary is reached with `len` at most 4 plus the HCI length
of the packet. -/
theorem start_safe (env : Env) (w0 : World) (h bc L R : Nat) (body0 tail : List Nat)
    (hs : w0.h4_cb.rcv_state = H4_RX_MSGTYPE_ST) (hh : h < 4096)
    (hcb : env.bt_hc_cbacks = true)
    (hal : env.alloc_ok w0.n_alloc
      (L + HCI_ACL_PREAMBLE_SIZE + L2CAP_HEADER_SIZE + BT_HC_HDR_SIZE) = true)
    (hq : ∀ p ∈ w0.h4_cb.acl_rx_q, saved_handle w0 p ≠ h)
    (hb1 : 1 ≤ body0.length) (hn : 2 + body0.length < 65536)
    (hfit : 2 + body0.length + R ≤ L + 4)
    (hk : ∀ Y : World, cap_core w0.heap.length h (L + 8) Y →
      Y.h4_cb.rcv_state = H4_RX_MSGTYPE_ST → (Y.buf w0.heap.length).len + R ≤ L + 8 →
      rx_safe env (cap_ok w0.heap.length (L + 8)) Y tail) :
    rx_safe env (cap_ok w0.heap.length (L + 8)) w0 (acl_start_packet h bc L body0 ++ tail) := by
  have hlen : (w0.buf w0.heap.length).len ≤ L + 8 := by rw [buf_beyond]; exact Nat.zero_le _
  have hno : w0.heap.length < w0.heap.length → (w0.buf w0.heap.length).data.length = L + 8 :=
    fun hl => absurd hl (Nat.lt_irrefl _)
  have hp : acl_start_packet h bc L body0 ++ tail =
      2 :: (acl_word h ACL_RX_PKT_START bc % 256) ::
        (acl_word h ACL_RX_PKT_START bc / 256) :: ((2 + body0.length) % 256) ::
        ((2 + body0.length) / 256) :: (L % 256) :: (L / 256) :: (body0 ++ tail) := by
    simp [acl_start_packet, acl_preamble]
  rw [hp]
  apply rx_safe_cons _ _ _ _ _ (cap_ok_of _ _ w0 hlen hno (by rw [hs]; decide))
  rw [rx_byte_type_acl env w0 _ hs]
  apply rx_safe_cons _ _ _ _ _ (cap_ok_hdr _ _ w0 _ _ hlen hno)
  rw [rx_byte_hdr env w0 [] 4 _ _ (by decide) (by decide) (by decide)]
  simp only [List.nil_append, Nat.reduceSub]
  apply rx_safe_cons _ _ _ _ _ (cap_ok_hdr _ _ w0 _ _ hlen hno)
  rw [rx_byte_hdr env w0 [acl_word h ACL_RX_PKT_START bc % 256] 3 _ _ (by decide) (by decide)
    (by simp)]
  simp only [List.cons_append, List.nil_append, Nat.reduceSub]
  apply rx_safe_cons _ _ _ _ _ (cap_ok_hdr _ _ w0 _ _ hlen hno)
  rw [rx_byte_hdr env w0 [acl_word h ACL_RX_PKT_START bc % 256,
    acl_word h ACL_RX_PKT_START bc / 256] 2 _ _ (by decide) (by decide) (by simp)]
  simp only [List.cons_append, List.nil_append, Nat.reduceSub]
  apply rx_safe_cons _ _ _ _ _ (cap_ok_hdr _ _ w0 _ _ hlen hno)
  rw [rx_byte_start_4 env w0 h bc (2 + body0.length) _ hh (by omega) hn]
  simp only
  apply rx_safe_cons _ _ _ _ _ (cap_ok_hdr _ _ w0 _ _ hlen hno)
  rw [rx_byte_hdr env w0 (acl_preamble h ACL_RX_PKT_START bc (2 + body0.length)) 2 _ _
    (by decide) (by decide) (by simp [acl_preamble])]
  simp only [Nat.reduceSub]
  apply rx_safe_cons _ _ _ _ _ (cap_ok_hdr _ _ w0 _ _ hlen hno)
  rw [rx_byte_start_last env w0 h bc (2 + body0.length) L _ (by omega) hn]
  simp only
  have hA := acl_rx_frame_buffer_alloc_start env
    (acl_hdr w0 (acl_preamble h ACL_RX_PKT_START bc (2 + body0.length) ++ [L % 256, L / 256]) 6)
    h bc (2 + body0.length) L hh hcb rfl hq hal
  have hX : acl_acquire env
      (acl_hdr w0 (acl_preamble h ACL_RX_PKT_START bc (2 + body0.length) ++
        [L % 256, L / 256]) 6) =
      { w0 with
        h4_cb := { w0.h4_cb with
          rcv_msg_type := 2, rcv_state := H4_RX_LEN_ST, preload_count := 6,
          preload_buffer :=
            acl_preamble h ACL_RX_PKT_START bc (2 + body0.length) ++ [L % 256, L / 256],
          rcv_len := if 2 + body0.length ≠ 0 then u16_sub (2 + body0.length) 2 else 0
          acl_rx_q :=
            if 2 + body0.length ≠ 0 ∧ L + L2CAP_HEADER_SIZE > 2 + body0.length then
              utils_enqueue w0.h4_cb.acl_rx_q w0.heap.length
            else w0.h4_cb.acl_rx_q
          p_rcv_msg := some w0.heap.length }
        heap := w0.heap ++
          [⟨MSG_HC_TO_STACK_HCI_ACL, 6, 0, 0,
            write_bytes (List.replicate (L + 8) 0) 0
              ((acl_preamble h ACL_RX_PKT_START bc (2 + body0.length) ++
                [L % 256, L / 256]).take 6)⟩]
        n_alloc := w0.n_alloc + 1 } := by
    unfold acl_acquire
    rw [hA]
    rfl
  rw [hX]
  have key : ∀ X : World,
      X = { w0 with
        h4_cb := { w0.h4_cb with
          rcv_msg_type := 2, rcv_state := H4_RX_LEN_ST, preload_count := 6,
          preload_buffer :=
            acl_preamble h ACL_RX_PKT_START bc (2 + body0.length) ++ [L % 256, L / 256],
          rcv_len := if 2 + body0.length ≠ 0 then u16_sub (2 + body0.length) 2 else 0
          acl_rx_q :=
            if 2 + body0.length ≠ 0 ∧ L + L2CAP_HEADER_SIZE > 2 + body0.length then
              utils_enqueue w0.h4_cb.acl_rx_q w0.heap.length
            else w0.h4_cb.acl_rx_q
          p_rcv_msg := some w0.heap.length }
        heap := w0.heap ++
          [⟨MSG_HC_TO_STACK_HCI_ACL, 6, 0, 0,
            write_bytes (List.replicate (L + 8) 0) 0
              ((acl_preamble h ACL_RX_PKT_START bc (2 + body0.length) ++
                [L % 256, L / 256]).take 6)⟩]
        n_alloc := w0.n_alloc + 1 } →
      rx_safe env (cap_ok w0.heap.length (L + 8))
        (rx_len_acquired X (2 + body0.length)).1 (body0 ++ tail) := by
    intro X hXe
    have x1 : X.h4_cb.p_rcv_msg = some w0.heap.length := by rw [hXe]
    have x2 : X.h4_cb.rcv_msg_type = H4_TYPE_ACL_DATA := by rw [hXe]; rfl
    have x4 : X.h4_cb.preload_buffer.length = 6 := by rw [hXe]; rfl
    have xb : X.buf w0.heap.length = ⟨MSG_HC_TO_STACK_HCI_ACL, 6, 0, 0,
        write_bytes (List.replicate (L + 8) 0) 0
          ((acl_preamble h ACL_RX_PKT_START bc (2 + body0.length) ++
            [L % 256, L / 256]).take 6)⟩ := by
      rw [hXe]; simp only [World.buf, getD_append_length]
    have x6 : X.h4_cb.rcv_len = body0.length := by
      rw [hXe]
      simp only
      rw [if_pos (by omega), u16_sub_of_le (by omega)]
      omega
    have x3 : cap_core w0.heap.length h (L + 8) X := by
      refine ⟨by rw [hXe]; simp, by rw [xb]; simp [write_bytes_length], by rw [xb], ?_⟩
      intro x hx hxB
      have hx0 : x ∈ w0.h4_cb.acl_rx_q := by
        rw [hXe] at hx
        simp only at hx
        split at hx
        · simp only [utils_enqueue, List.mem_append, List.mem_singleton] at hx
          rcases hx with hx | hx
          · exact hx
          · exact absurd hx hxB
        · exact hx
      have hsame : saved_handle X x = saved_handle w0 x := by
        simp only [saved_handle, World.buf]
        rw [hXe]
        simp only
        rw [getD_append_ne _ _ _ _ hxB]
      rw [hsame]
      exact hq x hx0
    have e : rx_len_acquired X (2 + body0.length) =
        (X.setCb { X.h4_cb with rcv_state := H4_RX_DATA_ST }, false) := by
      have h0 : ¬ (2 + body0.length = 0) := by omega
      simp only [rx_len_acquired, x1, h0, ne_eq, not_false_eq_true, if_true]
    rw [e]
    simp only
    apply body_safe env w0.heap.length h (L + 8) R tail hk body0.length
    · exact x3
    · rfl
    · exact x1
    · exact x2
    · exact x6
    · omega
    · rfl
    · exact x4
    · show (X.buf w0.heap.length).len + body0.length + R ≤ L + 8
      rw [xb]
      simp only
      omega
  exact key _ rfl

/-- C40: reassembly stays within the allocated buffer. In a world that waits
for a type byte and has no queued base buffer on handle `h`, with registered
host callbacks and a successful allocation, let an ACL Start packet on `h`
arrive that announces the L2CAP length `L` (the base buffer `B` gets the data
capacity `L + 8`) and has an HCI length of at least 3, followed by any sequence
of Continuation packets on `h`, the HCI lengths of all segments adding up to at
most `L + 4`. Then after every number `k` of passes of the loop of
`hci_h4_receive_msg`, whatever the bulk reads hand over: the `len` of `B` is at
most `L + 8`; in H4_RX_DATA_ST the receive buffer is `B`, it is live, at least
one byte is expected, and `len` plus the number of bytes expected does not
exceed the capacity, so the byte stored at index `len` and the bytes of the
bulk read behind it are inside the data area; and `B` has the capacity
`L + 8` from its allocation on. -/
theorem reassembly_within_capacity (env : Env) (w0 : World) (h bc L : Nat)
    (body0 : List Nat) (cs : List (Nat × List Nat))
    (hs : w0.h4_cb.rcv_state = H4_RX_MSGTYPE_ST) (hh : h < 4096) (hL : L < 65536)
    (hcb : env.bt_hc_cbacks = true)
    (hal : env.alloc_ok w0.n_alloc
      (L + HCI_ACL_PREAMBLE_SIZE + L2CAP_HEADER_SIZE + BT_HC_HDR_SIZE) = true)
    (hq : ∀ p ∈ w0.h4_cb.acl_rx_q, saved_handle w0 p ≠ h)
    (hb1 : 3 ≤ 2 + body0.length) (hn : 2 + body0.length < 65536)
    (hcs : ∀ c ∈ cs, c.2.length < 65536)
    (hsum : 2 + body0.length + (acl_cont_bodies cs).length ≤ L + 4) (k br : Nat) :
    ((hci_h4_receive_loop env k w0
        (acl_start_packet h bc L body0 ++ acl_cont_stream h cs) br).2.buf
      w0.heap.length).len ≤ L + 8 ∧
    store_ok (hci_h4_receive_loop env k w0
        (acl_start_packet h bc L body0 ++ acl_cont_stream h cs) br).2 = true ∧
    ((hci_h4_receive_loop env k w0
        (acl_start_packet h bc L body0 ++ acl_cont_stream h cs) br).2.h4_cb.rcv_state =
        H4_RX_DATA_ST →
      (hci_h4_receive_loop env k w0
        (acl_start_packet h bc L body0 ++ acl_cont_stream h cs) br).2.h4_cb.p_rcv_msg =
        some w0.heap.length) ∧
    (w0.heap.length < (hci_h4_receive_loop env k w0
        (acl_start_packet h bc L body0 ++ acl_cont_stream h cs) br).2.heap.length →
      ((hci_h4_receive_loop env k w0
        (acl_start_packet h bc L body0 ++ acl_cont_stream h cs) br).2.buf
        w0.heap.length).data.length = L + 8) := by
  have _ := hL
  have hsafe := start_safe env w0 h bc L (acl_cont_bodies cs).length body0
    (acl_cont_stream h cs) hs hh hcb hal hq (by omega) hn hsum
    (fun Y y1 y2 y3 => conts_safe env w0.heap.length h (L + 8) hh cs Y y1 y2 hcs y3)
  have := hsafe k br
  simp only [cap_ok, Bool.and_eq_true, decide_eq_true_eq] at this
  exact ⟨this.1.1.1, this.1.1.2, this.2, this.1.2⟩

theorem reassembly_within_capacity_witness :
    ((hci_h4_receive_loop Env.ideal 12 (hci_h4_init World.boot)
        (acl_start_packet 1 0 4 [0x40] ++ acl_cont_stream 1 [(0, [0, 1]), (0, [2, 3, 4])])
        0).2.buf (hci_h4_init World.boot).heap.length).len ≤ 4 + 8 :=
  (reassembly_within_capacity Env.ideal (hci_h4_init World.boot) 1 0 4 [0x40]
    [(0, [0, 1]), (0, [2, 3, 4])] rfl (by decide) (by decide) rfl rfl
    (fun p hp => absurd hp (List.not_mem_nil p)) (by decide) (by decide) (by decide)
    (by decide) 12 0).1

/-! ## Duplicate Start for every HCI length and allocation result (C6) -/

theorem acl_start_hdr_nonzero (h bc n L : Nat) (hn0 : n ≠ 0) :
    acl_start_hdr h bc n L = acl_preamble h ACL_RX_PKT_START bc n ++ [L % 256, L / 256] := by
  simp [acl_start_hdr, hn0]

theorem acl_start_call_nonzero (w : World) (h bc n L : Nat) (hn0 : n ≠ 0) :
    acl_start_call w h bc n L =
      acl_hdr w (acl_preamble h ACL_RX_PKT_START bc n ++ [L % 256, L / 256]) 6 := by
  simp [acl_start_call, acl_start_hdr, hn0, acl_preamble]

theorem acl_start_call_zero (w : World) (h bc L : Nat) :
    acl_start_call w h bc 0 L =
      acl_hdr w (acl_preamble h ACL_RX_PKT_START bc 0 ++ [0 % 256, 0 / 256]) 4 := by
  simp [acl_start_call, acl_start_hdr, acl_preamble]

/-- The five header bytes of an ACL Start packet with HCI length 0. -/
theorem acl_start_header_zero (env : Env) (w : World) (h bc : Nat) (rest : List Nat) (br : Nat)
    (hs : w.h4_cb.rcv_state = H4_RX_MSGTYPE_ST) :
    run env w (2 :: (acl_preamble h ACL_RX_PKT_START bc 0 ++ rest)) br
      = run env
        (acl_acquired_pass env
          (acl_acquire env
            (acl_hdr w (acl_preamble h ACL_RX_PKT_START bc 0 ++ [0 % 256, 0 / 256]) 4)) 0)
        rest (u16 (br + 5)) := by
  have hml : u16 ((0 / 256) <<< 8 + 0 % 256) = 0 := by decide
  have hsub : u16_sub (4 - 1 - 1 - 1) 1 = 0 := by decide
  have hz : u16 (0 <<< 8) = 0 := by decide
  rw [run_type_byte env w 2 _ br hs (by decide) (by decide)]
  simp only [acl_preamble, List.cons_append]
  rw [run_preamble_byte _ _ _ _ _ (by simp) (by simp [hci_preamble_table, HCI_ACL_PREAMBLE_SIZE])]
  rw [run_preamble_byte _ _ _ _ _ (by simp) (by simp [hci_preamble_table, HCI_ACL_PREAMBLE_SIZE])]
  rw [run_preamble_byte _ _ _ _ _ (by simp) (by simp [hci_preamble_table, HCI_ACL_PREAMBLE_SIZE])]
  rw [run_cons, rx_byte_len _ _ _ _ (by simp)]
  simp only [rx_len, hci_preamble_table, HCI_ACL_PREAMBLE_SIZE, hsub, H4_TYPE_ACL_DATA,
    hml, hz, World.setCb, List.getD_cons_zero, List.getD_cons_succ,
    List.set_cons_zero, List.set_cons_succ, List.replicate, if_false, if_true,
    Nat.reduceAdd, Nat.reduceMod, Nat.reduceSub, Nat.reduceDiv, ne_eq, not_false_eq_true,
    not_true_eq_false, and_self,
    and_false, false_and, Bool.false_eq_true, Nat.add_zero, u16_idem, u16_u16_add, List.nil_append,
    acl_acquire, acl_hdr, acl_preamble, List.cons_append, acl_acquired_pass]

/-- What `acl_rx_frame_buffer_alloc` does for a Start packet on a handle that
has a pending base buffer `B` when the allocation of the new buffer fails. -/
theorem acl_rx_frame_buffer_alloc_evict_fail (env : Env) (w : World) (h bc n L B : Nat)
    (hh : h < 4096) (hcb : env.bt_hc_cbacks = true)
    (hpre : w.h4_cb.preload_buffer =
      acl_preamble h ACL_RX_PKT_START bc n ++ [L % 256, L / 256])
    (hB : B ∈ w.h4_cb.acl_rx_q) (hhB : saved_handle w B = h)
    (hu : ∀ p ∈ w.h4_cb.acl_rx_q, saved_handle w p = h → p = B)
    (hal : env.alloc_ok w.n_alloc
      (L + HCI_ACL_PREAMBLE_SIZE + L2CAP_HEADER_SIZE + BT_HC_HDR_SIZE) = false) :
    acl_rx_frame_buffer_alloc env w =
      ({ w with
          h4_cb := { w.h4_cb with
            rcv_len := if n ≠ 0 then u16_sub n 2 else 0
            acl_rx_q := utils_remove_from_queue w.h4_cb.acl_rx_q B }
          trace := w.trace ++ [Effect.dealloc B]
          n_alloc := w.n_alloc + 1 }, none) := by
  obtain ⟨e0, e1, e2, _⟩ := acl_word_bytes (n := n) (t := [L % 256, L / 256]) h
    ACL_RX_PKT_START bc hh (by decide)
  have e3 := acl_len_bytes h ACL_RX_PKT_START bc n [L % 256, L / 256]
  have e4 := acl_total_bytes h ACL_RX_PKT_START bc n L []
  have hf := acl_rx_q_find_some w h B hB hhB hu
  have hq : w.h4_cb.acl_rx_q.length ≠ 0 := by
    intro h0
    rw [List.length_eq_zero.mp h0] at hB
    simp at hB
  simp only [HCI_ACL_PREAMBLE_SIZE, L2CAP_HEADER_SIZE, BT_HC_HDR_SIZE] at hal
  simp [acl_rx_frame_buffer_alloc, hpre, e0, e1, e2, e3, e4, hf, hq, hcb, alloc, hal,
    dealloc, HCI_ACL_PREAMBLE_SIZE, L2CAP_HEADER_SIZE, BT_HC_HDR_SIZE]

/-- What the rest of the pass does once the receive buffer of an ACL packet was
looked for: it puts no buffer into the queue and frees nothing; with HCI
length 0 an acquired buffer is handed to `data_ind` and the reference to it is
cleared, otherwise nothing is delivered and the reference is kept. -/
theorem acl_acquired_pass_frame (env : Env) (A : World) (n : Nat)
    (hcb : env.bt_hc_cbacks = true) (ht : A.h4_cb.rcv_msg_type = H4_TYPE_ACL_DATA)
    (hp : ∀ p, A.h4_cb.p_rcv_msg = some p →
      p < A.heap.length ∧ (A.buf p).event = MSG_HC_TO_STACK_HCI_ACL) :
    (∀ x ∈ (acl_acquired_pass env A n).h4_cb.acl_rx_q, x ∈ A.h4_cb.acl_rx_q) ∧
    (acl_acquired_pass env A n).h4_cb.p_rcv_msg =
      (if n = 0 then none else A.h4_cb.p_rcv_msg) ∧
    freed (acl_acquired_pass env A n) = freed A ∧
    ((A.h4_cb.p_rcv_msg = none ∨ n ≠ 0) →
      delivered (acl_acquired_pass env A n) = delivered A) ∧
    (∀ p, A.h4_cb.p_rcv_msg = some p → n = 0 →
      ∃ m, delivered (acl_acquired_pass env A n) = delivered A ++ [(p, m)]) := by
  cases hr : A.h4_cb.p_rcv_msg with
  | none =>
    have e : acl_acquired_pass env A n =
        A.setCb { A.h4_cb with
          rcv_state := if n = 0 then H4_RX_MSGTYPE_ST else H4_RX_IGNORE_ST } := by
      unfold acl_acquired_pass rx_len_acquired
      rw [hr]
      by_cases h0 : n = 0 <;> simp [h0]
    rw [e]
    refine ⟨fun x hx => hx, ?_, rfl, fun _ => rfl, fun p hp => absurd hp (by simp)⟩
    show A.h4_cb.p_rcv_msg = _
    rw [hr]; split <;> rfl
  | some p =>
    obtain ⟨hpl, hev⟩ := hp p hr
    by_cases h0 : n = 0
    · subst h0
      obtain ⟨pl, d, m, he, _, _⟩ := end_chk_eq A p hr hpl
      have e : acl_acquired_pass env A 0 =
          rx_deliver env ((acl_rx_frame_end_chk A).1.setCb
            { (acl_rx_frame_end_chk A).1.h4_cb with rcv_state := H4_RX_MSGTYPE_ST }) := by
        unfold acl_acquired_pass rx_len_acquired
        rw [hr]
        simp [ht]
      have hev2 : (A.heap.getD p ⟨0, 0, 0, 0, []⟩).event = MSG_HC_TO_STACK_HCI_ACL := hev
      rw [e, he]
      rw [rx_deliver_acl env _ p hcb (by simpa using hr)
        (by simp [World.buf, List.getD_eq_getElem?_getD, hpl]
            simpa [List.getD_eq_getElem?_getD, hpl] using hev2)]
      refine ⟨?_, rfl, ?_, ?_, ?_⟩
      · intro x hx
        simp only [World.setCb, World.emit] at hx
        split at hx
        · exact List.mem_of_mem_erase hx
        · exact hx
      · simp [freed, List.filterMap_append]
      · intro h
        rcases h with h | h
        · exact absurd h (by simp)
        · exact absurd rfl h
      · intro q hq _
        cases hq
        simp only [delivered, World.setCb, World.emit, List.filterMap_append,
          List.filterMap_cons, List.filterMap_nil, List.append_nil]
        exact ⟨_, rfl⟩
    · have e : acl_acquired_pass env A n =
          A.setCb { A.h4_cb with rcv_state := H4_RX_DATA_ST } := by
        unfold acl_acquired_pass rx_len_acquired
        rw [hr]
        simp [h0]
      rw [e]
      refine ⟨fun x hx => hx, ?_, rfl, fun _ => rfl, fun q _ hn => absurd hn h0⟩
      show A.h4_cb.p_rcv_msg = _
      rw [hr, if_neg h0]

theorem acl_start_call_eq (w : World) (h bc n L : Nat) :
    acl_start_call w h bc n L =
      acl_hdr w (acl_preamble h ACL_RX_PKT_START bc n ++
        [(if n = 0 then 0 else L) % 256, (if n = 0 then 0 else L) / 256])
        (if n = 0 then 4 else 6) := by
  by_cases h0 : n = 0 <;> simp [acl_start_call, acl_start_hdr, h0, acl_preamble]

/-- The header bytes of an ACL Start packet lead to the call of
`acl_rx_frame_buffer_alloc` in the world `acl_start_call`, and the pass that
reads the last of them ends with `acl_acquired_pass`. -/
theorem acl_start_arrival (env : Env) (w : World) (h bc n L : Nat)
    (hs : w.h4_cb.rcv_state = H4_RX_MSGTYPE_ST) (hh : h < 4096) (hn : n < 65536) :
    (hci_h4_receive_msg env w (2 :: acl_start_hdr h bc n L)).2 =
      acl_acquired_pass env (acl_acquire env (acl_start_call w h bc n L)) n := by
  rw [hci_h4_receive_msg_eq_run]
  by_cases h0 : n = 0
  · subst h0
    have h1 := acl_start_header_zero env w h bc [] 0 hs
    rw [run_nil, List.append_nil] at h1
    rw [acl_start_call_zero]
    have e : acl_start_hdr h bc 0 L = acl_preamble h ACL_RX_PKT_START bc 0 := by
      simp [acl_start_hdr]
    rw [e, h1]
  · have h1 := acl_start_header env w h bc n L [] 0 hs hh h0 hn
    rw [run_nil] at h1
    rw [acl_start_call_nonzero w h bc n L h0, acl_start_hdr_nonzero h bc n L h0, h1]
    unfold acl_acquired_pass
    rw [rx_len_acquired_snd _ n h0]
    rfl

/-- The eviction at the call of `acl_rx_frame_buffer_alloc` and in the rest of
the pass, for a call world with `k` preload bytes and total length `T`. -/
theorem start_evict_call (env : Env) (w : World) (h bc n T k B : Nat)
    (hh : h < 4096) (hcb : env.bt_hc_cbacks = true) (hk : k ≤ 6)
    (hB : B ∈ w.h4_cb.acl_rx_q) (hhB : saved_handle w B = h)
    (hu : ∀ p ∈ w.h4_cb.acl_rx_q, saved_handle w p = h → p = B)
    (hnd : w.h4_cb.acl_rx_q.Nodup) (hwf : ∀ p ∈ w.h4_cb.acl_rx_q, p < w.heap.length) :
    ∀ C : World, C = acl_hdr w (acl_preamble h ACL_RX_PKT_START bc n ++ [T % 256, T / 256]) k →
    (B ∉ (acl_rx_frame_buffer_alloc env C).1.h4_cb.acl_rx_q ∧
     freed (acl_rx_frame_buffer_alloc env C).1 = freed w ++ [B] ∧
     delivered (acl_rx_frame_buffer_alloc env C).1 = delivered w ∧
     B ∉ (acl_acquired_pass env (acl_acquire env C) n).h4_cb.acl_rx_q ∧
     freed (acl_acquired_pass env (acl_acquire env C) n) = freed w ++ [B]) ∧
    (env.alloc_ok w.n_alloc
        (T + HCI_ACL_PREAMBLE_SIZE + L2CAP_HEADER_SIZE + BT_HC_HDR_SIZE) = true →
      (acl_rx_frame_buffer_alloc env C).2 = some w.heap.length ∧
      w.heap.length ∉ w.h4_cb.acl_rx_q ∧
      (acl_acquire env C).h4_cb.p_rcv_msg = some w.heap.length ∧
      ((acl_rx_frame_buffer_alloc env C).1.buf w.heap.length).data.take k =
        (acl_preamble h ACL_RX_PKT_START bc n ++ [T % 256, T / 256]).take k ∧
      (w.heap.length ∈ (acl_rx_frame_buffer_alloc env C).1.h4_cb.acl_rx_q ↔
        (n ≠ 0 ∧ T + L2CAP_HEADER_SIZE > n)) ∧
      (∀ p ∈ (acl_rx_frame_buffer_alloc env C).1.h4_cb.acl_rx_q,
        saved_handle (acl_rx_frame_buffer_alloc env C).1 p = h → p = w.heap.length) ∧
      (acl_acquired_pass env (acl_acquire env C) n).h4_cb.p_rcv_msg =
        (if n = 0 then none else some w.heap.length) ∧
      (n ≠ 0 → delivered (acl_acquired_pass env (acl_acquire env C) n) = delivered w) ∧
      (n = 0 → ∃ m, delivered (acl_acquired_pass env (acl_acquire env C) n) =
        delivered w ++ [(w.heap.length, m)])) ∧
    (env.alloc_ok w.n_alloc
        (T + HCI_ACL_PREAMBLE_SIZE + L2CAP_HEADER_SIZE + BT_HC_HDR_SIZE) = false →
      (acl_rx_frame_buffer_alloc env C).2 = none ∧
      (acl_acquire env C).h4_cb.p_rcv_msg = none ∧
      (acl_rx_frame_buffer_alloc env C).1.heap = w.heap ∧
      (acl_rx_frame_buffer_alloc env C).1.h4_cb.acl_rx_q =
        utils_remove_from_queue w.h4_cb.acl_rx_q B ∧
      (acl_acquired_pass env (acl_acquire env C) n).h4_cb.p_rcv_msg = none ∧
      delivered (acl_acquired_pass env (acl_acquire env C) n) = delivered w) := by
  intro C hC
  have c1 : C.h4_cb.acl_rx_q = w.h4_cb.acl_rx_q := by rw [hC]; rfl
  have c2 : C.heap = w.heap := by rw [hC]; rfl
  have c3 : C.trace = w.trace := by rw [hC]; rfl
  have c4 : C.n_alloc = w.n_alloc := by rw [hC]; rfl
  have c5 : C.h4_cb.preload_buffer =
      acl_preamble h ACL_RX_PKT_START bc n ++ [T % 256, T / 256] := by rw [hC]; rfl
  have c6 : C.h4_cb.preload_count = k := by rw [hC]; rfl
  have c7 : C.h4_cb.rcv_msg_type = H4_TYPE_ACL_DATA := by rw [hC]; rfl
  have c8 : ∀ p, saved_handle C p = saved_handle w p := by
    intro p; simp only [saved_handle, World.buf, c2]
  have c9 : freed C = freed w := by simp only [freed, c3]
  have c10 : delivered C = delivered w := by simp only [delivered, c3]
  have hB' : B ∈ C.h4_cb.acl_rx_q := by rw [c1]; exact hB
  have hhB' : saved_handle C B = h := by rw [c8]; exact hhB
  have hu' : ∀ p ∈ C.h4_cb.acl_rx_q, saved_handle C p = h → p = B := by
    intro p hp hs; rw [c1] at hp; rw [c8] at hs; exact hu p hp hs
  have hnd' : C.h4_cb.acl_rx_q.Nodup := by rw [c1]; exact hnd
  have hwf' : ∀ p ∈ C.h4_cb.acl_rx_q, p < C.heap.length := by
    intro p hp; rw [c1] at hp; rw [c2]; exact hwf p hp
  have hBerase : B ∉ w.h4_cb.acl_rx_q.erase B :=
    fun hm => ((List.Nodup.mem_erase_iff hnd).mp hm).1 rfl
  have a1 : (acl_acquire env C).h4_cb.p_rcv_msg = (acl_rx_frame_buffer_alloc env C).2 := rfl
  have a2 : (acl_acquire env C).h4_cb.acl_rx_q =
      (acl_rx_frame_buffer_alloc env C).1.h4_cb.acl_rx_q := rfl
  have a3 : freed (acl_acquire env C) = freed (acl_rx_frame_buffer_alloc env C).1 := rfl
  have a4 : delivered (acl_acquire env C) = delivered (acl_rx_frame_buffer_alloc env C).1 := rfl
  have a5 : (acl_acquire env C).h4_cb.rcv_msg_type =
      (acl_rx_frame_buffer_alloc env C).1.h4_cb.rcv_msg_type := rfl
  have a6 : (acl_acquire env C).heap = (acl_rx_frame_buffer_alloc env C).1.heap := rfl
  have a7 : ∀ p, (acl_acquire env C).buf p = (acl_rx_frame_buffer_alloc env C).1.buf p :=
    fun _ => rfl
  cases hal : env.alloc_ok w.n_alloc
      (T + HCI_ACL_PREAMBLE_SIZE + L2CAP_HEADER_SIZE + BT_HC_HDR_SIZE) with
  | true =>
    have hal' : env.alloc_ok C.n_alloc
        (T + HCI_ACL_PREAMBLE_SIZE + L2CAP_HEADER_SIZE + BT_HC_HDR_SIZE) = true := by
      rw [c4]; exact hal
    obtain ⟨p1, p2, p3, p4, p5, p6, p7, _, p9, p10, p11⟩ := evict_props env C h bc n T B hh hcb
      c5 (by rw [c6]; exact hk) hB' hhB' hu' hnd' hwf' hal'
    have ht : (acl_rx_frame_buffer_alloc env C).1.h4_cb.rcv_msg_type = H4_TYPE_ACL_DATA := by
      rw [acl_rx_frame_buffer_alloc_evict env C h bc n T B hh hcb c5 hB' hhB' hu' hal']
      exact c7
    rw [c2] at p1 p5 p6 p7 p9 p10 p11
    rw [c9] at p3
    rw [c10] at p4
    rw [c6, c5] at p9
    rw [c1] at p5
    obtain ⟨f1, f2, f3, f4, f5⟩ := acl_acquired_pass_frame env (acl_acquire env C) n hcb
      (a5.trans ht)
      (by
        intro p hp
        rw [a1, p1] at hp
        rw [← Option.some.inj hp, a6, p6, a7]
        exact ⟨Nat.lt_succ_self _, p7⟩)
    rw [a3, p3] at f3
    rw [a1, p1] at f2 f4 f5
    rw [a4, p4] at f4 f5
    refine ⟨⟨p2, p3, p4, fun hm => p2 (a2 ▸ f1 B hm), f3⟩, ?_, ?_⟩
    · intro _
      exact ⟨p1, p5, a1.trans p1, p9, p10, p11, f2, fun h0 => f4 (Or.inr h0),
        fun h0 => f5 _ rfl h0⟩
    · intro hf
      exact absurd hf (by simp)
  | false =>
    have hal' : env.alloc_ok C.n_alloc
        (T + HCI_ACL_PREAMBLE_SIZE + L2CAP_HEADER_SIZE + BT_HC_HDR_SIZE) = false := by
      rw [c4]; exact hal
    have he := acl_rx_frame_buffer_alloc_evict_fail env C h bc n T B hh hcb c5 hB' hhB' hu' hal'
    have q1 : (acl_rx_frame_buffer_alloc env C).2 = none := by rw [he]
    have q2 : (acl_rx_frame_buffer_alloc env C).1.h4_cb.acl_rx_q =
        utils_remove_from_queue w.h4_cb.acl_rx_q B := by rw [he, ← c1]
    have q3 : (acl_rx_frame_buffer_alloc env C).1.heap = w.heap := by rw [he, ← c2]
    have q4 : (acl_rx_frame_buffer_alloc env C).1.trace = w.trace ++ [Effect.dealloc B] := by
      rw [he, ← c3]
    have q5 := freed_append_dealloc w _ B q4
    have ht : (acl_rx_frame_buffer_alloc env C).1.h4_cb.rcv_msg_type = H4_TYPE_ACL_DATA := by
      rw [he]; exact c7
    have q6 : B ∉ (acl_rx_frame_buffer_alloc env C).1.h4_cb.acl_rx_q := by
      rw [q2]; exact hBerase
    obtain ⟨f1, f2, f3, f4, _⟩ := acl_acquired_pass_frame env (acl_acquire env C) n hcb
      (a5.trans ht)
      (by
        intro p hp
        rw [a1, q1] at hp
        exact absurd hp (by simp))
    rw [a3, q5.1] at f3
    rw [a1, q1] at f2 f4
    rw [a4, q5.2] at f4
    refine ⟨⟨q6, q5.1, q5.2, fun hm => q6 (a2 ▸ f1 B hm), f3⟩, ?_, ?_⟩
    · intro hf
      exact absurd hf (by simp)
    · intro _
      refine ⟨q1, a1.trans q1, q3, q2, ?_, f4 (Or.inl rfl)⟩
      rw [f2]; split <;> rfl

/-- C6 (amended): duplicate Start eviction. The world `w` waits for a type
byte; its reassembly queue (no repeated entries, all of them live buffers) holds
the base buffer `B` as its only entry for handle `h`; the callbacks are
registered. The header bytes of an ACL Start packet for `h` arrive (HCI length
`n`, any value including 0, and L2CAP length `L`). They lead to the call of
`acl_rx_frame_buffer_alloc` in the world `acl_start_call`, and whatever `n` is
and whether or not the allocation of the new buffer succeeds, the function
removes `B` from the queue, frees it exactly once and hands nothing to
`data_ind`; after the pass `B` is still out of the queue and freed once. If the
allocation succeeds, the function returns a fresh buffer, which becomes the
current receive buffer and holds the header bytes; it is registered exactly
when `n` is not 0 and more than `n - 4` bytes are announced, and it is then the
only queue entry for `h`; with `n ≠ 0` it stays the current receive buffer and
nothing is delivered, with `n = 0` it is delivered as a complete message in the
same pass. If the allocation fails, the function returns NULL, no buffer
becomes the current receive buffer, no buffer is created, the queue is the old
one without `B`, and nothing is delivered. -/
theorem duplicate_start_evicts (env : Env) (w : World) (h bc n L B : Nat)
    (hs : w.h4_cb.rcv_state = H4_RX_MSGTYPE_ST) (hh : h < 4096) (hn : n < 65536)
    (hcb : env.bt_hc_cbacks = true)
    (hB : B ∈ w.h4_cb.acl_rx_q) (hhB : saved_handle w B = h)
    (hu : ∀ p ∈ w.h4_cb.acl_rx_q, saved_handle w p = h → p = B)
    (hnd : w.h4_cb.acl_rx_q.Nodup) (hwf : ∀ p ∈ w.h4_cb.acl_rx_q, p < w.heap.length) :
    (hci_h4_receive_msg env w (2 :: acl_start_hdr h bc n L)).2 =
      acl_acquired_pass env (acl_acquire env (acl_start_call w h bc n L)) n ∧
    B ∉ (acl_rx_frame_buffer_alloc env (acl_start_call w h bc n L)).1.h4_cb.acl_rx_q ∧
    freed (acl_rx_frame_buffer_alloc env (acl_start_call w h bc n L)).1 = freed w ++ [B] ∧
    delivered (acl_rx_frame_buffer_alloc env (acl_start_call w h bc n L)).1 = delivered w ∧
    B ∉ (hci_h4_receive_msg env w (2 :: acl_start_hdr h bc n L)).2.h4_cb.acl_rx_q ∧
    freed (hci_h4_receive_msg env w (2 :: acl_start_hdr h bc n L)).2 = freed w ++ [B] ∧
    (env.alloc_ok w.n_alloc ((if n = 0 then 0 else L) + HCI_ACL_PREAMBLE_SIZE +
        L2CAP_HEADER_SIZE + BT_HC_HDR_SIZE) = true →
      (acl_rx_frame_buffer_alloc env (acl_start_call w h bc n L)).2 = some w.heap.length ∧
      w.heap.length ∉ w.h4_cb.acl_rx_q ∧
      (acl_acquire env (acl_start_call w h bc n L)).h4_cb.p_rcv_msg = some w.heap.length ∧
      ((acl_rx_frame_buffer_alloc env (acl_start_call w h bc n L)).1.buf
          w.heap.length).data.take (acl_start_hdr h bc n L).length = acl_start_hdr h bc n L ∧
      (w.heap.length ∈
          (acl_rx_frame_buffer_alloc env (acl_start_call w h bc n L)).1.h4_cb.acl_rx_q ↔
        (n ≠ 0 ∧ L + L2CAP_HEADER_SIZE > n)) ∧
      (∀ p ∈ (acl_rx_frame_buffer_alloc env (acl_start_call w h bc n L)).1.h4_cb.acl_rx_q,
        saved_handle (acl_rx_frame_buffer_alloc env (acl_start_call w h bc n L)).1 p = h →
        p = w.heap.length) ∧
      (hci_h4_receive_msg env w (2 :: acl_start_hdr h bc n L)).2.h4_cb.p_rcv_msg =
        (if n = 0 then none else some w.heap.length) ∧
      (n ≠ 0 →
        delivered (hci_h4_receive_msg env w (2 :: acl_start_hdr h bc n L)).2 = delivered w) ∧
      (n = 0 → ∃ m,
        delivered (hci_h4_receive_msg env w (2 :: acl_start_hdr h bc n L)).2 =
          delivered w ++ [(w.heap.length, m)])) ∧
    (env.alloc_ok w.n_alloc ((if n = 0 then 0 else L) + HCI_ACL_PREAMBLE_SIZE +
        L2CAP_HEADER_SIZE + BT_HC_HDR_SIZE) = false →
      (acl_rx_frame_buffer_alloc env (acl_start_call w h bc n L)).2 = none ∧
      (acl_acquire env (acl_start_call w h bc n L)).h4_cb.p_rcv_msg = none ∧
      (acl_rx_frame_buffer_alloc env (acl_start_call w h bc n L)).1.heap = w.heap ∧
      (acl_rx_frame_buffer_alloc env (acl_start_call w h bc n L)).1.h4_cb.acl_rx_q =
        utils_remove_from_queue w.h4_cb.acl_rx_q B ∧
      (hci_h4_receive_msg env w (2 :: acl_start_hdr h bc n L)).2.h4_cb.p_rcv_msg = none ∧
      delivered (hci_h4_receive_msg env w (2 :: acl_start_hdr h bc n L)).2 = delivered w) := by
  have harr := acl_start_arrival env w h bc n L hs hh hn
  rw [harr]
  obtain ⟨⟨e1, e2, e3, e4, e5⟩, hsucc, hfail⟩ := start_evict_call env w h bc n
    (if n = 0 then 0 else L) (if n = 0 then 4 else 6) B hh hcb (by split <;> decide)
    hB hhB hu hnd hwf (acl_start_call w h bc n L) (acl_start_call_eq w h bc n L)
  refine ⟨rfl, e1, e2, e3, e4, e5, ?_, hfail⟩
  intro hal
  obtain ⟨s1, s2, s3, s4, s5, s6, s7, s8, s9⟩ := hsucc hal
  refine ⟨s1, s2, s3, ?_, ?_, s6, s7, s8, s9⟩
  · by_cases h0 : n = 0
    · subst h0
      simpa [acl_start_hdr, acl_preamble] using s4
    · simp only [h0, if_false] at s4
      rw [acl_start_hdr_nonzero h bc n L h0]
      simpa [acl_preamble] using s4
  · rw [s5]
    by_cases h0 : n = 0
    · simp [h0]
    · simp [h0]

theorem duplicate_start_evicts_witness :
    (0 ∉ (hci_h4_receive_msg Env.ideal (World.with_pending Env.ideal)
        (2 :: acl_start_hdr 1 0 0 0)).2.h4_cb.acl_rx_q ∧
      freed (hci_h4_receive_msg Env.ideal (World.with_pending Env.ideal)
        (2 :: acl_start_hdr 1 0 0 0)).2 = freed (World.with_pending Env.ideal) ++ [0] ∧
      ∃ m, delivered (hci_h4_receive_msg Env.ideal (World.with_pending Env.ideal)
        (2 :: acl_start_hdr 1 0 0 0)).2 =
          delivered (World.with_pending Env.ideal) ++
            [((World.with_pending Env.ideal).heap.length, m)]) ∧
    (0 ∉ (hci_h4_receive_msg Env.one_buffer (World.with_pending Env.one_buffer)
        (2 :: acl_start_hdr 1 0 4 4)).2.h4_cb.acl_rx_q ∧
      (hci_h4_receive_msg Env.one_buffer (World.with_pending Env.one_buffer)
        (2 :: acl_start_hdr 1 0 4 4)).2.h4_cb.p_rcv_msg = none) :=
  have h1 := duplicate_start_evicts Env.ideal (World.with_pending Env.ideal) 1 0 0 0 0
    (by decide) (by decide) (by decide) rfl (by decide) (by decide) (by decide) (by decide)
    (by decide)
  have h2 := duplicate_start_evicts Env.one_buffer (World.with_pending Env.one_buffer)
    1 0 4 4 0
    (by decide) (by decide) (by decide) rfl (by decide) (by decide) (by decide) (by decide)
    (by decide)
  ⟨⟨h1.2.2.2.2.1, h1.2.2.2.2.2.1, (h1.2.2.2.2.2.2.1 rfl).2.2.2.2.2.2.2.2 rfl⟩,
    ⟨h2.2.2.2.2.1, (h2.2.2.2.2.2.2.2 (by decide)).2.2.2.2.1⟩⟩

/-! ## The queue handles on runs inside the defined behaviour (C24) -/

theorem rx_sound_guarded (env : Env) :
    ∀ (s : List Nat) (w : World), rx_sound env w s = true → rx_guarded env w s = true := by
  intro s
  induction s with
  | nil => intro w _; rfl
  | cons b rest ih =>
    intro w h
    simp only [rx_sound, Bool.and_eq_true] at h
    simp only [rx_guarded, Bool.and_eq_true]
    exact ⟨h.1.1.1, ih _ h.2⟩

/-- C24 (amended): in every state reached from `hci_h4_init` by an input byte
stream, under any pattern of allocation successes and failures and any
behaviour of the bulk read, no two entries of the reassembly queue `acl_rx_q`
carry the same 12-bit connection handle in their first two data bytes, as long
as the run stays inside what the code defines (`rx_sound`, the bytes taken one
by one): whenever a body byte is stored the receive buffer is live, at least
one byte is still expected, and the length of the buffer plus the bytes still
expected is at most 65535 and at most the capacity of the buffer; and in no
state of the run, the last one included, the queue holds a buffer that was
handed to `data_ind` or to `dealloc`. -/
theorem queue_handles_distinct (env : Env) (w0 : World) (s : List Nat)
    (hg : rx_sound env (hci_h4_init w0) s = true) :
    ((hci_h4_receive_msg env (hci_h4_init w0) s).2.h4_cb.acl_rx_q.map
      (saved_handle (hci_h4_receive_msg env (hci_h4_init w0) s).2)).Nodup :=
  queue_handles_nodup_guarded env w0 s (rx_sound_guarded env s _ hg)

theorem queue_handles_distinct_witness :
    rx_sound Env.ideal (hci_h4_init World.boot)
      [2, 1, 0x20, 4, 0, 4, 0, 0x40, 0, 2, 2, 0x20, 4, 0, 4, 0, 0x40, 0, 4, 0x0E, 1, 3] = true ∧
    ((hci_h4_receive_msg Env.ideal (hci_h4_init World.boot)
      [2, 1, 0x20, 4, 0, 4, 0, 0x40, 0, 2, 2, 0x20, 4, 0, 4, 0, 0x40, 0,
        4, 0x0E, 1, 3]).2.h4_cb.acl_rx_q.map
      (saved_handle (hci_h4_receive_msg Env.ideal (hci_h4_init World.boot)
        [2, 1, 0x20, 4, 0, 4, 0, 0x40, 0, 2, 2, 0x20, 4, 0, 4, 0, 0x40, 0, 4, 0x0E, 1, 3]).2)).Nodup :=
  ⟨by decide, queue_handles_distinct Env.ideal World.boot
    [2, 1, 0x20, 4, 0, 4, 0, 0x40, 0, 2, 2, 0x20, 4, 0, 4, 0, 0x40, 0, 4, 0x0E, 1, 3] (by decide)⟩

/-- Two streams that `rx_guarded` accepts and `rx_sound` rejects: a zero-length
Continuation that hands the parked buffer 0 to `data_ind` while it stays in the
queue, and a Start packet whose HCI length 6 announces more body bytes than the
buffer allocated for L2CAP length 1 can take. -/
theorem rx_sound_rejects_overrun :
    rx_sound Env.ideal (hci_h4_init World.boot)
      [2, 1, 0x20, 4, 0, 4, 0, 0x40, 0, 2, 1, 0x10, 0, 0] = false ∧
    rx_guarded Env.ideal (hci_h4_init World.boot)
      [2, 1, 0x20, 4, 0, 4, 0, 0x40, 0, 2, 1, 0x10, 0, 0] = true ∧
    rx_sound Env.ideal (hci_h4_init World.boot)
      [2, 1, 0x20, 6, 0, 1, 0, 0x40, 0, 9, 9] = false ∧
    rx_guarded Env.ideal (hci_h4_init World.boot)
      [2, 1, 0x20, 6, 0, 1, 0, 0x40, 0, 9, 9] = true := by decide

end HciH4
